import Mathlib

/-!
# Antares: level construction, styled text and the player's ship

A shallow embedding of `src/src/game/level.cpp` (the step-driven level
constructor), `src/src/drawing/styled-text.cpp` (the styled-text parsers, the
line-wrap layout and the drawing of a range), `src/src/game/player-ship.cpp`
(the input of the player: keys, gamepad, hot keys, selection and the change of
ship) and of `load_hidpi_texture` of `src/src/data/resource.cpp`, with the
properties of the specification proved about them.

Conventions of the embedding.

* Mutable C++ state is passed explicitly.  The level constructor works on a
  `World`: the caller's `LoadState`, the two media queues `sys.pix` and
  `sys.sound`, the simulation clock `g.time`, the admirals, and the ordered list
  of calls made to collaborators whose code is outside this file (`calls`).
* A C++ exception is the result `Res.raised what w`, where `w` is the state at
  the `throw` (`Outcome.raised what` for the styled-text factories, which return
  nothing then).  Undefined behaviour (dereferencing a `none` handle or an end
  iterator, indexing a vector out of range, dividing by zero) and exhausted
  recursion fuel are `Fault`s; a loop that does not end has the result
  `Fault.out_of_fuel`, as it has for every bound on its steps.
* Integers are unbounded (`Int`, `Nat`) but where their width matters, as in the
  distances of `pick_object` and in the counter of the sound loop of
  `AddActionMedia`, which are narrowed to 32 bits; colours are `Fin 16`, the
  index type of `std::bitset<16>`.
* The drawing of a styled text returns the ordered list of the calls it makes to
  `Rects`, the font and the textures (`DrawCall`).
* The player's ship works on a `PlayerShip` (the members of the class) and a
  `Game` (the globals and the file-static variables), with the objects and
  admirals looked up by the number of their handle and the calls to
  collaborators recorded in `Game.calls`.
-/

namespace Antares

/-! ## Data model of the level constructor -/

/-- Modelled from the spec: `Handle<T>` of the absent `data/handle.hpp`.  A handle
is the number of an object or the `none()` sentinel ("no object"); `get()` is
null exactly for the sentinel. -/
abbrev Handle := Option Nat

/-- Index of a `std::bitset<16>`: admiral colours (hues). -/
abbrev Color := Fin 16

/-- The `std::bitset<16>` of colours. -/
abbrev Bitset16 := Color → Bool

/-- Value-initialised bitset: no bit set. -/
def Bitset16.zero : Bitset16 := fun _ => false

/-- Assignment `bits[i] = true`. -/
def Bitset16.set (bits : Bitset16) (i : Color) : Bitset16 :=
  fun j => if j = i then true else bits j

/-- Bitwise or, as in `bits |= other`. -/
def Bitset16.or (bits other : Bitset16) : Bitset16 :=
  fun j => bits j || other j

/-- Method `bitset::any()`. -/
def Bitset16.any (bits : Bitset16) : Bool :=
  (List.finRange 16).any bits

/-- The verbs `AddActionMedia` switches on, each with the argument it reads;
`alterOwner` carries `action.number()`, by which the filter of the action is
looked up, and every other verb is `other`. -/
inductive Action where
  | createObject (whichBaseType : Handle)
  | createObjectSetDest (whichBaseType : Handle)
  | playSound (idMinimum idRange : Int)
  | alterBaseType (base : Handle)
  | alterOwner (number : Nat)
  | other (verb : Nat)
  deriving DecidableEq, Repr

/-- The fields of `BaseObject` read by the level constructor. -/
structure BaseObject where
  attributes : Nat
  pixResID : Int
  destroy : List Action
  expire : List Action
  create : List Action
  collide : List Action
  activate : List Action
  arrive : List Action
  pulse : Handle
  beam : Handle
  special : Handle
  deriving DecidableEq, Repr

/-- An admiral, as far as level construction looks at it; its colour and race
are read through `GetAdmiralColor` and `GetAdmiralRace`. -/
structure Admiral where
  active : Bool
  deriving DecidableEq, Repr

/-- One entry of `Level::initials`; `canBuild` holds the `kMaxTypeBaseCanBuild`
entries of the array. -/
structure InitialObject where
  type : Handle
  owner : Handle
  spriteIDOverride : Int
  canBuild : List Int
  deriving DecidableEq, Repr

/-- One entry of `Level::conditions`. -/
structure Condition where
  action : List Action
  flags : Nat
  deriving DecidableEq, Repr

/-- One entry of `Level::player`. -/
structure Player where
  playerType : Int
  playerRace : Int
  deriving DecidableEq, Repr

/-- The level being constructed (`g.level`).  `startTime` is in seconds
(`secs`), `angle` is negative for "random". -/
structure Level where
  angle : Int
  playerNum : Nat
  player : List Player
  initials : List InitialObject
  conditions : List Condition
  startTime : Int
  deriving DecidableEq, Repr

/-- The plug-in data and the constants and helpers of headers that are not part
of the sources at hand; they are parameters of the embedding.

* `objects` is `BaseObject::all()`: handle `some n` denotes `objects[n]`;
* the four blessed references are `plug.info.*`;
* `kCanThink`, `kIsDestination` are attribute masks, `GRAY` the neutral hue,
  `kNoSpriteTable`, `kSpriteTableColorShift`, `kNoClass`, `kSingleHumanPlayer`
  constants;
* `kMajorTick`, `kConditionTick` are durations in ticks and `ticksPerSecond` is
  `secs(1)` in ticks;
* `action_filter_applies_to`, `mGetBaseObjectFromClassRace`, `GetAdmiralColor`,
  `GetAdmiralRace`, `make_admiral` (for `Admiral::make`) and `random_next` (for
  `g.random.next`) stand for the helpers of the same name. -/
structure Plugin where
  objects : List BaseObject
  energyBlobID : Handle
  warpInFlareID : Handle
  warpOutFlareID : Handle
  playerBodyID : Handle
  kCanThink : Nat
  kIsDestination : Nat
  GRAY : Color
  kNoSpriteTable : Int
  kSpriteTableColorShift : Nat
  kNoClass : Int
  kSingleHumanPlayer : Int
  kMajorTick : Int
  kConditionTick : Int
  ticksPerSecond : Int
  action_filter_applies_to : Action → Nat → Bool
  mGetBaseObjectFromClassRace : Int → Int → Handle
  GetAdmiralColor : Handle → Color
  GetAdmiralRace : Handle → Int
  make_admiral : Nat → Bool → Player → Admiral
  random_next : Int

/-- Modelled from the spec: the `LoadState` of the absent `game/level.hpp`, the
progress cursor of level construction (`step`, `max`, `done`) together with the
two per-base-object colour sets `level.cpp` keeps in it. -/
structure LoadState where
  done : Bool
  max : Int
  step : Nat
  colors_needed : Nat → Bitset16
  colors_loaded : Nat → Bitset16

/-- Modelled from the spec: a default-constructed ("fresh") `LoadState`: at step
0, not done, no colour needed or loaded. -/
def LoadState.fresh : LoadState :=
  { done := false, max := 0, step := 0,
    colors_needed := fun _ => Bitset16.zero,
    colors_loaded := fun _ => Bitset16.zero }

/-- Calls to collaborators outside `level.cpp`, recorded in the order made. -/
inductive Call where
  | ResetAllSpaceObjects
  | reset_action_queue
  | Vectors_reset
  | ResetAllSprites
  | Label_reset
  | ResetInstruments
  | ResetAllDestObjectData
  | ResetMotionGlobals
  | SetMiniScreenStatusStrList
  | pay (admiral : Nat) (amount : Int)
  | set_true_yet (condition : Nat) (state : Bool)
  | create_initial (initial : Nat)
  | set_initial_destination (initial : Nat) (preserve : Bool)
  | RecalcAllAdmiralBuildData
  | Messages_clear
  | MoveSpaceObjects (ticks : Int)
  | NonplayerShipThink
  | AdmiralThink
  | execute_action_queue
  | CollideSpaceObjects
  | CheckLevelConditions
  | CullSprites
  | Vectors_cull
  deriving DecidableEq, Repr

/-- The state level construction reads and writes: the caller's `LoadState`
(`state`), the sprite and sound queues of the media registry, the globals
`g.time` (in ticks), `g.angle`, `g.admiral`, the admirals, and the calls made to
collaborators so far. -/
structure World where
  state : LoadState
  pix : List Int
  sound : List Int
  time : Int
  angle : Int
  admirals : List Admiral
  player_admiral : Handle
  calls : List Call

/-- Append collaborator calls to the record. -/
def World.call (w : World) (cs : List Call) : World :=
  { w with calls := w.calls ++ cs }

/-- Why an execution has no defined result. -/
inductive Fault where
  | out_of_fuel
  | null_handle
  | bad_object_number
  | bad_initial_index
  | chars_out_of_range
  | picts_out_of_range
  | end_iterator
  | division_by_zero
  | hot_key_out_of_range
  deriving DecidableEq, Repr

/-- Result of a call that may throw: `raised what w` is a `std::runtime_error`
thrown in state `w`. -/
inductive Res (σ : Type) where
  | ok (s : σ)
  | raised (what : String) (s : σ)
  | fault (f : Fault)


/-! ## Media loading -/

/-- A `for` loop over `xs` whose body may fail: the first failure ends the loop. -/
def forEach {α σ ε : Type} (xs : List α) (s : σ) (body : α → σ → Except ε σ) :
    Except ε σ :=
  match xs with
  | [] => Except.ok s
  | x :: rest =>
    match body x s with
    | Except.ok s' => forEach rest s' body
    | Except.error e => Except.error e

/-- Statement `state->colors_needed[n][color] = true`. -/
def World.need (w : World) (n : Nat) (color : Color) : World :=
  { w with state := { w.state with
      colors_needed := fun m => if m = n then (w.state.colors_needed m).set color
                                else w.state.colors_needed m } }

/-- Statement `state->colors_needed[n] |= all_colors`. -/
def World.need_all (w : World) (n : Nat) (all_colors : Bitset16) : World :=
  { w with state := { w.state with
      colors_needed := fun m => if m = n then (w.state.colors_needed m).or all_colors
                                else w.state.colors_needed m } }

/-- Statement `state->colors_loaded[n][i] = true`. -/
def World.load (w : World) (n : Nat) (i : Color) : World :=
  { w with state := { w.state with
      colors_loaded := fun m => if m = n then (w.state.colors_loaded m).set i
                                else w.state.colors_loaded m } }

/-- Call `sys.pix.add(id)`: enqueue a sprite table. -/
def World.pix_add (w : World) (id : Int) : World :=
  { w with pix := w.pix ++ [id] }

/-- Call `sys.sound.load(id)`: enqueue a sound. -/
def World.sound_load (w : World) (id : Int) : World :=
  { w with sound := w.sound ++ [id] }

/-- Narrowing of a value to `int16_t`. -/
def to_int16 (x : Int) : Int := (x + 32768) % 65536 - 32768

/-- Narrowing of a value to `int32_t` (`int`). -/
def to_int32 (x : Int) : Int := (x + 2147483648) % 4294967296 - 2147483648

/-- The values from `l1` to `l2`, none when `l2 < l1`. -/
def sound_ids (l1 l2 : Int) : List Int :=
  (List.range (l2 + 1 - l1).toNat).map (fun (k : Nat) => l1 + (k : Int))

/-- The sound loop of `AddActionMedia` (level.cpp:128-130),
`for (int32_t count = l1; count <= l2; count++) sys.sound.load(count)`, from the
value `count` of the counter and for at most `fuel` tests of `count <= l2`; the
increment is that of a counter of 32 bits, which goes from `INT32_MAX` to
`INT32_MIN`. -/
def sound_loop_steps : Nat → Int → Int → World → Except Fault World
  | 0, _, _, _ => Except.error Fault.out_of_fuel
  | fuel + 1, count, l2, w =>
    if count ≤ l2 then sound_loop_steps fuel (to_int32 (count + 1)) l2 (w.sound_load count)
    else Except.ok w

/-- The sound loop of `AddActionMedia` (level.cpp:128-130) as a whole, for `l1`
and `l2` of type `int32_t`.  For `l2` below `INT32_MAX` it loads the sounds from
`l1` to `l2` and ends.  For `l2 = INT32_MAX` the test `count <= l2` holds for every
value of the counter and the loop does not end, which is the result
`Fault.out_of_fuel`: `sound_loop_steps` gives it for every number of steps. -/
def sound_loop (l1 l2 : Int) (w : World) : Except Fault World :=
  if l1 ≤ l2 ∧ l2 = 2147483647 then Except.error Fault.out_of_fuel
  else Except.ok ((sound_ids l1 l2).foldl World.sound_load w)

/-- Function `AddActionMedia` (level.cpp:111-148); `recur` is `AddBaseObjectMedia`
with the same `all_colors` and `state`. -/
def AddActionMedia (p : Plugin) (recur : Handle → Color → World → Except Fault World)
    (action : Action) (color : Color) (all_colors : Bitset16) (w : World) :
    Except Fault World :=
  match action with
  | Action.createObject whichBaseType => recur whichBaseType color w
  | Action.createObjectSetDest whichBaseType => recur whichBaseType color w
  | Action.playSound idMinimum idRange =>
    let l1 := to_int32 idMinimum
    let l2 := to_int32 (idMinimum + idRange)
    sound_loop l1 l2 w
  | Action.alterBaseType base => recur base color w
  | Action.alterOwner _ =>
    forEach (List.range p.objects.length) w (fun baseObject w =>
      let w := if p.action_filter_applies_to action baseObject
               then w.need_all baseObject all_colors else w
      if (w.state.colors_loaded baseObject).any then recur (some baseObject) color w
      else Except.ok w)
  | Action.other _ => Except.ok w

/-- Function `AddBaseObjectActionMedia` (level.cpp:103-109), on the action list
`(*base.*whichType)`. -/
def AddBaseObjectActionMedia (p : Plugin)
    (recur : Handle → Color → World → Except Fault World)
    (actions : List Action) (color : Color) (all_colors : Bitset16) (w : World) :
    Except Fault World :=
  forEach actions w (fun action w => AddActionMedia p recur action color all_colors w)

/-- The body of the loop over the colours `i` in `AddBaseObjectMedia`
(level.cpp:76-99) for the base object `base` numbered `number`; `recur` is
`AddBaseObjectMedia` with the same `all_colors` and `state`. -/
def load_color (p : Plugin) (recur : Handle → Color → World → Except Fault World)
    (all_colors : Bitset16) (number : Nat) (base : BaseObject) (i : Color) (w : World) :
    Except Fault World :=
  if w.state.colors_loaded number i then Except.ok w
  else if !w.state.colors_needed number i then Except.ok w
  else
    let w := w.load number i
    let w := if base.pixResID ≠ p.kNoSpriteTable
             then w.pix_add (to_int16 (base.pixResID
                    + ((i : Nat) : Int) * 2 ^ p.kSpriteTableColorShift))
             else w
    match forEach [base.destroy, base.expire, base.create, base.collide,
            base.activate, base.arrive] w
        (fun actions w => AddBaseObjectActionMedia p recur actions i all_colors w) with
    | Except.error e => Except.error e
    | Except.ok w =>
      forEach [base.pulse, base.beam, base.special] w (fun weapon w =>
        if weapon.isSome then recur weapon i w else Except.ok w)

/-- Function `AddBaseObjectMedia` (level.cpp:65-101).  The first argument bounds
the depth of the recursion through actions and weapons. -/
def AddBaseObjectMedia (p : Plugin) (all_colors : Bitset16) :
    Nat → Handle → Color → World → Except Fault World
  | 0, _, _, _ => Except.error Fault.out_of_fuel
  | _ + 1, none, _, _ => Except.error Fault.null_handle
  | fuel + 1, some number, color, w =>
    match p.objects[number]? with
    | none => Except.error Fault.bad_object_number
    | some base =>
      let color := if base.attributes &&& p.kCanThink = 0 then p.GRAY else color
      let w := w.need number color
      forEach (List.finRange 16) w (fun i w =>
        load_color p (AddBaseObjectMedia p all_colors fuel) all_colors number base i w)

/-! ## `start_construct_level` -/

/-- The admiral loop of `start_construct_level` (level.cpp:205-214): one admiral
per player slot, human for `kSingleHumanPlayer`, each paid 5000.  A slot beyond
the end of `player` is read as a zeroed `Player`. -/
def make_admirals (p : Plugin) (level : Level) : Nat → World → World
  | 0, w => w
  | i + 1, w =>
    let w := make_admirals p level i w
    let player := level.player.getD i ⟨0, 0⟩
    if player.playerType = p.kSingleHumanPlayer then
      { w with admirals := w.admirals ++ [p.make_admiral i true player],
               player_admiral := some i,
               calls := w.calls ++ [Call.pay i 5000] }
    else
      { w with admirals := w.admirals ++ [p.make_admiral i false player],
               calls := w.calls ++ [Call.pay i 5000] }

/-- Function `start_construct_level` (level.cpp:175-228).  The returned
`LoadState` is the `state` of the resulting world; of the globals it assigns,
those that level construction does not read again (`gAbsoluteScale`, `g.sync`,
`g.victor`, `g.next_level`, `g.victory_text`) are left out. -/
def start_construct_level (p : Plugin) (level : Level) (w : World) : World :=
  let w := w.call [Call.ResetAllSpaceObjects, Call.reset_action_queue, Call.Vectors_reset,
    Call.ResetAllSprites, Call.Label_reset, Call.ResetInstruments]
  let w := { w with admirals := [] }
  let w := w.call [Call.ResetAllDestObjectData, Call.ResetMotionGlobals]
  let w := { w with angle := if level.angle < 0 then p.random_next else level.angle }
  let w := w.call [Call.SetMiniScreenStatusStrList]
  let w := make_admirals p level level.playerNum w
  let w := { w with pix := [], sound := [] }
  let s := LoadState.fresh
  { w with state := { s with max := (level.initials.length : Int) * 3 + 1 + level.startTime } }

/-! ## `construct_level` and its helpers -/

/-- Turn a result that cannot throw into a `Res`. -/
def Res.of_except {σ : Type} : Except Fault σ → Res σ
  | Except.ok s => Res.ok s
  | Except.error e => Res.fault e

/-- Test `adm->active()` for the admiral numbered `adm`. -/
def World.admiral_active (w : World) (adm : Nat) : Bool :=
  match w.admirals[adm]? with
  | some a => a.active
  | none => false

/-- Function `load_blessed_objects` (level.cpp:230-257).  `level` is `g.level`. -/
def load_blessed_objects (p : Plugin) (level : Level) (fuel : Nat) (all_colors : Bitset16)
    (w : World) : Res World :=
  if p.energyBlobID.isNone then Res.raised "No energy blob defined" w
  else if p.warpInFlareID.isNone then Res.raised "No warp in flare defined" w
  else if p.warpOutFlareID.isNone then Res.raised "No warp out flare defined" w
  else
    match p.playerBodyID with
    | none => Res.raised "No player body defined" w
    | some playerBody =>
      let w := w.need_all playerBody all_colors
      Res.of_except (forEach (List.range level.playerNum) w (fun _ w =>
        forEach [p.energyBlobID, p.warpInFlareID, p.warpOutFlareID, p.playerBodyID] w
          (fun id w => AddBaseObjectMedia p all_colors fuel id p.GRAY w)))

/-- Function `load_initial` (level.cpp:259-303).  `level` is `g.level`. -/
def load_initial (p : Plugin) (level : Level) (fuel : Nat) (i : Nat) (all_colors : Bitset16)
    (w : World) : Except Fault World :=
  match level.initials[i]? with
  | none => Except.error Fault.bad_initial_index
  | some initial =>
    match initial.type with
    | none => Except.error Fault.null_handle
    | some number =>
      match p.objects[number]? with
      | none => Except.error Fault.bad_object_number
      | some baseObject =>
        let w := if baseObject.attributes &&& p.kIsDestination ≠ 0
                 then w.need_all number all_colors else w
        match AddBaseObjectMedia p all_colors fuel initial.type
                (p.GetAdmiralColor initial.owner) w with
        | Except.error e => Except.error e
        | Except.ok w =>
          let w :=
            if initial.spriteIDOverride ≥ 0 then
              if baseObject.attributes &&& p.kCanThink ≠ 0 then
                w.pix_add (initial.spriteIDOverride
                  + ((p.GetAdmiralColor initial.owner : Nat) : Int)
                      * 2 ^ p.kSpriteTableColorShift)
              else w.pix_add initial.spriteIDOverride
            else w
          forEach initial.canBuild w (fun canBuild w =>
            if canBuild ≠ p.kNoClass then
              forEach (List.range w.admirals.length) w (fun a w =>
                if w.admiral_active a then
                  let baseObject :=
                    p.mGetBaseObjectFromClassRace canBuild (p.GetAdmiralRace (some a))
                  if baseObject.isSome then
                    AddBaseObjectMedia p all_colors fuel baseObject
                      (p.GetAdmiralColor (some a)) w
                  else Except.ok w
                else Except.ok w)
            else Except.ok w)

/-- Condition flag `kInitiallyTrue` (scenario.hpp:54). -/
def kInitiallyTrue : Nat := 0x00000002

/-- Function `load_condition` (level.cpp:305-311), for the condition numbered
`index`. -/
def load_condition (p : Plugin) (fuel : Nat) (index : Nat) (condition : Condition)
    (all_colors : Bitset16) (w : World) : Except Fault World :=
  match forEach condition.action w (fun action w =>
      AddActionMedia p (AddBaseObjectMedia p all_colors fuel) action p.GRAY all_colors w) with
  | Except.error e => Except.error e
  | Except.ok w =>
    Except.ok (w.call [Call.set_true_yet index (condition.flags &&& kInitiallyTrue ≠ 0)])

/-- The body of the `do ... while` loop of `run_game_1s` (level.cpp:316-326): one
major tick of the simulation.  `level` is `g.level`.  The collaborators called are
recorded; they write neither `g.time` nor the `LoadState`. -/
def run_game_tick (p : Plugin) (level : Level) (w : World) : World :=
  let start_time : Int := -(level.startTime * p.ticksPerSecond)
  let w := { w with time := w.time + p.kMajorTick }
  let w := w.call [Call.MoveSpaceObjects p.kMajorTick, Call.NonplayerShipThink,
    Call.AdmiralThink, Call.execute_action_queue, Call.CollideSpaceObjects]
  let w := if Int.tmod (w.time - start_time) p.kConditionTick = 0
           then w.call [Call.CheckLevelConditions] else w
  w.call [Call.CullSprites, Call.Vectors_cull]

/-- Function `run_game_1s` (level.cpp:313-328): the loop
`do ... while ((g.time.time_since_epoch() % secs(1)) != ticks(0))`, of which the
first argument bounds the number of iterations. -/
def run_game_1s (p : Plugin) (level : Level) : Nat → World → Except Fault World
  | 0, _ => Except.error Fault.out_of_fuel
  | fuel + 1, w =>
    let w := run_game_tick p level w
    if Int.tmod w.time p.ticksPerSecond ≠ 0 then run_game_1s p level fuel w
    else Except.ok w

/-- The bitset `all_colors` computed at the head of `construct_level`
(level.cpp:332-338). -/
def all_colors_of (p : Plugin) (w : World) : Bitset16 :=
  (List.range w.admirals.length).foldl
    (fun bits adm =>
      if w.admiral_active adm then bits.set (p.GetAdmiralColor (some adm)) else bits)
    (Bitset16.zero.set 0)

/-- Call `create_initial(&g.level->initials[i])`. -/
def create_initial_at (level : Level) (i : Nat) (w : World) : Res World :=
  match level.initials[i]? with
  | none => Res.fault Fault.bad_initial_index
  | some _ => Res.ok (w.call [Call.create_initial i])

/-- Call `set_initial_destination(&g.level->initials[i], false)`. -/
def set_initial_destination_at (level : Level) (i : Nat) (w : World) : Res World :=
  match level.initials[i]? with
  | none => Res.fault Fault.bad_initial_index
  | some _ => Res.ok (w.call [Call.set_initial_destination i false])

/-- The loop over `g.level->conditions` at step N (level.cpp:348-350). -/
def load_conditions (p : Plugin) (level : Level) (fuel : Nat) (all_colors : Bitset16)
    (w : World) : Except Fault World :=
  forEach (List.range level.conditions.length) w (fun index w =>
    match level.conditions[index]? with
    | none => Except.ok w
    | some condition => load_condition p fuel index condition all_colors w)

/-- The step-3N branch (level.cpp:360-362): recompute the admirals' build data,
clear the messages, set the clock to `-start_time`. -/
def consolidate (p : Plugin) (level : Level) (w : World) : World :=
  let w := w.call [Call.RecalcAllAdmiralBuildData, Call.Messages_clear]
  { w with time := -(level.startTime * p.ticksPerSecond) }

/-- The tail of `construct_level` (level.cpp:366-369): `++state->step`, and
`done` once `step == max`. -/
def advance (w : World) : World :=
  let state := { w.state with step := w.state.step + 1 }
  let state := if (state.step : Int) = state.max then { state with done := true } else state
  { w with state := state }

/-- The unit of work `construct_level` selects by `step`, before `++state->step`
(level.cpp:340-365).  `level` is `g.level`, which `start_construct_level` set to
the level under construction. -/
def construct_level_body (p : Plugin) (level : Level) (fuel : Nat) (w : World) : Res World :=
  let step := w.state.step
  let all_colors := all_colors_of p w
  let size := level.initials.length
  if step = 0 then
    match load_blessed_objects p level fuel all_colors w with
    | Res.ok w => Res.of_except (load_initial p level fuel step all_colors w)
    | r => r
  else if step < size then
    Res.of_except (load_initial p level fuel step all_colors w)
  else if step = size then
    match load_conditions p level fuel all_colors w with
    | Except.error e => Res.fault e
    | Except.ok w => create_initial_at level (step - size) w
  else if step < 2 * size then
    create_initial_at level (step - size) w
  else if step < 3 * size then
    set_initial_destination_at level (step - 2 * size) w
  else if step = 3 * size then
    Res.ok (consolidate p level w)
  else
    Res.of_except (run_game_1s p level fuel w)

/-- Function `construct_level` (level.cpp:330-371). -/
def construct_level (p : Plugin) (level : Level) (fuel : Nat) (w : World) : Res World :=
  match construct_level_body p level fuel w with
  | Res.ok w => Res.ok (advance w)
  | r => r

/-- The caller's loop: `n` calls of `construct_level` in a row, stopping at the
first that does not return. -/
def construct_level_times (p : Plugin) (level : Level) (fuel : Nat) : Nat → World → Res World
  | 0, w => Res.ok w
  | n + 1, w =>
    match construct_level p level fuel w with
    | Res.ok w => construct_level_times p level fuel n w
    | r => r

/-! ## The schedule of `construct_level` -/

/-- The units of work among which `construct_level` selects. -/
inductive Work where
  | load_blessed_objects
  | load_initial (i : Nat)
  | load_conditions
  | create_initial (i : Nat)
  | set_initial_destination (i : Nat)
  | consolidate
  | run_game_1s
  deriving DecidableEq, Repr

/-- The work of the branch `construct_level` takes at `step`, in the order done,
for a level of `size` initial objects: the branch conditions of level.cpp:340-365
with the calls of each branch. -/
def construct_level_work (size step : Nat) : List Work :=
  if step = 0 then [Work.load_blessed_objects, Work.load_initial step]
  else if step < size then [Work.load_initial step]
  else if step = size then [Work.load_conditions, Work.create_initial (step - size)]
  else if step < 2 * size then [Work.create_initial (step - size)]
  else if step < 3 * size then [Work.set_initial_destination (step - 2 * size)]
  else if step = 3 * size then [Work.consolidate]
  else [Work.run_game_1s]

/-- Doing one unit of work. -/
def do_work (p : Plugin) (level : Level) (fuel : Nat) (all_colors : Bitset16) :
    Work → World → Res World
  | Work.load_blessed_objects, w => load_blessed_objects p level fuel all_colors w
  | Work.load_initial i, w => Res.of_except (load_initial p level fuel i all_colors w)
  | Work.load_conditions, w => Res.of_except (load_conditions p level fuel all_colors w)
  | Work.create_initial i, w => create_initial_at level i w
  | Work.set_initial_destination i, w => set_initial_destination_at level i w
  | Work.consolidate, w => Res.ok (consolidate p level w)
  | Work.run_game_1s, w => Res.of_except (run_game_1s p level fuel w)

/-- Doing units of work one after the other, up to the first that does not
return. -/
def do_works (p : Plugin) (level : Level) (fuel : Nat) (all_colors : Bitset16) :
    List Work → World → Res World
  | [], w => Res.ok w
  | x :: rest, w =>
    match do_work p level fuel all_colors x w with
    | Res.ok w => do_works p level fuel all_colors rest w
    | r => r

/-! ## Predicates of the statements -/

/-- Every colour needed for base object `n` is loaded:
`colors_needed[n]` is a subset of `colors_loaded[n]`. -/
def Settled (w : World) (n : Nat) : Prop :=
  ∀ i : Color, w.state.colors_needed n i = true → w.state.colors_loaded n i = true

/-- The progress cursor (`step`, `max`, `done`) of `w'` is that of `w`. -/
def SameCursor (w w' : World) : Prop :=
  w'.state.step = w.state.step ∧ w'.state.max = w.state.max ∧ w'.state.done = w.state.done

/-- From `w` to `w'` the cursor is unchanged and no needed or loaded colour is
dropped. -/
def Grows (w w' : World) : Prop :=
  SameCursor w w'
    ∧ (∀ n i, w.state.colors_needed n i = true → w'.state.colors_needed n i = true)
    ∧ (∀ n i, w.state.colors_loaded n i = true → w'.state.colors_loaded n i = true)

/-- From `w` to `w'` either no colour became needed for `n`, or `n` is settled in
`w'`. -/
def Keeps (n : Nat) (w w' : World) : Prop :=
  (∀ i, w'.state.colors_needed n i = w.state.colors_needed n i) ∨ Settled w' n

/-- The relation every media-loading call establishes: `Grows`, and every base
object that had a loaded colour is kept. -/
def Good (w w' : World) : Prop :=
  Grows w w' ∧ ∀ n, (∃ i, w.state.colors_loaded n i = true) → Keeps n w w'

/-- What the induction on the recursion depth carries for `AddBaseObjectMedia`:
a call that returns is `Good` and leaves its base object settled. -/
def MediaSpec (f : Handle → Color → World → Except Fault World) : Prop :=
  ∀ h c a b, f h c a = Except.ok b → Good a b ∧ ∃ n, h = some n ∧ Settled b n

/-! ## Styled text: data model -/

/-- The tag of a `StyledChar` (`SpecialChar` of styled-text.hpp). -/
inductive SpecialChar where
  | NONE
  | LINE_BREAK
  | WORD_BREAK
  | NO_BREAK
  | TAB
  | PICTURE
  | DELAY
  deriving DecidableEq, Repr

/-- A colour; the layout never looks inside one. -/
structure RgbColor where
  red : Nat
  green : Nat
  blue : Nat
  deriving DecidableEq, Repr

/-- A point `{h, v}`. -/
structure Point where
  h : Int
  v : Int
  deriving DecidableEq, Repr

/-- A size `{width, height}`. -/
structure Size where
  width : Int
  height : Int
  deriving DecidableEq, Repr

/-- A rectangle `{left, top, right, bottom}`. -/
structure Rect where
  left : Int
  top : Int
  right : Int
  bottom : Int
  deriving DecidableEq, Repr

/-- Method `Rect::height()`. -/
def Rect.height (r : Rect) : Int := r.bottom - r.top

/-- Method `Rect::width()`. -/
def Rect.width (r : Rect) : Int := r.right - r.left

/-- Method `Rect::size()`. -/
def Rect.size (r : Rect) : Size := ⟨r.width, r.height⟩

/-- Method `Rect::offset(x, y)`. -/
def Rect.offset (r : Rect) (x y : Int) : Rect :=
  ⟨r.left + x, r.top + y, r.right + x, r.bottom + y⟩

/-- Constructor `Rect{origin, size}`. -/
def Rect.of_origin (origin : Point) (size : Size) : Rect :=
  ⟨origin.h, origin.v, origin.h + size.width, origin.v + size.height⟩

/-- Method `Size::as_rect()`. -/
def Size.as_rect (s : Size) : Rect := ⟨0, 0, s.width, s.height⟩

/-- A font, as far as the layout and the drawing look at it. -/
structure Font where
  height : Int
  char_width : Char → Int
  ascent : Int := 0

/-- The layout parameters (`WrapMetrics`). -/
structure WrapMetrics where
  font : Font
  width : Int
  side_margin : Int
  line_spacing : Int
  tab_width : Int

/-- One entry of the character stream.  `it` is the position of the iterator in
the text, the length of the text for `_text.end()`. -/
structure StyledChar where
  it : Nat
  special : SpecialChar
  pict_index : Nat
  fore_color : RgbColor
  back_color : RgbColor
  bounds : Rect
  deriving DecidableEq, Repr

/-- Constructor `StyledChar(it, special, pict_index, fore_color, back_color)`
(styled-text.cpp:471-479). -/
def StyledChar.make (it : Nat) (special : SpecialChar) (pict_index : Nat)
    (fore_color back_color : RgbColor) : StyledChar :=
  ⟨it, special, pict_index, fore_color, back_color, ⟨0, 0, 0, 0⟩⟩

/-- An inline picture. -/
structure inlinePictType where
  object : Handle
  picture : List Char
  bounds : Rect
  deriving DecidableEq, Repr

/-- A texture, as far as the layout looks at it. -/
structure Texture where
  size : Size
  deriving DecidableEq, Repr

/-- The collaborators of the styled-text factories: `GetRGBTranslateColorShade`,
`BaseObject::get(id)` by name (`object`), the `portrait` of the base object of a
number, and `Resource::texture`, `none` when it throws. -/
structure TextEnv where
  GetRGBTranslateColorShade : Nat → Nat → RgbColor
  object : List Char → Handle
  portrait : Nat → Option (List Char)
  texture : List Char → Option Texture

/-- The members of `StyledText` that parsing and layout write. -/
structure StyledText where
  text : List Char
  chars : List StyledChar
  inline_picts : List inlinePictType
  textures : List Texture
  wrap_metrics : WrapMetrics
  auto_size : Size

/-- Result of a factory that may throw. -/
inductive Outcome (α : Type) where
  | ok (a : α)
  | raised (what : String)
  | fault (f : Fault)

/-- Turn a result that cannot throw into an `Outcome`. -/
def Outcome.of_except {α : Type} : Except Fault α → Outcome α
  | Except.ok a => Outcome.ok a
  | Except.error e => Outcome.fault e

/-! ## Styled text: layout -/

/-- The loop of `move_word_down` over `j` (styled-text.cpp:453-456), for one `j`:
the pair is `_chars` and `h`. -/
def move_word_down_place (metrics : WrapMetrics) (text : List Char) (v : Int) (j : Nat)
    (s : List StyledChar × Int) : Except Fault (List StyledChar × Int) :=
  match s.1[j]? with
  | none => Except.error Fault.chars_out_of_range
  | some c =>
    match text[c.it]? with
    | none => Except.error Fault.end_iterator
    | some r =>
      Except.ok (s.1.set j { c with bounds := Rect.of_origin ⟨s.2, v⟩ c.bounds.size },
        s.2 + metrics.font.char_width r)

/-- The loop `for (int i = index; i >= 0; --i)` of `move_word_down`
(styled-text.cpp:440-463); the argument `n` is `i + 1`.  Returns `_chars` and the
value returned. -/
def move_word_down_from (metrics : WrapMetrics) (text : List Char) (index : Nat) (v : Int) :
    Nat → List StyledChar → Except Fault (List StyledChar × Int)
  | 0, chars => Except.ok (chars, metrics.side_margin)
  | i + 1, chars =>
    match chars[i]? with
    | none => Except.error Fault.chars_out_of_range
    | some c =>
      match c.special with
      | SpecialChar.LINE_BREAK => Except.ok (chars, metrics.side_margin)
      | SpecialChar.PICTURE => Except.ok (chars, metrics.side_margin)
      | SpecialChar.NO_BREAK => move_word_down_from metrics text index v i chars
      | SpecialChar.NONE => move_word_down_from metrics text index v i chars
      | SpecialChar.WORD_BREAK | SpecialChar.TAB | SpecialChar.DELAY =>
        match chars[i + 1]? with
        | none => Except.error Fault.chars_out_of_range
        | some next =>
          if next.bounds.left ≤ metrics.side_margin then
            Except.ok (chars, metrics.side_margin)
          else
            forEach (List.range' (i + 1) (index - i)) (chars, metrics.side_margin)
              (move_word_down_place metrics text v)

/-- Method `StyledText::move_word_down(index, v)` (styled-text.cpp:439-465). -/
def move_word_down (metrics : WrapMetrics) (text : List Char) (chars : List StyledChar)
    (index : Nat) (v : Int) : Except Fault (List StyledChar × Int) :=
  move_word_down_from metrics text index v (index + 1) chars

/-- The variables of the loop of `rewrap`. -/
structure Layout where
  chars : List StyledChar
  inline_picts : List inlinePictType
  h : Int
  v : Int
  auto_width : Int

/-- The statement `_chars[i].bounds.right = h` that ends an iteration of
`rewrap`. -/
def Layout.close (i : Nat) (s : Layout) : Except Fault Layout :=
  match s.chars[i]? with
  | none => Except.error Fault.chars_out_of_range
  | some c => Except.ok { s with chars := s.chars.set i { c with bounds := { c.bounds with right := s.h } } }

/-- One iteration of the loop of `rewrap` (styled-text.cpp:279-318); `metrics` has
its tab width resolved. -/
def rewrap_char (metrics : WrapMetrics) (text : List Char) (i : Nat) (s : Layout) :
    Except Fault Layout :=
  let line_height := metrics.font.height + metrics.line_spacing
  let wrap_distance := metrics.width - metrics.side_margin
  match s.chars[i]? with
  | none => Except.error Fault.chars_out_of_range
  | some c =>
    let s := { s with chars := s.chars.set i { c with bounds := ⟨s.h, s.v, s.h, s.v + line_height⟩ } }
    match c.special with
    | SpecialChar.NONE | SpecialChar.NO_BREAK =>
      match text[c.it]? with
      | none => Except.error Fault.end_iterator
      | some r =>
        let h := s.h + metrics.font.char_width r
        if h ≥ wrap_distance then
          let v := s.v + (metrics.font.height + metrics.line_spacing)
          match move_word_down metrics text s.chars i v with
          | Except.error e => Except.error e
          | Except.ok (chars, h) =>
            Layout.close i { s with chars := chars, h := h, v := v,
                                    auto_width := max s.auto_width h }
        else
          Layout.close i { s with h := h, auto_width := max s.auto_width h }
    | SpecialChar.TAB =>
      if metrics.tab_width = 0 then Except.error Fault.division_by_zero
      else
        let h := s.h + (metrics.tab_width - Int.tmod s.h metrics.tab_width)
        Layout.close i { s with h := h, auto_width := max s.auto_width h }
    | SpecialChar.LINE_BREAK =>
      Layout.close i { s with h := metrics.side_margin,
                              v := s.v + (metrics.font.height + metrics.line_spacing) }
    | SpecialChar.WORD_BREAK =>
      match text[c.it]? with
      | none => Except.error Fault.end_iterator
      | some r => Layout.close i { s with h := s.h + metrics.font.char_width r }
    | SpecialChar.PICTURE =>
      match s.inline_picts[c.pict_index]? with
      | none => Except.error Fault.picts_out_of_range
      | some pict =>
        let v := if s.h ≠ metrics.side_margin
                 then s.v + (metrics.font.height + metrics.line_spacing) else s.v
        let h := metrics.side_margin
        let pict := { pict with bounds := pict.bounds.offset 0 (v - pict.bounds.top) }
        let v := v + pict.bounds.height + metrics.line_spacing + 3
        match s.chars[i + 1]? with
        | none => Except.error Fault.chars_out_of_range
        | some next =>
          let v := if next.special = SpecialChar.LINE_BREAK
                   then v - (metrics.font.height + metrics.line_spacing) else v
          Layout.close i { s with inline_picts := s.inline_picts.set c.pict_index pict,
                                  h := h, v := v }
    | SpecialChar.DELAY => Layout.close i s

/-- Method `StyledText::rewrap()` (styled-text.cpp:266-321). -/
def StyledText.rewrap (t : StyledText) : Except Fault StyledText :=
  let metrics :=
    if t.wrap_metrics.tab_width ≤ 0
    then { t.wrap_metrics with tab_width := Int.tdiv t.wrap_metrics.width 2 }
    else t.wrap_metrics
  let start : Layout :=
    { chars := t.chars, inline_picts := t.inline_picts,
      h := metrics.side_margin, v := 0, auto_width := 0 }
  match forEach (List.range t.chars.length) start (rewrap_char metrics t.text) with
  | Except.error e => Except.error e
  | Except.ok s =>
    Except.ok { t with wrap_metrics := metrics, chars := s.chars,
                       inline_picts := s.inline_picts, auto_size := ⟨s.auto_width, s.v⟩ }

/-- Method `StyledText::size()`. -/
def StyledText.size (t : StyledText) : Nat := t.chars.length

/-- Method `StyledText::empty()`. -/
def StyledText.empty (t : StyledText) : Bool := decide (t.chars.length ≤ 1)

/-! ## Styled text: the three factories -/

/-- The statement that ends the parsing of every factory (styled-text.cpp:76-78,
188-190, 252-254): push a LINE_BREAK at `_text.end()` unless the stream ends in
one. -/
def push_final_line_break (chars : List StyledChar) (text_end : Nat)
    (fore_color back_color : RgbColor) : List StyledChar :=
  match chars.getLast? with
  | none => chars ++ [StyledChar.make text_end SpecialChar.LINE_BREAK 0 fore_color back_color]
  | some back =>
    if back.special ≠ SpecialChar.LINE_BREAK then
      chars ++ [StyledChar.make text_end SpecialChar.LINE_BREAK 0 fore_color back_color]
    else chars

/-- A freshly parsed `StyledText`, before `rewrap`. -/
def StyledText.parsed (text : List Char) (chars : List StyledChar)
    (inline_picts : List inlinePictType) (textures : List Texture) (metrics : WrapMetrics) :
    StyledText :=
  { text := text, chars := chars, inline_picts := inline_picts, textures := textures,
    wrap_metrics := metrics, auto_size := ⟨0, 0⟩ }

/-- The `switch (r.value())` of `StyledText::plain` (styled-text.cpp:63-74). -/
def plain_special (r : Char) : SpecialChar :=
  if r = '\n' then SpecialChar.LINE_BREAK
  else if r = ' ' then SpecialChar.WORD_BREAK
  else if r = Char.ofNat 0xA0 then SpecialChar.NO_BREAK
  else SpecialChar.NONE

/-- The loop of `StyledText::plain` over the text (styled-text.cpp:61-75), from
position `it` on. -/
def plain_loop (fore_color back_color : RgbColor) :
    Nat → List Char → List StyledChar → List StyledChar
  | _, [], chars => chars
  | it, r :: rest, chars =>
    plain_loop fore_color back_color (it + 1) rest
      (chars ++ [StyledChar.make it (plain_special r) 0 fore_color back_color])

/-- Factory `StyledText::plain` (styled-text.cpp:55-82). -/
def StyledText.plain (text : List Char) (metrics : WrapMetrics)
    (fore_color back_color : RgbColor) : Outcome StyledText :=
  let chars := plain_loop fore_color back_color 0 text []
  let chars := push_final_line_break chars text.length fore_color back_color
  Outcome.of_except (StyledText.parsed text chars [] [] metrics).rewrap

/-- Function `hex_digit` (styled-text.cpp:37-47). -/
def hex_digit (r : Char) : Except String Nat :=
  let c := r.toNat
  if '0'.toNat ≤ c ∧ c ≤ '9'.toNat then Except.ok (c - '0'.toNat)
  else if 'A'.toNat ≤ c ∧ c ≤ 'Z'.toNat then Except.ok (c - 'A'.toNat + 10)
  else if 'a'.toNat ≤ c ∧ c ≤ 'z'.toNat then Except.ok (c - 'a'.toNat + 10)
  else Except.error (toString c ++ " is not a valid hex digit")

/-- The states of the parser of `StyledText::retro`. -/
inductive RetroState where
  | START
  | SLASH
  | FG1
  | FG2
  | BG1
  | BG2
  deriving DecidableEq, Repr

/-- The variables of the loop of `StyledText::retro`. -/
structure Retro where
  chars : List StyledChar
  fore_color : RgbColor
  back_color : RgbColor
  r1 : Char
  state : RetroState

/-- One iteration of the loop of `StyledText::retro` (styled-text.cpp:97-181). -/
def retro_char (env : TextEnv) (original_fore_color original_back_color : RgbColor)
    (it : Nat) (r : Char) (s : Retro) : Except String Retro :=
  match s.state with
  | RetroState.START =>
    if r = '\n' then
      Except.ok { s with chars := s.chars ++
        [StyledChar.make it SpecialChar.LINE_BREAK 0 s.fore_color s.back_color] }
    else if r = '_' then
      Except.ok { s with chars := s.chars ++
        [StyledChar.make it SpecialChar.NO_BREAK 0 s.fore_color s.back_color] }
    else if r = ' ' then
      Except.ok { s with chars := s.chars ++
        [StyledChar.make it SpecialChar.WORD_BREAK 0 s.fore_color s.back_color] }
    else if r = '\\' then
      Except.ok
        { s with state := RetroState.SLASH,
                 chars := s.chars ++
                   [StyledChar.make it SpecialChar.DELAY 0 s.fore_color s.back_color] }
    else
      Except.ok { s with chars := s.chars ++
        [StyledChar.make it SpecialChar.NONE 0 s.fore_color s.back_color] }
  | RetroState.SLASH =>
    if r = 'i' then
      Except.ok
        { s with fore_color := s.back_color,
                 back_color := s.fore_color,
                 chars := s.chars ++
                   [StyledChar.make it SpecialChar.DELAY 0 s.back_color s.fore_color],
                 state := RetroState.START }
    else if r = 'r' then
      Except.ok
        { s with fore_color := original_fore_color,
                 back_color := original_back_color,
                 chars := s.chars ++
                   [StyledChar.make it SpecialChar.DELAY 0 original_fore_color
                     original_back_color],
                 state := RetroState.START }
    else if r = 't' then
      Except.ok
        { s with chars := s.chars.dropLast ++
                   [StyledChar.make it SpecialChar.TAB 0 s.fore_color s.back_color],
                 state := RetroState.START }
    else if r = '\\' then
      Except.ok
        { s with chars := s.chars.dropLast ++
                   [StyledChar.make it SpecialChar.NONE 0 s.fore_color s.back_color],
                 state := RetroState.START }
    else if r = 'f' then
      Except.ok { s with chars := s.chars.dropLast, state := RetroState.FG1 }
    else if r = 'b' then
      Except.ok { s with chars := s.chars.dropLast, state := RetroState.BG1 }
    else
      Except.error ("found bad special character " ++ toString r.toNat ++ ".")
  | RetroState.FG1 => Except.ok { s with r1 := r, state := RetroState.FG2 }
  | RetroState.FG2 =>
    match hex_digit s.r1 with
    | Except.error what => Except.error what
    | Except.ok hue =>
      match hex_digit r with
      | Except.error what => Except.error what
      | Except.ok shade =>
        Except.ok { s with fore_color := env.GetRGBTranslateColorShade hue shade,
                           state := RetroState.START }
  | RetroState.BG1 => Except.ok { s with r1 := r, state := RetroState.BG2 }
  | RetroState.BG2 =>
    match hex_digit s.r1 with
    | Except.error what => Except.error what
    | Except.ok hue =>
      match hex_digit r with
      | Except.error what => Except.error what
      | Except.ok shade =>
        Except.ok { s with back_color := env.GetRGBTranslateColorShade hue shade,
                           state := RetroState.START }

/-- The loop of `StyledText::retro` over the text (styled-text.cpp:96-182), from
position `it` on. -/
def retro_loop (env : TextEnv) (original_fore_color original_back_color : RgbColor) :
    Nat → List Char → Retro → Except String Retro
  | _, [], s => Except.ok s
  | it, r :: rest, s =>
    match retro_char env original_fore_color original_back_color it r s with
    | Except.error what => Except.error what
    | Except.ok s => retro_loop env original_fore_color original_back_color (it + 1) rest s

/-- Factory `StyledText::retro` (styled-text.cpp:84-194). -/
def StyledText.retro (env : TextEnv) (text : List Char) (metrics : WrapMetrics)
    (fore_color back_color : RgbColor) : Outcome StyledText :=
  match retro_loop env fore_color back_color 0 text
      { chars := [], fore_color := fore_color, back_color := back_color, r1 := Char.ofNat 0,
        state := RetroState.START } with
  | Except.error what => Outcome.raised what
  | Except.ok s =>
    if s.state ≠ RetroState.START then Outcome.raised "not enough input for special code."
    else
      let chars := push_final_line_break s.chars text.length s.fore_color s.back_color
      Outcome.of_except (StyledText.parsed text chars [] [] metrics).rewrap

/-- The states of the parser of `StyledText::interface`. -/
inductive InterfaceState where
  | START
  | CODE
  | ID
  deriving DecidableEq, Repr

/-- The variables of the loop of `StyledText::interface`. -/
structure Interface where
  chars : List StyledChar
  inline_picts : List inlinePictType
  textures : List Texture
  id : List Char
  state : InterfaceState

/-- One iteration of the loop of `StyledText::interface` (styled-text.cpp:208-249). -/
def interface_char (env : TextEnv) (f b : RgbColor) (it : Nat) (r : Char) (s : Interface) :
    Except String Interface :=
  match s.state with
  | InterfaceState.START =>
    if r = '\n' then
      Except.ok { s with chars := s.chars ++ [StyledChar.make it SpecialChar.LINE_BREAK 0 f b] }
    else if r = ' ' then
      Except.ok { s with chars := s.chars ++ [StyledChar.make it SpecialChar.WORD_BREAK 0 f b] }
    else if r = '^' then
      Except.ok { s with state := InterfaceState.CODE }
    else
      Except.ok { s with chars := s.chars ++ [StyledChar.make it SpecialChar.NONE 0 f b] }
  | InterfaceState.CODE =>
    if r ≠ 'P' ∧ r ≠ 'p' then
      Except.error ("found bad inline pict code " ++ String.singleton r)
    else Except.ok { s with state := InterfaceState.ID }
  | InterfaceState.ID =>
    if r ≠ '^' then Except.ok { s with id := s.id ++ [r] }
    else
      let object := env.object s.id
      let picture :=
        match object with
        | none => s.id
        | some number =>
          match env.portrait number with
          | some portrait => portrait
          | none => s.id
      match env.texture picture with
      | none => Except.error "Resource::texture"
      | some texture =>
        let textures := s.textures ++ [texture]
        let inline_pict : inlinePictType :=
          { object := object, picture := picture, bounds := texture.size.as_rect }
        let inline_picts := s.inline_picts ++ [inline_pict]
        Except.ok
          { s with textures := textures,
                   inline_picts := inline_picts,
                   chars := s.chars ++
                     [StyledChar.make it SpecialChar.PICTURE (inline_picts.length - 1) f b],
                   id := [],
                   state := InterfaceState.START }

/-- The loop of `StyledText::interface` over the text (styled-text.cpp:207-250),
from position `it` on. -/
def interface_loop (env : TextEnv) (f b : RgbColor) :
    Nat → List Char → Interface → Except String Interface
  | _, [], s => Except.ok s
  | it, r :: rest, s =>
    match interface_char env f b it r s with
    | Except.error what => Except.error what
    | Except.ok s => interface_loop env f b (it + 1) rest s

/-- Factory `StyledText::interface` (styled-text.cpp:196-258). -/
def StyledText.interface (env : TextEnv) (text : List Char) (metrics : WrapMetrics)
    (fore_color back_color : RgbColor) : Outcome StyledText :=
  match interface_loop env fore_color back_color 0 text
      { chars := [], inline_picts := [], textures := [], id := [],
        state := InterfaceState.START } with
  | Except.error what => Outcome.raised what
  | Except.ok s =>
    let chars := push_final_line_break s.chars text.length fore_color back_color
    Outcome.of_except (StyledText.parsed text chars s.inline_picts s.textures metrics).rewrap

/-! ## Styled text: predicates of the statements -/

/-- An entry without its computed bounds: what parsing made of it. -/
def StyledChar.unplaced (c : StyledChar) : StyledChar :=
  { c with bounds := ⟨0, 0, 0, 0⟩ }

/-- What the layout relies on in a character stream over a text of `text_length`
code points with `picts` inline pictures: it is not empty, only a LINE_BREAK is
last, every entry but the last has its iterator inside the text, and every PICTURE
names an inline picture. -/
def WellFormed (text_length picts : Nat) (stream : List StyledChar) : Prop :=
  stream ≠ []
    ∧ (∀ i c, stream[i]? = some c → c.special ≠ SpecialChar.LINE_BREAK →
        i + 1 < stream.length)
    ∧ (∀ i c, stream[i]? = some c → i + 1 < stream.length → c.it < text_length)
    ∧ (∀ c ∈ stream, c.special = SpecialChar.PICTURE → c.pict_index < picts)

/-- A result of the layout loop that is no out-of-range access: either a state
with the same stream and as many inline pictures, or the division by a zero tab
width at a TAB. -/
def LayoutOk (metrics : WrapMetrics) (picts : Nat) (stream : List StyledChar)
    (r : Except Fault Layout) : Prop :=
  match r with
  | Except.ok s => s.chars.map StyledChar.unplaced = stream ∧ s.inline_picts.length = picts
  | Except.error e =>
    e = Fault.division_by_zero ∧ metrics.tab_width = 0
      ∧ ∃ c ∈ stream, c.special = SpecialChar.TAB

/-- What every parser keeps of its stream at position `it` with `picts` inline
pictures: the iterators of the entries are before `it`, and every PICTURE names an
inline picture. -/
def StreamInv (it picts : Nat) (chars : List StyledChar) : Prop :=
  (∀ c ∈ chars, c.it < it)
    ∧ (∀ c ∈ chars, c.special = SpecialChar.PICTURE → c.pict_index < picts)

/-- The tab width `rewrap` lays out with: `width / 2` when none is set. -/
def resolved_tab_width (metrics : WrapMetrics) : Int :=
  if metrics.tab_width ≤ 0 then Int.tdiv metrics.width 2 else metrics.tab_width

/-- A result of `rewrap` that is no out-of-range access: either a text with the
same stream, text, textures and number of inline pictures, or the division by a
zero tab width at a TAB. -/
def RewrapOk (t : StyledText) (r : Except Fault StyledText) : Prop :=
  match r with
  | Except.ok t' =>
    t'.chars.map StyledChar.unplaced = t.chars.map StyledChar.unplaced
      ∧ t'.inline_picts.length = t.inline_picts.length
      ∧ t'.text = t.text ∧ t'.textures = t.textures
  | Except.error e =>
    e = Fault.division_by_zero ∧ resolved_tab_width t.wrap_metrics = 0
      ∧ ∃ c ∈ t.chars, c.special = SpecialChar.TAB

/-- What the layout and the drawing rely on in a built `StyledText`: a well-formed
stream, and one texture for each inline picture. -/
def Built (t : StyledText) : Prop :=
  WellFormed t.text.length t.inline_picts.length (t.chars.map StyledChar.unplaced)
    ∧ t.textures.length = t.inline_picts.length

/-- The stream of a text is not empty and ends in a LINE_BREAK. -/
def EndsInLineBreak (t : StyledText) : Prop :=
  t.chars ≠ [] ∧ t.chars.getLast?.map StyledChar.special = some SpecialChar.LINE_BREAK

/-- What a factory returns once its parser has left the stream `chars`: a built
text over `text` whose stream is `chars` closed by `push_final_line_break`, or the
division by a zero tab width at a TAB of `chars`; it does not throw any more. -/
def FactoryOk (text : List Char) (chars : List StyledChar)
    (fore_color back_color : RgbColor) (r : Outcome StyledText) : Prop :=
  match r with
  | Outcome.ok t =>
    Built t ∧ t.text = text ∧ EndsInLineBreak t
      ∧ t.chars.map StyledChar.unplaced
          = (push_final_line_break chars text.length fore_color back_color).map
              StyledChar.unplaced
  | Outcome.raised _ => False
  | Outcome.fault e =>
    e = Fault.division_by_zero ∧ ∃ c ∈ chars, c.special = SpecialChar.TAB

/-! ## Styled text: where the parsers start -/

/-- The state in which `StyledText::retro` starts parsing (styled-text.cpp:86-95). -/
def Retro.init (fore_color back_color : RgbColor) : Retro :=
  { chars := [], fore_color := fore_color, back_color := back_color, r1 := Char.ofNat 0,
    state := RetroState.START }

/-- The state in which `StyledText::interface` starts parsing
(styled-text.cpp:198-206). -/
def Interface.init : Interface :=
  { chars := [], inline_picts := [], textures := [], id := [],
    state := InterfaceState.START }

/-! ## Player input: events and keys -/

/-- Modelled from the spec: the tag of a `PlayerEvent`, one of KEY_DOWN, KEY_UP and
LONG_KEY_UP (the header that declares it is not part of the sources). -/
inductive PlayerEventType where
  | KEY_DOWN
  | KEY_UP
  | LONG_KEY_UP
  deriving DecidableEq, Repr

/-- A control number (`KeyNum`): the index of a control in the key preferences. -/
abbrev KeyNum := Nat

/-- A key of the keyboard (`Key`). -/
abbrev Key := Nat

/-- Modelled from the spec: a `PlayerEvent`, a tagged value of a type and a control
number. -/
structure PlayerEvent where
  type : PlayerEventType
  key : KeyNum
  deriving DecidableEq, Repr

/-- Factory `PlayerEvent::key_down`. -/
def PlayerEvent.key_down (key : KeyNum) : PlayerEvent := ⟨PlayerEventType.KEY_DOWN, key⟩

/-- Factory `PlayerEvent::key_up`. -/
def PlayerEvent.key_up (key : KeyNum) : PlayerEvent := ⟨PlayerEventType.KEY_UP, key⟩

/-- Factory `PlayerEvent::long_key_up`. -/
def PlayerEvent.long_key_up (key : KeyNum) : PlayerEvent :=
  ⟨PlayerEventType.LONG_KEY_UP, key⟩

/-- Operator `PlayerEvent::operator==` (player-ship.cpp:112-121). -/
def PlayerEvent.op_eq (a other : PlayerEvent) : Bool :=
  if a.type ≠ other.type then false
  else
    match a.type with
    | PlayerEventType.KEY_DOWN | PlayerEventType.KEY_UP | PlayerEventType.LONG_KEY_UP =>
      decide (a.key = other.key)

/-- Operator `PlayerEvent::operator<` (player-ship.cpp:123-132); `value` gives the
values of the enumerators of the type, which the sources do not show. -/
def PlayerEvent.op_lt (value : PlayerEventType → Int) (a other : PlayerEvent) : Bool :=
  if a.type ≠ other.type then decide (value a.type < value other.type)
  else
    match a.type with
    | PlayerEventType.KEY_DOWN | PlayerEventType.KEY_UP | PlayerEventType.LONG_KEY_UP =>
      decide (a.key < other.key)

/-- The control numbers that `key_down` and `key_up` name and the number of
extended controls: constants of a header that is not part of the sources. -/
structure KeyNums where
  kHotKey1Num : KeyNum
  kHotKey2Num : KeyNum
  kHotKey3Num : KeyNum
  kHotKey4Num : KeyNum
  kHotKey5Num : KeyNum
  kHotKey6Num : KeyNum
  kHotKey7Num : KeyNum
  kHotKey8Num : KeyNum
  kHotKey9Num : KeyNum
  kHotKey10Num : KeyNum
  kDestinationKeyNum : KeyNum
  kKeyExtendedControlNum : Nat

/-- The control numbers of the ten hot keys, by slot. -/
def KeyNums.hot_keys (K : KeyNums) : List KeyNum :=
  [K.kHotKey1Num, K.kHotKey2Num, K.kHotKey3Num, K.kHotKey4Num, K.kHotKey5Num,
   K.kHotKey6Num, K.kHotKey7Num, K.kHotKey8Num, K.kHotKey9Num, K.kHotKey10Num]

/-- The labels of the `switch` of `key_down` and `key_up`; a `switch` compiles only
when its labels differ from each other. -/
def KeyNums.labels (K : KeyNums) : List KeyNum := K.hot_keys ++ [K.kDestinationKeyNum]

/-- An object (`SpaceObject`), as far as player-ship.cpp looks at it: `health` is
`health()`, `base_health` is `base->health`, and `distanceFromPlayer` is a 64-bit
unsigned number. -/
structure SpaceObject where
  active : Nat
  attributes : Nat
  id : Int := 0
  owner : Handle := none
  location : Point := ⟨0, 0⟩
  distanceFromPlayer : Nat := 0
  keysDown : Nat := 0
  direction : Int := 0
  presenceState : Nat := 0
  nextObject : Handle := none
  health : Int := 0
  base_health : Int := 0

/-- What key handling reads from its surroundings: the control numbers, the key
preferences `sys.prefs->key(i)`, the attribute bit `kIsPlayerShip`, and `g.ship`. -/
structure InputEnv where
  nums : KeyNums
  prefs_key : Nat → Key
  kIsPlayerShip : Nat
  ship : Option SpaceObject

/-- Constant `kDestKeyHoldDuration` (player-ship.cpp:66), in ticks. -/
def kDestKeyHoldDuration : Int := 45

/-- Constant `kHotKeyHoldDuration` (player-ship.cpp:67), in ticks. -/
def kHotKeyHoldDuration : Int := 51

/-- The members of `PlayerShip` and the file-static variables of player-ship.cpp
that `key_down` and `key_up` read and write; times are in ticks.  `_cursor_active`
is `_cursor.active()`. -/
structure PlayerShip where
  _keys : Key → Bool
  _player_events : List PlayerEvent
  gDestKeyTime : Int
  gHotKeyTime : Nat → Int
  gTheseKeys : Nat := 0
  _gamepad_keys : Nat := 0
  _gamepad_state : Nat := 0
  _control_active : Bool := false
  _control_direction : Int := 0
  _cursor_active : Bool := false

/-- Function `key_num` (player-ship.cpp:161-168). -/
def key_num (env : InputEnv) (key : Key) : Option KeyNum :=
  (List.range env.nums.kKeyExtendedControlNum).find? (fun i => decide (key = env.prefs_key i))

/-- Method `PlayerShip::active` (player-ship.cpp:560-563). -/
def PlayerShip.active (env : InputEnv) : Bool :=
  match env.ship with
  | none => false
  | some player => player.active ≠ 0 && (player.attributes &&& env.kIsPlayerShip) ≠ 0

/-- Method `KeyMap::set(key, value)`. -/
def PlayerShip.set_key (s : PlayerShip) (key : Key) (value : Bool) : PlayerShip :=
  { s with _keys := fun k => if k = key then value else s._keys k }

/-- The `switch` of `PlayerShip::key_down` (player-ship.cpp:298-311). -/
def key_down_time (K : KeyNums) (now : Int) (key : KeyNum) (s : PlayerShip) : PlayerShip :=
  let slot := fun (i : Nat) =>
    { s with gHotKeyTime := fun j => if j = i then now else s.gHotKeyTime j }
  if key = K.kHotKey1Num then slot 0
  else if key = K.kHotKey2Num then slot 1
  else if key = K.kHotKey3Num then slot 2
  else if key = K.kHotKey4Num then slot 3
  else if key = K.kHotKey5Num then slot 4
  else if key = K.kHotKey6Num then slot 5
  else if key = K.kHotKey7Num then slot 6
  else if key = K.kHotKey8Num then slot 7
  else if key = K.kHotKey9Num then slot 8
  else if key = K.kHotKey10Num then slot 9
  else if key = K.kDestinationKeyNum then { s with gDestKeyTime := now }
  else s

/-- Method `PlayerShip::key_down` (player-ship.cpp:289-311) at the time `now`. -/
def PlayerShip.key_down (env : InputEnv) (now : Int) (s : PlayerShip) (key : Key) :
    PlayerShip :=
  let s := s.set_key key true
  if !PlayerShip.active env then s
  else
    match key_num env key with
    | none => s
    | some k =>
      let s := key_down_time env.nums now k s
      { s with _player_events := s._player_events ++ [PlayerEvent.key_down k] }

/-- The `switch` of `PlayerShip::key_up` (player-ship.cpp:322-338): the value of
`long_hold`. -/
def key_up_long_hold (K : KeyNums) (now : Int) (key : KeyNum) (s : PlayerShip) : Bool :=
  if key = K.kHotKey1Num then decide (now ≥ s.gHotKeyTime 0 + kHotKeyHoldDuration)
  else if key = K.kHotKey2Num then decide (now ≥ s.gHotKeyTime 1 + kHotKeyHoldDuration)
  else if key = K.kHotKey3Num then decide (now ≥ s.gHotKeyTime 2 + kHotKeyHoldDuration)
  else if key = K.kHotKey4Num then decide (now ≥ s.gHotKeyTime 3 + kHotKeyHoldDuration)
  else if key = K.kHotKey5Num then decide (now ≥ s.gHotKeyTime 4 + kHotKeyHoldDuration)
  else if key = K.kHotKey6Num then decide (now ≥ s.gHotKeyTime 5 + kHotKeyHoldDuration)
  else if key = K.kHotKey7Num then decide (now ≥ s.gHotKeyTime 6 + kHotKeyHoldDuration)
  else if key = K.kHotKey8Num then decide (now ≥ s.gHotKeyTime 7 + kHotKeyHoldDuration)
  else if key = K.kHotKey9Num then decide (now ≥ s.gHotKeyTime 8 + kHotKeyHoldDuration)
  else if key = K.kHotKey10Num then decide (now ≥ s.gHotKeyTime 9 + kHotKeyHoldDuration)
  else if key = K.kDestinationKeyNum then
    decide (now ≥ s.gDestKeyTime + kDestKeyHoldDuration)
  else false

/-- Method `PlayerShip::key_up` (player-ship.cpp:313-345) at the time `now`. -/
def PlayerShip.key_up (env : InputEnv) (now : Int) (s : PlayerShip) (key : Key) :
    PlayerShip :=
  let s := s.set_key key false
  if !PlayerShip.active env then s
  else
    match key_num env key with
    | none => s
    | some k =>
      if key_up_long_hold env.nums now k s then
        { s with _player_events := s._player_events ++ [PlayerEvent.long_key_up k] }
      else
        { s with _player_events := s._player_events ++ [PlayerEvent.key_up k] }

/-! ## Styled text: predicates of the statements about the layout -/

/-- Two inline pictures that differ at most in where they stand on the page: the
same object and picture, the same left and right edges and the same height. -/
def SameShape (a b : inlinePictType) : Prop :=
  a.object = b.object ∧ a.picture = b.picture ∧ a.bounds.left = b.bounds.left
    ∧ a.bounds.right = b.bounds.right ∧ a.bounds.height = b.bounds.height

/-- Two streams that hold the same entries, with the same bounds before index
`n`. -/
def Agree (n : Nat) (A B : List StyledChar) : Prop :=
  A.map StyledChar.unplaced = B.map StyledChar.unplaced ∧ ∀ j, j < n → A[j]? = B[j]?

/-- The inline pictures of two runs of the layout that started with the inline
pictures `A0` and `B0`: as many in both, each of the same shape in both, and each
the same in both or untouched in both. -/
def PictRel (A0 B0 A B : List inlinePictType) : Prop :=
  A.length = B.length
    ∧ (∀ k : Nat, A[k]? = B[k]? ∨ (A[k]? = A0[k]? ∧ B[k]? = B0[k]?))
    ∧ (∀ (k : Nat) (a b : inlinePictType), A[k]? = some a → B[k]? = some b → SameShape a b)

/-- Two states of the loop of `rewrap` before its iteration `i`, of two runs that
started with the inline pictures `A0` and `B0`: the same cursor and width, streams
that agree before `i`, and related inline pictures. -/
def Lock (A0 B0 : List inlinePictType) (i : Nat) (A B : Layout) : Prop :=
  A.h = B.h ∧ A.v = B.v ∧ A.auto_width = B.auto_width
    ∧ Agree i A.chars B.chars
    ∧ PictRel A0 B0 A.inline_picts B.inline_picts

/-- Two results that fail alike or return states related by `R`. -/
def ExRel {σ ε : Type} (R : σ → σ → Prop) (x y : Except ε σ) : Prop :=
  match x, y with
  | Except.ok a, Except.ok b => R a b
  | Except.error e, Except.error e' => e = e'
  | _, _ => False

/-- A property of what a computation returns, when it returns. -/
def WhenOk {σ ε : Type} (Q : σ → Prop) (x : Except ε σ) : Prop :=
  match x with
  | Except.ok a => Q a
  | Except.error _ => True

/-- An entry of a word: one tagged NONE or NO_BREAK. -/
def StyledChar.in_word (c : StyledChar) : Bool :=
  decide (c.special = SpecialChar.NONE) || decide (c.special = SpecialChar.NO_BREAK)

/-- Whether the entry at index `j` of a stream is an entry of a word. -/
def in_word_at (chars : List StyledChar) (j : Nat) : Bool :=
  match chars[j]? with
  | some c => c.in_word
  | none => false

/-- The width of the glyph of the entry at index `j` of a stream: what
`char_width(*_chars[j].it)` returns, 0 where there is no entry or no code point. -/
def glyph_width (metrics : WrapMetrics) (text : List Char) (chars : List StyledChar)
    (j : Nat) : Int :=
  match chars[j]? with
  | some c =>
    match text[c.it]? with
    | some r => metrics.font.char_width r
    | none => 0
  | none => 0

/-- The sum of the `n` widths `w a`, ..., `w (a + n - 1)`. -/
def span_width (w : Nat → Int) (a : Nat) : Nat → Int
  | 0 => 0
  | n + 1 => span_width w a n + w (a + n)

/-- Where the cursor of `rewrap` stands after an entry `c` of a word whose glyph is
`w` wide: right of the glyph on the same line when the glyph ends before the wrap
distance, and otherwise at the margin one line lower; the right edge of the entry
is where the cursor stands. -/
def CursorAfter (metrics : WrapMetrics) (w : Int) (c : StyledChar) (h v : Int) : Prop :=
  (c.bounds.left + w < metrics.width - metrics.side_margin →
      h = c.bounds.left + w ∧ v = c.bounds.top ∧ c.bounds.right = h)
    ∧ (metrics.width - metrics.side_margin ≤ c.bounds.left + w →
        h = metrics.side_margin
          ∧ v = c.bounds.top + (metrics.font.height + metrics.line_spacing)
          ∧ c.bounds.right = h)

/-- An entry `b` that follows an entry `a` of a word whose glyph is `w` wide, the
word being broken where a line is full: `b` stands right of the glyph of `a` on the
same line when that glyph ends before the wrap distance, and otherwise at the
margin one line lower. -/
def BrokenAt (metrics : WrapMetrics) (w : Int) (a b : StyledChar) : Prop :=
  (a.bounds.left + w < metrics.width - metrics.side_margin →
      b.bounds.top = a.bounds.top ∧ b.bounds.left = a.bounds.left + w
        ∧ a.bounds.right = b.bounds.left)
    ∧ (metrics.width - metrics.side_margin ≤ a.bounds.left + w →
        b.bounds.top = a.bounds.top + (metrics.font.height + metrics.line_spacing)
          ∧ b.bounds.left = metrics.side_margin
          ∧ a.bounds.right = metrics.side_margin)

/-- What the loop of `rewrap` keeps, before its iteration `i`, on a stream `stream`
in which no word is moved down: the stream itself, the cursor at the margin of the
first line at the start and after the last entry otherwise, every entry laid out
where the cursor stood after its predecessor, and the first entry at the margin of
the first line. -/
def Broken (metrics : WrapMetrics) (text : List Char) (stream : List StyledChar) (i : Nat)
    (s : Layout) : Prop :=
  s.chars.map StyledChar.unplaced = stream.map StyledChar.unplaced
    ∧ (i = 0 → s.h = metrics.side_margin ∧ s.v = 0)
    ∧ (∀ (j : Nat) (c : StyledChar), j + 1 = i → s.chars[j]? = some c → c.in_word = true →
        CursorAfter metrics (glyph_width metrics text stream j) c s.h s.v)
    ∧ (∀ (j : Nat) (a b : StyledChar), j + 1 < i → s.chars[j]? = some a →
        s.chars[j + 1]? = some b → a.in_word = true → b.in_word = true →
        BrokenAt metrics (glyph_width metrics text stream j) a b)
    ∧ (∀ c : StyledChar, 0 < i → s.chars[0]? = some c →
        c.bounds.left = metrics.side_margin ∧ c.bounds.top = 0)

/-- The entry `c` moved to the point `(h, v)`, as `move_word_down` moves it
(styled-text.cpp:454). -/
def StyledChar.moved_to (c : StyledChar) (h v : Int) : StyledChar :=
  { c with bounds := Rect.of_origin ⟨h, v⟩ c.bounds.size }

/-- Every two consecutive entries of words among the first `n` entries of a stream
stand side by side on one line. -/
def Joined (n : Nat) (chars : List StyledChar) : Prop :=
  ∀ (j : Nat) (x y : StyledChar), j + 1 < n → chars[j]? = some x → chars[j + 1]? = some y →
    x.in_word = true → y.in_word = true →
    y.bounds.top = x.bounds.top ∧ y.bounds.left = x.bounds.right

/-- What the loop of `rewrap` keeps, before its iteration `i`, on a stream `stream`
whose words fit in a line: the stream itself; and for the entries of a word from
some index `a` on that the loop is in, laid out from `X` on, that they stand on
the line of the cursor one after the other, the cursor after them; that `X` is not
left of the margin and is the margin at the start of a line; and that the entries
of the words before `a` stand side by side. -/
def Whole (metrics : WrapMetrics) (text : List Char) (stream : List StyledChar) (i : Nat)
    (s : Layout) : Prop :=
  s.chars.map StyledChar.unplaced = stream.map StyledChar.unplaced
    ∧ ∃ (a : Nat) (X : Int), a ≤ i
        ∧ (∀ j, a ≤ j → j < i → in_word_at stream j = true)
        ∧ (a = 0 ∨ in_word_at stream (a - 1) = false)
        ∧ metrics.side_margin ≤ X
        ∧ (a = 0 → X = metrics.side_margin)
        ∧ (∀ c : StyledChar, 0 < a → stream[a - 1]? = some c →
            c.special = SpecialChar.LINE_BREAK → X = metrics.side_margin)
        ∧ s.h = X + span_width (glyph_width metrics text stream) a (i - a)
        ∧ (∀ j, a ≤ j → j < i → ∃ c, s.chars[j]? = some c ∧ c.bounds.top = s.v
              ∧ c.bounds.left = X + span_width (glyph_width metrics text stream) a (j - a)
              ∧ c.bounds.right = c.bounds.left + glyph_width metrics text stream j)
        ∧ Joined a s.chars

/-! ## The player's ship: constants and the state of the game -/

/-- Enumeration `DestKeyState` (player-ship.cpp:74-78). -/
inductive DestKeyState where
  | DEST_KEY_UP
  | DEST_KEY_DOWN
  | DEST_KEY_BLOCKED
  deriving DecidableEq, Repr

/-- Enumeration `HotKeyState` (player-ship.cpp:80-84). -/
inductive HotKeyState where
  | HOT_KEY_UP
  | HOT_KEY_SELECT
  | HOT_KEY_TARGET
  deriving DecidableEq, Repr

/-- The allegiances `pick_object` is called with. -/
inductive Allegiance where
  | FRIENDLY
  | HOSTILE
  | FRIENDLY_OR_HOSTILE
  deriving DecidableEq, Repr

/-- The buttons of `Gamepad::Button` that player-ship.cpp names; `other` is any
further button. -/
inductive Button where
  | A
  | B
  | X
  | Y
  | LB
  | RB
  | LSB
  | LT
  | RT
  | BACK
  | UP
  | DOWN
  | LEFT
  | RIGHT
  | other (n : Nat)
  deriving DecidableEq, Repr

/-- Modelled from the spec: the level types `PlayerShipBodyExpire` tells apart,
`Level::Type::SOLO`, `Level::Type::NET`, and any other. -/
inductive LevelType where
  | SOLO
  | NET
  | other (n : Nat)
  deriving DecidableEq, Repr

/-- The three labels of the player: `g.control_label`, `g.target_label` and
`g.send_label`. -/
inductive LabelId where
  | control_label
  | target_label
  | send_label
  deriving DecidableEq, Repr

/-- The string `name_with_hot_key_suffix` returns: the long name of the object
numbered `object`, followed by the long name of the key `key` between `<` and `>`
when there is one. -/
structure HotKeyName where
  object : Nat
  key : Option Key
  deriving DecidableEq, Repr

/-- Calls to collaborators outside player-ship.cpp, recorded in the order made. -/
inductive ShipCall where
  | sound_click
  | sound_select
  | sound_order
  | sound_klaxon
  | sound_loud_klaxon
  | Messages_zoom (zoom : Int)
  | Messages_advance
  | Messages_shields_low
  | transfer_control (adm : Handle)
  | SetObjectDestination (object : Handle)
  | starfield_reset
  | set_object (label : LabelId) (object : Handle)
  | set_age (label : LabelId)
  | set_string (label : LabelId) (name : HotKeyName)
  | minicomputer_handle_keys (events : List PlayerEvent)
  | GetManualSelectObject (origin : Handle) (direction : Int) (attributes nonattributes : Nat)
      (huge_distance : Nat) (select_ship : Handle) (allegiance : Allegiance)
  deriving DecidableEq, Repr

/-- The state of the game that player-ship.cpp reads and writes.

* `objects n` is the object of the handle `some n`;
* `ship`, `admiral`, `root`, `key_mask`, `zoom`, `time`, `game_over`,
  `game_over_at`, `victory_text` are the members of `g` of the same name, times in
  ticks;
* `flagship`, `control`, `target` are `Admiral::flagship()`, `control()` and
  `target()` by the number of the admiral;
* `hotKey_object`, `hotKey_objectID`, `lastSelectedObject`,
  `lastSelectedObjectID`, `next_klaxon` are members of `globals()`;
* `gDestKeyState`, `gHotKeyState`, `gPreviousZoomMode` are the file-static
  variables of the same name;
* `level_type` is `g.level->type()` and the three texts are `solo.no_ships`,
  `net.own_no_ships` and `net.foe_no_ships` of `g.level`;
* `calls` are the calls made to collaborators so far. -/
structure Game where
  objects : Nat → SpaceObject
  ship : Handle
  admiral : Handle
  root : Handle
  flagship : Nat → Handle
  control : Nat → Handle
  target : Nat → Handle
  key_mask : Nat
  zoom : Int
  time : Int
  next_klaxon : Int
  game_over : Bool
  game_over_at : Int
  victory_text : Option String
  hotKey_object : Nat → Handle
  hotKey_objectID : Nat → Int
  lastSelectedObject : Handle
  lastSelectedObjectID : Int
  gDestKeyState : DestKeyState
  gHotKeyState : Nat → HotKeyState
  gPreviousZoomMode : Int
  level_type : LevelType
  solo_no_ships : String
  net_own_no_ships : String
  net_foe_no_ships : String
  calls : List ShipCall

/-- The constants, macros and helpers of headers that are not part of the sources,
as far as player-ship.cpp names them; they are parameters of the embedding.

* `nums` and the fields ending in `KeyNum` are control numbers, `KEY_COUNT` and
  `kKeyControlNum` counts of controls, `kHotKeyNum` the number of hot key slots;
* `prefs_key i` is `sys.prefs->key(i)` and `Key_NONE` is `Key::NONE`;
* the fields ending in `Key` are bits of a key bitmask, `kShortcutZoomMask` and
  `kMouseMask` bits of `g.key_mask`;
* `kIsPlayerShip` to `kCanAcceptDestination` are attribute bits, `kObjectInUse` a
  value of `active`, `kWarpingPresence` a value of `presenceState`;
* the fields starting with `Zoom_` are the values of the enumerators of `Zoom`;
* `NO_BUMPER` to `TARGET_BUMPER_OVERRIDE` are the values of the states of the
  bumpers of the gamepad;
* `secs n` is the duration of `n` seconds in ticks;
* `mAngleDifference` is the macro and `GetManualSelectObject` the function of the
  same name, the latter as a function of the state of the game and its
  arguments. -/
structure Consts where
  nums : KeyNums
  prefs_key : Nat → Key
  Key_NONE : Key
  kFirstHotKeyNum : KeyNum
  kHotKeyNum : Nat
  kUpKeyNum : KeyNum
  KEY_COUNT : Nat
  kKeyControlNum : Nat
  kZoomOutKeyNum : KeyNum
  kZoomInKeyNum : KeyNum
  kScale121KeyNum : KeyNum
  kScale122KeyNum : KeyNum
  kScale124KeyNum : KeyNum
  kScale1216KeyNum : KeyNum
  kScaleHostileKeyNum : KeyNum
  kScaleObjectKeyNum : KeyNum
  kScaleAllKeyNum : KeyNum
  kTransferKeyNum : KeyNum
  kMessageNextKeyNum : KeyNum
  kSelectFriendKeyNum : KeyNum
  kSelectFoeKeyNum : KeyNum
  kSelectBaseKeyNum : KeyNum
  kOrderKeyNum : KeyNum
  kWarpKeyNum : KeyNum
  kAutoPilotKeyNum : KeyNum
  kCompUpKeyNum : KeyNum
  kCompDownKeyNum : KeyNum
  kCompAcceptKeyNum : KeyNum
  kCompCancelKeyNum : KeyNum
  kUpKey : Nat
  kDownKey : Nat
  kLeftKey : Nat
  kRightKey : Nat
  kSpecialKey : Nat
  kPulseKey : Nat
  kBeamKey : Nat
  kWarpKey : Nat
  kAutoPilotKey : Nat
  kAdoptTargetKey : Nat
  kGiveCommandKey : Nat
  kZoomInKey : Nat
  kZoomOutKey : Nat
  kShortcutZoomMask : Nat
  kMouseMask : Nat
  kIsPlayerShip : Nat
  kOnAutoPilot : Nat
  kCanBeDestination : Nat
  kIsDestination : Nat
  kCanThink : Nat
  kStaticDestination : Nat
  kCanAcceptDestination : Nat
  kObjectInUse : Nat
  kWarpingPresence : Nat
  kMaximumRelevantDistance : Nat
  Zoom_DOUBLE : Int
  Zoom_ACTUAL : Int
  Zoom_QUARTER : Int
  Zoom_SIXTEENTH : Int
  Zoom_FOE : Int
  Zoom_OBJECT : Int
  Zoom_ALL : Int
  NO_BUMPER : Nat
  SELECT_BUMPER : Nat
  TARGET_BUMPER : Nat
  OVERRIDE : Nat
  SELECT_BUMPER_OVERRIDE : Nat
  TARGET_BUMPER_OVERRIDE : Nat
  secs : Int → Int
  mAngleDifference : Int → Int → Int
  GetManualSelectObject : Game → Handle → Int → Nat → Nat → Nat → Handle → Allegiance → Handle

/-- Constant `kKlaxonInterval` (player-ship.cpp:65), in ticks. -/
def kKlaxonInterval : Int := 125

/-- Append collaborator calls to the record. -/
def Game.call (g : Game) (cs : List ShipCall) : Game :=
  { g with calls := g.calls ++ cs }

/-- Dereference of a `Handle<SpaceObject>`: the object, undefined for `none()`. -/
def Game.deref (g : Game) (h : Handle) : Except Fault SpaceObject :=
  match h with
  | none => Except.error Fault.null_handle
  | some n => Except.ok (g.objects n)

/-- Assignment through a handle: the object numbered `n` becomes `o`. -/
def Game.set_object (g : Game) (n : Nat) (o : SpaceObject) : Game :=
  { g with objects := fun m => if m = n then o else g.objects m }

/-- Method `Admiral::set_flagship` of the admiral numbered `a`. -/
def Game.set_flagship (g : Game) (a : Nat) (h : Handle) : Game :=
  { g with flagship := fun b => if b = a then h else g.flagship b }

/-- Method `Admiral::set_control` of the admiral numbered `a`. -/
def Game.set_control (g : Game) (a : Nat) (h : Handle) : Game :=
  { g with control := fun b => if b = a then h else g.control b }

/-- Method `Admiral::set_target` of the admiral numbered `a`. -/
def Game.set_target (g : Game) (a : Nat) (h : Handle) : Game :=
  { g with target := fun b => if b = a then h else g.target b }

/-- Statement `if (gDestKeyState == DEST_KEY_DOWN) gDestKeyState = DEST_KEY_BLOCKED`. -/
def Game.block_dest_key (g : Game) : Game :=
  if g.gDestKeyState = DestKeyState.DEST_KEY_DOWN then
    { g with gDestKeyState := DestKeyState.DEST_KEY_BLOCKED }
  else g

/-- What `PlayerShip::active`, `key_down` and `key_up` read of the game. -/
def Game.env (C : Consts) (g : Game) : InputEnv :=
  { nums := C.nums, prefs_key := C.prefs_key, kIsPlayerShip := C.kIsPlayerShip,
    ship := g.ship.map g.objects }

/-- The expression `a & ~b` on numbers that are not negative: `a` without the bits
of `b`. -/
def and_not (a b : Nat) : Nat := a ^^^ (a &&& b)

/-- Template `ABS<int>`: the argument is narrowed to `int`. -/
def ABS_int (x : Int) : Int :=
  if to_int32 x ≥ 0 then to_int32 x else - to_int32 x

/-- Conversion of an `int` to `uint32_t`. -/
def to_uint32 (x : Int) : Nat := (x % 4294967296).toNat

/-- Modelled from the spec: `MyWideMul`, the 64-bit wide multiply of two numbers
into a 64-bit unsigned result. -/
def MyWideMul (a b : Nat) : Nat := (a * b) % 2 ^ 64

/-! ## The player's ship: zoom, selection and hot keys -/

/-- Function `zoom_to` (player-ship.cpp:170-176). -/
def zoom_to (zoom : Int) (g : Game) : Game :=
  if g.zoom ≠ zoom then
    ({ g with zoom := zoom }).call [ShipCall.sound_click, ShipCall.Messages_zoom zoom]
  else g

/-- Function `zoom_shortcut` (player-ship.cpp:178-189). -/
def zoom_shortcut (C : Consts) (zoom : Int) (g : Game) : Game :=
  if g.key_mask &&& C.kShortcutZoomMask ≠ 0 then g
  else
    let previous := g.gPreviousZoomMode
    let g := { g with gPreviousZoomMode := g.zoom }
    if g.zoom = zoom then zoom_to previous g else zoom_to zoom g

/-- Function `zoom_in` (player-ship.cpp:191-198). -/
def zoom_in (C : Consts) (g : Game) : Game :=
  if g.key_mask &&& C.kZoomInKey ≠ 0 then g
  else if g.zoom > C.Zoom_DOUBLE then zoom_to (g.zoom - 1) g
  else g

/-- Function `zoom_out` (player-ship.cpp:200-207). -/
def zoom_out (C : Consts) (g : Game) : Game :=
  if g.key_mask &&& C.kZoomOutKey ≠ 0 then g
  else if g.zoom < C.Zoom_ALL then zoom_to (g.zoom + 1) g
  else g

/-- Function `engage_autopilot` (player-ship.cpp:209-215). -/
def engage_autopilot (C : Consts) (g : Game) : Except Fault Game :=
  match g.ship with
  | none => Except.error Fault.null_handle
  | some n =>
    let player := g.objects n
    let player :=
      if player.attributes &&& C.kOnAutoPilot = 0 then
        { player with keysDown := player.keysDown ||| C.kAutoPilotKey }
      else player
    Except.ok (g.set_object n { player with keysDown := player.keysDown ||| C.kAdoptTargetKey })

/-- The test `!object.get() && !object->active` of `HotKey_GetFromObject`
(player-ship.cpp:1084): the right operand is evaluated when the left one holds,
that is for the handle `none()`. -/
def HotKey_guard (g : Game) (object : Handle) : Except Fault Bool :=
  if object.isNone then
    match g.deref object with
    | Except.error e => Except.error e
    | Except.ok o => Except.ok (decide (o.active = 0))
  else Except.ok false

/-- Function `HotKey_GetFromObject` (player-ship.cpp:1083-1095). -/
def HotKey_GetFromObject (C : Consts) (g : Game) (object : Handle) : Except Fault Int :=
  match HotKey_guard g object with
  | Except.error e => Except.error e
  | Except.ok true => Except.ok (-1)
  | Except.ok false =>
    match g.deref object with
    | Except.error e => Except.error e
    | Except.ok o =>
      match (List.range C.kHotKeyNum).find? (fun i =>
          decide (g.hotKey_object i = object) && decide (g.hotKey_objectID i = o.id)) with
      | some i => Except.ok (i : Int)
      | none => Except.ok (-1)

/-- Function `name_with_hot_key_suffix` (player-ship.cpp:94-108). -/
def name_with_hot_key_suffix (C : Consts) (g : Game) (space_object : Handle) :
    Except Fault HotKeyName :=
  match HotKey_GetFromObject C g space_object with
  | Except.error e => Except.error e
  | Except.ok h =>
    match space_object with
    | none => Except.error Fault.null_handle
    | some n =>
      if h < 0 then Except.ok ⟨n, none⟩
      else
        let keyNum := C.prefs_key (h.toNat + C.kFirstHotKeyNum)
        if keyNum = C.Key_NONE then Except.ok ⟨n, none⟩
        else Except.ok ⟨n, some keyNum⟩

/-- The first block of `SetPlayerSelectShip` (player-ship.cpp:937-943): the player's
admiral remembers the object selected last. -/
def select_remember (ship adm : Handle) (g : Game) : Except Fault Game :=
  if adm = g.admiral then
    match g.deref ship with
    | Except.error e => Except.error e
    | Except.ok o =>
      Except.ok
        ({ g with lastSelectedObject := ship, lastSelectedObjectID := o.id }).block_dest_key
  else Except.ok g

/-- The second block of `SetPlayerSelectShip` (player-ship.cpp:944-954) for the
admiral numbered `a`, whose flagship is `flagship`: the object becomes the target
or the control object, and the label to update is returned. -/
def select_assign (C : Consts) (ship : Handle) (target : Bool) (a : Nat) (flagship : Handle)
    (g : Game) : Except Fault (Game × LabelId) :=
  if target then
    let g := g.set_target a ship
    match g.deref flagship with
    | Except.error e => Except.error e
    | Except.ok f =>
      if f.attributes &&& C.kOnAutoPilot = 0 then
        Except.ok (g.call [ShipCall.SetObjectDestination flagship], LabelId.target_label)
      else Except.ok (g, LabelId.target_label)
  else Except.ok (g.set_control a ship, LabelId.control_label)

/-- The last block of `SetPlayerSelectShip` (player-ship.cpp:956-963): the label of
the player's admiral is updated. -/
def select_label (C : Consts) (ship adm : Handle) (label : LabelId) (g : Game) :
    Except Fault Game :=
  if adm = g.admiral then
    let g := g.call [ShipCall.sound_select, ShipCall.set_object label ship]
    let g := if ship = g.ship then g.call [ShipCall.set_age label] else g
    match name_with_hot_key_suffix C g ship with
    | Except.error e => Except.error e
    | Except.ok name => Except.ok (g.call [ShipCall.set_string label name])
  else Except.ok g

/-- Function `SetPlayerSelectShip` (player-ship.cpp:933-964). -/
def SetPlayerSelectShip (C : Consts) (ship : Handle) (target : Bool) (adm : Handle)
    (g : Game) : Except Fault Game :=
  match adm with
  | none => Except.error Fault.null_handle
  | some a =>
    let flagship := g.flagship a
    match select_remember ship adm g with
    | Except.error e => Except.error e
    | Except.ok g =>
      match select_assign C ship target a flagship g with
      | Except.error e => Except.error e
      | Except.ok gl => select_label C ship adm gl.2 gl.1

/-- The squared distance `pick_object` stores in `select_ship->distanceFromPlayer`
(player-ship.cpp:222-237): `dcalc` and `distance` are 32-bit unsigned numbers, the
sum of the wide products a 64-bit one, and the sum of the plain products a 32-bit
one. -/
def pick_object_distance (C : Consts) (origin_ship select_ship : SpaceObject) : Nat :=
  let dcalc := to_uint32 (ABS_int (origin_ship.location.h - select_ship.location.h))
  let distance := to_uint32 (ABS_int (origin_ship.location.v - select_ship.location.v))
  if dcalc > C.kMaximumRelevantDistance ∨ distance > C.kMaximumRelevantDistance then
    let huge_distance := MyWideMul dcalc dcalc
    (MyWideMul distance distance + huge_distance) % 2 ^ 64
  else (distance * distance + dcalc * dcalc) % 2 ^ 32

/-- Function `pick_object` (player-ship.cpp:217-254). -/
def pick_object (C : Consts) (origin_ship : Handle) (direction : Int) (destination : Bool)
    (attributes nonattributes : Nat) (select_ship : Handle) (allegiance : Allegiance)
    (g : Game) : Except Fault Game :=
  let first : Except Fault (Game × Nat) :=
    match select_ship with
    | some n =>
      match g.deref origin_ship with
      | Except.error e => Except.error e
      | Except.ok origin =>
        let d := pick_object_distance C origin (g.objects n)
        Except.ok (g.set_object n { g.objects n with distanceFromPlayer := d }, d)
    | none => Except.ok (g, 0)
  match first with
  | Except.error e => Except.error e
  | Except.ok (g, huge_distance) =>
    let found := C.GetManualSelectObject g origin_ship direction attributes nonattributes
      huge_distance select_ship allegiance
    let g := g.call [ShipCall.GetManualSelectObject origin_ship direction attributes
      nonattributes huge_distance select_ship allegiance]
    if found.isSome then
      if destination then SetPlayerSelectShip C found true g.admiral g
      else SetPlayerSelectShip C found false g.admiral g
    else Except.ok g

/-- The handle `g.admiral->control()`. -/
def Game.admiral_control (g : Game) : Except Fault Handle :=
  match g.admiral with
  | none => Except.error Fault.null_handle
  | some a => Except.ok (g.control a)

/-- The handle `g.admiral->target()`. -/
def Game.admiral_target (g : Game) : Except Fault Handle :=
  match g.admiral with
  | none => Except.error Fault.null_handle
  | some a => Except.ok (g.target a)

/-- Function `select_friendly` (player-ship.cpp:256-260). -/
def select_friendly (C : Consts) (origin_ship : Handle) (direction : Int) (g : Game) :
    Except Fault Game :=
  match g.admiral_control with
  | Except.error e => Except.error e
  | Except.ok control =>
    pick_object C origin_ship direction false C.kCanBeDestination C.kIsDestination control
      Allegiance.FRIENDLY g

/-- Function `target_friendly` (player-ship.cpp:262-266). -/
def target_friendly (C : Consts) (origin_ship : Handle) (direction : Int) (g : Game) :
    Except Fault Game :=
  match g.admiral_target with
  | Except.error e => Except.error e
  | Except.ok target =>
    pick_object C origin_ship direction true C.kCanBeDestination C.kIsDestination target
      Allegiance.FRIENDLY g

/-- Function `target_hostile` (player-ship.cpp:268-272). -/
def target_hostile (C : Consts) (origin_ship : Handle) (direction : Int) (g : Game) :
    Except Fault Game :=
  match g.admiral_target with
  | Except.error e => Except.error e
  | Except.ok target =>
    pick_object C origin_ship direction true C.kCanBeDestination C.kIsDestination target
      Allegiance.HOSTILE g

/-- Function `select_base` (player-ship.cpp:274-276). -/
def select_base (C : Consts) (origin_ship : Handle) (direction : Int) (g : Game) :
    Except Fault Game :=
  match g.admiral_control with
  | Except.error e => Except.error e
  | Except.ok control =>
    pick_object C origin_ship direction false C.kIsDestination 0 control
      Allegiance.FRIENDLY g

/-- Function `target_base` (player-ship.cpp:278-282). -/
def target_base (C : Consts) (origin_ship : Handle) (direction : Int) (g : Game) :
    Except Fault Game :=
  match g.admiral_target with
  | Except.error e => Except.error e
  | Except.ok target =>
    pick_object C origin_ship direction true C.kIsDestination 0 target
      Allegiance.FRIENDLY_OR_HOSTILE g

/-- Function `target_self` (player-ship.cpp:284). -/
def target_self (C : Consts) (g : Game) : Except Fault Game :=
  SetPlayerSelectShip C g.ship true g.admiral g

/-- The first block of `Update_LabelStrings_ForHotKeyChange`
(player-ship.cpp:1098-1105): the label of the target. -/
def update_target_label (C : Consts) (g : Game) : Except Fault Game :=
  match g.admiral_target with
  | Except.error e => Except.error e
  | Except.ok target =>
    if target.isSome then
      let g := g.call [ShipCall.set_object LabelId.target_label target]
      let g := if target = g.ship then g.call [ShipCall.set_age LabelId.target_label] else g
      match name_with_hot_key_suffix C g target with
      | Except.error e => Except.error e
      | Except.ok name => Except.ok (g.call [ShipCall.set_string LabelId.target_label name])
    else Except.ok g

/-- The second block of `Update_LabelStrings_ForHotKeyChange`
(player-ship.cpp:1107-1115): the label of the control object. -/
def update_control_label (C : Consts) (g : Game) : Except Fault Game :=
  match g.admiral_control with
  | Except.error e => Except.error e
  | Except.ok control =>
    if control.isSome then
      let g := g.call [ShipCall.set_object LabelId.control_label control]
      let g :=
        if control = g.ship then g.call [ShipCall.set_age LabelId.control_label] else g
      let g := g.call [ShipCall.sound_select]
      match name_with_hot_key_suffix C g control with
      | Except.error e => Except.error e
      | Except.ok name => Except.ok (g.call [ShipCall.set_string LabelId.control_label name])
    else Except.ok g

/-- Function `Update_LabelStrings_ForHotKeyChange` (player-ship.cpp:1097-1116). -/
def Update_LabelStrings_ForHotKeyChange (C : Consts) (g : Game) : Except Fault Game :=
  match update_target_label C g with
  | Except.error e => Except.error e
  | Except.ok g => update_control_label C g

/-- The body of the loop of `handle_destination_key` (player-ship.cpp:566-590) for
the event `e`. -/
def handle_destination_key_event (C : Consts) (e : PlayerEvent) (g : Game) :
    Except Fault Game :=
  match e.type with
  | PlayerEventType.KEY_DOWN =>
    if e.key = C.nums.kDestinationKeyNum then
      Except.ok { g with gDestKeyState := DestKeyState.DEST_KEY_DOWN }
    else Except.ok g
  | PlayerEventType.KEY_UP =>
    if e.key = C.nums.kDestinationKeyNum then
      Except.ok { g with gDestKeyState := DestKeyState.DEST_KEY_UP }
    else Except.ok g
  | PlayerEventType.LONG_KEY_UP =>
    if e.key = C.nums.kDestinationKeyNum then
      let g1 : Except Fault Game :=
        if g.gDestKeyState = DestKeyState.DEST_KEY_DOWN then
          match g.deref g.ship with
          | Except.error e => Except.error e
          | Except.ok ship =>
            if ship.attributes &&& C.kCanBeDestination ≠ 0 then target_self C g
            else Except.ok g
        else Except.ok g
      match g1 with
      | Except.error e => Except.error e
      | Except.ok g => Except.ok { g with gDestKeyState := DestKeyState.DEST_KEY_UP }
    else Except.ok g

/-- Function `handle_destination_key` (player-ship.cpp:565-591). -/
def handle_destination_key (C : Consts) (player_events : List PlayerEvent) (g : Game) :
    Except Fault Game :=
  forEach player_events g (handle_destination_key_event C)

/-- Function `hot_key_index` (player-ship.cpp:593-604). -/
def hot_key_index (C : Consts) (e : PlayerEvent) : Int :=
  match e.type with
  | PlayerEventType.KEY_DOWN | PlayerEventType.KEY_UP | PlayerEventType.LONG_KEY_UP =>
    if C.nums.kHotKey1Num ≤ e.key ∧ e.key ≤ C.nums.kHotKey10Num then
      (e.key : Int) - (C.kFirstHotKeyNum : Int)
    else -1

/-- Assignment `gHotKeyState[i] = state`. -/
def Game.set_hot_key_state (g : Game) (i : Nat) (state : HotKeyState) : Game :=
  { g with gHotKeyState := fun j => if j = i then state else g.gHotKeyState j }

/-- Assignment `globals()->hotKey[i].object = object`. -/
def Game.set_hot_key_object (g : Game) (i : Nat) (object : Handle) : Game :=
  { g with hotKey_object := fun j => if j = i then object else g.hotKey_object j }

/-- Assignment `globals()->hotKey[i].objectID = id`. -/
def Game.set_hot_key_objectID (g : Game) (i : Nat) (id : Int) : Game :=
  { g with hotKey_objectID := fun j => if j = i then id else g.hotKey_objectID j }

/-- The body of the loop of `handle_hotkeys` (player-ship.cpp:607-654) for the event
`e`.  The array `gHotKeyState` has ten entries and `globals()->hotKey` has
`kHotKeyNum`. -/
def handle_hotkeys_event (C : Consts) (e : PlayerEvent) (g : Game) : Except Fault Game :=
  let i := hot_key_index C e
  if i < 0 then Except.ok g
  else
    let i := i.toNat
    if 10 ≤ i then Except.error Fault.hot_key_out_of_range
    else
      match e.type with
      | PlayerEventType.KEY_DOWN =>
        if g.gDestKeyState = DestKeyState.DEST_KEY_UP then
          Except.ok (g.set_hot_key_state i HotKeyState.HOT_KEY_SELECT)
        else Except.ok (g.set_hot_key_state i HotKeyState.HOT_KEY_TARGET)
      | PlayerEventType.KEY_UP =>
        let g := g.set_hot_key_state i HotKeyState.HOT_KEY_UP
        if C.kHotKeyNum ≤ i then Except.error Fault.hot_key_out_of_range
        else
          match g.hotKey_object i with
          | none => Except.ok g
          | some n =>
            let target := decide (g.gHotKeyState i = HotKeyState.HOT_KEY_TARGET)
            let selectShip := g.objects n
            let g1 : Except Fault Game :=
              if selectShip.active ≠ 0 ∧ selectShip.id = g.hotKey_objectID i then
                let is_target := decide (g.gDestKeyState ≠ DestKeyState.DEST_KEY_UP)
                  || decide (selectShip.owner ≠ g.admiral) || target
                SetPlayerSelectShip C (g.hotKey_object i) is_target g.admiral g
              else Except.ok (g.set_hot_key_object i none)
            match g1 with
            | Except.error e => Except.error e
            | Except.ok g => Except.ok g.block_dest_key
      | PlayerEventType.LONG_KEY_UP =>
        let g := g.set_hot_key_state i HotKeyState.HOT_KEY_UP
        match g.lastSelectedObject with
        | none => Except.ok g
        | some n =>
          let selectShip := g.objects n
          if selectShip.active ≠ 0 then
            if C.kHotKeyNum ≤ i then Except.error Fault.hot_key_out_of_range
            else
              let g := g.set_hot_key_object i g.lastSelectedObject
              let g := g.set_hot_key_objectID i g.lastSelectedObjectID
              match Update_LabelStrings_ForHotKeyChange C g with
              | Except.error e => Except.error e
              | Except.ok g => Except.ok (g.call [ShipCall.sound_select])
          else Except.ok g

/-- Function `handle_hotkeys` (player-ship.cpp:606-655). -/
def handle_hotkeys (C : Consts) (player_events : List PlayerEvent) (g : Game) :
    Except Fault Game :=
  forEach player_events g (handle_hotkeys_event C)

/-- The body of the loop of `handle_target_keys` (player-ship.cpp:659-687) for the
event `e`. -/
def handle_target_keys_event (C : Consts) (e : PlayerEvent) (g : Game) : Except Fault Game :=
  if e.type ≠ PlayerEventType.KEY_DOWN then Except.ok g
  else
    let picked : Option (Except Fault Game) :=
      if e.key = C.kSelectFriendKeyNum then
        some (match g.deref g.ship with
          | Except.error e => Except.error e
          | Except.ok ship =>
            if g.gDestKeyState = DestKeyState.DEST_KEY_UP then
              select_friendly C g.ship ship.direction g
            else target_friendly C g.ship ship.direction g)
      else if e.key = C.kSelectFoeKeyNum then
        some (match g.deref g.ship with
          | Except.error e => Except.error e
          | Except.ok ship => target_hostile C g.ship ship.direction g)
      else if e.key = C.kSelectBaseKeyNum then
        some (match g.deref g.ship with
          | Except.error e => Except.error e
          | Except.ok ship =>
            if g.gDestKeyState = DestKeyState.DEST_KEY_UP then
              select_base C g.ship ship.direction g
            else target_base C g.ship ship.direction g)
      else none
    match picked with
    | none => Except.ok g
    | some (Except.error e) => Except.error e
    | some (Except.ok g) => Except.ok g.block_dest_key

/-- Function `handle_target_keys` (player-ship.cpp:657-688). -/
def handle_target_keys (C : Consts) (player_events : List PlayerEvent) (g : Game) :
    Except Fault Game :=
  forEach player_events g (handle_target_keys_event C)

/-- Function `handle_pilot_keys` (player-ship.cpp:690-710). -/
def handle_pilot_keys (C : Consts) (flagship : Handle) (these_keys gamepad_keys : Nat)
    (gamepad_control : Bool) (gamepad_control_direction : Int) (g : Game) :
    Except Fault Game :=
  match flagship with
  | none => Except.error Fault.null_handle
  | some n =>
    let ship := g.objects n
    if ship.attributes &&& C.kOnAutoPilot ≠ 0 then
      if (these_keys ||| gamepad_keys)
          &&& (C.kUpKey ||| C.kDownKey ||| C.kLeftKey ||| C.kRightKey) ≠ 0 then
        Except.ok (g.set_object n { ship with keysDown := these_keys ||| C.kAutoPilotKey })
      else Except.ok g
    else
      let ship := { ship with keysDown := these_keys ||| gamepad_keys }
      let ship :=
        if gamepad_control then
          let difference := C.mAngleDifference gamepad_control_direction ship.direction
          if |difference| < 15 then ship
          else if difference < 0 then { ship with keysDown := ship.keysDown ||| C.kRightKey }
          else { ship with keysDown := ship.keysDown ||| C.kLeftKey }
        else ship
      Except.ok (g.set_object n ship)

/-- The body of the loop of `handle_order_key` (player-ship.cpp:713-717) for the
event `e`. -/
def handle_order_key_event (C : Consts) (e : PlayerEvent) (g : Game) : Except Fault Game :=
  if e.type = PlayerEventType.KEY_DOWN ∧ e.key = C.kOrderKeyNum then
    match g.ship with
    | none => Except.error Fault.null_handle
    | some n =>
      Except.ok (g.set_object n
        { g.objects n with keysDown := (g.objects n).keysDown ||| C.kGiveCommandKey })
  else Except.ok g

/-- Function `handle_order_key` (player-ship.cpp:712-718). -/
def handle_order_key (C : Consts) (player_events : List PlayerEvent) (g : Game) :
    Except Fault Game :=
  forEach player_events g (handle_order_key_event C)

/-- The body of the loop of `handle_autopilot_keys` (player-ship.cpp:721-728) for the
event `e`. -/
def handle_autopilot_keys_event (C : Consts) (e : PlayerEvent) (g : Game) :
    Except Fault Game :=
  if e.type = PlayerEventType.KEY_DOWN ∧ e.key = C.kWarpKeyNum
      ∧ g.gDestKeyState ≠ DestKeyState.DEST_KEY_UP then
    match engage_autopilot C g with
    | Except.error e => Except.error e
    | Except.ok g =>
      match g.ship with
      | none => Except.error Fault.null_handle
      | some n =>
        let g := g.set_object n
          { g.objects n with keysDown := and_not (g.objects n).keysDown C.kWarpKey }
        Except.ok { g with gDestKeyState := DestKeyState.DEST_KEY_BLOCKED }
  else Except.ok g

/-- Function `handle_autopilot_keys` (player-ship.cpp:720-729). -/
def handle_autopilot_keys (C : Consts) (player_events : List PlayerEvent) (g : Game) :
    Except Fault Game :=
  forEach player_events g (handle_autopilot_keys_event C)

/-! ## The player's ship: `update`, the gamepad and the change of ship -/

/-- The events `PlayerShip::update` queues when a message is being entered
(player-ship.cpp:738-742): a KEY_UP for every control from `kUpKeyNum` up to
`KEY_COUNT` whose bit is set in `gTheseKeys`. -/
def update_keys_up (C : Consts) (gTheseKeys : Nat) : List PlayerEvent :=
  ((List.range' C.kUpKeyNum (C.KEY_COUNT - C.kUpKeyNum)).filter
    (fun k => gTheseKeys &&& (1 <<< k) ≠ 0)).map PlayerEvent.key_up

/-- The body of the first loop of `PlayerShip::update` (player-ship.cpp:746-773) for
the event `e`. -/
def update_event (C : Consts) (e : PlayerEvent) (sg : PlayerShip × Game) :
    PlayerShip × Game :=
  match e.type with
  | PlayerEventType.KEY_DOWN =>
    if e.key = C.kZoomOutKeyNum then (sg.1, zoom_out C sg.2)
    else if e.key = C.kZoomInKeyNum then (sg.1, zoom_in C sg.2)
    else if e.key = C.kScale121KeyNum then (sg.1, zoom_shortcut C C.Zoom_ACTUAL sg.2)
    else if e.key = C.kScale122KeyNum then (sg.1, zoom_shortcut C C.Zoom_DOUBLE sg.2)
    else if e.key = C.kScale124KeyNum then (sg.1, zoom_shortcut C C.Zoom_QUARTER sg.2)
    else if e.key = C.kScale1216KeyNum then (sg.1, zoom_shortcut C C.Zoom_SIXTEENTH sg.2)
    else if e.key = C.kScaleHostileKeyNum then (sg.1, zoom_shortcut C C.Zoom_FOE sg.2)
    else if e.key = C.kScaleObjectKeyNum then (sg.1, zoom_shortcut C C.Zoom_OBJECT sg.2)
    else if e.key = C.kScaleAllKeyNum then (sg.1, zoom_shortcut C C.Zoom_ALL sg.2)
    else if e.key = C.kTransferKeyNum then
      (sg.1, sg.2.call [ShipCall.transfer_control sg.2.admiral])
    else if e.key = C.kMessageNextKeyNum then (sg.1, sg.2.call [ShipCall.Messages_advance])
    else if e.key < C.kKeyControlNum then
      ({ sg.1 with gTheseKeys := sg.1.gTheseKeys ||| and_not (1 <<< e.key) sg.2.key_mask },
        sg.2)
    else sg
  | PlayerEventType.KEY_UP | PlayerEventType.LONG_KEY_UP =>
    if e.key < C.kKeyControlNum then
      ({ sg.1 with
          gTheseKeys := and_not sg.1.gTheseKeys (and_not (1 <<< e.key) sg.2.key_mask) },
        sg.2)
    else sg

/-- The warning of low shields in `PlayerShip::update` (player-ship.cpp:852-864) for
the player's ship `ship`; `game_ticks()` is the tick 0. -/
def update_klaxon (ship : SpaceObject) (g : Game) : Game :=
  if ship.health < ship.base_health / 4 then
    if g.time > g.next_klaxon then
      let g :=
        if g.next_klaxon = 0 then g.call [ShipCall.sound_loud_klaxon]
        else g.call [ShipCall.sound_klaxon]
      let g := g.call [ShipCall.Messages_shields_low]
      { g with next_klaxon := g.time + kKlaxonInterval }
    else g
  else { g with next_klaxon := 0 }

/-- The calls of the handlers at the end of `PlayerShip::update`
(player-ship.cpp:870-881). -/
def update_handlers (C : Consts) (s : PlayerShip) (g : Game) : Except Fault Game :=
  let flagship := g.ship
  let g := g.call [ShipCall.minicomputer_handle_keys s._player_events]
  match handle_destination_key C s._player_events g with
  | Except.error e => Except.error e
  | Except.ok g =>
    match handle_hotkeys C s._player_events g with
    | Except.error e => Except.error e
    | Except.ok g =>
      match (if !s._cursor_active then handle_target_keys C s._player_events g
             else Except.ok g) with
      | Except.error e => Except.error e
      | Except.ok g =>
        match handle_pilot_keys C flagship s.gTheseKeys s._gamepad_keys
            (decide (s._gamepad_state = C.NO_BUMPER) && s._control_active)
            s._control_direction g with
        | Except.error e => Except.error e
        | Except.ok g =>
          match handle_order_key C s._player_events g with
          | Except.error e => Except.error e
          | Except.ok g => handle_autopilot_keys C s._player_events g

/-- Method `PlayerShip::update` (player-ship.cpp:731-884). -/
def PlayerShip.update (C : Consts) (enter_message : Bool) (s : PlayerShip) (g : Game) :
    Except Fault (PlayerShip × Game) :=
  if g.ship.isNone then Except.ok (s, g)
  else
    let s :=
      if enter_message then { s with _player_events := update_keys_up C s.gTheseKeys }
      else s
    let sg := s._player_events.foldl (fun sg e => update_event C e sg) (s, g)
    match sg.2.deref sg.2.ship with
    | Except.error e => Except.error e
    | Except.ok ship =>
      if ship.active = 0 then Except.ok sg
      else
        let g := update_klaxon ship sg.2
        if ship.attributes &&& C.kIsPlayerShip = 0 then Except.ok (sg.1, g)
        else
          match update_handlers C sg.1 g with
          | Except.error e => Except.error e
          | Except.ok g => Except.ok ({ sg.1 with _player_events := [] }, g)

/-- The first `switch` of `PlayerShip::gamepad_button_down` (player-ship.cpp:382-398):
the state of the bumpers after LB or RB went down, `none` for another button. -/
def bumper_down (C : Consts) (button : Button) (state : Nat) : Option Nat :=
  match button with
  | Button.LB =>
    if state &&& C.SELECT_BUMPER ≠ 0 then some C.TARGET_BUMPER_OVERRIDE
    else if state &&& C.TARGET_BUMPER = 0 then some C.TARGET_BUMPER
    else some state
  | Button.RB =>
    if state &&& C.TARGET_BUMPER ≠ 0 then some C.SELECT_BUMPER_OVERRIDE
    else if state &&& C.SELECT_BUMPER = 0 then some C.SELECT_BUMPER
    else some state
  | _ => none

/-- Append an event to the queue `_player_events`. -/
def PlayerShip.push (s : PlayerShip) (e : PlayerEvent) : PlayerShip :=
  { s with _player_events := s._player_events ++ [e] }

/-- The `switch` of `PlayerShip::gamepad_button_down` for a bumper that is held
(player-ship.cpp:405-448): `none` when the button falls through. -/
def gamepad_down_held (C : Consts) (s : PlayerShip) (button : Button) (g : Game) :
    Option (Except Fault (PlayerShip × Game)) :=
  let player := g.ship
  match button with
  | Button.A =>
    some (if s._control_active then
        (if s._gamepad_state &&& C.SELECT_BUMPER ≠ 0 then
          select_friendly C player s._control_direction g
        else target_friendly C player s._control_direction g).map (fun g => (s, g))
      else Except.ok (s, g))
  | Button.B =>
    some (if s._control_active then
        if s._gamepad_state &&& C.TARGET_BUMPER ≠ 0 then
          (target_hostile C player s._control_direction g).map (fun g => (s, g))
        else Except.ok (s, g)
      else Except.ok (s, g))
  | Button.X =>
    some (if s._control_active then
        (if s._gamepad_state &&& C.SELECT_BUMPER ≠ 0 then
          select_base C player s._control_direction g
        else target_base C player s._control_direction g).map (fun g => (s, g))
      else Except.ok (s, g))
  | Button.Y =>
    some (if s._gamepad_state &&& C.SELECT_BUMPER ≠ 0 then
        Except.ok (s.push (PlayerEvent.key_down C.kOrderKeyNum), g)
      else Except.ok (s.push (PlayerEvent.key_down C.kAutoPilotKeyNum), g))
  | Button.LSB =>
    some (if s._gamepad_state &&& C.TARGET_BUMPER ≠ 0 then
        (target_self C g).map (fun g => (s, g))
      else Except.ok (s, g.call [ShipCall.transfer_control g.admiral]))
  | _ => none

/-- The value of `!kWarpKey`, the logical negation of a number. -/
def not_kWarpKey (C : Consts) : Nat := if C.kWarpKey ≠ 0 then 0 else 1

/-- The last `switch` of `PlayerShip::gamepad_button_down` (player-ship.cpp:450-478). -/
def gamepad_down_free (C : Consts) (s : PlayerShip) (button : Button) (g : Game) :
    Except Fault (PlayerShip × Game) :=
  match button with
  | Button.A => Except.ok ({ s with _gamepad_keys := s._gamepad_keys ||| C.kUpKey }, g)
  | Button.B => Except.ok ({ s with _gamepad_keys := s._gamepad_keys ||| C.kDownKey }, g)
  | Button.X => Except.ok (s, zoom_out C g)
  | Button.Y => Except.ok (s, zoom_in C g)
  | Button.BACK => Except.ok (s, g.call [ShipCall.Messages_advance])
  | Button.LT => Except.ok ({ s with _gamepad_keys := s._gamepad_keys ||| C.kSpecialKey }, g)
  | Button.RT =>
    Except.ok ({ s with _gamepad_keys := s._gamepad_keys ||| (C.kPulseKey ||| C.kBeamKey) }, g)
  | Button.LSB =>
    match g.deref g.ship with
    | Except.error e => Except.error e
    | Except.ok player =>
      if player.presenceState = C.kWarpingPresence then
        Except.ok ({ s with _gamepad_keys := s._gamepad_keys &&& not_kWarpKey C }, g)
      else Except.ok ({ s with _gamepad_keys := s._gamepad_keys ||| C.kWarpKey }, g)
  | Button.UP =>
    Except.ok (s, g.call [ShipCall.minicomputer_handle_keys
      [PlayerEvent.key_down C.kCompUpKeyNum]])
  | Button.DOWN =>
    Except.ok (s, g.call [ShipCall.minicomputer_handle_keys
      [PlayerEvent.key_down C.kCompDownKeyNum]])
  | Button.RIGHT =>
    Except.ok (s, g.call [ShipCall.minicomputer_handle_keys
      [PlayerEvent.key_down C.kCompAcceptKeyNum]])
  | Button.LEFT =>
    Except.ok (s, g.call [ShipCall.minicomputer_handle_keys
      [PlayerEvent.key_down C.kCompCancelKeyNum]])
  | _ => Except.ok (s, g)

/-- Method `PlayerShip::gamepad_button_down` (player-ship.cpp:381-479). -/
def PlayerShip.gamepad_button_down (C : Consts) (s : PlayerShip) (button : Button)
    (g : Game) : Except Fault (PlayerShip × Game) :=
  match bumper_down C button s._gamepad_state with
  | some state => Except.ok ({ s with _gamepad_state := state }, g)
  | none =>
    if !PlayerShip.active (g.env C) then Except.ok (s, g)
    else
      match (if s._gamepad_state ≠ 0 then gamepad_down_held C s button g else none) with
      | some r => r
      | none => gamepad_down_free C s button g

/-- The first `switch` of `PlayerShip::gamepad_button_up` (player-ship.cpp:482-500):
the state of the bumpers after LB or RB went up, `none` for another button. -/
def bumper_up (C : Consts) (button : Button) (state : Nat) : Option Nat :=
  match button with
  | Button.LB =>
    if state &&& C.OVERRIDE ≠ 0 then some C.SELECT_BUMPER else some C.NO_BUMPER
  | Button.RB =>
    if state &&& C.OVERRIDE ≠ 0 then some C.TARGET_BUMPER else some C.NO_BUMPER
  | _ => none

/-- The event `PlayerShip::gamepad_button_up` queues for a bumper
(player-ship.cpp:484, 492). -/
def bumper_up_event (C : Consts) (button : Button) : PlayerEvent :=
  match button with
  | Button.LB => PlayerEvent.key_up C.kOrderKeyNum
  | _ => PlayerEvent.key_up C.kAutoPilotKeyNum

/-- The last `switch` of `PlayerShip::gamepad_button_up` (player-ship.cpp:520-538). -/
def gamepad_up_free (C : Consts) (s : PlayerShip) (button : Button) (g : Game) :
    Except Fault (PlayerShip × Game) :=
  match button with
  | Button.A => Except.ok ({ s with _gamepad_keys := and_not s._gamepad_keys C.kUpKey }, g)
  | Button.B => Except.ok ({ s with _gamepad_keys := and_not s._gamepad_keys C.kDownKey }, g)
  | Button.LT =>
    Except.ok ({ s with _gamepad_keys := and_not s._gamepad_keys C.kSpecialKey }, g)
  | Button.RT =>
    Except.ok ({ s with
      _gamepad_keys := and_not s._gamepad_keys (C.kPulseKey ||| C.kBeamKey) }, g)
  | Button.LSB =>
    match g.deref g.ship with
    | Except.error e => Except.error e
    | Except.ok player =>
      if player.presenceState ≠ C.kWarpingPresence then
        Except.ok ({ s with _gamepad_keys := s._gamepad_keys &&& not_kWarpKey C }, g)
      else Except.ok (s, g)
  | Button.RIGHT =>
    Except.ok (s, g.call [ShipCall.minicomputer_handle_keys
      [PlayerEvent.key_up C.kCompAcceptKeyNum]])
  | Button.LEFT =>
    Except.ok (s, g.call [ShipCall.minicomputer_handle_keys
      [PlayerEvent.key_up C.kCompCancelKeyNum]])
  | _ => Except.ok (s, g)

/-- Method `PlayerShip::gamepad_button_up` (player-ship.cpp:481-539). -/
def PlayerShip.gamepad_button_up (C : Consts) (s : PlayerShip) (button : Button)
    (g : Game) : Except Fault (PlayerShip × Game) :=
  match bumper_up C button s._gamepad_state with
  | some state =>
    Except.ok ({ s.push (bumper_up_event C button) with _gamepad_state := state }, g)
  | none =>
    if !PlayerShip.active (g.env C) then Except.ok (s, g)
    else
      let held : Option (PlayerShip × Game) :=
        if s._gamepad_state ≠ 0 then
          match button with
          | Button.A | Button.B | Button.X | Button.LSB => some (s, g)
          | Button.Y =>
            some ((s.push (PlayerEvent.key_up C.kOrderKeyNum)).push
              (PlayerEvent.key_up C.kAutoPilotKeyNum), g)
          | _ => none
        else none
      match held with
      | some r => Except.ok r
      | none => gamepad_up_free C s button g

/-- Function `ChangePlayerShipNumber` (player-ship.cpp:970-1006); the text of an
error is its format string. -/
def ChangePlayerShipNumber (C : Consts) (adm newShip : Handle) (g : Game) : Res Game :=
  match adm with
  | none => Res.fault Fault.null_handle
  | some a =>
    match g.flagship a with
    | none => Res.raised "adm: \x7b0\x7d, newShip: \x7b1\x7d" g
    | some flagship =>
      if adm = g.admiral then
        let g := g.set_object flagship { g.objects flagship with
          attributes := and_not (g.objects flagship).attributes C.kIsPlayerShip }
        let g :=
          if newShip ≠ g.ship then ({ g with ship := newShip }).call [ShipCall.starfield_reset]
          else g
        match g.ship with
        | none => Res.raised "adm: \x7b0\x7d, newShip: \x7b1\x7d, gPlayerShip: \x7b2\x7d" g
        | some flagship =>
          let g := g.set_object flagship { g.objects flagship with
            attributes := (g.objects flagship).attributes ||| C.kIsPlayerShip }
          let g :=
            if newShip = g.control a then g.call [ShipCall.set_age LabelId.control_label]
            else g
          let g :=
            if newShip = g.target a then g.call [ShipCall.set_age LabelId.target_label]
            else g
          Res.ok (g.set_flagship a newShip)
      else
        let g := g.set_object flagship { g.objects flagship with
          attributes := and_not (g.objects flagship).attributes C.kIsPlayerShip }
        match newShip with
        | none => Res.fault Fault.null_handle
        | some flagship =>
          let g := g.set_object flagship { g.objects flagship with
            attributes := (g.objects flagship).attributes ||| C.kIsPlayerShip }
          Res.ok (g.set_flagship a newShip)

/-- The test of `PlayerShipBodyExpire` on the owner's control object
(player-ship.cpp:1040-1043): the object cannot take over. -/
def control_unfit (C : Consts) (owner : Handle) (selectShip : SpaceObject) : Bool :=
  decide (selectShip.active ≠ C.kObjectInUse)
    || decide (selectShip.attributes &&& C.kCanThink = 0)
    || decide (selectShip.attributes &&& C.kStaticDestination ≠ 0)
    || decide (selectShip.owner ≠ owner)
    || decide (selectShip.attributes &&& C.kCanAcceptDestination = 0)

/-- The test of the loop of `PlayerShipBodyExpire` (player-ship.cpp:1048-1052): the
object cannot take over. -/
def listed_unfit (C : Consts) (owner : Handle) (selectShip : SpaceObject) : Bool :=
  decide (selectShip.active ≠ C.kObjectInUse)
    || decide (selectShip.attributes &&& C.kStaticDestination ≠ 0)
    || !(decide (selectShip.attributes &&& C.kCanThink ≠ 0)
          && decide (selectShip.attributes &&& C.kCanAcceptDestination ≠ 0))
    || decide (selectShip.owner ≠ owner)

/-- The loop of `PlayerShipBodyExpire` (player-ship.cpp:1048-1054) from the object
`selectShip` on; the first argument bounds the number of iterations. -/
def find_listed (C : Consts) (g : Game) (owner : Handle) : Nat → Handle → Except Fault Handle
  | 0, _ => Except.error Fault.out_of_fuel
  | _ + 1, none => Except.ok none
  | fuel + 1, some n =>
    if listed_unfit C owner (g.objects n) then find_listed C g owner fuel (g.objects n).nextObject
    else Except.ok (some n)

/-- The search of `PlayerShipBodyExpire` for a ship to take over
(player-ship.cpp:1037-1055) for the admiral `owner`, numbered `a`. -/
def expire_select (C : Consts) (g : Game) (owner : Handle) (a : Nat) (fuel : Nat) :
    Except Fault Handle :=
  let selectShip := g.control a
  let selectShip :=
    match selectShip with
    | some n => if control_unfit C owner (g.objects n) then none else selectShip
    | none => selectShip
  if selectShip.isNone then find_listed C g owner fuel g.root else Except.ok selectShip

/-- The end of the game in `PlayerShipBodyExpire` (player-ship.cpp:1059-1062). -/
def expire_game_over (C : Consts) (g : Game) : Game :=
  if !g.game_over then { g with game_over := true, game_over_at := g.time + C.secs 3 }
  else g

/-- The choice of the victory text in `PlayerShipBodyExpire`
(player-ship.cpp:1063-1073) for the admiral `owner`. -/
def expire_victory_text (owner : Handle) (g : Game) : Game :=
  match g.level_type with
  | LevelType.SOLO => { g with victory_text := some g.solo_no_ships }
  | LevelType.NET =>
    if owner = g.admiral then { g with victory_text := some g.net_own_no_ships }
    else { g with victory_text := some g.net_foe_no_ships }
  | LevelType.other _ => { g with victory_text := none }

/-- The last statement of `PlayerShipBodyExpire` (player-ship.cpp:1077-1079). -/
def expire_ship (flagship : Handle) (g : Game) : Game :=
  if flagship = g.ship then { g with ship := none } else g

/-- Function `PlayerShipBodyExpire` (player-ship.cpp:1036-1081); `fuel` bounds the
number of iterations of its loop. -/
def PlayerShipBodyExpire (C : Consts) (fuel : Nat) (flagship : Handle) (g : Game) :
    Res Game :=
  match flagship with
  | none => Res.fault Fault.null_handle
  | some fl =>
    let owner := (g.objects fl).owner
    match owner with
    | none => Res.fault Fault.null_handle
    | some a =>
      match expire_select C g owner a fuel with
      | Except.error e => Res.fault e
      | Except.ok (some n) => ChangePlayerShipNumber C owner (some n) g
      | Except.ok none =>
        let g := expire_victory_text owner (expire_game_over C g)
        let g := if owner.isSome then g.set_flagship a none else g
        Res.ok (expire_ship flagship g)

/-! ## Resources: textures for a dense display -/

/-- The path `pn::format("{0}@{1}x", name, scale)` (resource.cpp:80). -/
def hidpi_path (name : List Char) (scale : Int) : List Char :=
  name ++ ['@'] ++ (toString scale).toList ++ ['x']

/-- The loop of `load_hidpi_texture` (resource.cpp:76-91) from the scale `scale` on.
`load_png path scale` is the function of that name, whose result is the texture or
the error it throws; `tried` are the paths and scales it was called with so far,
and the first argument bounds the number of iterations. -/
def load_hidpi_texture_loop (load_png : List Char → Int → Except String Texture)
    (name : List Char) :
    Nat → Int → List (List Char × Int) → List (List Char × Int) × Outcome Texture
  | 0, _, tried => (tried, Outcome.fault Fault.out_of_fuel)
  | fuel + 1, scale, tried =>
    let path := if scale > 1 then hidpi_path name scale else name
    match load_png path scale with
    | Except.ok texture => (tried ++ [(path, scale)], Outcome.ok texture)
    | Except.error what =>
      if scale > 1 then
        load_hidpi_texture_loop load_png name fuel (scale >>> (1 : Nat)) (tried ++ [(path, scale)])
      else (tried ++ [(path, scale)], Outcome.raised what)

/-- Function `load_hidpi_texture` (resource.cpp:74-92): the calls of `load_png` it
makes and its result.  `video_scale` is `sys.video->scale()`. -/
def load_hidpi_texture (load_png : List Char → Int → Except String Texture)
    (video_scale : Int) (fuel : Nat) (name : List Char) :
    List (List Char × Int) × Outcome Texture :=
  load_hidpi_texture_loop load_png name fuel video_scale []

/-- The scales of the statement about `load_hidpi_texture`: `s`, `s / 2`, `s / 4`
and so on down to 1, which are `floor (log2 s) + 1` scales. -/
def hidpi_scales (s : Nat) : List Nat :=
  List.iterate (fun k => k / 2) s (Nat.log 2 s + 1)

/-- The call of `load_png` for the scale `k`: the path `name@kx` for a scale above
1 and the plain name for the scale 1. -/
def hidpi_attempt (name : List Char) (k : Nat) : List Char × Int :=
  (if k > 1 then hidpi_path name (k : Int) else name, (k : Int))

/-- The words of the specification for a fallback: the attempts are made in
order, the first that succeeds ends them and gives the result, and when all fail
the failure of the last one is raised. -/
def first_success (load_png : List Char → Int → Except String Texture) :
    List (List Char × Int) → List (List Char × Int) × Outcome Texture
  | [] => ([], Outcome.fault Fault.out_of_fuel)
  | a :: rest =>
    match load_png a.1 a.2 with
    | Except.ok texture => ([a], Outcome.ok texture)
    | Except.error what =>
      match rest with
      | [] => ([a], Outcome.raised what)
      | _ :: _ => (a :: (first_success load_png rest).1, (first_success load_png rest).2)

/-! ## The player's ship: predicates of the statements -/

/-- The bumpers of the gamepad that are held, and whether LB is the one that was
pressed last. -/
structure Bumpers where
  lb : Bool
  rb : Bool
  lb_last : Bool
  deriving DecidableEq, Repr

/-- The bumpers held after an event of LB or RB that is physically possible, and
`none` for an event that is not: a bumper goes down when it is released and up
when it is held. -/
def Bumpers.after (h : Bumpers) (button : Button) (down : Bool) : Option Bumpers :=
  match button, down with
  | Button.LB, true => if h.lb then none else some { h with lb := true, lb_last := true }
  | Button.LB, false => if h.lb then some { h with lb := false } else none
  | Button.RB, true => if h.rb then none else some { h with rb := true, lb_last := false }
  | Button.RB, false => if h.rb then some { h with rb := false } else none
  | _, _ => none

/-- The bumpers held after a sequence of events of the bumpers, `none` when the
sequence is not physically possible. -/
def Bumpers.run : List (Button × Bool) → Bumpers → Option Bumpers
  | [], h => some h
  | e :: rest, h =>
    match h.after e.1 e.2 with
    | some h => Bumpers.run rest h
    | none => none

/-- The state the specification gives for the bumpers held: neutral for none,
select for RB, target for LB, and for both the override of the one pressed
last. -/
def Bumpers.state (C : Consts) (h : Bumpers) : Nat :=
  match h.lb, h.rb with
  | false, false => C.NO_BUMPER
  | false, true => C.SELECT_BUMPER
  | true, false => C.TARGET_BUMPER
  | true, true => if h.lb_last then C.TARGET_BUMPER_OVERRIDE else C.SELECT_BUMPER_OVERRIDE

/-- The events of the buttons of the gamepad, each with whether the button went
down, given to `gamepad_button_down` and `gamepad_button_up` in their order. -/
def gamepad_events (C : Consts) (events : List (Button × Bool)) (sg : PlayerShip × Game) :
    Except Fault (PlayerShip × Game) :=
  forEach events sg (fun e sg =>
    if e.2 then PlayerShip.gamepad_button_down C sg.1 e.1 sg.2
    else PlayerShip.gamepad_button_up C sg.1 e.1 sg.2)

/-- The lowest hot key slot bound to the object `n` under its present id. -/
def hot_key_slot (C : Consts) (g : Game) (n : Nat) : Option Nat :=
  (List.range C.kHotKeyNum).find? (fun i =>
    decide (g.hotKey_object i = some n) && decide (g.hotKey_objectID i = (g.objects n).id))

/-- The name of the object `n` with the key of its hot key slot, when it has a slot
and the slot has a key. -/
def hot_key_name (C : Consts) (g : Game) (n : Nat) : HotKeyName :=
  match hot_key_slot C g n with
  | none => ⟨n, none⟩
  | some i =>
    if C.prefs_key (i + C.kFirstHotKeyNum) = C.Key_NONE then ⟨n, none⟩
    else ⟨n, some (C.prefs_key (i + C.kFirstHotKeyNum))⟩

/-- The specification's test of a ship that can take over from the flagship of
the admiral `owner`: it is in use, can think, can accept a destination, is not a
static destination and is owned by `owner`. -/
def eligible (C : Consts) (owner : Handle) (o : SpaceObject) : Bool :=
  decide (o.active = C.kObjectInUse) && decide (o.attributes &&& C.kCanThink ≠ 0)
    && decide (o.attributes &&& C.kCanAcceptDestination ≠ 0)
    && decide (o.attributes &&& C.kStaticDestination = 0) && decide (o.owner = owner)

/-- The objects from the handle `h` on, in the order of `nextObject`, are those
numbered `l`: the list of objects is finite. -/
def Listed (g : Game) : Handle → List Nat → Prop
  | h, [] => h = none
  | h, n :: rest => h = some n ∧ Listed g (g.objects n).nextObject rest

/-- The ship the specification lets take over from the flagship of the admiral
`a`: the control object of the admiral when it is eligible, and otherwise the
first eligible object of the list `l` of objects. -/
def replacement (C : Consts) (g : Game) (a : Nat) (l : List Nat) : Handle :=
  match g.control a with
  | some n =>
    if eligible C (some a) (g.objects n) then some n
    else l.find? (fun n => eligible C (some a) (g.objects n))
  | none => l.find? (fun n => eligible C (some a) (g.objects n))

/-! ## Player ship: the keys after a queue of events -/

/-- The controls whose KEY_DOWN the first loop of `PlayerShip::update` consumes
directly (player-ship.cpp:749-759): zoom out and in, the seven scale shortcuts,
transfer and message-next. -/
def consumed_keys (C : Consts) : List KeyNum :=
  [C.kZoomOutKeyNum, C.kZoomInKeyNum, C.kScale121KeyNum, C.kScale122KeyNum,
   C.kScale124KeyNum, C.kScale1216KeyNum, C.kScaleHostileKeyNum, C.kScaleObjectKeyNum,
   C.kScaleAllKeyNum, C.kTransferKeyNum, C.kMessageNextKeyNum]

/-- The last event of a queue for the control `k`, if there is one. -/
def last_event (k : KeyNum) (events : List PlayerEvent) : Option PlayerEvent :=
  (events.filter (fun e => decide (e.key = k))).getLast?

/-- The bit of a control after a queue of events, as the specification gives it: 1
when the last event for the control is a KEY_DOWN, 0 when it is a KEY_UP or
LONG_KEY_UP, and the bit of before when the queue has no event for the control. -/
def folded_bit (k : KeyNum) (events : List PlayerEvent) (bit : Bool) : Bool :=
  match last_event k events with
  | none => bit
  | some e => decide (e.type = PlayerEventType.KEY_DOWN)

/-- The queue the first loop of `PlayerShip::update` reads: the events queued, or
with `enter_message` the KEY_UP events made for the keys that are down. -/
def update_queue (C : Consts) (enter_message : Bool) (s : PlayerShip) : List PlayerEvent :=
  if enter_message then update_keys_up C s.gTheseKeys else s._player_events

/-! ## Styled text: drawing -/

/-- Modelled from the spec: `RgbColor::black()`, pure black. -/
def RgbColor.black : RgbColor := ⟨0, 0, 0⟩

/-- What `draw_range` reads besides the stream, the inline pictures and the
metrics: the member `_selection`, the offset `it.offset()` in the text of an
iterator by its position, and the size `_text.size()` of the text. -/
structure DrawEnv where
  selection : Int × Int
  offset : Nat → Int
  text_size : Int

/-- The calls `draw_range` makes to its collaborators, recorded in the order made:
`Rects::fill`, `Font::draw` with the point, the code point and the colour, and
`Texture::draw` of the texture of an index with the corner. -/
inductive DrawCall where
  | fill (rect : Rect) (color : RgbColor)
  | glyph (p : Point) (rune : Char) (color : RgbColor)
  | texture (index : Nat) (h v : Int)
  deriving DecidableEq, Repr

/-- Method `StyledText::is_selected` (styled-text.cpp:467-469). -/
def is_selected (env : DrawEnv) (ch : StyledChar) : Bool :=
  decide (env.selection.1 ≤ env.offset ch.it) && decide (env.offset ch.it < env.selection.2)

/-- The variables of the first loop of `draw_range`, with the calls made so far. -/
structure Caret where
  should_draw_caret : Bool
  prev_bounds : Rect
  calls : List DrawCall

/-- The drawing of the caret in the first loop of `draw_range`
(styled-text.cpp:354-368) at the entry `ch` whose bounds in the drawing are `r`. -/
def draw_caret (env : DrawEnv) (ch : StyledChar) (r : Rect) (s : Caret) : Caret :=
  if s.should_draw_caret then
    if env.offset ch.it ≥ env.selection.1 then
      let bounds : Rect :=
        if ch.special = SpecialChar.LINE_BREAK then
          ⟨s.prev_bounds.right, s.prev_bounds.top, s.prev_bounds.right + 1,
            s.prev_bounds.bottom⟩
        else ⟨r.left, r.top, r.left + 1, r.bottom⟩
      { s with calls := s.calls ++ [DrawCall.fill bounds ch.fore_color],
               should_draw_caret := false }
    else { s with prev_bounds := r }
  else s

/-- The `switch` of the first loop of `draw_range` (styled-text.cpp:352, 370-391)
at the entry `ch` whose bounds in the drawing are `r`: the call that fills the
background of the entry, `none` when the `switch` continues with the next entry. -/
def draw_background (env : DrawEnv) (bounds : Rect) (ch : StyledChar) (r : Rect) :
    Option DrawCall :=
  let color := if is_selected env ch then ch.fore_color else ch.back_color
  match ch.special with
  | SpecialChar.NONE | SpecialChar.NO_BREAK | SpecialChar.WORD_BREAK | SpecialChar.TAB =>
    if color = RgbColor.black then none else some (DrawCall.fill r color)
  | SpecialChar.LINE_BREAK =>
    if color = RgbColor.black then none
    else some (DrawCall.fill { r with right := bounds.right } color)
  | SpecialChar.PICTURE | SpecialChar.DELAY => none

/-- One iteration of the first loop of `draw_range` (styled-text.cpp:348-392). -/
def draw_rects_entry (env : DrawEnv) (bounds : Rect) (chars : List StyledChar) (i : Nat)
    (s : Caret) : Except Fault Caret :=
  match chars[i]? with
  | none => Except.error Fault.chars_out_of_range
  | some ch =>
    let r := ch.bounds.offset bounds.left bounds.top
    let s := draw_caret env ch r s
    match draw_background env bounds ch r with
    | none => Except.ok s
    | some call => Except.ok { s with calls := s.calls ++ [call] }

/-- The caret after the last entry (styled-text.cpp:394-399). -/
def draw_last_caret (bounds : Rect) (chars : List StyledChar) (s : Caret) :
    Except Fault (List DrawCall) :=
  if s.should_draw_caret then
    match chars.getLast? with
    | none => Except.error Fault.chars_out_of_range
    | some ch =>
      let r := ch.bounds.offset bounds.left bounds.top
      Except.ok (s.calls ++ [DrawCall.fill ⟨r.right, r.top, r.right + 1, r.bottom⟩
        ch.fore_color])
  else Except.ok s.calls

/-- The first block of `draw_range` (styled-text.cpp:341-400): the carets and the
backgrounds.  A default-constructed `Rect` is taken to be all zero. -/
def draw_rects (env : DrawEnv) (bounds : Rect) (chars : List StyledChar) (begin end_ : Nat) :
    Except Fault (List DrawCall) :=
  let should_draw_caret := decide (0 ≤ env.selection.1)
    && decide (env.selection.1 = env.selection.2)
    && decide (env.selection.2 < env.text_size)
  match forEach (List.range' begin (end_ - begin))
      { should_draw_caret := should_draw_caret, prev_bounds := ⟨0, 0, 0, 0⟩, calls := [] }
      (draw_rects_entry env bounds chars) with
  | Except.error e => Except.error e
  | Except.ok s => draw_last_caret bounds chars s

/-- The body of the second loop of `draw_range` (styled-text.cpp:406-411) for the
entry `ch`: the call that draws its glyph, `none` when it has none. -/
def draw_glyph (env : DrawEnv) (metrics : WrapMetrics) (text : List Char) (bounds : Rect)
    (ch : StyledChar) : Except Fault (Option DrawCall) :=
  let char_adjust : Point :=
    ⟨bounds.left, bounds.top + metrics.font.ascent + metrics.line_spacing⟩
  if ch.special = SpecialChar.NONE then
    let color := if is_selected env ch then ch.back_color else ch.fore_color
    let p : Point := ⟨ch.bounds.left + char_adjust.h, ch.bounds.top + char_adjust.v⟩
    match text[ch.it]? with
    | none => Except.error Fault.end_iterator
    | some rune => Except.ok (some (DrawCall.glyph p rune color))
  else Except.ok none

/-- One iteration of the second loop of `draw_range` (styled-text.cpp:405-412). -/
def draw_quads_entry (env : DrawEnv) (metrics : WrapMetrics) (text : List Char)
    (bounds : Rect) (chars : List StyledChar) (i : Nat) (calls : List DrawCall) :
    Except Fault (List DrawCall) :=
  match chars[i]? with
  | none => Except.error Fault.chars_out_of_range
  | some ch =>
    match draw_glyph env metrics text bounds ch with
    | Except.error e => Except.error e
    | Except.ok none => Except.ok calls
    | Except.ok (some call) => Except.ok (calls ++ [call])

/-- One iteration of the third loop of `draw_range` (styled-text.cpp:415-425). -/
def draw_picture_entry (t : StyledText) (bounds : Rect) (i : Nat) (calls : List DrawCall) :
    Except Fault (List DrawCall) :=
  match t.chars[i]? with
  | none => Except.error Fault.chars_out_of_range
  | some ch =>
    if ch.special = SpecialChar.PICTURE then
      match t.inline_picts[ch.pict_index]? with
      | none => Except.error Fault.picts_out_of_range
      | some inline_pict =>
        if ch.pict_index < t.textures.length then
          Except.ok (calls ++ [DrawCall.texture ch.pict_index
            (bounds.left + inline_pict.bounds.left)
            (bounds.top + (inline_pict.bounds.top + t.wrap_metrics.line_spacing))])
        else Except.error Fault.picts_out_of_range
    else Except.ok calls

/-- Method `StyledText::draw_range` (styled-text.cpp:337-426): the calls it makes. -/
def StyledText.draw_range (env : DrawEnv) (t : StyledText) (bounds : Rect)
    (begin end_ : Nat) : Except Fault (List DrawCall) :=
  match draw_rects env bounds t.chars begin end_ with
  | Except.error e => Except.error e
  | Except.ok calls =>
    match forEach (List.range' begin (end_ - begin)) calls
        (draw_quads_entry env t.wrap_metrics t.text bounds t.chars) with
    | Except.error e => Except.error e
    | Except.ok calls =>
      forEach (List.range' begin (end_ - begin)) calls (draw_picture_entry t bounds)

/-! ## Media loading: results and the measure of the recursion -/

/-- A result that is a state with `I` or a failure with `E`. -/
def Lands {σ ε : Type} (I : σ → Prop) (E : ε → Prop) (r : Except ε σ) : Prop :=
  match r with
  | Except.ok b => I b
  | Except.error e => E e

/-- The number of the bits of `colors_loaded` that are not set, over the base
objects of the plug-in and the 16 colours: the measure by which the recursion of
`AddBaseObjectMedia` ends. -/
def unloaded (p : Plugin) (w : World) : Nat :=
  (Finset.univ.filter (fun x : Fin p.objects.length × Color =>
    w.state.colors_loaded x.1 x.2 = false)).card

/-- Whether the sound loop of an action ends: it does for every action but a
`playSound` whose last sound, `idMinimum + idRange` as `int32_t`, is `INT32_MAX`. -/
def Action.sound_ends : Action → Bool
  | Action.playSound idMinimum idRange =>
    decide (to_int32 (idMinimum + idRange) ≠ 2147483647)
  | _ => true

/-- The actions of a base object that `AddBaseObjectMedia` goes through
(level.cpp:86-91). -/
def BaseObject.actions (base : BaseObject) : List Action :=
  base.destroy ++ base.expire ++ base.create ++ base.collide ++ base.activate
    ++ base.arrive

/-- Whether the sound loop ends for every action of every base object of the
plug-in. -/
def Plugin.sounds_end (p : Plugin) : Bool :=
  p.objects.all (fun base => base.actions.all Action.sound_ends)

/-- The index at which a unit of work reads `level.initials`, if it reads it. -/
def Work.initial_index : Work → Option Nat
  | Work.load_initial i => some i
  | Work.create_initial i => some i
  | Work.set_initial_destination i => some i
  | _ => none

/-! ## A small plug-in and level, for concrete runs -/

/-- A thinking ship whose `create` list holds an alter-owner action and which
carries the weapon numbered 1. -/
def example_ship : BaseObject :=
  { attributes := 1, pixResID := 500, destroy := [], expire := [],
    create := [Action.alterOwner 0], collide := [], activate := [], arrive := [],
    pulse := some 1, beam := none, special := none }

/-- A bolt that cannot think and plays a sound when it is destroyed. -/
def example_bolt : BaseObject :=
  { attributes := 0, pixResID := -1, destroy := [Action.playSound 10 1], expire := [],
    create := [], collide := [], activate := [], arrive := [],
    pulse := none, beam := none, special := none }

/-- A plug-in of two base objects, with all four blessed references set, a major
tick of 3 ticks and 60 ticks to the second. -/
def example_plugin : Plugin :=
  { objects := [example_ship, example_bolt],
    energyBlobID := some 1, warpInFlareID := some 1, warpOutFlareID := some 1,
    playerBodyID := some 0,
    kCanThink := 1, kIsDestination := 2, GRAY := 0,
    kNoSpriteTable := -1, kSpriteTableColorShift := 11, kNoClass := -1,
    kSingleHumanPlayer := 0,
    kMajorTick := 3, kConditionTick := 90, ticksPerSecond := 60,
    action_filter_applies_to := fun _ _ => true,
    mGetBaseObjectFromClassRace := fun _ _ => none,
    GetAdmiralColor := fun a => match a with
      | some 0 => 3
      | some 1 => 5
      | _ => 0,
    GetAdmiralRace := fun _ => 0,
    make_admiral := fun _ _ _ => { active := true },
    random_next := 0 }

/-- The colours of the two admirals of the example, and colour 0. -/
def example_colors : Bitset16 := ((Bitset16.zero.set 0).set 3).set 5

/-- A world in which nothing has happened yet. -/
def example_world : World :=
  { state := LoadState.fresh, pix := [], sound := [], time := 0, angle := 0,
    admirals := [], player_admiral := none, calls := [] }

/-- The world of a result, `example_world` when there is none. -/
def world_of (r : Except Fault World) : World :=
  match r with
  | Except.ok w => w
  | Except.error _ => example_world

/-- A level of one initial object (the example ship, owned by the first admiral),
one condition, two players and a head start of two seconds. -/
def example_level : Level :=
  { angle := -1, playerNum := 2, player := [⟨0, 0⟩, ⟨2, 0⟩],
    initials := [{ type := some 0, owner := some 0, spriteIDOverride := -1,
                   canBuild := [-1, 7] }],
    conditions := [{ action := [Action.createObject (some 1)], flags := 2 }],
    startTime := 2 }

/-- The world of a result, `example_world` when there is none. -/
def world_of_res (r : Res World) : World :=
  match r with
  | Res.ok w => w
  | Res.raised _ w => w
  | Res.fault _ => example_world

/-- The example level without its initial object. -/
def example_empty_level : Level := { example_level with initials := [] }

/-- The example plug-in without a player body. -/
def example_unblessed_plugin : Plugin := { example_plugin with playerBodyID := none }

/-- A font of height 10 whose glyphs are all 6 wide. -/
def example_font : Font := { height := 10, char_width := fun _ => 6 }

/-- Layout in a width of 40 with a margin of 2, a line spacing of 1 and no tab
width set. -/
def example_metrics : WrapMetrics :=
  { font := example_font, width := 40, side_margin := 2, line_spacing := 1, tab_width := 0 }

/-- Collaborators that know no base object and find a 20 by 15 texture under every
name. -/
def example_text_env : TextEnv :=
  { GetRGBTranslateColorShade := fun hue shade => ⟨hue, shade, 0⟩,
    object := fun _ => none,
    portrait := fun _ => none,
    texture := fun _ => some ⟨⟨20, 15⟩⟩ }

/-- A fore colour for the examples. -/
def example_fore : RgbColor := ⟨255, 255, 255⟩

/-- A back colour for the examples. -/
def example_back : RgbColor := ⟨0, 0, 0⟩

/-- The text of a result, the empty text when there is none. -/
def text_of (r : Outcome StyledText) : StyledText :=
  match r with
  | Outcome.ok t => t
  | _ => StyledText.parsed [] [] [] [] example_metrics

/-- The values of the enumerators of the event type in the order the spec lists
them. -/
def example_event_value : PlayerEventType → Int
  | PlayerEventType.KEY_DOWN => 0
  | PlayerEventType.KEY_UP => 1
  | PlayerEventType.LONG_KEY_UP => 2

/-- Control numbers for the examples: hot keys 34 to 43, destination key 20, of 44
extended controls. -/
def example_key_nums : KeyNums :=
  { kHotKey1Num := 34, kHotKey2Num := 35, kHotKey3Num := 36, kHotKey4Num := 37,
    kHotKey5Num := 38, kHotKey6Num := 39, kHotKey7Num := 40, kHotKey8Num := 41,
    kHotKey9Num := 42, kHotKey10Num := 43, kDestinationKeyNum := 20,
    kKeyExtendedControlNum := 44 }

/-- Surroundings for the examples: control `i` is on key `100 + i`, and the player
flies an active player ship. -/
def example_input_env : InputEnv :=
  { nums := example_key_nums, prefs_key := fun i => 100 + i, kIsPlayerShip := 0x200,
    ship := some { active := 1, attributes := 0x201 } }

/-- A player ship with no key down and no event pending, whose second hot key went
down at tick 1000 and whose destination key went down at tick 990. -/
def example_player_ship : PlayerShip :=
  { _keys := fun _ => false, _player_events := [], gDestKeyTime := 990,
    gHotKeyTime := fun j => if j = 1 then 1000 else 0 }

/-- The text of the one word `aaaaaaa` as `plain` parses it, before the layout. -/
def example_word : StyledText :=
  StyledText.parsed ['a', 'a', 'a', 'a', 'a', 'a', 'a']
    (push_final_line_break
      (plain_loop example_fore example_back 0 ['a', 'a', 'a', 'a', 'a', 'a', 'a'] []) 7
      example_fore example_back)
    [] [] example_metrics

/-- The text `aaa aaa aaa` of three words as `plain` parses it, before the
layout. -/
def example_words : StyledText :=
  StyledText.parsed ['a', 'a', 'a', ' ', 'a', 'a', 'a', ' ', 'a', 'a', 'a']
    (push_final_line_break
      (plain_loop example_fore example_back 0
        ['a', 'a', 'a', ' ', 'a', 'a', 'a', ' ', 'a', 'a', 'a'] []) 11
      example_fore example_back)
    [] [] example_metrics

/-! ## A game and its constants, for concrete runs -/

/-- Constants for the examples: the control numbers, key bits, attribute bits,
zoom modes and bumper states are chosen apart from each other, a second has sixty
ticks, `mAngleDifference` is the plain difference and `GetManualSelectObject`
finds the object it was given. -/
def example_consts : Consts :=
  { nums := example_key_nums, prefs_key := fun i => 100 + i, Key_NONE := 0,
    kFirstHotKeyNum := 34, kHotKeyNum := 10, kUpKeyNum := 0, KEY_COUNT := 44,
    kKeyControlNum := 19, kZoomOutKeyNum := 14, kZoomInKeyNum := 13,
    kScale121KeyNum := 21, kScale122KeyNum := 22, kScale124KeyNum := 23,
    kScale1216KeyNum := 24, kScaleHostileKeyNum := 25, kScaleObjectKeyNum := 26,
    kScaleAllKeyNum := 27, kTransferKeyNum := 19, kMessageNextKeyNum := 28,
    kSelectFriendKeyNum := 8, kSelectFoeKeyNum := 9, kSelectBaseKeyNum := 10,
    kOrderKeyNum := 12, kWarpKeyNum := 7, kAutoPilotKeyNum := 29,
    kCompUpKeyNum := 15, kCompDownKeyNum := 16, kCompAcceptKeyNum := 17,
    kCompCancelKeyNum := 18,
    kUpKey := 0x1, kDownKey := 0x2, kLeftKey := 0x4, kRightKey := 0x8,
    kSpecialKey := 0x40, kPulseKey := 0x10, kBeamKey := 0x20, kWarpKey := 0x80,
    kAutoPilotKey := 0x20000, kAdoptTargetKey := 0x10000, kGiveCommandKey := 0x1000,
    kZoomInKey := 0x2000, kZoomOutKey := 0x4000, kShortcutZoomMask := 0x7f00000,
    kMouseMask := 0x80000000,
    kIsPlayerShip := 0x200, kOnAutoPilot := 0x80000000, kCanBeDestination := 0x400,
    kIsDestination := 0x100000, kCanThink := 0x9800, kStaticDestination := 0x2000000,
    kCanAcceptDestination := 0x8000, kObjectInUse := 1, kWarpingPresence := 3,
    kMaximumRelevantDistance := 46340,
    Zoom_DOUBLE := 0, Zoom_ACTUAL := 1, Zoom_QUARTER := 2, Zoom_SIXTEENTH := 3,
    Zoom_FOE := 4, Zoom_OBJECT := 5, Zoom_ALL := 6,
    NO_BUMPER := 0, SELECT_BUMPER := 1, TARGET_BUMPER := 2, OVERRIDE := 4,
    SELECT_BUMPER_OVERRIDE := 5, TARGET_BUMPER_OVERRIDE := 6,
    secs := fun n => 60 * n, mAngleDifference := fun a b => a - b,
    GetManualSelectObject := fun _ _ _ _ _ _ select_ship _ => select_ship }

/-- A game for the examples: the admiral 0 flies the object 0, an active player
ship, and owns the cruiser 1; the object 2 belongs to the admiral 1 and the object
3 is a wreck that is not in use.  The roots of the list of objects are 3, 2, 1, 0.
No hot key is bound, the last selected object is the cruiser, and the level is a
solo level. -/
def example_game : Game :=
  { objects := fun n =>
      if n = 0 then
        { active := 1, attributes := 0x8e00, id := 7, owner := some 0,
          location := ⟨1000, 1000⟩, health := 100, base_health := 100 }
      else if n = 1 then
        { active := 1, attributes := 0x8c00, id := 11, owner := some 0,
          location := ⟨1300, 600⟩, nextObject := some 0, health := 50, base_health := 50 }
      else if n = 2 then
        { active := 1, attributes := 0x8c00, id := 12, owner := some 1,
          location := ⟨90000, 1000⟩, nextObject := some 1, health := 50,
          base_health := 50 }
      else { active := 0, attributes := 0x8c00, id := 13, owner := some 0,
             nextObject := some 2 },
    ship := some 0, admiral := some 0, root := some 3,
    flagship := fun a => if a = 0 then some 0 else none,
    control := fun _ => none, target := fun _ => none,
    key_mask := 0, zoom := 4, time := 600, next_klaxon := 0,
    game_over := false, game_over_at := 0, victory_text := none,
    hotKey_object := fun _ => none, hotKey_objectID := fun _ => -1,
    lastSelectedObject := some 1, lastSelectedObjectID := 11,
    gDestKeyState := DestKeyState.DEST_KEY_UP,
    gHotKeyState := fun _ => HotKeyState.HOT_KEY_UP,
    gPreviousZoomMode := 4, level_type := LevelType.SOLO,
    solo_no_ships := "You lost your last ship.", net_own_no_ships := "You have no ships.",
    net_foe_no_ships := "Your foe has no ships.", calls := [] }

/-- The example game with the third hot key bound to the wreck 3. -/
def example_game_wreck : Game :=
  { example_game with
    hotKey_object := fun i => if i = 2 then some 3 else none,
    hotKey_objectID := fun i => if i = 2 then 13 else -1 }

/-- A loader of pictures for the examples: the only pictures are `tactical` at
twice the density and at the plain density. -/
def example_load_png (path : List Char) (scale : Int) : Except String Texture :=
  if path = "tactical@2x".toList ∧ scale = 2 then Except.ok ⟨⟨16, 32⟩⟩
  else if path = "tactical".toList ∧ scale = 1 then Except.ok ⟨⟨8, 16⟩⟩
  else Except.error "couldn't find resource"

/-- The game of a result, `example_game` when there is none. -/
def game_of (r : Except Fault Game) : Game :=
  match r with
  | Except.ok g => g
  | Except.error _ => example_game

/-- The game of a result that may be an error, `example_game` when there is
none. -/
def game_of_res (r : Res Game) : Game :=
  match r with
  | Res.ok g => g
  | Res.raised _ g => g
  | Res.fault _ => example_game

/-- The player's ship and the game of a result, the example ship and game when
there is none. -/
def ship_of (r : Except Fault (PlayerShip × Game)) : PlayerShip × Game :=
  match r with
  | Except.ok sg => sg
  | Except.error _ => (example_player_ship, example_game)

/-- The example game after every ship was lost: no object is in use. -/
def example_game_lost : Game :=
  { example_game with objects := fun n => { example_game.objects n with active := 0 } }

/-- The example game with the third hot key bound to the cruiser 1 under its id. -/
def example_game_bound : Game :=
  { example_game with
    hotKey_object := fun i => if i = 2 then some 1 else none,
    hotKey_objectID := fun i => if i = 2 then 11 else -1 }

/-- The example game with the third hot key bound to the cruiser 1, the destination
key up, and the slot of the hot key in the state TARGET: the hot key went down
while the destination key was held, and the destination key was released since. -/
def example_game_target : Game :=
  { example_game_bound with
    gHotKeyState := fun i =>
      if i = 2 then HotKeyState.HOT_KEY_TARGET else HotKeyState.HOT_KEY_UP }

/-- The handlers of the destination key and of the hot keys, in the order in which
`PlayerShip::update` calls them for the events of a tick. -/
def hot_key_tick (C : Consts) (events : List PlayerEvent) (g : Game) : Except Fault Game :=
  match handle_destination_key C events g with
  | Except.error e => Except.error e
  | Except.ok g => handle_hotkeys C events g

/-- The example game without a ship of the player. -/
def example_game_no_ship : Game := { example_game with ship := none }

/-- The example player ship with one event queued: the control 13, which zooms in,
went down. -/
def example_player_zoom : PlayerShip :=
  { example_player_ship with _player_events := [⟨PlayerEventType.KEY_DOWN, 13⟩] }

/-- The example player ship with the controls 0 and 2 down and six events queued:
the control 1 went down, the control 0 went up, the control 2 went down and up,
the control 13, which zooms in, went down, and so did the control 20. -/
def example_player_keys : PlayerShip :=
  { example_player_ship with
    gTheseKeys := 5,
    _player_events :=
      [⟨PlayerEventType.KEY_DOWN, 1⟩, ⟨PlayerEventType.KEY_UP, 0⟩,
       ⟨PlayerEventType.KEY_DOWN, 2⟩, ⟨PlayerEventType.LONG_KEY_UP, 2⟩,
       ⟨PlayerEventType.KEY_DOWN, 13⟩, ⟨PlayerEventType.KEY_DOWN, 20⟩] }

/-- The example game with the control 2 masked. -/
def example_game_masked : Game := { example_game with key_mask := 4 }

/-- A layout about to place a PICTURE entry with the cursor at `(14, 0)`: the entry
names a picture of 20 by 15 and is followed by a character. -/
def example_picture_layout : Layout :=
  { chars := [StyledChar.make 0 SpecialChar.PICTURE 0 example_fore example_back,
      StyledChar.make 1 SpecialChar.NONE 0 example_fore example_back],
    inline_picts := [{ object := none, picture := ['x'], bounds := ⟨0, 0, 20, 15⟩ }],
    h := 14, v := 0, auto_width := 0 }

/-- A drawing of the examples: the offset of an iterator is its position, and the
second and third code point of a text of four are selected. -/
def example_draw_env : DrawEnv :=
  { selection := (1, 3), offset := fun it => (it : Int), text_size := 4 }

/-- The calls of a drawing, none when there is no result. -/
def calls_of (r : Except Fault (List DrawCall)) : List DrawCall :=
  match r with
  | Except.ok calls => calls
  | Except.error _ => []

/-- A plug-in whose two base objects refer to each other and to themselves: the
ship creates the bolt and fires itself, the bolt creates the ship when it is
destroyed and alters the owner of every object. -/
def example_cyclic_plugin : Plugin :=
  { example_plugin with
    objects :=
      [{ example_ship with create := [Action.createObject (some 1)], pulse := some 0 },
       { example_bolt with
         destroy := [Action.createObject (some 0), Action.alterOwner 0],
         special := some 1 }] }

/-- A plug-in of one base object, a ship without weapons whose only action plays
the sound `INT32_MAX` when it is destroyed. -/
def example_endless_plugin : Plugin :=
  { example_plugin with
    objects :=
      [{ attributes := 1, pixResID := 500, destroy := [Action.playSound 2147483647 0],
         expire := [], create := [], collide := [], activate := [], arrive := [],
         pulse := none, beam := none, special := none }] }

/-- The example player ship with A and RT of the gamepad held: the bits `kUpKey`,
`kPulseKey` and `kBeamKey` of `_gamepad_keys` are set. -/
def example_player_firing : PlayerShip :=
  { example_player_ship with _gamepad_keys := 0x31 }

/-- The example game with the player's ship warping. -/
def example_game_warping : Game :=
  example_game.set_object 0 { example_game.objects 0 with presenceState := 3 }

/-! ## Theorems -/

/-! ### Loops -/

/-- A relation that is reflexive, transitive and established by every iteration
holds between the states before and after a `forEach` loop. -/
theorem forEach_rel {α σ ε : Type} (R : σ → σ → Prop) (hrefl : ∀ s, R s s)
    (htrans : ∀ a b c, R a b → R b c → R a c) (body : α → σ → Except ε σ) :
    ∀ (xs : List α) (s s' : σ),
      (∀ x ∈ xs, ∀ a b, body x a = Except.ok b → R a b) →
      forEach xs s body = Except.ok s' → R s s' := by
  intro xs
  induction xs with
  | nil =>
    intro s s' _ h
    simp only [forEach] at h
    cases h
    exact hrefl s
  | cons x rest ih =>
    intro s s' hbody h
    simp only [forEach] at h
    split at h
    · rename_i s1 h1
      exact htrans _ _ _ (hbody x (List.mem_cons_self _ _) _ _ h1)
        (ih s1 s' (fun y hy => hbody y (List.mem_cons_of_mem _ hy)) h)
    · cases h

/-- As `forEach_rel`, with a postcondition `Q x` for every element `x` that its
iteration establishes and later iterations keep. -/
theorem forEach_each {α σ ε : Type} (R : σ → σ → Prop) (Q : α → σ → Prop)
    (hrefl : ∀ s, R s s) (htrans : ∀ a b c, R a b → R b c → R a c)
    (hkeep : ∀ x a b, R a b → Q x a → Q x b) (body : α → σ → Except ε σ) :
    ∀ (xs : List α) (s s' : σ),
      (∀ x ∈ xs, ∀ a b, body x a = Except.ok b → R a b ∧ Q x b) →
      forEach xs s body = Except.ok s' → R s s' ∧ ∀ x ∈ xs, Q x s' := by
  intro xs
  induction xs with
  | nil =>
    intro s s' _ h
    simp only [forEach] at h
    cases h
    exact ⟨hrefl s, fun x hx => absurd hx (List.not_mem_nil x)⟩
  | cons x rest ih =>
    intro s s' hbody h
    simp only [forEach] at h
    split at h
    · rename_i s1 h1
      obtain ⟨hR1, hQ1⟩ := hbody x (List.mem_cons_self _ _) _ _ h1
      obtain ⟨hR2, hQ2⟩ := ih s1 s' (fun y hy => hbody y (List.mem_cons_of_mem _ hy)) h
      refine ⟨htrans _ _ _ hR1 hR2, ?_⟩
      intro y hy
      rcases List.mem_cons.mp hy with rfl | hy
      · exact hkeep _ _ _ hR2 hQ1
      · exact hQ2 y hy
    · cases h


/-- The `LoadState` that `start_construct_level` returns is the fresh one with
`max` set. -/
theorem start_construct_level_state (p : Plugin) (level : Level) (w : World) :
    (start_construct_level p level w).state
      = { LoadState.fresh with
          max := (level.initials.length : Int) * 3 + 1 + level.startTime } := rfl

/-- C1: for a level with N initial objects and start time T,
`start_construct_level` returns a `LoadState` with `max = 3 * N + 1 + T`,
`step = 0` and `done = false`. -/
theorem start_construct_level_max (p : Plugin) (level : Level) (w : World) :
    (start_construct_level p level w).state.max
        = 3 * (level.initials.length : Int) + 1 + level.startTime
      ∧ (start_construct_level p level w).state.step = 0
      ∧ (start_construct_level p level w).state.done = false := by
  refine ⟨?_, rfl, rfl⟩
  show (level.initials.length : Int) * 3 + 1 + level.startTime = _
  ring

/-! ### Media loading: what every call preserves -/

theorem Bitset16.any_iff (bits : Bitset16) : bits.any = true ↔ ∃ i, bits i = true := by
  unfold Bitset16.any
  rw [List.any_eq_true]
  constructor
  · rintro ⟨i, _, hi⟩
    exact ⟨i, hi⟩
  · rintro ⟨i, hi⟩
    exact ⟨i, List.mem_finRange i, hi⟩

theorem Bitset16.set_apply (bits : Bitset16) (i j : Color) :
    bits.set i j = if j = i then true else bits j := rfl

theorem Bitset16.or_apply (bits other : Bitset16) (j : Color) :
    bits.or other j = (bits j || other j) := rfl

theorem SameCursor.refl_cursor (w : World) : SameCursor w w := ⟨rfl, rfl, rfl⟩

theorem SameCursor.trans_cursor {a b c : World} (h1 : SameCursor a b) (h2 : SameCursor b c) :
    SameCursor a c :=
  ⟨h2.1.trans h1.1, h2.2.1.trans h1.2.1, h2.2.2.trans h1.2.2⟩

theorem Grows.refl_grows (w : World) : Grows w w :=
  ⟨SameCursor.refl_cursor w, fun _ _ h => h, fun _ _ h => h⟩

theorem Grows.trans_grows {a b c : World} (h1 : Grows a b) (h2 : Grows b c) : Grows a c :=
  ⟨h1.1.trans_cursor h2.1, fun n i h => h2.2.1 n i (h1.2.1 n i h),
    fun n i h => h2.2.2 n i (h1.2.2 n i h)⟩

theorem Keeps.trans_keeps {n : Nat} {a b c : World} (h1 : Keeps n a b) (h2 : Keeps n b c)
    (hg : Grows b c) : Keeps n a c := by
  rcases h2 with h2 | h2
  · rcases h1 with h1 | h1
    · exact Or.inl (fun i => (h2 i).trans (h1 i))
    · refine Or.inr (fun i hi => hg.2.2 n i (h1 i ?_))
      rw [← h2 i]
      exact hi
  · exact Or.inr h2

theorem Good.refl_good (w : World) : Good w w :=
  ⟨Grows.refl_grows w, fun _ _ => Or.inl (fun _ => rfl)⟩

theorem Good.trans_good {a b c : World} (h1 : Good a b) (h2 : Good b c) : Good a c := by
  refine ⟨h1.1.trans_grows h2.1, ?_⟩
  rintro n ⟨i, hi⟩
  exact (h1.2 n ⟨i, hi⟩).trans_keeps (h2.2 n ⟨i, h1.1.2.2 n i hi⟩) h2.1

theorem Grows.need (w : World) (n : Nat) (color : Color) : Grows w (w.need n color) := by
  refine ⟨⟨rfl, rfl, rfl⟩, ?_, fun _ _ h => h⟩
  intro m i h
  simp only [World.need]
  split
  · subst_vars
    rw [Bitset16.set_apply]
    split
    · rfl
    · exact h
  · exact h

theorem Grows.need_all (w : World) (n : Nat) (all_colors : Bitset16) :
    Grows w (w.need_all n all_colors) := by
  refine ⟨⟨rfl, rfl, rfl⟩, ?_, fun _ _ h => h⟩
  intro m i h
  simp only [World.need_all]
  split
  · subst_vars
    rw [Bitset16.or_apply, h]
    rfl
  · exact h

theorem Grows.load (w : World) (n : Nat) (i : Color) : Grows w (w.load n i) := by
  refine ⟨⟨rfl, rfl, rfl⟩, fun _ _ h => h, ?_⟩
  intro m j h
  simp only [World.load]
  split
  · subst_vars
    rw [Bitset16.set_apply]
    split
    · rfl
    · exact h
  · exact h

theorem sound_load_foldl_state (ids : List Int) :
    ∀ w : World, (ids.foldl World.sound_load w).state = w.state := by
  induction ids with
  | nil => intro w; rfl
  | cons x rest ih => intro w; simp only [List.foldl]; rw [ih]; rfl


/-- The sound loop, when it ends, leaves the `LoadState` as it is. -/
theorem sound_loop_state (l1 l2 : Int) (w w' : World)
    (h : sound_loop l1 l2 w = Except.ok w') : w'.state = w.state := by
  unfold sound_loop at h
  split at h
  · cases h
  · cases h
    exact sound_load_foldl_state _ w

theorem Good.of_state_eq_good {w w' : World} (h : w'.state = w.state) : Good w w' := by
  refine ⟨⟨⟨?_, ?_, ?_⟩, ?_, ?_⟩, ?_⟩
  · rw [h]
  · rw [h]
  · rw [h]
  · intro n i hi
    rw [h]
    exact hi
  · intro n i hi
    rw [h]
    exact hi
  · intro n _
    left
    intro i
    rw [h]

theorem need_all_other (w : World) (n m : Nat) (all_colors : Bitset16) (hm : m ≠ n) :
    (w.need_all n all_colors).state.colors_needed m = w.state.colors_needed m := by
  simp only [World.need_all]
  rw [if_neg hm]

theorem need_other (w : World) (n m : Nat) (color : Color) (hm : m ≠ n) :
    (w.need n color).state.colors_needed m = w.state.colors_needed m := by
  simp only [World.need]
  rw [if_neg hm]

theorem load_self (w : World) (n : Nat) (i : Color) :
    (w.load n i).state.colors_loaded n i = true := by
  simp [World.load, Bitset16.set_apply]

theorem need_self (w : World) (n : Nat) (color : Color) :
    (w.need n color).state.colors_needed n color = true := by
  simp [World.need, Bitset16.set_apply]

/-- One iteration of the `kAlterOwner` loop of `AddActionMedia`. -/
theorem alter_owner_step (recur : Handle → Color → World → Except Fault World)
    (hrec : MediaSpec recur) (applies : Bool) (color : Color) (all_colors : Bitset16)
    (baseObject : Nat) (a a1 b : World)
    (ha1 : a1 = if applies = true then a.need_all baseObject all_colors else a)
    (h : (if (a1.state.colors_loaded baseObject).any = true
          then recur (some baseObject) color a1 else Except.ok a1) = Except.ok b) :
    Good a b := by
  have hg1 : Grows a a1 := by
    rw [ha1]
    split
    · exact Grows.need_all a baseObject all_colors
    · exact Grows.refl_grows a
  have hloaded : a1.state.colors_loaded = a.state.colors_loaded := by
    rw [ha1]
    split <;> rfl
  have hother : ∀ m, m ≠ baseObject →
      a1.state.colors_needed m = a.state.colors_needed m := by
    intro m hm
    rw [ha1]
    split
    · exact need_all_other a baseObject m all_colors hm
    · rfl
  split at h
  · rename_i hany
    obtain ⟨hgood, n, hn, hset⟩ := hrec _ _ _ _ h
    cases hn
    refine ⟨hg1.trans_grows hgood.1, ?_⟩
    rintro m ⟨i, hi⟩
    by_cases hm : m = baseObject
    · subst hm
      exact Or.inr hset
    · have hk := hgood.2 m ⟨i, by rw [hloaded]; exact hi⟩
      rcases hk with hk | hk
      · left
        intro j
        rw [hk j, hother m hm]
      · exact Or.inr hk
  · rename_i hany
    cases h
    refine ⟨hg1, ?_⟩
    rintro m ⟨i, hi⟩
    by_cases hm : m = baseObject
    · subst hm
      exfalso
      apply hany
      rw [Bitset16.any_iff]
      exact ⟨i, by rw [hloaded]; exact hi⟩
    · left
      intro j
      rw [hother m hm]

/-- Function `AddActionMedia` is `Good` when the recursive call is. -/
theorem AddActionMedia_good (p : Plugin)
    (recur : Handle → Color → World → Except Fault World) (hrec : MediaSpec recur)
    (action : Action) (color : Color) (all_colors : Bitset16) (w w' : World)
    (h : AddActionMedia p recur action color all_colors w = Except.ok w') : Good w w' := by
  cases action with
  | createObject whichBaseType =>
    simp only [AddActionMedia] at h
    exact (hrec _ _ _ _ h).1
  | createObjectSetDest whichBaseType =>
    simp only [AddActionMedia] at h
    exact (hrec _ _ _ _ h).1
  | playSound idMinimum idRange =>
    simp only [AddActionMedia] at h
    exact Good.of_state_eq_good (sound_loop_state _ _ w w' h)
  | alterBaseType base =>
    simp only [AddActionMedia] at h
    exact (hrec _ _ _ _ h).1
  | alterOwner number =>
    simp only [AddActionMedia] at h
    refine forEach_rel Good Good.refl_good (fun _ _ _ => Good.trans_good) _ _ w w' ?_ h
    intro baseObject _ a b hab
    exact alter_owner_step recur hrec _ color all_colors baseObject a _ b rfl hab
  | other verb =>
    simp only [AddActionMedia] at h
    cases h
    exact Good.refl_good w

/-- Function `AddBaseObjectActionMedia` is `Good` when the recursive call is. -/
theorem AddBaseObjectActionMedia_good (p : Plugin)
    (recur : Handle → Color → World → Except Fault World) (hrec : MediaSpec recur)
    (actions : List Action) (color : Color) (all_colors : Bitset16) (w w' : World)
    (h : AddBaseObjectActionMedia p recur actions color all_colors w = Except.ok w') :
    Good w w' := by
  unfold AddBaseObjectActionMedia at h
  refine forEach_rel Good Good.refl_good (fun _ _ _ => Good.trans_good) _ _ w w' ?_ h
  intro action _ a b hab
  exact AddActionMedia_good p recur hrec action color all_colors a b hab


/-- One iteration of the colour loop of `AddBaseObjectMedia`. -/
theorem load_color_good (p : Plugin) (recur : Handle → Color → World → Except Fault World)
    (hrec : MediaSpec recur) (all_colors : Bitset16) (number : Nat) (base : BaseObject)
    (i : Color) (x y : World)
    (h : load_color p recur all_colors number base i x = Except.ok y) :
    (Good x y ∧ Keeps number x y)
      ∧ (y.state.colors_needed number i = true → y.state.colors_loaded number i = true) := by
  unfold load_color at h
  split at h
  · rename_i hl
    cases h
    exact ⟨⟨Good.refl_good x, Or.inl (fun _ => rfl)⟩, fun _ => hl⟩
  · rename_i hl
    split at h
    · rename_i hn
      cases h
      refine ⟨⟨Good.refl_good x, Or.inl (fun _ => rfl)⟩, fun hn' => ?_⟩
      rw [hn'] at hn
      exact absurd hn (by decide)
    · rename_i hn
      dsimp only at h
      -- the state after `colors_loaded[number][i] = true` and `sys.pix.add`
      generalize hxp : (if base.pixResID ≠ p.kNoSpriteTable
          then (x.load number i).pix_add (to_int16 (base.pixResID
                  + ((i : Nat) : Int) * 2 ^ p.kSpriteTableColorShift))
          else x.load number i) = xp at h
      split at h
      · cases h
      · rename_i x2 h2
        have hstate : xp.state = (x.load number i).state := by
          rw [← hxp]
          split <;> rfl
        have hgrow : Grows x xp := (Grows.load x number i).trans_grows (Good.of_state_eq_good hstate).1
        have hneeded : xp.state.colors_needed = x.state.colors_needed := by
          rw [hstate]
          rfl
        have hbit : xp.state.colors_loaded number i = true := by
          rw [hstate]
          exact load_self x number i
        have hg2 : Good xp x2 := by
          refine forEach_rel Good Good.refl_good (fun _ _ _ => Good.trans_good) _ _ xp x2 ?_ h2
          intro actions _ a b hab
          exact AddBaseObjectActionMedia_good p recur hrec actions i all_colors a b hab
        have hg3 : Good x2 y := by
          refine forEach_rel Good Good.refl_good (fun _ _ _ => Good.trans_good) _ _ x2 y ?_ h
          intro weapon _ a b hab
          split at hab
          · exact (hrec _ _ _ _ hab).1
          · cases hab
            exact Good.refl_good a
        have hg : Good xp y := hg2.trans_good hg3
        have hkeep : ∀ m, (∃ j, xp.state.colors_loaded m j = true) → Keeps m x y := by
          intro m hm
          rcases hg.2 m hm with hk | hk
          · left
            intro j
            rw [hk j, hneeded]
          · exact Or.inr hk
        refine ⟨⟨⟨hgrow.trans_grows hg.1, ?_⟩, hkeep number ⟨i, hbit⟩⟩, fun _ => hg.1.2.2 number i hbit⟩
        rintro m ⟨j, hj⟩
        exact hkeep m ⟨j, hgrow.2.2 m j hj⟩

/-- A call of `AddBaseObjectMedia` that returns is `Good`, leaves its base object
settled, and has marked the requested colour (GRAY for an object that cannot
think) as needed. -/
theorem AddBaseObjectMedia_spec (p : Plugin) (all_colors : Bitset16) :
    ∀ (fuel : Nat) (h : Handle) (c : Color) (a b : World),
      AddBaseObjectMedia p all_colors fuel h c a = Except.ok b →
      Good a b ∧ ∃ n base, h = some n ∧ p.objects[n]? = some base ∧ Settled b n
        ∧ b.state.colors_needed n
            (if base.attributes &&& p.kCanThink = 0 then p.GRAY else c) = true := by
  intro fuel
  induction fuel with
  | zero =>
    intro h c a b hab
    simp only [AddBaseObjectMedia] at hab
    cases hab
  | succ fuel ih =>
    intro h c a b hab
    have hrec : MediaSpec (AddBaseObjectMedia p all_colors fuel) := by
      intro h' c' a' b' hab'
      obtain ⟨hg, n, _, hn, _, hs, _⟩ := ih h' c' a' b' hab'
      exact ⟨hg, n, hn, hs⟩
    cases h with
    | none =>
      simp only [AddBaseObjectMedia] at hab
      cases hab
    | some number =>
      simp only [AddBaseObjectMedia] at hab
      split at hab
      · cases hab
      · rename_i base hbase
        generalize hc : (if base.attributes &&& p.kCanThink = 0 then p.GRAY else c) = color
          at hab
        have hloop := forEach_each
          (fun x y => Good x y ∧ Keeps number x y)
          (fun (i : Color) (y : World) =>
            y.state.colors_needed number i = true → y.state.colors_loaded number i = true)
          (fun s => ⟨Good.refl_good s, Or.inl (fun _ => rfl)⟩)
          (fun _ _ _ h1 h2 => ⟨h1.1.trans_good h2.1, h1.2.trans_keeps h2.2 h2.1.1⟩)
          (by
            intro i x y hxy hq hi
            rcases hxy.2 with hk | hk
            · rw [hk i] at hi
              exact hxy.1.1.2.2 number i (hq hi)
            · exact hk i hi)
          _ (List.finRange 16) (a.need number color) b
          (fun i _ x y hxy =>
            load_color_good p _ hrec all_colors number base i x y hxy)
          hab
        obtain ⟨⟨hgood, _⟩, hall⟩ := hloop
        have hset : Settled b number := fun i hi => hall i (List.mem_finRange i) hi
        have hneed := need_self a number color
        refine ⟨⟨(Grows.need a number color).trans_grows hgood.1, ?_⟩, number, base, rfl, hbase,
          hset, hc ▸ hgood.1.2.1 number color hneed⟩
        rintro m ⟨j, hj⟩
        by_cases hm : m = number
        · subst hm
          exact Or.inr hset
        · rcases hgood.2 m ⟨j, hj⟩ with hk | hk
          · left
            intro k
            rw [hk k, need_other a number m color hm]
          · exact Or.inr hk


/-! ### C7 -/

/-- C7: when `AddBaseObjectMedia(b, c)` returns, `colors_needed[b]` contains
GRAY if `b` lacks `kCanThink` and `c` otherwise, and every colour needed for `b`
is loaded, whatever became needed for `b` during the recursion. -/
theorem AddBaseObjectMedia_needed_loaded (p : Plugin) (all_colors : Bitset16) (fuel : Nat)
    (number : Nat) (base : BaseObject) (c : Color) (w w' : World)
    (hbase : p.objects[number]? = some base)
    (h : AddBaseObjectMedia p all_colors fuel (some number) c w = Except.ok w') :
    w'.state.colors_needed number
        (if base.attributes &&& p.kCanThink = 0 then p.GRAY else c) = true
      ∧ ∀ i, w'.state.colors_needed number i = true →
          w'.state.colors_loaded number i = true := by
  obtain ⟨_, n, base', hn, hbase', hset, hneed⟩ :=
    AddBaseObjectMedia_spec p all_colors fuel (some number) c w w' h
  cases hn
  rw [hbase] at hbase'
  cases hbase'
  exact ⟨hneed, hset⟩


theorem AddBaseObjectMedia_needed_loaded_witness :
    example_plugin.objects[0]? = some example_ship
      ∧ AddBaseObjectMedia example_plugin example_colors 6 (some 0) 2 example_world
          = Except.ok (world_of
              (AddBaseObjectMedia example_plugin example_colors 6 (some 0) 2 example_world))
      ∧ (world_of (AddBaseObjectMedia example_plugin example_colors 6 (some 0) 2
            example_world)).state.colors_needed 0 2 = true
      ∧ (world_of (AddBaseObjectMedia example_plugin example_colors 6 (some 0) 2
            example_world)).state.colors_loaded 0 5 = true :=
  ⟨rfl, rfl,
    (AddBaseObjectMedia_needed_loaded example_plugin example_colors 6 0 example_ship 2
      example_world _ rfl rfl).1,
    (AddBaseObjectMedia_needed_loaded example_plugin example_colors 6 0 example_ship 2
      example_world _ rfl rfl).2 5 (by decide)⟩

/-! ### The cursor is touched by `advance` only -/

theorem Grows.of_state_eq_grows {w w' : World} (h : w'.state = w.state) : Grows w w' :=
  (Good.of_state_eq_good h).1

theorem AddBaseObjectMedia_grows (p : Plugin) (all_colors : Bitset16) (fuel : Nat)
    (h : Handle) (c : Color) (a b : World)
    (hab : AddBaseObjectMedia p all_colors fuel h c a = Except.ok b) : Grows a b :=
  (AddBaseObjectMedia_spec p all_colors fuel h c a b hab).1.1

theorem AddBaseObjectMedia_mediaSpec (p : Plugin) (all_colors : Bitset16) (fuel : Nat) :
    MediaSpec (AddBaseObjectMedia p all_colors fuel) := by
  intro h c a b hab
  obtain ⟨hg, n, _, hn, _, hs, _⟩ := AddBaseObjectMedia_spec p all_colors fuel h c a b hab
  exact ⟨hg, n, hn, hs⟩

theorem load_blessed_objects_grows (p : Plugin) (level : Level) (fuel : Nat)
    (all_colors : Bitset16) (w w' : World)
    (h : load_blessed_objects p level fuel all_colors w = Res.ok w') : Grows w w' := by
  unfold load_blessed_objects at h
  split at h
  · cases h
  · split at h
    · cases h
    · split at h
      · cases h
      · split at h
        · cases h
        · rename_i playerBody _
          dsimp only at h
          generalize hr : forEach (List.range level.playerNum)
            (w.need_all playerBody all_colors) _ = r at h
          cases r with
          | error e => cases h
          | ok w2 =>
            simp only [Res.of_except] at h
            cases h
            refine (Grows.need_all w playerBody all_colors).trans_grows ?_
            refine forEach_rel Grows Grows.refl_grows (fun _ _ _ => Grows.trans_grows) _ _ _ _ ?_ hr
            intro _ _ a b hab
            refine forEach_rel Grows Grows.refl_grows (fun _ _ _ => Grows.trans_grows) _ _ _ _ ?_ hab
            intro id _ a' b' hab'
            exact AddBaseObjectMedia_grows p all_colors fuel id p.GRAY a' b' hab'

theorem load_initial_grows (p : Plugin) (level : Level) (fuel i : Nat)
    (all_colors : Bitset16) (w w' : World)
    (h : load_initial p level fuel i all_colors w = Except.ok w') : Grows w w' := by
  unfold load_initial at h
  split at h
  · cases h
  · rename_i initial _
    split at h
    · cases h
    · rename_i number _
      split at h
      · cases h
      · rename_i baseObject _
        dsimp only at h
        generalize hw1 : (if baseObject.attributes &&& p.kIsDestination ≠ 0
          then w.need_all number all_colors else w) = w1 at h
        have hg1 : Grows w w1 := by
          rw [← hw1]
          split
          · exact Grows.need_all w number all_colors
          · exact Grows.refl_grows w
        split at h
        · cases h
        · rename_i w2 h2
          have hg2 := AddBaseObjectMedia_grows p all_colors fuel _ _ w1 w2 h2
          generalize hw3 : (if initial.spriteIDOverride ≥ 0 then
              if baseObject.attributes &&& p.kCanThink ≠ 0 then
                w2.pix_add (initial.spriteIDOverride
                  + ((p.GetAdmiralColor initial.owner : Nat) : Int)
                      * 2 ^ p.kSpriteTableColorShift)
              else w2.pix_add initial.spriteIDOverride
            else w2) = w3 at h
          have hg3 : Grows w2 w3 := by
            apply Grows.of_state_eq_grows
            rw [← hw3]
            split
            · split <;> rfl
            · rfl
          refine hg1.trans_grows (hg2.trans_grows (hg3.trans_grows ?_))
          refine forEach_rel Grows Grows.refl_grows (fun _ _ _ => Grows.trans_grows) _ _ _ _ ?_ h
          intro canBuild _ a b hab
          split at hab
          · refine forEach_rel Grows Grows.refl_grows (fun _ _ _ => Grows.trans_grows) _ _ _ _ ?_ hab
            intro adm _ a' b' hab'
            split at hab'
            · split at hab'
              · exact AddBaseObjectMedia_grows p all_colors fuel _ _ a' b' hab'
              · cases hab'
                exact Grows.refl_grows a'
            · cases hab'
              exact Grows.refl_grows a'
          · cases hab
            exact Grows.refl_grows a

theorem load_conditions_grows (p : Plugin) (level : Level) (fuel : Nat)
    (all_colors : Bitset16) (w w' : World)
    (h : load_conditions p level fuel all_colors w = Except.ok w') : Grows w w' := by
  unfold load_conditions at h
  refine forEach_rel Grows Grows.refl_grows (fun _ _ _ => Grows.trans_grows) _ _ _ _ ?_ h
  intro index _ a b hab
  split at hab
  · cases hab
    exact Grows.refl_grows a
  · rename_i condition _
    unfold load_condition at hab
    split at hab
    · cases hab
    · rename_i a2 h2
      have hg : Grows a a2 := by
        refine forEach_rel Grows Grows.refl_grows (fun _ _ _ => Grows.trans_grows) _ _ _ _ ?_ h2
        intro action _ a' b' hab'
        exact (AddActionMedia_good p _ (AddBaseObjectMedia_mediaSpec p all_colors fuel)
          action p.GRAY all_colors a' b' hab').1
      cases hab
      exact hg.trans_grows (Grows.of_state_eq_grows rfl)

theorem run_game_tick_state (p : Plugin) (level : Level) (w : World) :
    (run_game_tick p level w).state = w.state := by
  unfold run_game_tick
  dsimp only
  split <;> rfl

theorem run_game_1s_state (p : Plugin) (level : Level) :
    ∀ (fuel : Nat) (w w' : World), run_game_1s p level fuel w = Except.ok w' →
      w'.state = w.state := by
  intro fuel
  induction fuel with
  | zero =>
    intro w w' h
    simp only [run_game_1s] at h
    cases h
  | succ fuel ih =>
    intro w w' h
    simp only [run_game_1s] at h
    split at h
    · rw [ih _ _ h, run_game_tick_state]
    · cases h
      exact run_game_tick_state p level w

/-- Whatever `construct_level` does before `++state->step` leaves the cursor
alone and drops no needed or loaded colour. -/
theorem construct_level_body_grows (p : Plugin) (level : Level) (fuel : Nat) (w w' : World)
    (h : construct_level_body p level fuel w = Res.ok w') : Grows w w' := by
  unfold construct_level_body at h
  dsimp only at h
  split at h
  · split at h
    · rename_i w1 h1
      have hg1 := load_blessed_objects_grows p level fuel _ w w1 h1
      generalize hr : load_initial p level fuel w.state.step (all_colors_of p w) w1 = r at h
      cases r with
      | error e => cases h
      | ok w2 =>
        simp only [Res.of_except] at h
        cases h
        exact hg1.trans_grows (load_initial_grows p level fuel _ _ w1 _ hr)
    · rename_i hr
      exact absurd h (hr w')
  · split at h
    · generalize hr : load_initial p level fuel w.state.step (all_colors_of p w) w = r at h
      cases r with
      | error e => cases h
      | ok w2 =>
        simp only [Res.of_except] at h
        cases h
        exact load_initial_grows p level fuel _ _ w _ hr
    · split at h
      · split at h
        · cases h
        · rename_i w1 h1
          have hg1 := load_conditions_grows p level fuel _ w w1 h1
          unfold create_initial_at at h
          split at h
          · cases h
          · cases h
            exact hg1.trans_grows (Grows.of_state_eq_grows rfl)
      · split at h
        · unfold create_initial_at at h
          split at h
          · cases h
          · cases h
            exact Grows.of_state_eq_grows rfl
        · split at h
          · unfold set_initial_destination_at at h
            split at h
            · cases h
            · cases h
              exact Grows.of_state_eq_grows rfl
          · split at h
            · cases h
              exact Grows.of_state_eq_grows rfl
            · generalize hr : run_game_1s p level fuel w = r at h
              cases r with
              | error e => cases h
              | ok w2 =>
                simp only [Res.of_except] at h
                cases h
                exact Grows.of_state_eq_grows (run_game_1s_state p level fuel w _ hr)


/-! ### C2 -/

/-- One call of `construct_level` that returns has incremented `step` by one, kept
`max`, and set `done` exactly when the new `step` equals `max`. -/
theorem construct_level_cursor (p : Plugin) (level : Level) (fuel : Nat) (w w' : World)
    (h : construct_level p level fuel w = Res.ok w') :
    w'.state.step = w.state.step + 1 ∧ w'.state.max = w.state.max
      ∧ (w'.state.done = true ↔
          (w.state.done = true ∨ ((w.state.step + 1 : Nat) : Int) = w.state.max)) := by
  unfold construct_level at h
  split at h
  · rename_i w1 h1
    obtain ⟨⟨hs, hm, hd⟩, _, _⟩ := construct_level_body_grows p level fuel w w1 h1
    cases h
    unfold advance
    dsimp only
    split
    · rename_i heq
      refine ⟨by rw [hs], hm, ?_⟩
      constructor
      · intro _
        right
        rw [← hs, ← hm]
        exact heq
      · intro _
        rfl
    · rename_i hne
      refine ⟨by rw [hs], hm, ?_⟩
      dsimp only
      rw [hd]
      constructor
      · intro hdone
        exact Or.inl hdone
      · rintro (hdone | heq)
        · exact hdone
        · exfalso
          apply hne
          rw [hs, hm]
          exact heq
  · rename_i hr
    exact absurd h (hr w')

/-- After `n` calls that all return, `step` has grown by `n`, `max` is unchanged,
and `done` is true exactly from the call on that makes `step` reach `max`. -/
theorem construct_level_times_cursor (p : Plugin) (level : Level) (fuel : Nat) :
    ∀ (n : Nat) (w w' : World), construct_level_times p level fuel n w = Res.ok w' →
      w'.state.step = w.state.step + n ∧ w'.state.max = w.state.max
        ∧ ((w.state.done = true ↔ w.state.max ≤ (w.state.step : Int)) →
            (w'.state.done = true ↔ w'.state.max ≤ (w'.state.step : Int))) := by
  intro n
  induction n with
  | zero =>
    intro w w' h
    simp only [construct_level_times] at h
    cases h
    exact ⟨rfl, rfl, fun hinv => hinv⟩
  | succ n ih =>
    intro w w' h
    simp only [construct_level_times] at h
    split at h
    · rename_i w1 h1
      obtain ⟨hs1, hm1, hd1⟩ := construct_level_cursor p level fuel w w1 h1
      obtain ⟨hs, hm, hd⟩ := ih w1 w' h
      refine ⟨by rw [hs, hs1]; omega, by rw [hm, hm1], ?_⟩
      intro hinv
      apply hd
      rw [hd1, hinv, hm1, hs1]
      push_cast
      omega
    · rename_i hr
      exact absurd h (hr w')

/-- From the state `start_construct_level` returns, `k` calls that all return
leave `step = k`, and `done` exactly when `k` has reached `max`. -/
theorem construct_level_times_start (p : Plugin) (level : Level) (fuel : Nat) (g : World)
    (k : Nat) (w : World)
    (hM : 1 ≤ (start_construct_level p level g).state.max)
    (h : construct_level_times p level fuel k (start_construct_level p level g)
      = Res.ok w) :
    w.state.step = k
      ∧ (w.state.done = true ↔ (start_construct_level p level g).state.max ≤ (k : Int)) := by
  obtain ⟨hs, hm, hd⟩ := construct_level_times_cursor p level fuel k _ w h
  rw [start_construct_level_state] at hs hm hd hM ⊢
  have hs' : w.state.step = k := by
    rw [hs]
    show 0 + k = k
    omega
  refine ⟨hs', ?_⟩
  rw [← hm, ← hs']
  apply hd
  show (false = true ↔ _ ≤ ((0 : Nat) : Int))
  constructor
  · intro hf
    cases hf
  · intro hle
    exfalso
    have h1 : (1 : Int) ≤ ((0 : Nat) : Int) := le_trans hM hle
    omega

/-- C2: from the `LoadState` that `start_construct_level` returns, with
`max = M ≥ 1`, after `k` calls of `construct_level` that all complete `step` is
`k`, `max` is still `M`, and `done` is true exactly when `k ≥ M`: false after
every `k < M` calls and true after `M` calls. -/
theorem construct_level_times_fresh (p : Plugin) (level : Level) (fuel : Nat) (g : World)
    (k : Nat) (w : World)
    (hM : 1 ≤ (start_construct_level p level g).state.max)
    (h : construct_level_times p level fuel k (start_construct_level p level g)
      = Res.ok w) :
    w.state.step = k
      ∧ w.state.max = (start_construct_level p level g).state.max
      ∧ (w.state.done = true ↔ (start_construct_level p level g).state.max ≤ (k : Int)) := by
  obtain ⟨hs, hm, hd⟩ := construct_level_times_cursor p level fuel k _ w h
  have h0 : (start_construct_level p level g).state.step = 0 := rfl
  have hd0 : (start_construct_level p level g).state.done = false := rfl
  rw [h0] at hs
  have hs' : w.state.step = k := by omega
  refine ⟨hs', hm, ?_⟩
  rw [← hm, ← hs']
  apply hd
  rw [hd0, h0]
  constructor
  · intro hf
    cases hf
  · intro hle
    exfalso
    have : (1 : Int) ≤ 0 := le_trans hM (by exact_mod_cast hle)
    omega

theorem construct_level_times_fresh_witness :
    (1 : Int) ≤ (start_construct_level example_plugin example_level example_world).state.max
      ∧ construct_level_times example_plugin example_level 20 6
            (start_construct_level example_plugin example_level example_world)
          = Res.ok (world_of_res (construct_level_times example_plugin example_level 20 6
              (start_construct_level example_plugin example_level example_world)))
      ∧ (world_of_res (construct_level_times example_plugin example_level 20 6
            (start_construct_level example_plugin example_level example_world))).state.step
          = 6
      ∧ (world_of_res (construct_level_times example_plugin example_level 20 6
            (start_construct_level example_plugin example_level example_world))).state.done
          = true :=
  ⟨by decide, rfl,
    (construct_level_times_fresh example_plugin example_level 20 example_world 6 _
      (by decide) rfl).1,
    (construct_level_times_fresh example_plugin example_level 20 example_world 6 _
      (by decide) rfl).2.2.mpr (by decide)⟩


/-! ### C3 -/

theorem Res.match_ok_self {σ : Type} (r : Res σ) :
    (match r with
      | Res.ok s => Res.ok s
      | r => r) = r := by
  cases r <;> rfl

/-- Function `construct_level` does, before `++state->step`, the work
`construct_level_work` lists for its step. -/
theorem construct_level_body_eq_work (p : Plugin) (level : Level) (fuel : Nat) (w : World) :
    construct_level_body p level fuel w
      = do_works p level fuel (all_colors_of p w)
          (construct_level_work level.initials.length w.state.step) w := by
  unfold construct_level_body construct_level_work
  dsimp only
  split
  · simp only [do_works, do_work]
    cases load_blessed_objects p level fuel (all_colors_of p w) w with
    | ok w1 =>
      dsimp only
      cases load_initial p level fuel w.state.step (all_colors_of p w) w1 <;> rfl
    | raised what s => rfl
    | fault f => rfl
  · split
    · simp only [do_works, do_work]
      cases load_initial p level fuel w.state.step (all_colors_of p w) w <;> rfl
    · split
      · simp only [do_works, do_work]
        cases load_conditions p level fuel (all_colors_of p w) w with
        | error e => rfl
        | ok w1 =>
          simp only [Res.of_except]
          cases create_initial_at level (w.state.step - level.initials.length) w1 <;> rfl
      · split
        · simp only [do_works, do_work]
          cases create_initial_at level (w.state.step - level.initials.length) w <;> rfl
        · split
          · simp only [do_works, do_work]
            cases set_initial_destination_at level
              (w.state.step - 2 * level.initials.length) w <;> rfl
          · split
            · simp only [do_works, do_work]
            · simp only [do_works, do_work]
              cases run_game_1s p level fuel w <;> rfl

theorem filter_range_ge_length (a : Nat) :
    ∀ b : Nat, ((List.range (a + b)).filter (fun k => decide (a ≤ k))).length = b := by
  intro b
  induction b with
  | zero =>
    rw [Nat.add_zero, List.length_eq_zero, List.filter_eq_nil_iff]
    intro k hk
    have := List.mem_range.mp hk
    simp only [decide_eq_true_eq]
    omega
  | succ b ih =>
    rw [← Nat.add_assoc, List.range_succ, List.filter_append, List.length_append, ih]
    simp [List.filter]

/-- C3: for a level of N ≥ 1 initial objects and T ≥ 0 seconds of head start,
`construct_level` entered with `step = k` does the work
`construct_level_work N k`, in which: the media of initial `i` are loaded exactly
at `k = i`, initial `i` is created exactly at `k = N + i`, its destination is set
exactly at `k = 2 N + i` (for every `i < N`); the media of the conditions are
loaded exactly at `k = N`, before initial 0 is created; and `run_game_1s` is run
exactly at the steps `k > 3 N`, alone, which are T of the `3 N + 1 + T` steps. -/
theorem construct_level_schedule (p : Plugin) (level : Level) (fuel : Nat) (w0 : World)
    (hN : 1 ≤ level.initials.length) (hT : 0 ≤ level.startTime) :
    (∀ w, construct_level_body p level fuel w
        = do_works p level fuel (all_colors_of p w)
            (construct_level_work level.initials.length w.state.step) w)
      ∧ (∀ i k, i < level.initials.length →
          (Work.load_initial i ∈ construct_level_work level.initials.length k ↔ k = i))
      ∧ (∀ i k, i < level.initials.length →
          (Work.create_initial i ∈ construct_level_work level.initials.length k
            ↔ k = level.initials.length + i))
      ∧ (∀ i k, i < level.initials.length →
          (Work.set_initial_destination i ∈ construct_level_work level.initials.length k
            ↔ k = 2 * level.initials.length + i))
      ∧ (∀ k, Work.load_conditions ∈ construct_level_work level.initials.length k
            ↔ k = level.initials.length)
      ∧ construct_level_work level.initials.length level.initials.length
          = [Work.load_conditions, Work.create_initial 0]
      ∧ (∀ k, Work.run_game_1s ∈ construct_level_work level.initials.length k
            ↔ 3 * level.initials.length < k)
      ∧ (∀ k, 3 * level.initials.length < k →
          construct_level_work level.initials.length k = [Work.run_game_1s])
      ∧ ((List.range (3 * level.initials.length + 1 + level.startTime.toNat)).filter
            (fun k => decide (Work.run_game_1s
              ∈ construct_level_work level.initials.length k))).length
          = level.startTime.toNat
      ∧ (start_construct_level p level w0).state.max
          = ((3 * level.initials.length + 1 + level.startTime.toNat : Nat) : Int) := by
  have hrun : ∀ k, Work.run_game_1s ∈ construct_level_work level.initials.length k
      ↔ 3 * level.initials.length < k := by
    intro k
    unfold construct_level_work
    split_ifs <;> simp <;> omega
  refine ⟨construct_level_body_eq_work p level fuel, ?_, ?_, ?_, ?_, ?_, hrun, ?_, ?_, ?_⟩
  · intro i k hi
    unfold construct_level_work
    split_ifs <;> simp <;> omega
  · intro i k hi
    unfold construct_level_work
    split_ifs <;> simp <;> omega
  · intro i k hi
    unfold construct_level_work
    split_ifs <;> simp <;> omega
  · intro k
    unfold construct_level_work
    split_ifs <;> simp <;> omega
  · unfold construct_level_work
    rw [if_neg (by omega), if_neg (by omega), if_pos rfl, Nat.sub_self]
  · intro k hk
    unfold construct_level_work
    split_ifs <;> first | rfl | omega
  · have hfun : (fun k => decide (Work.run_game_1s
          ∈ construct_level_work level.initials.length k))
        = (fun k => decide (3 * level.initials.length + 1 ≤ k)) := by
      funext k
      rw [decide_eq_decide, hrun]
      omega
    rw [hfun]
    exact filter_range_ge_length _ _
  · rw [start_construct_level_state]
    show (level.initials.length : Int) * 3 + 1 + level.startTime = _
    push_cast
    rw [Int.toNat_of_nonneg hT]
    ring


theorem construct_level_schedule_witness :
    1 ≤ example_level.initials.length ∧ 0 ≤ example_level.startTime
      ∧ construct_level_work example_level.initials.length example_level.initials.length
          = [Work.load_conditions, Work.create_initial 0]
      ∧ (List.range 6).map (construct_level_work example_level.initials.length)
          = [[Work.load_blessed_objects, Work.load_initial 0],
             [Work.load_conditions, Work.create_initial 0],
             [Work.set_initial_destination 0], [Work.consolidate],
             [Work.run_game_1s], [Work.run_game_1s]] :=
  ⟨by decide, by decide,
    (construct_level_schedule example_plugin example_level 20 example_world
      (by decide) (by decide)).2.2.2.2.2.1,
    by decide⟩

/-! ### C4 -/

/-- Without initial objects the call entered with `step = 0` never returns: once
the blessed objects are loaded it indexes `initials[0]`. -/
theorem construct_level_empty_not_ok (p : Plugin) (level : Level) (fuel : Nat) (w w' : World)
    (hN : level.initials = []) (h0 : w.state.step = 0) :
    construct_level p level fuel w ≠ Res.ok w' := by
  intro h
  unfold construct_level at h
  split at h
  · rename_i w1 h1
    unfold construct_level_body at h1
    dsimp only at h1
    rw [if_pos h0] at h1
    split at h1
    · rename_i w2 h2
      unfold load_initial at h1
      rw [hN] at h1
      simp only [List.getElem?_nil, Res.of_except] at h1
      cases h1
    · rename_i hr
      exact hr w1 h1
  · rename_i hr
    exact hr w' h

/-- C4, at a level without initial objects: `max` is `1 + T`, the call entered
with `step = 0 = 3 N` does the work of the `step == 0` branch, which indexes
`initials[0]`, and no step at all is given the consolidation. -/
theorem construct_level_no_initials :
    example_empty_level.initials.length = 0
      ∧ (start_construct_level example_plugin example_empty_level example_world).state.max = 3
      ∧ construct_level_work 0 0 = [Work.load_blessed_objects, Work.load_initial 0]
      ∧ (∀ k, Work.consolidate ∉ construct_level_work 0 k)
      ∧ (∀ k, 1 ≤ k → construct_level_work 0 k = [Work.run_game_1s])
      ∧ construct_level example_plugin example_empty_level 20
            (start_construct_level example_plugin example_empty_level example_world)
          = Res.fault Fault.bad_initial_index
      ∧ (∀ fuel w', construct_level example_plugin example_empty_level fuel
            (start_construct_level example_plugin example_empty_level example_world)
          ≠ Res.ok w') := by
  refine ⟨rfl, by decide, rfl, ?_, ?_, rfl, ?_⟩
  · intro k
    unfold construct_level_work
    split_ifs <;> simp
  · intro k hk
    unfold construct_level_work
    split_ifs <;> first | rfl | omega
  · intro fuel w'
    exact construct_level_empty_not_ok _ _ fuel _ w' rfl rfl


/-! ### C5 -/

theorem Res.of_except_ne_raised {σ : Type} (r : Except Fault σ) (what : String) (s : σ) :
    Res.of_except r ≠ Res.raised what s := by
  cases r <;> intro h <;> cases h

/-- Function `load_blessed_objects` throws exactly when one of the four
references is unset, and it throws before it changes anything. -/
theorem load_blessed_objects_raised (p : Plugin) (level : Level) (fuel : Nat)
    (all_colors : Bitset16) (w : World) :
    ((∃ what w', load_blessed_objects p level fuel all_colors w = Res.raised what w')
        ↔ (p.energyBlobID = none ∨ p.warpInFlareID = none ∨ p.warpOutFlareID = none
            ∨ p.playerBodyID = none))
      ∧ ∀ what w', load_blessed_objects p level fuel all_colors w = Res.raised what w' →
          w' = w := by
  unfold load_blessed_objects
  cases he : p.energyBlobID with
  | none =>
    simp only [Option.isNone_none, if_true, true_or, iff_true]
    exact ⟨⟨_, w, rfl⟩, fun what w' h => by cases h; rfl⟩
  | some e =>
    cases hi : p.warpInFlareID with
    | none =>
      simp only [Option.isNone_none, Option.isNone_some, if_true, true_or, or_true, iff_true]
      exact ⟨⟨_, w, rfl⟩, fun what w' h => by cases h; rfl⟩
    | some i =>
      cases ho : p.warpOutFlareID with
      | none =>
        simp only [Option.isNone_none, Option.isNone_some, if_true, true_or, or_true,
          iff_true]
        exact ⟨⟨_, w, rfl⟩, fun what w' h => by cases h; rfl⟩
      | some o =>
        cases hb : p.playerBodyID with
        | none =>
          simp only [Option.isNone_some, or_true, iff_true]
          exact ⟨⟨_, w, rfl⟩, fun what w' h => by cases h; rfl⟩
        | some b =>
          simp only [Option.isNone_some, Bool.false_eq_true, if_false]
          refine ⟨⟨?_, ?_⟩, ?_⟩
          · rintro ⟨what, w', h⟩
            exact absurd h (Res.of_except_ne_raised _ what w')
          · intro h
            rcases h with h | h | h | h <;> cases h
          · intro what w' h
            exact absurd h (Res.of_except_ne_raised _ what w')

/-- C5: the call of `construct_level` at step 0 throws if and only if one of the
four blessed references (energy blob, warp-in flare, warp-out flare, player body)
is unset; and when it throws, the state at the throw is the state at entry: the
`LoadState` (step, done, colours needed and loaded) and the sprite and sound
queues are as they were. -/
theorem construct_level_raises_iff (p : Plugin) (level : Level) (fuel : Nat) (w : World)
    (h0 : w.state.step = 0) :
    ((∃ what w', construct_level p level fuel w = Res.raised what w')
        ↔ (p.energyBlobID = none ∨ p.warpInFlareID = none ∨ p.warpOutFlareID = none
            ∨ p.playerBodyID = none))
      ∧ ∀ what w', construct_level p level fuel w = Res.raised what w' →
          w' = w ∧ w'.state.step = 0 ∧ w'.state.done = w.state.done
            ∧ w'.state.colors_needed = w.state.colors_needed
            ∧ w'.state.colors_loaded = w.state.colors_loaded
            ∧ w'.pix = w.pix ∧ w'.sound = w.sound := by
  obtain ⟨hiff, hsame⟩ := load_blessed_objects_raised p level fuel (all_colors_of p w) w
  have hcl : ∀ what w', construct_level p level fuel w = Res.raised what w' ↔
      load_blessed_objects p level fuel (all_colors_of p w) w = Res.raised what w' := by
    intro what w'
    unfold construct_level construct_level_body
    dsimp only
    rw [if_pos h0]
    cases load_blessed_objects p level fuel (all_colors_of p w) w with
    | ok w1 =>
      dsimp only
      cases load_initial p level fuel w.state.step (all_colors_of p w) w1 with
      | ok w2 => simp [Res.of_except]
      | error e => simp [Res.of_except]
    | raised what1 s => simp
    | fault f => simp
  refine ⟨?_, ?_⟩
  · rw [← hiff]
    constructor
    · rintro ⟨what, w', h⟩
      exact ⟨what, w', (hcl what w').mp h⟩
    · rintro ⟨what, w', h⟩
      exact ⟨what, w', (hcl what w').mpr h⟩
  · intro what w' h
    have hw := hsame what w' ((hcl what w').mp h)
    subst hw
    exact ⟨rfl, h0, rfl, rfl, rfl, rfl, rfl⟩

theorem construct_level_raises_iff_witness :
    example_world.state.step = 0
      ∧ construct_level example_unblessed_plugin example_level 20 example_world
          = Res.raised "No player body defined" example_world
      ∧ (world_of_res (construct_level example_unblessed_plugin example_level 20
            example_world)).pix = [] :=
  ⟨rfl, rfl,
    ((construct_level_raises_iff example_unblessed_plugin example_level 20 example_world
      rfl).2 "No player body defined" _ rfl).2.2.2.2.2.1⟩


/-! ### C6 -/

theorem run_game_tick_time (p : Plugin) (level : Level) (w : World) :
    (run_game_tick p level w).time = w.time + p.kMajorTick := by
  unfold run_game_tick
  dsimp only
  split <;> rfl

theorem run_game_tick_moves (p : Plugin) (level : Level) (w : World) :
    (run_game_tick p level w).calls.count (Call.MoveSpaceObjects p.kMajorTick)
      = w.calls.count (Call.MoveSpaceObjects p.kMajorTick) + 1 := by
  unfold run_game_tick
  dsimp only
  split <;> simp [World.call, List.count_cons]

/-- Between two whole seconds no multiple of the major tick is a whole second. -/
theorem not_whole_second (m q j t0 : Int) (hm : 0 < m) (hj : 0 < j) (hjq : j < q)
    (h0 : m * q ∣ t0) : ¬ (m * q ∣ t0 + j * m) := by
  intro h
  have h1 : m * q ∣ j * m := (Int.dvd_add_right h0).mp h
  rw [mul_comm j m] at h1
  have h2 : q ∣ j := (mul_dvd_mul_iff_left (ne_of_gt hm)).mp h1
  have h3 := Int.le_of_dvd hj h2
  omega

/-- The loop of `run_game_1s`, entered `r + 1` major ticks before the next whole
second with at least that much fuel, leaves at that second. -/
theorem run_game_1s_loop (p : Plugin) (level : Level) (q : Nat) (t0 : Int)
    (hm : 0 < p.kMajorTick) (hq : p.ticksPerSecond = p.kMajorTick * (q : Int))
    (ht0 : p.ticksPerSecond ∣ t0) :
    ∀ (r fuel : Nat) (w : World), r + 1 ≤ fuel → r + 1 ≤ q →
      w.time = t0 + ((q : Int) - ((r : Int) + 1)) * p.kMajorTick →
      ∃ w', run_game_1s p level fuel w = Except.ok w'
        ∧ w'.time = t0 + p.ticksPerSecond ∧ w'.state = w.state
        ∧ w'.calls.count (Call.MoveSpaceObjects p.kMajorTick)
            = w.calls.count (Call.MoveSpaceObjects p.kMajorTick) + (r + 1) := by
  intro r
  induction r with
  | zero =>
    intro fuel w hfuel hrq hw
    obtain ⟨f, rfl⟩ : ∃ f, fuel = f + 1 := ⟨fuel - 1, by omega⟩
    have htime : (run_game_tick p level w).time = t0 + p.ticksPerSecond := by
      rw [run_game_tick_time, hw, hq]
      push_cast
      ring
    have hdvd : p.ticksPerSecond ∣ (run_game_tick p level w).time := by
      rw [htime]
      exact Dvd.dvd.add ht0 (dvd_refl _)
    simp only [run_game_1s]
    rw [if_neg (by
      rw [not_not]
      exact Int.dvd_iff_tmod_eq_zero.mp hdvd)]
    exact ⟨_, rfl, htime, run_game_tick_state p level w, run_game_tick_moves p level w⟩
  | succ r ih =>
    intro fuel w hfuel hrq hw
    obtain ⟨f, rfl⟩ : ∃ f, fuel = f + 1 := ⟨fuel - 1, by omega⟩
    have htime : (run_game_tick p level w).time
        = t0 + ((q : Int) - ((r : Int) + 1)) * p.kMajorTick := by
      rw [run_game_tick_time, hw]
      push_cast
      ring
    have hnot : ¬ p.ticksPerSecond ∣ (run_game_tick p level w).time := by
      rw [htime, hq]
      refine not_whole_second _ _ _ _ hm ?_ ?_ (hq ▸ ht0)
      · omega
      · omega
    simp only [run_game_1s]
    rw [if_pos (fun h => hnot (Int.dvd_iff_tmod_eq_zero.mpr h))]
    obtain ⟨w', hrun, ht, hs, hc⟩ := ih f (run_game_tick p level w) (by omega) (by omega) htime
    refine ⟨w', hrun, ht, by rw [hs, run_game_tick_state], ?_⟩
    rw [hc, run_game_tick_moves]
    omega

/-- Function `run_game_1s`, entered at a whole second, returns one second later,
after `ticksPerSecond / kMajorTick` major ticks. -/
theorem run_game_1s_second (p : Plugin) (level : Level) (fuel : Nat) (w : World)
    (hm : 0 < p.kMajorTick) (hdiv : p.kMajorTick ∣ p.ticksPerSecond)
    (htps : 0 < p.ticksPerSecond) (hw : p.ticksPerSecond ∣ w.time)
    (hfuel : (p.ticksPerSecond / p.kMajorTick).toNat ≤ fuel) :
    ∃ w', run_game_1s p level fuel w = Except.ok w'
      ∧ w'.time = w.time + p.ticksPerSecond ∧ w'.state = w.state
      ∧ w'.calls.count (Call.MoveSpaceObjects p.kMajorTick)
          = w.calls.count (Call.MoveSpaceObjects p.kMajorTick)
            + (p.ticksPerSecond / p.kMajorTick).toNat := by
  obtain ⟨c, hc⟩ := hdiv
  have hcpos : 0 < c := by
    by_contra hneg
    have : p.kMajorTick * c ≤ 0 := Int.mul_nonpos_of_nonneg_of_nonpos (le_of_lt hm) (by omega)
    omega
  have hquot : p.ticksPerSecond / p.kMajorTick = c := by
    rw [hc]
    exact Int.mul_ediv_cancel_left c (ne_of_gt hm)
  rw [hquot] at hfuel ⊢
  obtain ⟨q, hq⟩ : ∃ q : Nat, c = (q : Int) := ⟨c.toNat, (Int.toNat_of_nonneg (le_of_lt hcpos)).symm⟩
  subst hq
  rw [Int.toNat_ofNat] at hfuel ⊢
  have hq1 : 1 ≤ q := by omega
  obtain ⟨w', hrun, ht, hs, hcount⟩ := run_game_1s_loop p level q w.time hm hc hw (q - 1) fuel w
    (by omega) (by omega) (by
      have : ((q - 1 : Nat) : Int) = (q : Int) - 1 := by omega
      rw [this]
      ring)
  refine ⟨w', hrun, ht, hs, ?_⟩
  rw [hcount]
  omega


theorem advance_step (w : World) : (advance w).state.step = w.state.step + 1 := by
  unfold advance
  dsimp only
  split <;> rfl

theorem construct_level_times_add (p : Plugin) (level : Level) (fuel : Nat) :
    ∀ (a b : Nat) (w w1 : World), construct_level_times p level fuel a w = Res.ok w1 →
      construct_level_times p level fuel (a + b) w = construct_level_times p level fuel b w1 := by
  intro a
  induction a with
  | zero =>
    intro b w w1 h
    simp only [construct_level_times] at h
    cases h
    rw [Nat.zero_add]
  | succ a ih =>
    intro b w w1 h
    rw [Nat.add_right_comm]
    simp only [construct_level_times] at h ⊢
    cases hc : construct_level p level fuel w with
    | ok w2 =>
      rw [hc] at h
      exact ih b w2 w1 h
    | raised what s =>
      rw [hc] at h
      cases h
    | fault f =>
      rw [hc] at h
      cases h

/-- A call of `construct_level` entered beyond step 3N is `run_game_1s`. -/
theorem construct_level_second (p : Plugin) (level : Level) (fuel : Nat) (w : World)
    (hm : 0 < p.kMajorTick) (hdiv : p.kMajorTick ∣ p.ticksPerSecond)
    (htps : 0 < p.ticksPerSecond)
    (hfuel : (p.ticksPerSecond / p.kMajorTick).toNat ≤ fuel)
    (hstep : 3 * level.initials.length < w.state.step) (hw : p.ticksPerSecond ∣ w.time) :
    ∃ w', construct_level p level fuel w = Res.ok w'
      ∧ w'.time = w.time + p.ticksPerSecond ∧ w'.state.step = w.state.step + 1
      ∧ w'.calls.count (Call.MoveSpaceObjects p.kMajorTick)
          = w.calls.count (Call.MoveSpaceObjects p.kMajorTick)
            + (p.ticksPerSecond / p.kMajorTick).toNat := by
  obtain ⟨w1, hrun, ht, hs, hc⟩ := run_game_1s_second p level fuel w hm hdiv htps hw hfuel
  have hbody : construct_level_body p level fuel w = Res.ok w1 := by
    unfold construct_level_body
    dsimp only
    rw [if_neg (by omega), if_neg (by omega), if_neg (by omega), if_neg (by omega),
      if_neg (by omega), if_neg (by omega), hrun]
    rfl
  refine ⟨advance w1, ?_, ht, ?_, hc⟩
  · unfold construct_level
    rw [hbody]
  · rw [advance_step, hs]

/-- Beyond step 3N, `j` calls in a row simulate `j` seconds. -/
theorem construct_level_seconds (p : Plugin) (level : Level) (fuel : Nat)
    (hm : 0 < p.kMajorTick) (hdiv : p.kMajorTick ∣ p.ticksPerSecond)
    (htps : 0 < p.ticksPerSecond)
    (hfuel : (p.ticksPerSecond / p.kMajorTick).toNat ≤ fuel) :
    ∀ (j : Nat) (w : World), 3 * level.initials.length < w.state.step →
      p.ticksPerSecond ∣ w.time →
      ∃ w', construct_level_times p level fuel j w = Res.ok w'
        ∧ w'.time = w.time + (j : Int) * p.ticksPerSecond := by
  intro j
  induction j with
  | zero =>
    intro w _ _
    exact ⟨w, rfl, by simp⟩
  | succ j ih =>
    intro w hstep hw
    obtain ⟨w1, hcall, ht, hs, _⟩ :=
      construct_level_second p level fuel w hm hdiv htps hfuel hstep hw
    obtain ⟨w', hrest, ht'⟩ := ih w1 (by omega) (by
      rw [ht]
      exact Dvd.dvd.add hw (dvd_refl _))
    refine ⟨w', ?_, ?_⟩
    · simp only [construct_level_times]
      rw [hcall]
      exact hrest
    · rw [ht', ht]
      push_cast
      ring

/-- With at least one initial object, the call entered with `step = 3 N`
recomputes the admirals' build data, clears the messages and sets the clock to
`-start_time`. -/
theorem construct_level_consolidates (p : Plugin) (level : Level) (fuel : Nat) (w : World)
    (hN : 1 ≤ level.initials.length) (hstep : w.state.step = 3 * level.initials.length) :
    construct_level p level fuel w = Res.ok (advance (consolidate p level w)) := by
  unfold construct_level construct_level_body
  dsimp only
  rw [if_neg (by omega), if_neg (by omega), if_neg (by omega), if_neg (by omega),
    if_neg (by omega), if_pos hstep]

/-- C6: provided `kMajorTick` is positive and divides one second, a call of
`construct_level` entered beyond step 3N at a whole second of `g.time` returns
(given fuel for `ticksPerSecond / kMajorTick` iterations), with `g.time` one
second later, reached in that many major ticks; and so, for a level of N ≥ 1
initial objects and T ≥ 0 seconds of head start, once the first 3N calls have
returned, the run of all `3 N + 1 + T` calls returns with `g.time = 0` and
`done`. -/
theorem construct_level_head_start (p : Plugin) (level : Level) (fuel : Nat)
    (hm : 0 < p.kMajorTick) (hdiv : p.kMajorTick ∣ p.ticksPerSecond)
    (htps : 0 < p.ticksPerSecond)
    (hfuel : (p.ticksPerSecond / p.kMajorTick).toNat ≤ fuel) :
    (∀ w, 3 * level.initials.length < w.state.step → p.ticksPerSecond ∣ w.time →
        ∃ w', construct_level p level fuel w = Res.ok w'
          ∧ w'.time = w.time + p.ticksPerSecond ∧ w'.state.step = w.state.step + 1
          ∧ w'.calls.count (Call.MoveSpaceObjects p.kMajorTick)
              = w.calls.count (Call.MoveSpaceObjects p.kMajorTick)
                + (p.ticksPerSecond / p.kMajorTick).toNat)
      ∧ (1 ≤ level.initials.length → 0 ≤ level.startTime → ∀ g w1,
          construct_level_times p level fuel (3 * level.initials.length)
              (start_construct_level p level g) = Res.ok w1 →
          ∃ w2, construct_level_times p level fuel
                (3 * level.initials.length + 1 + level.startTime.toNat)
                (start_construct_level p level g) = Res.ok w2
            ∧ w2.time = 0 ∧ w2.state.done = true) := by
  refine ⟨fun w hstep hw =>
    construct_level_second p level fuel w hm hdiv htps hfuel hstep hw, ?_⟩
  intro hN hT g w1 h1
  have hstep1 : w1.state.step = 3 * level.initials.length := by
    have := (construct_level_times_cursor p level fuel _ _ w1 h1).1
    rw [this]
    show 0 + _ = _
    omega
  have hcall := construct_level_consolidates p level fuel w1 hN hstep1
  have htime : (advance (consolidate p level w1)).time
      = -(level.startTime * p.ticksPerSecond) := rfl
  have hstep2 : (advance (consolidate p level w1)).state.step
      = 3 * level.initials.length + 1 := by
    rw [advance_step]
    show w1.state.step + 1 = _
    rw [hstep1]
  obtain ⟨w2, hrest, ht2⟩ := construct_level_seconds p level fuel hm hdiv htps hfuel
    level.startTime.toNat (advance (consolidate p level w1)) (by omega) (by
      rw [htime]
      exact Dvd.dvd.neg_right (Dvd.intro_left _ rfl))
  have hall : construct_level_times p level fuel
      (3 * level.initials.length + 1 + level.startTime.toNat)
      (start_construct_level p level g) = Res.ok w2 := by
    rw [Nat.add_assoc, construct_level_times_add p level fuel _ _ _ w1 h1,
      Nat.add_comm 1]
    simp only [construct_level_times]
    rw [hcall]
    exact hrest
  refine ⟨w2, hall, ?_, ?_⟩
  · rw [ht2, htime, Int.toNat_of_nonneg hT]
    ring
  · have hmax : (start_construct_level p level g).state.max
        = (level.initials.length : Int) * 3 + 1 + level.startTime := rfl
    refine (construct_level_times_start p level fuel g _ w2 ?_ hall).2.mpr ?_
    · rw [hmax]
      omega
    · rw [hmax]
      push_cast
      rw [Int.toNat_of_nonneg hT]
      omega

theorem construct_level_head_start_witness :
    (0 : Int) < example_plugin.kMajorTick
      ∧ example_plugin.kMajorTick ∣ example_plugin.ticksPerSecond
      ∧ (0 : Int) < example_plugin.ticksPerSecond
      ∧ (example_plugin.ticksPerSecond / example_plugin.kMajorTick).toNat ≤ 20
      ∧ ∃ w2, construct_level_times example_plugin example_level 20 6
              (start_construct_level example_plugin example_level example_world) = Res.ok w2
          ∧ w2.time = 0 ∧ w2.state.done = true :=
  ⟨by decide, by decide, by decide, by decide,
    (construct_level_head_start example_plugin example_level 20 (by decide) (by decide)
      (by decide) (by decide)).2 (by decide) (by decide) example_world _ rfl⟩


/-! ### Styled text: the layout keeps the stream and stays in range -/

theorem map_set_same {α β : Type} (f : α → β) (l : List α) (i : Nat) (c c' : α)
    (hc : l[i]? = some c) (hf : f c' = f c) : (l.set i c').map f = l.map f := by
  apply List.ext_getElem?
  intro j
  rw [List.getElem?_map, List.getElem?_map, List.getElem?_set]
  split
  · rename_i hij
    subst hij
    split
    · rw [hc]
      simp [hf]
    · rename_i hlt
      rw [List.getElem?_eq_none (by omega)]
  · rfl

/-- An invariant `I` kept by every iteration that returns, with every failure in
`E`, holds after a `forEach` loop that returns, and its failures are in `E`. -/
theorem forEach_inv {α σ ε : Type} (I : σ → Prop) (E : ε → Prop)
    (body : α → σ → Except ε σ) :
    ∀ (xs : List α) (s : σ),
      (∀ x ∈ xs, ∀ a, I a →
        match body x a with
        | Except.ok b => I b
        | Except.error e => E e) →
      I s →
      match forEach xs s body with
      | Except.ok b => I b
      | Except.error e => E e := by
  intro xs
  induction xs with
  | nil =>
    intro s _ hs
    exact hs
  | cons x rest ih =>
    intro s hbody hs
    have hx := hbody x (List.mem_cons_self _ _) s hs
    simp only [forEach]
    cases hb : body x s with
    | ok b =>
      rw [hb] at hx
      exact ih b (fun y hy => hbody y (List.mem_cons_of_mem _ hy)) hx
    | error e =>
      rw [hb] at hx
      exact hx

theorem unplaced_bounds (c : StyledChar) (r : Rect) :
    ({ c with bounds := r } : StyledChar).unplaced = c.unplaced := rfl

/-- One step of the loop over `j` in `move_word_down`, on an entry whose iterator
is inside the text. -/
theorem move_word_down_place_ok (metrics : WrapMetrics) (text : List Char) (v : Int)
    (j : Nat) (s : List StyledChar × Int) (c : StyledChar) (hc : s.1[j]? = some c)
    (hit : c.it < text.length) :
    ∃ s', move_word_down_place metrics text v j s = Except.ok s'
      ∧ s'.1.map StyledChar.unplaced = s.1.map StyledChar.unplaced := by
  unfold move_word_down_place
  rw [hc]
  dsimp only
  rw [List.getElem?_eq_getElem hit]
  exact ⟨_, rfl, map_set_same _ _ _ c _ hc (unplaced_bounds c _)⟩

/-- The scan of `move_word_down` from an entry at or before `index` reads and
writes entries up to `index` only: it returns, whatever follows `index`, and the
stream is kept. -/
theorem move_word_down_from_ok (metrics : WrapMetrics) (text : List Char) (index : Nat)
    (v : Int) :
    ∀ (n : Nat) (chars : List StyledChar), n ≤ index → index < chars.length →
      (∀ j c, chars[j]? = some c → j ≤ index → c.it < text.length) →
      ∃ r, move_word_down_from metrics text index v n chars = Except.ok r
        ∧ r.1.map StyledChar.unplaced = chars.map StyledChar.unplaced := by
  intro n
  induction n with
  | zero =>
    intro chars _ _ _
    exact ⟨_, rfl, rfl⟩
  | succ i ih =>
    intro chars hn hindex hit
    have hplace : ∃ r, forEach (List.range' (i + 1) (index - i)) (chars, metrics.side_margin)
          (move_word_down_place metrics text v) = Except.ok r
        ∧ r.1.map StyledChar.unplaced = chars.map StyledChar.unplaced := by
      have hinv := forEach_inv
        (fun (s : List StyledChar × Int) =>
          s.1.map StyledChar.unplaced = chars.map StyledChar.unplaced)
        (fun (_ : Fault) => False)
        (move_word_down_place metrics text v)
        (List.range' (i + 1) (index - i)) (chars, metrics.side_margin)
        (by
          intro j hj a ha
          have hj' := List.mem_range'_1.mp hj
          have hlen : a.1.length = chars.length := by
            have := congrArg List.length ha
            simpa using this
          have hjlt : j < a.1.length := by omega
          have hjc : j < chars.length := by omega
          have hcj : a.1[j]? = some (a.1[j]) := List.getElem?_eq_getElem hjlt
          have hcj' : chars[j]? = some (chars[j]) := List.getElem?_eq_getElem hjc
          have hun : (a.1[j]).unplaced = (chars[j]).unplaced := by
            have h1 : (a.1.map StyledChar.unplaced)[j]? = (chars.map StyledChar.unplaced)[j]? := by
              rw [ha]
            rw [List.getElem?_map, List.getElem?_map, hcj, hcj'] at h1
            simpa using h1
          have hitj : (a.1[j]).it < text.length := by
            have h2 := hit j _ hcj' (by omega)
            have h3 : (a.1[j]).it = (chars[j]).it := by
              have h4 := congrArg StyledChar.it hun
              exact h4
            rw [h3]
            exact h2
          obtain ⟨s', hs', hmap⟩ := move_word_down_place_ok metrics text v j a _ hcj hitj
          rw [hs']
          exact hmap.trans ha)
        rfl
      cases hr : forEach (List.range' (i + 1) (index - i)) (chars, metrics.side_margin)
          (move_word_down_place metrics text v) with
      | ok r =>
        rw [hr] at hinv
        exact ⟨r, rfl, hinv⟩
      | error e =>
        rw [hr] at hinv
        exact absurd hinv id
    have hic : i < chars.length := by omega
    have hic1 : i + 1 < chars.length := by omega
    have hi : chars[i]? = some (chars[i]) := List.getElem?_eq_getElem hic
    have hi1 : chars[i + 1]? = some (chars[i + 1]) := List.getElem?_eq_getElem hic1
    simp only [move_word_down_from]
    rw [hi]
    dsimp only
    split
    · exact ⟨_, rfl, rfl⟩
    · exact ⟨_, rfl, rfl⟩
    · exact ih chars (by omega) hindex hit
    · exact ih chars (by omega) hindex hit
    · rw [hi1]
      dsimp only
      split
      · exact ⟨_, rfl, rfl⟩
      · exact hplace
    · rw [hi1]
      dsimp only
      split
      · exact ⟨_, rfl, rfl⟩
      · exact hplace
    · rw [hi1]
      dsimp only
      split
      · exact ⟨_, rfl, rfl⟩
      · exact hplace

/-- Method `move_word_down`, called as `rewrap` calls it (on a NONE or NO_BREAK
entry), returns and keeps the stream. -/
theorem move_word_down_ok (metrics : WrapMetrics) (text : List Char)
    (chars : List StyledChar) (index : Nat) (v : Int) (c : StyledChar)
    (hc : chars[index]? = some c)
    (hspecial : c.special = SpecialChar.NONE ∨ c.special = SpecialChar.NO_BREAK)
    (hit : ∀ j c, chars[j]? = some c → j ≤ index → c.it < text.length) :
    ∃ r, move_word_down metrics text chars index v = Except.ok r
      ∧ r.1.map StyledChar.unplaced = chars.map StyledChar.unplaced := by
  have hindex : index < chars.length := by
    by_contra hge
    rw [List.getElem?_eq_none (by omega)] at hc
    cases hc
  unfold move_word_down
  simp only [move_word_down_from]
  rw [hc]
  dsimp only
  rcases hspecial with h | h
  · rw [h]
    exact move_word_down_from_ok metrics text index v index chars (le_refl _) hindex hit
  · rw [h]
    exact move_word_down_from_ok metrics text index v index chars (le_refl _) hindex hit


theorem stream_length {chars stream : List StyledChar}
    (h : chars.map StyledChar.unplaced = stream) : chars.length = stream.length := by
  rw [← h, List.length_map]

theorem stream_getElem? {chars stream : List StyledChar}
    (h : chars.map StyledChar.unplaced = stream) (i : Nat) (c : StyledChar)
    (hc : chars[i]? = some c) : stream[i]? = some c.unplaced := by
  rw [← h, List.getElem?_map, hc]
  rfl

/-- The statement `_chars[i].bounds.right = h` is in range and keeps the stream. -/
theorem close_ok (metrics : WrapMetrics) (picts : Nat) (stream : List StyledChar) (i : Nat)
    (s : Layout) (hs : s.chars.map StyledChar.unplaced = stream) (hi : i < stream.length)
    (hp : s.inline_picts.length = picts) :
    LayoutOk metrics picts stream (Layout.close i s) := by
  have hlt : i < s.chars.length := by rw [stream_length hs]; exact hi
  have hc : s.chars[i]? = some (s.chars[i]) := List.getElem?_eq_getElem hlt
  unfold Layout.close
  rw [hc]
  dsimp only [LayoutOk]
  refine ⟨?_, hp⟩
  rw [map_set_same _ _ _ _ _ hc (unplaced_bounds _ _)]
  exact hs

/-- One iteration of the loop of `rewrap` on a well-formed stream reads no entry,
iterator or inline picture out of range, and keeps the stream. -/
theorem rewrap_char_ok (metrics : WrapMetrics) (text : List Char) (picts : Nat)
    (stream : List StyledChar) (hwf : WellFormed text.length picts stream) (i : Nat)
    (hi : i < stream.length) (s : Layout)
    (hs : s.chars.map StyledChar.unplaced = stream ∧ s.inline_picts.length = picts) :
    LayoutOk metrics picts stream (rewrap_char metrics text i s) := by
  obtain ⟨hmap, hp⟩ := hs
  obtain ⟨_, hlast, hiter, hpict⟩ := hwf
  have hlt : i < s.chars.length := by rw [stream_length hmap]; exact hi
  have hc : s.chars[i]? = some (s.chars[i]) := List.getElem?_eq_getElem hlt
  generalize hcdef : s.chars[i] = c at hc
  have hst : stream[i]? = some c.unplaced := stream_getElem? hmap i c hc
  have hmem : c.unplaced ∈ stream := List.getElem?_mem hst
  -- the stream after `_chars[i].bounds = Rect{h, v, h, v + line_height}`
  have hmap1 : ∀ r : Rect,
      (s.chars.set i { c with bounds := r }).map StyledChar.unplaced = stream := by
    intro r
    rw [map_set_same _ _ _ _ _ hc (unplaced_bounds _ _)]
    exact hmap
  have hnext : c.special ≠ SpecialChar.LINE_BREAK → i + 1 < stream.length :=
    fun hne => hlast i c.unplaced hst hne
  have hin : c.special ≠ SpecialChar.LINE_BREAK → c.it < text.length :=
    fun hne => hiter i c.unplaced hst (hnext hne)
  unfold rewrap_char
  rw [hc]
  dsimp only
  split
  · -- NONE
    rename_i hsp
    rw [List.getElem?_eq_getElem (hin (by rw [hsp]; decide))]
    dsimp only
    split
    · obtain ⟨r, hr, hrmap⟩ := move_word_down_ok metrics text
        (s.chars.set i { c with bounds :=
          ⟨s.h, s.v, s.h, s.v + (metrics.font.height + metrics.line_spacing)⟩ }) i
        (s.v + (metrics.font.height + metrics.line_spacing))
        { c with bounds :=
          ⟨s.h, s.v, s.h, s.v + (metrics.font.height + metrics.line_spacing)⟩ }
        (by rw [List.getElem?_set, if_pos rfl, if_pos hlt])
        (Or.inl hsp)
        (by
          intro j cj hcj hj
          have hcj' := stream_getElem? (hmap1 _) j cj hcj
          exact hiter j cj.unplaced hcj' (by
            have := hnext (by rw [hsp]; decide)
            omega))
      rw [hr]
      dsimp only
      exact close_ok metrics picts stream i _ (hrmap.trans (hmap1 _)) hi hp
    · exact close_ok metrics picts stream i _ (hmap1 _) hi hp
  · -- NO_BREAK
    rename_i hsp
    rw [List.getElem?_eq_getElem (hin (by rw [hsp]; decide))]
    dsimp only
    split
    · obtain ⟨r, hr, hrmap⟩ := move_word_down_ok metrics text
        (s.chars.set i { c with bounds :=
          ⟨s.h, s.v, s.h, s.v + (metrics.font.height + metrics.line_spacing)⟩ }) i
        (s.v + (metrics.font.height + metrics.line_spacing))
        { c with bounds :=
          ⟨s.h, s.v, s.h, s.v + (metrics.font.height + metrics.line_spacing)⟩ }
        (by rw [List.getElem?_set, if_pos rfl, if_pos hlt])
        (Or.inr hsp)
        (by
          intro j cj hcj hj
          have hcj' := stream_getElem? (hmap1 _) j cj hcj
          exact hiter j cj.unplaced hcj' (by
            have := hnext (by rw [hsp]; decide)
            omega))
      rw [hr]
      dsimp only
      exact close_ok metrics picts stream i _ (hrmap.trans (hmap1 _)) hi hp
    · exact close_ok metrics picts stream i _ (hmap1 _) hi hp
  · -- TAB
    rename_i hsp
    split
    · rename_i hzero
      exact ⟨rfl, hzero, c.unplaced, hmem, hsp⟩
    · exact close_ok metrics picts stream i _ (hmap1 _) hi hp
  · -- LINE_BREAK
    exact close_ok metrics picts stream i _ (hmap1 _) hi hp
  · -- WORD_BREAK
    rename_i hsp
    rw [List.getElem?_eq_getElem (hin (by rw [hsp]; decide))]
    exact close_ok metrics picts stream i _ (hmap1 _) hi hp
  · -- PICTURE
    rename_i hsp
    have hpi : c.pict_index < s.inline_picts.length := by
      rw [hp]
      exact hpict c.unplaced hmem hsp
    rw [List.getElem?_eq_getElem hpi]
    dsimp only
    have hn : i + 1 < (s.chars.set i { c with bounds :=
        ⟨s.h, s.v, s.h, s.v + (metrics.font.height + metrics.line_spacing)⟩ }).length := by
      rw [List.length_set, stream_length hmap]
      exact hnext (by rw [hsp]; decide)
    rw [List.getElem?_eq_getElem hn]
    dsimp only
    exact close_ok metrics picts stream i _ (hmap1 _) hi (by
      dsimp only
      rw [List.length_set]
      exact hp)
  · -- DELAY
    exact close_ok metrics picts stream i _ (hmap1 _) hi hp


/-- Method `rewrap` on a text with a well-formed stream reads nothing out of
range and keeps the stream. -/
theorem rewrap_ok (t : StyledText)
    (hwf : WellFormed t.text.length t.inline_picts.length (t.chars.map StyledChar.unplaced)) :
    RewrapOk t t.rewrap := by
  unfold StyledText.rewrap
  dsimp only
  generalize hm : (if t.wrap_metrics.tab_width ≤ 0
    then { t.wrap_metrics with tab_width := Int.tdiv t.wrap_metrics.width 2 }
    else t.wrap_metrics) = metrics
  have htab : metrics.tab_width = resolved_tab_width t.wrap_metrics := by
    rw [← hm]
    unfold resolved_tab_width
    split <;> rfl
  have hinv := forEach_inv
    (fun (s : Layout) => s.chars.map StyledChar.unplaced = t.chars.map StyledChar.unplaced
      ∧ s.inline_picts.length = t.inline_picts.length)
    (fun (e : Fault) => e = Fault.division_by_zero ∧ metrics.tab_width = 0
      ∧ ∃ c ∈ t.chars.map StyledChar.unplaced, c.special = SpecialChar.TAB)
    (rewrap_char metrics t.text) (List.range t.chars.length)
    { chars := t.chars, inline_picts := t.inline_picts, h := metrics.side_margin, v := 0,
      auto_width := 0 }
    (by
      intro i hi a ha
      have hlt : i < (t.chars.map StyledChar.unplaced).length := by
        rw [List.length_map]
        exact List.mem_range.mp hi
      have hok := rewrap_char_ok metrics t.text _ _ hwf i hlt a ha
      cases hb : rewrap_char metrics t.text i a with
      | ok b =>
        rw [hb] at hok
        exact hok
      | error e =>
        rw [hb] at hok
        exact hok)
    ⟨rfl, rfl⟩
  cases hr : forEach (List.range t.chars.length)
      { chars := t.chars, inline_picts := t.inline_picts, h := metrics.side_margin, v := 0,
        auto_width := 0 } (rewrap_char metrics t.text) with
  | ok s' =>
    rw [hr] at hinv
    exact ⟨hinv.1, hinv.2, rfl, rfl⟩
  | error e =>
    rw [hr] at hinv
    obtain ⟨he, hz, c, hc, hsp⟩ := hinv
    obtain ⟨c0, hc0, rfl⟩ := List.mem_map.mp hc
    exact ⟨he, by rw [← htab]; exact hz, c0, hc0, hsp⟩

/-! ### Styled text: the final line break -/

theorem push_final_line_break_eq (chars : List StyledChar) (text_end : Nat)
    (fore_color back_color : RgbColor) :
    push_final_line_break chars text_end fore_color back_color
      = if chars.getLast?.map StyledChar.special = some SpecialChar.LINE_BREAK then chars
        else chars ++ [StyledChar.make text_end SpecialChar.LINE_BREAK 0 fore_color
          back_color] := by
  unfold push_final_line_break
  cases h : chars.getLast? with
  | none => simp
  | some back =>
    simp only [Option.map_some', Option.some.injEq]
    by_cases hb : back.special = SpecialChar.LINE_BREAK
    · simp [hb]
    · simp [hb]

theorem push_final_line_break_last (chars : List StyledChar) (text_end : Nat)
    (fore_color back_color : RgbColor) :
    (push_final_line_break chars text_end fore_color back_color).getLast?.map
      StyledChar.special = some SpecialChar.LINE_BREAK := by
  rw [push_final_line_break_eq]
  split
  · rename_i h
    exact h
  · rw [List.getLast?_concat]
    rfl

/-- The stream a parser leaves, closed by `push_final_line_break`, is well
formed. -/
theorem wellFormed_push (text_length picts : Nat) (chars : List StyledChar)
    (fore_color back_color : RgbColor) (hinv : StreamInv text_length picts chars) :
    WellFormed text_length picts
      ((push_final_line_break chars text_length fore_color back_color).map
        StyledChar.unplaced) := by
  obtain ⟨hit, hpict⟩ := hinv
  have hlast := push_final_line_break_last chars text_length fore_color back_color
  generalize hfin : push_final_line_break chars text_length fore_color back_color = final
    at hlast
  have hcases : final = chars
      ∨ final = chars ++ [StyledChar.make text_length SpecialChar.LINE_BREAK 0 fore_color
          back_color] := by
    rw [← hfin, push_final_line_break_eq]
    split
    · exact Or.inl rfl
    · exact Or.inr rfl
  have hne : final ≠ [] := by
    intro h
    rw [h] at hlast
    cases hlast
  have hget : ∀ (i : Nat) (c : StyledChar), (final.map StyledChar.unplaced)[i]? = some c →
      ∃ c0 : StyledChar, final[i]? = some c0 ∧ c = c0.unplaced := by
    intro i c hc
    rw [List.getElem?_map] at hc
    cases h0 : final[i]? with
    | none =>
      rw [h0] at hc
      cases hc
    | some c0 =>
      rw [h0] at hc
      cases hc
      exact ⟨c0, rfl, rfl⟩
  refine ⟨?_, ?_, ?_, ?_⟩
  · intro h
    exact hne (List.map_eq_nil_iff.mp h)
  · intro i c hc hsp
    obtain ⟨c0, hc0, rfl⟩ := hget i c hc
    rw [List.length_map]
    have hlt : i < final.length := by
      by_contra hge
      rw [List.getElem?_eq_none (by omega)] at hc0
      cases hc0
    by_contra hnot
    have hi : i = final.length - 1 := by omega
    rw [List.getLast?_eq_getElem?, ← hi, hc0] at hlast
    exact hsp (Option.some.inj hlast)
  · intro i c hc hlt
    obtain ⟨c0, hc0, rfl⟩ := hget i c hc
    rw [List.length_map] at hlt
    rcases hcases with h | h
    · rw [h] at hc0
      exact hit c0 (List.getElem?_mem hc0)
    · rw [h] at hc0 hlt
      rw [List.length_append, List.length_singleton] at hlt
      rw [List.getElem?_append_left (by omega)] at hc0
      exact hit c0 (List.getElem?_mem hc0)
  · intro c hc hsp
    obtain ⟨c0, hc0, rfl⟩ := List.mem_map.mp hc
    rcases hcases with h | h
    · rw [h] at hc0
      exact hpict c0 hc0 hsp
    · rw [h] at hc0
      rcases List.mem_append.mp hc0 with h1 | h1
      · exact hpict c0 h1 hsp
      · rw [List.mem_singleton] at h1
        rw [h1] at hsp
        cases hsp


/-! ### Styled text: what the parsers keep -/

theorem streamInv_push (it picts : Nat) (chars : List StyledChar) (special : SpecialChar)
    (fore_color back_color : RgbColor) (h : StreamInv it picts chars)
    (hsp : special ≠ SpecialChar.PICTURE) :
    StreamInv (it + 1) picts (chars ++ [StyledChar.make it special 0 fore_color back_color]) := by
  obtain ⟨hit, hpict⟩ := h
  constructor
  · intro c hc
    rcases List.mem_append.mp hc with h1 | h1
    · exact Nat.lt_succ_of_lt (hit c h1)
    · rw [List.mem_singleton] at h1
      rw [h1]
      exact Nat.lt_succ_self it
  · intro c hc hp
    rcases List.mem_append.mp hc with h1 | h1
    · exact hpict c h1 hp
    · rw [List.mem_singleton] at h1
      rw [h1] at hp
      exact absurd hp hsp

theorem streamInv_dropLast (it picts : Nat) (chars : List StyledChar)
    (h : StreamInv it picts chars) : StreamInv it picts chars.dropLast :=
  ⟨fun c hc => h.1 c (List.dropLast_subset chars hc),
    fun c hc => h.2 c (List.dropLast_subset chars hc)⟩

theorem streamInv_step (it picts : Nat) (chars : List StyledChar)
    (h : StreamInv it picts chars) : StreamInv (it + 1) picts chars :=
  ⟨fun c hc => Nat.lt_succ_of_lt (h.1 c hc), h.2⟩

/-- The loop of `plain` appends one entry for each code point, in order. -/
theorem plain_loop_eq (fore_color back_color : RgbColor) :
    ∀ (text : List Char) (it : Nat) (chars : List StyledChar),
      plain_loop fore_color back_color it text chars
        = chars ++ (text.enumFrom it).map
            (fun x => StyledChar.make x.1 (plain_special x.2) 0 fore_color back_color) := by
  intro text
  induction text with
  | nil =>
    intro it chars
    simp [plain_loop]
  | cons r rest ih =>
    intro it chars
    simp only [plain_loop, List.enumFrom_cons, List.map_cons]
    rw [ih, List.append_assoc]
    rfl

theorem plain_special_ne (r : Char) :
    plain_special r ≠ SpecialChar.PICTURE ∧ plain_special r ≠ SpecialChar.TAB := by
  unfold plain_special
  split_ifs <;> exact ⟨by decide, by decide⟩

theorem plain_loop_inv (fore_color back_color : RgbColor) (text : List Char) :
    StreamInv text.length 0 (plain_loop fore_color back_color 0 text [])
      ∧ ∀ c ∈ plain_loop fore_color back_color 0 text [], c.special ≠ SpecialChar.TAB := by
  rw [plain_loop_eq, List.nil_append]
  refine ⟨⟨?_, ?_⟩, ?_⟩
  · intro c hc
    obtain ⟨x, hx, rfl⟩ := List.mem_map.mp hc
    have := List.fst_lt_add_of_mem_enumFrom hx
    simpa [StyledChar.make] using this
  · intro c hc hp
    obtain ⟨x, hx, rfl⟩ := List.mem_map.mp hc
    exact absurd hp (plain_special_ne x.2).1
  · intro c hc
    obtain ⟨x, hx, rfl⟩ := List.mem_map.mp hc
    exact (plain_special_ne x.2).2

theorem retro_char_inv (env : TextEnv) (original_fore_color original_back_color : RgbColor)
    (it : Nat) (r : Char) (s s' : Retro)
    (h : retro_char env original_fore_color original_back_color it r s = Except.ok s')
    (hinv : StreamInv it 0 s.chars) : StreamInv (it + 1) 0 s'.chars := by
  unfold retro_char at h
  split at h
  · split_ifs at h <;> cases h <;> exact streamInv_push _ _ _ _ _ _ hinv (by decide)
  · split_ifs at h <;> cases h <;>
      first
        | exact streamInv_push _ _ _ _ _ _ hinv (by decide)
        | exact streamInv_push _ _ _ _ _ _ (streamInv_dropLast _ _ _ hinv) (by decide)
        | exact streamInv_step _ _ _ (streamInv_dropLast _ _ _ hinv)
  · cases h
    exact streamInv_step _ _ _ hinv
  · split at h
    · cases h
    · split at h
      · cases h
      · cases h
        exact streamInv_step _ _ _ hinv
  · cases h
    exact streamInv_step _ _ _ hinv
  · split at h
    · cases h
    · split at h
      · cases h
      · cases h
        exact streamInv_step _ _ _ hinv

theorem retro_loop_inv (env : TextEnv) (original_fore_color original_back_color : RgbColor) :
    ∀ (text : List Char) (it : Nat) (s s' : Retro),
      retro_loop env original_fore_color original_back_color it text s = Except.ok s' →
      StreamInv it 0 s.chars → StreamInv (it + text.length) 0 s'.chars := by
  intro text
  induction text with
  | nil =>
    intro it s s' h hinv
    simp only [retro_loop] at h
    cases h
    exact hinv
  | cons r rest ih =>
    intro it s s' h hinv
    simp only [retro_loop] at h
    split at h
    · cases h
    · rename_i s1 h1
      have := ih (it + 1) s1 s' h
        (retro_char_inv env original_fore_color original_back_color it r s s1 h1 hinv)
      rw [List.length_cons]
      rw [Nat.add_assoc, Nat.add_comm 1] at this
      exact this

theorem interface_char_inv (env : TextEnv) (f b : RgbColor) (it : Nat) (r : Char)
    (s s' : Interface) (h : interface_char env f b it r s = Except.ok s')
    (hinv : StreamInv it s.inline_picts.length s.chars
      ∧ s.textures.length = s.inline_picts.length
      ∧ ∀ c ∈ s.chars, c.special ≠ SpecialChar.TAB) :
    StreamInv (it + 1) s'.inline_picts.length s'.chars
      ∧ s'.textures.length = s'.inline_picts.length
      ∧ ∀ c ∈ s'.chars, c.special ≠ SpecialChar.TAB := by
  obtain ⟨hs, ht, htab⟩ := hinv
  have hpush : ∀ special : SpecialChar, special ≠ SpecialChar.TAB →
      ∀ (k : Nat) (c : StyledChar), c ∈ s.chars ++ [StyledChar.make it special k f b] →
        c.special ≠ SpecialChar.TAB := by
    intro special hsp k c hc
    rcases List.mem_append.mp hc with h1 | h1
    · exact htab c h1
    · rw [List.mem_singleton] at h1
      rw [h1]
      exact hsp
  unfold interface_char at h
  split at h
  · split_ifs at h <;> cases h <;>
      first
        | exact ⟨streamInv_push _ _ _ _ _ _ hs (by decide), ht, hpush _ (by decide) _⟩
        | exact ⟨streamInv_step _ _ _ hs, ht, htab⟩
  · split_ifs at h
    cases h
    exact ⟨streamInv_step _ _ _ hs, ht, htab⟩
  · split_ifs at h
    · cases h
      exact ⟨streamInv_step _ _ _ hs, ht, htab⟩
    · dsimp only at h
      split at h
      · cases h
      · rename_i texture _
        cases h
        dsimp only
        refine ⟨⟨?_, ?_⟩, ?_, hpush _ (by decide) _⟩
        · intro c hc
          rcases List.mem_append.mp hc with h1 | h1
          · exact Nat.lt_succ_of_lt (hs.1 c h1)
          · rw [List.mem_singleton] at h1
            rw [h1]
            exact Nat.lt_succ_self it
        · intro c hc hp
          rw [List.length_append, List.length_singleton]
          rcases List.mem_append.mp hc with h1 | h1
          · exact Nat.lt_succ_of_lt (hs.2 c h1 hp)
          · rw [List.mem_singleton] at h1
            rw [h1]
            simp only [StyledChar.make, List.length_append, List.length_singleton]
            omega
        · rw [List.length_append, List.length_append, ht]
          rfl

theorem interface_loop_inv (env : TextEnv) (f b : RgbColor) :
    ∀ (text : List Char) (it : Nat) (s s' : Interface),
      interface_loop env f b it text s = Except.ok s' →
      (StreamInv it s.inline_picts.length s.chars
        ∧ s.textures.length = s.inline_picts.length
        ∧ ∀ c ∈ s.chars, c.special ≠ SpecialChar.TAB) →
      StreamInv (it + text.length) s'.inline_picts.length s'.chars
        ∧ s'.textures.length = s'.inline_picts.length
        ∧ ∀ c ∈ s'.chars, c.special ≠ SpecialChar.TAB := by
  intro text
  induction text with
  | nil =>
    intro it s s' h hinv
    simp only [interface_loop] at h
    cases h
    exact hinv
  | cons r rest ih =>
    intro it s s' h hinv
    simp only [interface_loop] at h
    split at h
    · cases h
    · rename_i s1 h1
      have := ih (it + 1) s1 s' h (interface_char_inv env f b it r s s1 h1 hinv)
      rw [List.length_cons]
      rw [Nat.add_assoc, Nat.add_comm 1] at this
      exact this


/-! ### Styled text: what the factories return -/

theorem ends_of_stream (t : StyledText) (final : List StyledChar)
    (h : t.chars.map StyledChar.unplaced = final.map StyledChar.unplaced)
    (hl : final.getLast?.map StyledChar.special = some SpecialChar.LINE_BREAK) :
    EndsInLineBreak t := by
  have hlast : t.chars.getLast?.map StyledChar.special
      = some SpecialChar.LINE_BREAK := by
    have h1 := congrArg (fun l : List StyledChar => l.getLast?.map StyledChar.special) h
    simp only [List.getLast?_map, Option.map_map] at h1
    have hcomp : (StyledChar.special ∘ StyledChar.unplaced) = StyledChar.special := rfl
    rw [hcomp] at h1
    rw [h1]
    exact hl
  refine ⟨?_, hlast⟩
  intro hnil
  rw [hnil] at hlast
  cases hlast

/-- Once the parser has returned, a factory returns a built text, unless the
layout divides by a zero tab width. -/
theorem factory_ok (text : List Char) (chars : List StyledChar)
    (inline_picts : List inlinePictType) (textures : List Texture) (metrics : WrapMetrics)
    (fore_color back_color : RgbColor)
    (hinv : StreamInv text.length inline_picts.length chars)
    (htex : textures.length = inline_picts.length) :
    FactoryOk text chars fore_color back_color
      (Outcome.of_except (StyledText.parsed text
        (push_final_line_break chars text.length fore_color back_color)
        inline_picts textures metrics).rewrap) := by
  have hwf := wellFormed_push text.length inline_picts.length chars fore_color back_color hinv
  have hok := rewrap_ok (StyledText.parsed text
    (push_final_line_break chars text.length fore_color back_color)
    inline_picts textures metrics) hwf
  cases hr : (StyledText.parsed text
      (push_final_line_break chars text.length fore_color back_color)
      inline_picts textures metrics).rewrap with
  | ok t =>
    rw [hr] at hok
    obtain ⟨hmap, hp, htext, htextures⟩ := hok
    have hmap' : t.chars.map StyledChar.unplaced
        = (push_final_line_break chars text.length fore_color back_color).map
            StyledChar.unplaced := hmap
    have hp' : t.inline_picts.length = inline_picts.length := hp
    have htext' : t.text = text := htext
    have htex' : t.textures = textures := htextures
    refine ⟨⟨?_, ?_⟩, htext', ?_, hmap'⟩
    · rw [htext', hp', hmap']
      exact hwf
    · rw [htex', hp']
      exact htex
    · exact ends_of_stream t _ hmap' (push_final_line_break_last _ _ _ _)
  | error e =>
    rw [hr] at hok
    obtain ⟨he, _, c, hc, hsp⟩ := hok
    refine ⟨he, c, ?_, hsp⟩
    have hc' : c ∈ push_final_line_break chars text.length fore_color back_color := hc
    rw [push_final_line_break_eq] at hc'
    split at hc'
    · exact hc'
    · rcases List.mem_append.mp hc' with h1 | h1
      · exact h1
      · rw [List.mem_singleton] at h1
        rw [h1] at hsp
        cases hsp

theorem streamInv_nil (picts : Nat) : StreamInv 0 picts [] :=
  ⟨fun _ hc => absurd hc (List.not_mem_nil _), fun _ hc => absurd hc (List.not_mem_nil _)⟩

/-- Factory `plain` returns, for every text. -/
theorem plain_ok (text : List Char) (metrics : WrapMetrics) (fore_color back_color : RgbColor) :
    ∃ t, StyledText.plain text metrics fore_color back_color = Outcome.ok t
      ∧ Built t ∧ t.text = text ∧ EndsInLineBreak t
      ∧ t.chars.map StyledChar.unplaced
          = (push_final_line_break (plain_loop fore_color back_color 0 text []) text.length
              fore_color back_color).map StyledChar.unplaced := by
  obtain ⟨hinv, htab⟩ := plain_loop_inv fore_color back_color text
  have hf := factory_ok text (plain_loop fore_color back_color 0 text []) [] [] metrics
    fore_color back_color hinv rfl
  unfold StyledText.plain
  dsimp only
  cases hr : Outcome.of_except (StyledText.parsed text
      (push_final_line_break (plain_loop fore_color back_color 0 text []) text.length
        fore_color back_color) [] [] metrics).rewrap with
  | ok t =>
    rw [hr] at hf
    exact ⟨t, rfl, hf⟩
  | raised what =>
    rw [hr] at hf
    exact absurd hf id
  | fault e =>
    rw [hr] at hf
    obtain ⟨_, c, hc, hsp⟩ := hf
    exact absurd hsp (htab c hc)

/-- What factory `retro` returns: a built text whose stream is the parsed one
closed by a LINE_BREAK, a parse error, or the division by a zero tab width. -/
theorem retro_ok (env : TextEnv) (text : List Char) (metrics : WrapMetrics)
    (fore_color back_color : RgbColor) :
    match StyledText.retro env text metrics fore_color back_color with
    | Outcome.ok t =>
      ∃ s, retro_loop env fore_color back_color 0 text
            { chars := [], fore_color := fore_color, back_color := back_color,
              r1 := Char.ofNat 0, state := RetroState.START } = Except.ok s
        ∧ FactoryOk text s.chars s.fore_color s.back_color (Outcome.ok t)
    | Outcome.raised _ => True
    | Outcome.fault e => e = Fault.division_by_zero := by
  unfold StyledText.retro
  cases hl : retro_loop env fore_color back_color 0 text
      { chars := [], fore_color := fore_color, back_color := back_color,
        r1 := Char.ofNat 0, state := RetroState.START } with
  | error what => trivial
  | ok s =>
    dsimp only
    split_ifs
    · trivial
    · have hinv := retro_loop_inv env fore_color back_color text 0 _ s hl (streamInv_nil 0)
      rw [Nat.zero_add] at hinv
      have hf := factory_ok text s.chars [] [] metrics s.fore_color s.back_color hinv rfl
      cases hr : Outcome.of_except (StyledText.parsed text
          (push_final_line_break s.chars text.length s.fore_color s.back_color)
          [] [] metrics).rewrap with
      | ok t =>
        rw [hr] at hf
        exact ⟨s, rfl, hf⟩
      | raised what => trivial
      | fault e =>
        rw [hr] at hf
        exact hf.1

/-- What factory `interface` returns: a built text whose stream is the parsed one
closed by a LINE_BREAK, or an error of the parser or of the texture lookup. -/
theorem interface_ok (env : TextEnv) (text : List Char) (metrics : WrapMetrics)
    (fore_color back_color : RgbColor) :
    match StyledText.interface env text metrics fore_color back_color with
    | Outcome.ok t =>
      ∃ s, interface_loop env fore_color back_color 0 text
            { chars := [], inline_picts := [], textures := [], id := [],
              state := InterfaceState.START } = Except.ok s
        ∧ FactoryOk text s.chars fore_color back_color (Outcome.ok t)
    | Outcome.raised _ => True
    | Outcome.fault _ => False := by
  unfold StyledText.interface
  cases hl : interface_loop env fore_color back_color 0 text
      { chars := [], inline_picts := [], textures := [], id := [],
        state := InterfaceState.START } with
  | error what => trivial
  | ok s =>
    dsimp only
    have hinv := interface_loop_inv env fore_color back_color text 0 _ s hl
      ⟨streamInv_nil 0, rfl, fun _ hc => absurd hc (List.not_mem_nil _)⟩
    rw [Nat.zero_add] at hinv
    obtain ⟨hs, ht, htab⟩ := hinv
    have hf := factory_ok text s.chars s.inline_picts s.textures metrics fore_color
      back_color hs ht
    cases hr : Outcome.of_except (StyledText.parsed text
        (push_final_line_break s.chars text.length fore_color back_color)
        s.inline_picts s.textures metrics).rewrap with
    | ok t =>
      rw [hr] at hf
      exact ⟨s, rfl, hf⟩
    | raised what => trivial
    | fault e =>
      rw [hr] at hf
      obtain ⟨_, c, hc, hsp⟩ := hf
      exact absurd hsp (htab c hc)


theorem built_of_plain (text : List Char) (metrics : WrapMetrics)
    (fore_color back_color : RgbColor) (t : StyledText)
    (h : StyledText.plain text metrics fore_color back_color = Outcome.ok t) :
    FactoryOk text (plain_loop fore_color back_color 0 text []) fore_color back_color
      (Outcome.ok t) := by
  obtain ⟨t0, h0, hb⟩ := plain_ok text metrics fore_color back_color
  rw [h0] at h
  cases h
  exact hb

theorem built_of_retro (env : TextEnv) (text : List Char) (metrics : WrapMetrics)
    (fore_color back_color : RgbColor) (t : StyledText)
    (h : StyledText.retro env text metrics fore_color back_color = Outcome.ok t) :
    ∃ s, retro_loop env fore_color back_color 0 text
          { chars := [], fore_color := fore_color, back_color := back_color,
            r1 := Char.ofNat 0, state := RetroState.START } = Except.ok s
      ∧ FactoryOk text s.chars s.fore_color s.back_color (Outcome.ok t) := by
  have hr := retro_ok env text metrics fore_color back_color
  rw [h] at hr
  exact hr

theorem built_of_interface (env : TextEnv) (text : List Char) (metrics : WrapMetrics)
    (fore_color back_color : RgbColor) (t : StyledText)
    (h : StyledText.interface env text metrics fore_color back_color = Outcome.ok t) :
    ∃ s, interface_loop env fore_color back_color 0 text
          { chars := [], inline_picts := [], textures := [], id := [],
            state := InterfaceState.START } = Except.ok s
      ∧ FactoryOk text s.chars fore_color back_color (Outcome.ok t) := by
  have hr := interface_ok env text metrics fore_color back_color
  rw [h] at hr
  exact hr

/-! ### C8 -/

/-- C8: a text that `plain`, `retro` or `interface` returns has a stream that is
not empty and whose last entry is a LINE_BREAK; the stream is the one the parser
left, closed by `push_final_line_break`, which appends a LINE_BREAK at the end of
the text exactly when the parsed stream is empty or does not end in a
LINE_BREAK. -/
theorem factories_end_in_line_break (env : TextEnv) (text : List Char)
    (metrics : WrapMetrics) (fore_color back_color : RgbColor) (t : StyledText) :
    (StyledText.plain text metrics fore_color back_color = Outcome.ok t →
        (t.chars ≠ []
          ∧ t.chars.getLast?.map StyledChar.special = some SpecialChar.LINE_BREAK)
        ∧ t.chars.map StyledChar.unplaced
            = (push_final_line_break (plain_loop fore_color back_color 0 text [])
                text.length fore_color back_color).map StyledChar.unplaced)
      ∧ (StyledText.retro env text metrics fore_color back_color = Outcome.ok t →
        (t.chars ≠ []
          ∧ t.chars.getLast?.map StyledChar.special = some SpecialChar.LINE_BREAK)
        ∧ ∃ s, retro_loop env fore_color back_color 0 text
              { chars := [], fore_color := fore_color, back_color := back_color,
                r1 := Char.ofNat 0, state := RetroState.START } = Except.ok s
          ∧ t.chars.map StyledChar.unplaced
              = (push_final_line_break s.chars text.length s.fore_color
                  s.back_color).map StyledChar.unplaced)
      ∧ (StyledText.interface env text metrics fore_color back_color = Outcome.ok t →
        (t.chars ≠ []
          ∧ t.chars.getLast?.map StyledChar.special = some SpecialChar.LINE_BREAK)
        ∧ ∃ s, interface_loop env fore_color back_color 0 text
              { chars := [], inline_picts := [], textures := [], id := [],
                state := InterfaceState.START } = Except.ok s
          ∧ t.chars.map StyledChar.unplaced
              = (push_final_line_break s.chars text.length fore_color
                  back_color).map StyledChar.unplaced)
      ∧ (∀ (chars : List StyledChar) (text_end : Nat) (f b : RgbColor),
          push_final_line_break chars text_end f b
            = if chars.getLast?.map StyledChar.special = some SpecialChar.LINE_BREAK
              then chars
              else chars ++ [StyledChar.make text_end SpecialChar.LINE_BREAK 0 f b]) := by
  refine ⟨?_, ?_, ?_, push_final_line_break_eq⟩
  · intro h
    obtain ⟨_, _, hends, hmap⟩ := built_of_plain text metrics fore_color back_color t h
    exact ⟨hends, hmap⟩
  · intro h
    obtain ⟨s, hs, _, _, hends, hmap⟩ :=
      built_of_retro env text metrics fore_color back_color t h
    exact ⟨hends, s, hs, hmap⟩
  · intro h
    obtain ⟨s, hs, _, _, hends, hmap⟩ :=
      built_of_interface env text metrics fore_color back_color t h
    exact ⟨hends, s, hs, hmap⟩

theorem factories_end_in_line_break_witness :
    StyledText.retro example_text_env ['a', '\\', 'i', 'b', '\n'] example_metrics
          example_fore example_back
        = Outcome.ok (text_of (StyledText.retro example_text_env ['a', '\\', 'i', 'b', '\n']
            example_metrics example_fore example_back))
      ∧ (text_of (StyledText.retro example_text_env ['a', '\\', 'i', 'b', '\n']
            example_metrics example_fore example_back)).chars.getLast?.map
          StyledChar.special = some SpecialChar.LINE_BREAK
      ∧ (text_of (StyledText.retro example_text_env ['a', '\\', 'i', 'b', '\n']
            example_metrics example_fore example_back)).chars.length = 5
      ∧ StyledText.interface example_text_env ['a', '^', 'P', 'x', '^'] example_metrics
          example_fore example_back
        = Outcome.ok (text_of (StyledText.interface example_text_env
            ['a', '^', 'P', 'x', '^'] example_metrics example_fore example_back))
      ∧ (text_of (StyledText.interface example_text_env ['a', '^', 'P', 'x', '^']
            example_metrics example_fore example_back)).chars.getLast?.map
          StyledChar.special = some SpecialChar.LINE_BREAK
      ∧ (text_of (StyledText.interface example_text_env ['a', '^', 'P', 'x', '^']
            example_metrics example_fore example_back)).chars.length = 3 :=
  ⟨rfl,
    ((factories_end_in_line_break example_text_env ['a', '\\', 'i', 'b', '\n']
      example_metrics example_fore example_back _).2.1 rfl).1.2,
    by decide, rfl,
    ((factories_end_in_line_break example_text_env ['a', '^', 'P', 'x', '^']
      example_metrics example_fore example_back _).2.2.1 rfl).1.2,
    by decide⟩

/-! ### C9 -/

/-- In a built text a PICTURE is followed by an entry and names an inline picture
and a texture; laying the text out again reads nothing out of range; and
`move_word_down` at a NONE or NO_BREAK entry `index` looks at the entries up to
`index` only. -/
theorem built_in_range (t : StyledText) (hb : Built t) :
    (∀ (i : Nat) (c : StyledChar), t.chars[i]? = some c →
        c.special = SpecialChar.PICTURE →
        i + 1 < t.chars.length ∧ c.pict_index < t.inline_picts.length
          ∧ c.pict_index < t.textures.length)
      ∧ (∀ e, t.rewrap = Except.error e → e = Fault.division_by_zero)
      ∧ (∀ (metrics : WrapMetrics) (index : Nat) (c : StyledChar) (v : Int),
          t.chars[index]? = some c →
          (c.special = SpecialChar.NONE ∨ c.special = SpecialChar.NO_BREAK) →
          ∃ r, move_word_down metrics t.text (t.chars.take (index + 1)) index v
            = Except.ok r) := by
  obtain ⟨⟨hne, hlast, hiter, hpict⟩, htex⟩ := hb
  refine ⟨?_, ?_, ?_⟩
  · intro i c hc hsp
    have hst := stream_getElem? (rfl : t.chars.map StyledChar.unplaced = _) i c hc
    have h1 := hlast i c.unplaced hst (by
      show c.special ≠ SpecialChar.LINE_BREAK
      rw [hsp]
      decide)
    rw [List.length_map] at h1
    have h2 := hpict c.unplaced (List.getElem?_mem hst) hsp
    exact ⟨h1, h2, by rw [htex]; exact h2⟩
  · intro e he
    have hok := rewrap_ok t ⟨hne, hlast, hiter, hpict⟩
    rw [he] at hok
    exact hok.1
  · intro metrics index c v hc hsp
    have hst := stream_getElem? (rfl : t.chars.map StyledChar.unplaced = _) index c hc
    have hnext : index + 1 < t.chars.length := by
      have h1 := hlast index c.unplaced hst (by
        show c.special ≠ SpecialChar.LINE_BREAK
        rcases hsp with h | h <;> rw [h] <;> decide)
      rw [List.length_map] at h1
      exact h1
    have htake : ∀ j, j ≤ index → (t.chars.take (index + 1))[j]? = t.chars[j]? := by
      intro j hj
      rw [List.getElem?_take]
      rw [if_pos (by omega)]
    obtain ⟨r, hr, _⟩ := move_word_down_ok metrics t.text (t.chars.take (index + 1)) index v c
      (by rw [htake index (le_refl _)]; exact hc) hsp
      (by
        intro j cj hcj hj
        rw [htake j hj] at hcj
        have hstj := stream_getElem? (rfl : t.chars.map StyledChar.unplaced = _) j cj hcj
        exact hiter j cj.unplaced hstj (by rw [List.length_map]; omega))
    exact ⟨r, hr⟩

/-- C9: the layout done by `plain`, `retro` and `interface` reads no entry of the
stream, no iterator and no inline picture out of range (`plain` and `interface`
have no fault at all, `retro` only the division by a zero tab width); and in the
text they return, a PICTURE is never the last entry and its `pict_index` is
smaller than the number of inline pictures and of textures, `rewrap` stays in
range when called again, and `move_word_down` at `index` returns on the stream cut
after `index`, so that it reads `chars[i + 1]` for `i < index` and `chars[j]` for
`j ≤ index` only. -/
theorem layout_stays_in_range (env : TextEnv) (text : List Char) (metrics : WrapMetrics)
    (fore_color back_color : RgbColor) :
    (∀ e, StyledText.plain text metrics fore_color back_color ≠ Outcome.fault e)
      ∧ (∀ e, StyledText.retro env text metrics fore_color back_color = Outcome.fault e →
          e = Fault.division_by_zero)
      ∧ (∀ e, StyledText.interface env text metrics fore_color back_color ≠ Outcome.fault e)
      ∧ ∀ t, (StyledText.plain text metrics fore_color back_color = Outcome.ok t
            ∨ StyledText.retro env text metrics fore_color back_color = Outcome.ok t
            ∨ StyledText.interface env text metrics fore_color back_color = Outcome.ok t) →
          (∀ (i : Nat) (c : StyledChar), t.chars[i]? = some c →
              c.special = SpecialChar.PICTURE →
              i + 1 < t.chars.length ∧ c.pict_index < t.inline_picts.length
                ∧ c.pict_index < t.textures.length)
            ∧ (∀ e, t.rewrap = Except.error e → e = Fault.division_by_zero)
            ∧ (∀ (m : WrapMetrics) (index : Nat) (c : StyledChar) (v : Int),
                t.chars[index]? = some c →
                (c.special = SpecialChar.NONE ∨ c.special = SpecialChar.NO_BREAK) →
                ∃ r, move_word_down m t.text (t.chars.take (index + 1)) index v
                  = Except.ok r) := by
  refine ⟨?_, ?_, ?_, ?_⟩
  · intro e he
    obtain ⟨t0, h0, _⟩ := plain_ok text metrics fore_color back_color
    rw [h0] at he
    cases he
  · intro e he
    have hr := retro_ok env text metrics fore_color back_color
    rw [he] at hr
    exact hr
  · intro e he
    have hr := interface_ok env text metrics fore_color back_color
    rw [he] at hr
    exact hr
  · intro t ht
    apply built_in_range
    rcases ht with h | h | h
    · exact (built_of_plain text metrics fore_color back_color t h).1
    · obtain ⟨s, _, hb⟩ := built_of_retro env text metrics fore_color back_color t h
      exact hb.1
    · obtain ⟨s, _, hb⟩ := built_of_interface env text metrics fore_color back_color t h
      exact hb.1

theorem layout_stays_in_range_witness :
    StyledText.interface example_text_env ['a', 'b', ' ', '^', 'P', 'x', '^', 'c']
          example_metrics example_fore example_back
        = Outcome.ok (text_of (StyledText.interface example_text_env
            ['a', 'b', ' ', '^', 'P', 'x', '^', 'c'] example_metrics example_fore
            example_back))
      ∧ (text_of (StyledText.interface example_text_env
            ['a', 'b', ' ', '^', 'P', 'x', '^', 'c'] example_metrics example_fore
            example_back)).chars.map StyledChar.special
          = [SpecialChar.NONE, SpecialChar.NONE, SpecialChar.WORD_BREAK, SpecialChar.PICTURE,
              SpecialChar.NONE, SpecialChar.LINE_BREAK]
      ∧ ∀ e, (text_of (StyledText.interface example_text_env
            ['a', 'b', ' ', '^', 'P', 'x', '^', 'c'] example_metrics example_fore
            example_back)).rewrap = Except.error e → e = Fault.division_by_zero :=
  ⟨rfl, by decide,
    ((layout_stays_in_range example_text_env ['a', 'b', ' ', '^', 'P', 'x', '^', 'c']
      example_metrics example_fore example_back).2.2.2 _ (Or.inr (Or.inr rfl))).2.1⟩


/-! ### C10 -/

theorem plain_special_line_break (r : Char) :
    plain_special r = SpecialChar.LINE_BREAK ↔ r = '\n' := by
  unfold plain_special
  split_ifs with h1 h2 h3
  · exact ⟨fun _ => h1, fun _ => rfl⟩
  · exact ⟨fun h => (by cases h), fun h => absurd h h1⟩
  · exact ⟨fun h => (by cases h), fun h => absurd h h1⟩
  · exact ⟨fun h => (by cases h), fun h => absurd h h1⟩

/-- The entries `plain` parses: one for each code point. -/
theorem plain_loop_getElem? (fore_color back_color : RgbColor) (text : List Char) (i : Nat) :
    (plain_loop fore_color back_color 0 text [])[i]?
      = text[i]?.map (fun r => StyledChar.make i (plain_special r) 0 fore_color back_color) := by
  rw [plain_loop_eq, List.nil_append, List.getElem?_map, List.getElem?_enumFrom,
    Option.map_map]
  cases text[i]? with
  | none => rfl
  | some r =>
    simp only [Option.map_some', Function.comp_apply, Nat.zero_add]

theorem plain_loop_length (fore_color back_color : RgbColor) (text : List Char) :
    (plain_loop fore_color back_color 0 text []).length = text.length := by
  rw [plain_loop_eq, List.nil_append, List.length_map, List.enumFrom_length]

theorem plain_loop_last (fore_color back_color : RgbColor) (text : List Char) :
    (plain_loop fore_color back_color 0 text []).getLast?.map StyledChar.special
        = some SpecialChar.LINE_BREAK
      ↔ text.getLast? = some '\n' := by
  rw [List.getLast?_eq_getElem?, plain_loop_length, plain_loop_getElem?,
    List.getLast?_eq_getElem?]
  cases text[text.length - 1]? with
  | none => simp
  | some r =>
    simp only [Option.map_some', Option.some.injEq]
    exact plain_special_line_break r

/-- C10: for every text, `plain` returns a text whose stream has, for each code
point `r` at position `i`, the entry at index `i` with iterator `i`, tag
`plain_special r` (LINE_BREAK for a newline, WORD_BREAK for a space, NO_BREAK for
U+00A0, NONE otherwise), picture index 0 and the given colours; these are all its
entries when the text ends with a newline, and otherwise (the text is empty or
ends with another code point) exactly one more entry follows, a LINE_BREAK at the
end of the text with the same colours. -/
theorem plain_stream (text : List Char) (metrics : WrapMetrics)
    (fore_color back_color : RgbColor) :
    ∃ t, StyledText.plain text metrics fore_color back_color = Outcome.ok t
      ∧ (∀ (i : Nat) (r : Char), text[i]? = some r →
          t.chars[i]?.map StyledChar.unplaced
            = some (StyledChar.make i (plain_special r) 0 fore_color back_color))
      ∧ (text.getLast? = some '\n' → t.size = text.length)
      ∧ (text.getLast? ≠ some '\n' →
          t.size = text.length + 1
            ∧ t.chars[text.length]?.map StyledChar.unplaced
                = some (StyledChar.make text.length SpecialChar.LINE_BREAK 0 fore_color
                    back_color))
      ∧ plain_special '\n' = SpecialChar.LINE_BREAK
      ∧ plain_special ' ' = SpecialChar.WORD_BREAK
      ∧ plain_special (Char.ofNat 0xA0) = SpecialChar.NO_BREAK
      ∧ ∀ r : Char, r ≠ '\n' → r ≠ ' ' → r ≠ Char.ofNat 0xA0 →
          plain_special r = SpecialChar.NONE := by
  obtain ⟨t, ht, _, _, _, hmap⟩ := plain_ok text metrics fore_color back_color
  have hget : ∀ i : Nat, t.chars[i]?.map StyledChar.unplaced
      = ((push_final_line_break (plain_loop fore_color back_color 0 text []) text.length
          fore_color back_color)[i]?).map StyledChar.unplaced := by
    intro i
    rw [← List.getElem?_map, ← List.getElem?_map, hmap]
  have hlen : t.chars.length
      = (push_final_line_break (plain_loop fore_color back_color 0 text []) text.length
          fore_color back_color).length := by
    have := congrArg List.length hmap
    rw [List.length_map, List.length_map] at this
    exact this
  refine ⟨t, ht, ?_, ?_, ?_, by decide, by decide, by decide, ?_⟩
  · intro i r hr
    have hi : i < (plain_loop fore_color back_color 0 text []).length := by
      rw [plain_loop_length]
      by_contra hge
      rw [List.getElem?_eq_none (by omega)] at hr
      cases hr
    rw [hget, push_final_line_break_eq]
    split
    · rw [plain_loop_getElem?, hr]
      rfl
    · rw [List.getElem?_append_left hi, plain_loop_getElem?, hr]
      rfl
  · intro hlast
    unfold StyledText.size
    rw [hlen, push_final_line_break_eq, if_pos ((plain_loop_last _ _ _).mpr hlast),
      plain_loop_length]
  · intro hlast
    have hnot : ¬ (plain_loop fore_color back_color 0 text []).getLast?.map
        StyledChar.special = some SpecialChar.LINE_BREAK :=
      fun h => hlast ((plain_loop_last _ _ _).mp h)
    constructor
    · unfold StyledText.size
      rw [hlen, push_final_line_break_eq, if_neg hnot, List.length_append,
        plain_loop_length]
      rfl
    · rw [hget, push_final_line_break_eq, if_neg hnot,
        List.getElem?_append_right (by rw [plain_loop_length]), plain_loop_length,
        Nat.sub_self]
      rfl
  · intro r h1 h2 h3
    unfold plain_special
    rw [if_neg h1, if_neg h2, if_neg h3]

/-! ### C11 -/

theorem specials_of_unplaced (l : List StyledChar) :
    (l.map StyledChar.unplaced).map StyledChar.special = l.map StyledChar.special := by
  rw [List.map_map]
  rfl

/-- C11, as stated, fails: `plain` returns for the text "a b\nc", and the tags of its
stream are not the seven tags NONE, NONE, WORD_BREAK, NONE, LINE_BREAK, NONE,
LINE_BREAK; the stream has six entries. -/
theorem plain_a_b_c_not_seven :
    StyledText.plain ['a', ' ', 'b', '\n', 'c'] example_metrics example_fore example_back
        = Outcome.ok (text_of (StyledText.plain ['a', ' ', 'b', '\n', 'c'] example_metrics
            example_fore example_back))
      ∧ (text_of (StyledText.plain ['a', ' ', 'b', '\n', 'c'] example_metrics example_fore
          example_back)).chars.map StyledChar.special
        ≠ [SpecialChar.NONE, SpecialChar.NONE, SpecialChar.WORD_BREAK, SpecialChar.NONE,
            SpecialChar.LINE_BREAK, SpecialChar.NONE, SpecialChar.LINE_BREAK]
      ∧ (text_of (StyledText.plain ['a', ' ', 'b', '\n', 'c'] example_metrics example_fore
          example_back)).chars.length = 6 :=
  ⟨rfl, by decide, by decide⟩

/-- C11, amended: for all metrics and colours, `plain` returns for the text "a b\nc"
(a, space, b, newline, c) a stream of six entries whose tags are NONE, WORD_BREAK,
NONE, LINE_BREAK, NONE, LINE_BREAK, one for each of the five code points, at the
positions 0 to 4, and last the synthetic line break at the end of the text,
position 5. -/
theorem plain_a_b_c (metrics : WrapMetrics) (fore_color back_color : RgbColor) :
    ∃ t, StyledText.plain ['a', ' ', 'b', '\n', 'c'] metrics fore_color back_color
        = Outcome.ok t
      ∧ t.chars.map StyledChar.special
          = [SpecialChar.NONE, SpecialChar.WORD_BREAK, SpecialChar.NONE,
              SpecialChar.LINE_BREAK, SpecialChar.NONE, SpecialChar.LINE_BREAK]
      ∧ t.chars.map StyledChar.it = [0, 1, 2, 3, 4, 5] := by
  obtain ⟨t, ht, _, _, _, hmap⟩ :=
    plain_ok ['a', ' ', 'b', '\n', 'c'] metrics fore_color back_color
  refine ⟨t, ht, ?_, ?_⟩
  · rw [← specials_of_unplaced, hmap, specials_of_unplaced]
    rfl
  · have h2 := congrArg (List.map StyledChar.it) hmap
    rw [List.map_map, List.map_map] at h2
    exact h2

/-! ### Styled text: the parser of `retro` -/

theorem retro_loop_append (env : TextEnv) (F B : RgbColor) :
    ∀ (a b : List Char) (it : Nat) (s : Retro),
      retro_loop env F B it (a ++ b) s
        = match retro_loop env F B it a s with
          | Except.error what => Except.error what
          | Except.ok s' => retro_loop env F B (it + a.length) b s' := by
  intro a
  induction a with
  | nil => intro b it s; rfl
  | cons r rest ih =>
    intro b it s
    rw [List.cons_append, retro_loop, retro_loop]
    cases hc : retro_char env F B it r s with
    | error what => rfl
    | ok s1 =>
      dsimp only
      rw [ih, List.length_cons, Nat.add_assoc, Nat.add_comm 1]

theorem retro_of_loop_error (env : TextEnv) (text : List Char) (metrics : WrapMetrics)
    (F B : RgbColor) (what : String)
    (h : retro_loop env F B 0 text (Retro.init F B) = Except.error what) :
    StyledText.retro env text metrics F B = Outcome.raised what := by
  unfold StyledText.retro
  unfold Retro.init at h
  rw [h]

theorem retro_of_loop_cut (env : TextEnv) (text : List Char) (metrics : WrapMetrics)
    (F B : RgbColor) (s : Retro)
    (h : retro_loop env F B 0 text (Retro.init F B) = Except.ok s)
    (hs : s.state ≠ RetroState.START) :
    StyledText.retro env text metrics F B
      = Outcome.raised "not enough input for special code." := by
  unfold StyledText.retro
  unfold Retro.init at h
  rw [h]
  dsimp only
  rw [if_pos hs]

theorem retro_of_loop_ok (env : TextEnv) (text : List Char) (metrics : WrapMetrics)
    (F B : RgbColor) (s : Retro)
    (h : retro_loop env F B 0 text (Retro.init F B) = Except.ok s)
    (hs : s.state = RetroState.START)
    (htab : ∀ c ∈ s.chars, c.special ≠ SpecialChar.TAB) :
    ∃ t, StyledText.retro env text metrics F B = Outcome.ok t
      ∧ FactoryOk text s.chars s.fore_color s.back_color (Outcome.ok t) := by
  have hinv := retro_loop_inv env F B text 0 _ s h (streamInv_nil 0)
  rw [Nat.zero_add] at hinv
  have hf := factory_ok text s.chars [] [] metrics s.fore_color s.back_color hinv rfl
  unfold StyledText.retro
  unfold Retro.init at h
  rw [h]
  dsimp only
  rw [if_neg (not_not.mpr hs)]
  cases hr : Outcome.of_except (StyledText.parsed text
      (push_final_line_break s.chars text.length s.fore_color s.back_color)
      [] [] metrics).rewrap with
  | ok t =>
    rw [hr] at hf
    exact ⟨t, rfl, hf⟩
  | raised what =>
    rw [hr] at hf
    exact absurd hf id
  | fault e =>
    rw [hr] at hf
    obtain ⟨_, c, hc, hsp⟩ := hf
    exact absurd hsp (htab c hc)

theorem dropLast_append_rest {α : Type} (l : List α) : ∃ dropped, l = l.dropLast ++ dropped := by
  rcases List.eq_nil_or_concat l with h | ⟨l', a, h⟩
  · subst h
    exact ⟨[], rfl⟩
  · subst h
    rw [List.concat_eq_append, List.dropLast_concat]
    exact ⟨[a], rfl⟩

/-- Every entry an iteration of `retro` pushes carries the colours that are current
after it; the entries before it stay, but for the marker of a backslash. -/
theorem retro_char_pushes (env : TextEnv) (F B : RgbColor) (it : Nat) (r : Char)
    (s s' : Retro) (h : retro_char env F B it r s = Except.ok s') :
    ∃ kept pushed, s'.chars = kept ++ pushed ∧ (∃ dropped, s.chars = kept ++ dropped)
      ∧ ∀ c ∈ pushed, c.fore_color = s'.fore_color ∧ c.back_color = s'.back_color := by
  unfold retro_char at h
  have hd : ∃ dropped, s.chars = s.chars.dropLast ++ dropped := dropLast_append_rest s.chars
  have hall : ∃ dropped, s.chars = s.chars ++ dropped := ⟨[], (List.append_nil _).symm⟩
  have hnil : ∀ c ∈ ([] : List StyledChar),
      c.fore_color = s'.fore_color ∧ c.back_color = s'.back_color :=
    fun _ hc => absurd hc (List.not_mem_nil _)
  split at h
  · split_ifs at h <;> cases h <;>
      exact ⟨s.chars, _, rfl, hall, fun c hc => by
        rw [List.mem_singleton] at hc; rw [hc]; exact ⟨rfl, rfl⟩⟩
  · split_ifs at h
    · cases h
      exact ⟨s.chars, _, rfl, hall, fun c hc => by
        rw [List.mem_singleton] at hc; rw [hc]; exact ⟨rfl, rfl⟩⟩
    · cases h
      exact ⟨s.chars, _, rfl, hall, fun c hc => by
        rw [List.mem_singleton] at hc; rw [hc]; exact ⟨rfl, rfl⟩⟩
    · cases h
      exact ⟨s.chars.dropLast, _, rfl, hd, fun c hc => by
        rw [List.mem_singleton] at hc; rw [hc]; exact ⟨rfl, rfl⟩⟩
    · cases h
      exact ⟨s.chars.dropLast, _, rfl, hd, fun c hc => by
        rw [List.mem_singleton] at hc; rw [hc]; exact ⟨rfl, rfl⟩⟩
    · cases h
      exact ⟨s.chars.dropLast, [], (List.append_nil _).symm, hd, hnil⟩
    · cases h
      exact ⟨s.chars.dropLast, [], (List.append_nil _).symm, hd, hnil⟩
  · cases h
    exact ⟨s.chars, [], (List.append_nil _).symm, hall, hnil⟩
  · split at h
    · cases h
    · split at h
      · cases h
      · cases h
        exact ⟨s.chars, [], (List.append_nil _).symm, hall, hnil⟩
  · cases h
    exact ⟨s.chars, [], (List.append_nil _).symm, hall, hnil⟩
  · split at h
    · cases h
    · split at h
      · cases h
      · cases h
        exact ⟨s.chars, [], (List.append_nil _).symm, hall, hnil⟩

/-! ### C12 -/

/-- C12: in `retro`, wherever the parser is between escapes (state START), the
escape `\i` makes the current back colour the fore colour and the current fore
colour the back colour, and the escape `\r` makes the pair passed to `retro`
current, whatever the current colours are; each pushes one DELAY entry for the
backslash, with the colours before the escape, and one for the letter, with the
colours after it.  Every entry an iteration pushes carries the colours that are
current after that iteration, so an escape holds for all entries that follow, up
to the next escape.  For the text `x\iy\rz` with colours (F0, B0), `retro`
returns the eight entries x, `\`, i, y, `\`, r, z and the final line break, and
those of x, i, y, r and z carry (F0, B0), (B0, F0), (B0, F0), (F0, B0) and
(F0, B0). -/
theorem retro_swap_and_restore (env : TextEnv) (metrics : WrapMetrics) (F0 B0 : RgbColor) :
    (∀ (it : Nat) (rest : List Char) (s : Retro), s.state = RetroState.START →
        retro_loop env F0 B0 it ('\\' :: 'i' :: rest) s
          = retro_loop env F0 B0 (it + 2) rest
              { s with fore_color := s.back_color,
                       back_color := s.fore_color,
                       chars := s.chars ++
                         [StyledChar.make it SpecialChar.DELAY 0 s.fore_color s.back_color,
                          StyledChar.make (it + 1) SpecialChar.DELAY 0 s.back_color
                            s.fore_color] })
      ∧ (∀ (it : Nat) (rest : List Char) (s : Retro), s.state = RetroState.START →
          retro_loop env F0 B0 it ('\\' :: 'r' :: rest) s
            = retro_loop env F0 B0 (it + 2) rest
                { s with fore_color := F0,
                         back_color := B0,
                         chars := s.chars ++
                           [StyledChar.make it SpecialChar.DELAY 0 s.fore_color s.back_color,
                            StyledChar.make (it + 1) SpecialChar.DELAY 0 F0 B0] })
      ∧ (∀ (it : Nat) (r : Char) (s s' : Retro),
          retro_char env F0 B0 it r s = Except.ok s' →
          ∃ kept pushed, s'.chars = kept ++ pushed ∧ (∃ dropped, s.chars = kept ++ dropped)
            ∧ ∀ c ∈ pushed, c.fore_color = s'.fore_color ∧ c.back_color = s'.back_color)
      ∧ ∃ t, StyledText.retro env ['x', '\\', 'i', 'y', '\\', 'r', 'z'] metrics F0 B0
            = Outcome.ok t
          ∧ t.chars.map (fun c => (c.it, c.special, c.fore_color, c.back_color))
              = [(0, SpecialChar.NONE, F0, B0), (1, SpecialChar.DELAY, F0, B0),
                 (2, SpecialChar.DELAY, B0, F0), (3, SpecialChar.NONE, B0, F0),
                 (4, SpecialChar.DELAY, B0, F0), (5, SpecialChar.DELAY, F0, B0),
                 (6, SpecialChar.NONE, F0, B0), (7, SpecialChar.LINE_BREAK, F0, B0)] := by
  refine ⟨?_, ?_, ?_, ?_⟩
  · intro it rest s hs
    obtain ⟨chars, f, b, r1, state⟩ := s
    cases hs
    simp only [retro_loop, retro_char, List.append_assoc, List.singleton_append]
    simp
  · intro it rest s hs
    obtain ⟨chars, f, b, r1, state⟩ := s
    cases hs
    simp only [retro_loop, retro_char, List.append_assoc, List.singleton_append]
    simp
  · intro it r s s' h
    exact retro_char_pushes env F0 B0 it r s s' h
  · obtain ⟨t, ht, _, _, _, hmap⟩ := retro_of_loop_ok env
      ['x', '\\', 'i', 'y', '\\', 'r', 'z'] metrics F0 B0
      { chars := [StyledChar.make 0 SpecialChar.NONE 0 F0 B0,
                  StyledChar.make 1 SpecialChar.DELAY 0 F0 B0,
                  StyledChar.make 2 SpecialChar.DELAY 0 B0 F0,
                  StyledChar.make 3 SpecialChar.NONE 0 B0 F0,
                  StyledChar.make 4 SpecialChar.DELAY 0 B0 F0,
                  StyledChar.make 5 SpecialChar.DELAY 0 F0 B0,
                  StyledChar.make 6 SpecialChar.NONE 0 F0 B0],
        fore_color := F0, back_color := B0, r1 := Char.ofNat 0,
        state := RetroState.START } rfl rfl (by
          intro c hc
          simp only [List.mem_cons, List.mem_singleton, List.not_mem_nil, or_false] at hc
          rcases hc with h | h | h | h | h | h | h <;> rw [h] <;>
            exact fun h' => (by cases h'))
    refine ⟨t, ht, ?_⟩
    have h2 := congrArg
      (List.map (fun c : StyledChar => (c.it, c.special, c.fore_color, c.back_color))) hmap
    rw [List.map_map, List.map_map] at h2
    exact h2

/-! ### C13 -/

/-- A text whose parse fails or stops inside an escape after what was read is rejected. -/
theorem retro_raises_after (env : TextEnv) (metrics : WrapMetrics) (F B : RgbColor)
    (pre tail : List Char)
    (hpre : ∀ s, retro_loop env F B 0 pre (Retro.init F B) = Except.ok s →
      s.state = RetroState.START)
    (htail : ∀ it s, s.state = RetroState.START →
      match retro_loop env F B it tail s with
      | Except.error _ => True
      | Except.ok s' => s'.state ≠ RetroState.START) :
    ∃ what, StyledText.retro env (pre ++ tail) metrics F B = Outcome.raised what := by
  have happ := retro_loop_append env F B pre tail 0 (Retro.init F B)
  cases hp : retro_loop env F B 0 pre (Retro.init F B) with
  | error what =>
    rw [hp] at happ
    exact ⟨what, retro_of_loop_error env _ metrics F B what happ⟩
  | ok s =>
    rw [hp] at happ
    dsimp only at happ
    have ht := htail (0 + pre.length) s (hpre s hp)
    cases hl : retro_loop env F B (0 + pre.length) tail s with
    | error what =>
      rw [hl] at happ
      exact ⟨what, retro_of_loop_error env _ metrics F B what happ⟩
    | ok s' =>
      rw [hl] at happ ht
      exact ⟨_, retro_of_loop_cut env _ metrics F B s' happ ht⟩

theorem retro_bad_escape (env : TextEnv) (F B : RgbColor) (it : Nat) (c : Char)
    (rest : List Char) (s : Retro) (hs : s.state = RetroState.START)
    (hi : c ≠ 'i') (hr : c ≠ 'r') (ht : c ≠ 't') (hb : c ≠ '\\') (hf : c ≠ 'f')
    (hbg : c ≠ 'b') :
    ∃ what, retro_loop env F B it ('\\' :: c :: rest) s = Except.error what := by
  obtain ⟨chars, f, b, r1, state⟩ := s
  cases hs
  refine ⟨"found bad special character " ++ toString c.toNat ++ ".", ?_⟩
  simp only [retro_loop, retro_char]
  simp [hi, hr, ht, hb, hf, hbg]

/-- C13: `retro` raises, and returns no text, for every text with a malformed
escape.  (a) When the text before a backslash leaves the parser between escapes
(or is rejected itself) and the backslash is followed by a character other than
i, r, t, backslash, f and b, `retro` raises, whatever follows.  (b) When the text
ends right after such a backslash, after `\f` or `\b`, or after `\f` or `\b` and
one more character, `retro` raises.  In general a text at whose end the parser is
not between escapes is rejected with "not enough input for special code.", as is
the text `x\f1`. -/
theorem retro_raises_on_malformed_escape (env : TextEnv) (metrics : WrapMetrics)
    (F0 B0 : RgbColor) :
    (∀ (pre rest : List Char) (c : Char),
        (∀ s, retro_loop env F0 B0 0 pre (Retro.init F0 B0) = Except.ok s →
          s.state = RetroState.START) →
        c ≠ 'i' → c ≠ 'r' → c ≠ 't' → c ≠ '\\' → c ≠ 'f' → c ≠ 'b' →
        ∃ what, StyledText.retro env (pre ++ '\\' :: c :: rest) metrics F0 B0
          = Outcome.raised what)
      ∧ (∀ (pre tail : List Char),
          (∀ s, retro_loop env F0 B0 0 pre (Retro.init F0 B0) = Except.ok s →
            s.state = RetroState.START) →
          (tail = ['\\'] ∨ tail = ['\\', 'f'] ∨ tail = ['\\', 'b']
            ∨ (∃ d, tail = ['\\', 'f', d]) ∨ (∃ d, tail = ['\\', 'b', d])) →
          ∃ what, StyledText.retro env (pre ++ tail) metrics F0 B0 = Outcome.raised what)
      ∧ (∀ (text : List Char) (s : Retro),
          retro_loop env F0 B0 0 text (Retro.init F0 B0) = Except.ok s →
          s.state ≠ RetroState.START →
          StyledText.retro env text metrics F0 B0
            = Outcome.raised "not enough input for special code.")
      ∧ (∀ (text : List Char) (t : StyledText),
          StyledText.retro env text metrics F0 B0 = Outcome.ok t →
          ∃ s, retro_loop env F0 B0 0 text (Retro.init F0 B0) = Except.ok s
            ∧ s.state = RetroState.START)
      ∧ StyledText.retro env ['x', '\\', 'f', '1'] metrics F0 B0
          = Outcome.raised "not enough input for special code." := by
  refine ⟨?_, ?_, ?_, ?_, ?_⟩
  · intro pre rest c hpre hi hr ht hb hf hbg
    refine retro_raises_after env metrics F0 B0 pre _ hpre ?_
    intro it s hs
    obtain ⟨what, hw⟩ := retro_bad_escape env F0 B0 it c rest s hs hi hr ht hb hf hbg
    rw [hw]
    trivial
  · intro pre tail hpre htail
    refine retro_raises_after env metrics F0 B0 pre _ hpre ?_
    intro it s hs
    obtain ⟨chars, f, b, r1, state⟩ := s
    cases hs
    rcases htail with h | h | h | ⟨d, h⟩ | ⟨d, h⟩ <;> subst h <;>
      simp [retro_loop, retro_char]
  · intro text s h hs
    exact retro_of_loop_cut env text metrics F0 B0 s h hs
  · intro text t ht
    obtain ⟨s, hs, _⟩ := built_of_retro env text metrics F0 B0 t ht
    refine ⟨s, hs, ?_⟩
    by_contra hne
    rw [retro_of_loop_cut env text metrics F0 B0 s hs hne] at ht
    cases ht
  · exact retro_of_loop_cut env _ metrics F0 B0
      { chars := [StyledChar.make 0 SpecialChar.NONE 0 F0 B0], fore_color := F0,
        back_color := B0, r1 := '1', state := RetroState.FG2 } rfl (fun h => (by cases h))

/-! ### C14 -/

theorem hex_digit_spec (r : Char) :
    ((48 ≤ r.toNat ∧ r.toNat ≤ 57) → hex_digit r = Except.ok (r.toNat - 48))
      ∧ ((65 ≤ r.toNat ∧ r.toNat ≤ 90) → hex_digit r = Except.ok (r.toNat - 65 + 10))
      ∧ ((97 ≤ r.toNat ∧ r.toNat ≤ 122) → hex_digit r = Except.ok (r.toNat - 97 + 10))
      ∧ (¬ (48 ≤ r.toNat ∧ r.toNat ≤ 57) → ¬ (65 ≤ r.toNat ∧ r.toNat ≤ 90) →
          ¬ (97 ≤ r.toNat ∧ r.toNat ≤ 122) →
          hex_digit r = Except.error (toString r.toNat ++ " is not a valid hex digit")) := by
  have h0 : '0'.toNat = 48 := rfl
  have h9 : '9'.toNat = 57 := rfl
  have hA : 'A'.toNat = 65 := rfl
  have hZ : 'Z'.toNat = 90 := rfl
  have ha : 'a'.toNat = 97 := rfl
  have hz : 'z'.toNat = 122 := rfl
  unfold hex_digit
  simp only [h0, h9, hA, hZ, ha, hz]
  refine ⟨?_, ?_, ?_, ?_⟩
  · intro h
    rw [if_pos h]
  · intro h
    rw [if_neg (by omega), if_pos h]
  · intro h
    rw [if_neg (by omega), if_neg (by omega), if_pos h]
  · intro h1 h2 h3
    rw [if_neg h1, if_neg h2, if_neg h3]

theorem hex_digit_lt (r : Char) (n : Nat) (h : hex_digit r = Except.ok n) : n < 36 := by
  have h0 : '0'.toNat = 48 := rfl
  have h9 : '9'.toNat = 57 := rfl
  have hA : 'A'.toNat = 65 := rfl
  have hZ : 'Z'.toNat = 90 := rfl
  have ha : 'a'.toNat = 97 := rfl
  have hz : 'z'.toNat = 122 := rfl
  unfold hex_digit at h
  simp only [h0, h9, hA, hZ, ha, hz] at h
  split_ifs at h with h1 h2 h3 <;> cases h <;> omega

/-- What a colour escape does once its two characters are read: both are digits
for `hex_digit`, below 36, and the colour of that hue and shade becomes current. -/
theorem retro_colour_step (env : TextEnv) (F B : RgbColor) (it : Nat) (r : Char)
    (s s' : Retro) (hs : s.state = RetroState.FG2 ∨ s.state = RetroState.BG2)
    (h : retro_char env F B it r s = Except.ok s') :
    ∃ hue shade, hex_digit s.r1 = Except.ok hue ∧ hex_digit r = Except.ok shade
      ∧ hue < 36 ∧ shade < 36
      ∧ (s.state = RetroState.FG2 →
          s'.fore_color = env.GetRGBTranslateColorShade hue shade
            ∧ s'.back_color = s.back_color)
      ∧ (s.state = RetroState.BG2 →
          s'.back_color = env.GetRGBTranslateColorShade hue shade
            ∧ s'.fore_color = s.fore_color) := by
  obtain ⟨chars, f, b, r1, state⟩ := s
  rcases hs with hs | hs <;> cases hs <;> simp only [retro_char] at h
  · cases h1 : hex_digit r1 with
    | error w => rw [h1] at h; cases h
    | ok hue =>
      cases h2 : hex_digit r with
      | error w => rw [h1, h2] at h; cases h
      | ok shade =>
        rw [h1, h2] at h
        cases h
        exact ⟨hue, shade, rfl, rfl, hex_digit_lt r1 hue h1, hex_digit_lt r shade h2,
          fun _ => ⟨rfl, rfl⟩, fun hx => (by cases hx)⟩
  · cases h1 : hex_digit r1 with
    | error w => rw [h1] at h; cases h
    | ok hue =>
      cases h2 : hex_digit r with
      | error w => rw [h1, h2] at h; cases h
      | ok shade =>
        rw [h1, h2] at h
        cases h
        exact ⟨hue, shade, rfl, rfl, hex_digit_lt r1 hue h1, hex_digit_lt r shade h2,
          fun hx => (by cases hx), fun _ => ⟨rfl, rfl⟩⟩

/-- A colour escape with a character that `hex_digit` rejects stops the parser. -/
theorem retro_bad_colour (env : TextEnv) (F B : RgbColor) (it : Nat) (e x y : Char)
    (rest : List Char) (s : Retro) (hs : s.state = RetroState.START)
    (he : e = 'f' ∨ e = 'b')
    (hxy : (∃ what, hex_digit x = Except.error what)
      ∨ ∃ what, hex_digit y = Except.error what) :
    ∃ what, retro_loop env F B it ('\\' :: e :: x :: y :: rest) s = Except.error what := by
  obtain ⟨chars, f, b, r1, state⟩ := s
  cases hs
  rcases he with he | he <;> subst he <;> simp only [retro_loop, retro_char] <;> simp
  · rcases hxy with ⟨w, hw⟩ | ⟨w, hw⟩
    · rw [hw]
      exact ⟨w, rfl⟩
    · rw [hw]
      cases hex_digit x with
      | error w' => exact ⟨w', rfl⟩
      | ok hue => exact ⟨w, rfl⟩
  · rcases hxy with ⟨w, hw⟩ | ⟨w, hw⟩
    · rw [hw]
      exact ⟨w, rfl⟩
    · rw [hw]
      cases hex_digit x with
      | error w' => exact ⟨w', rfl⟩
      | ok hue => exact ⟨w, rfl⟩

/-- C14: for the characters G and z, which are no hexadecimal digits, `hex_digit`
does not raise: it returns 16 and 35; and `retro` accepts the texts `\fG0` and
`\bzz`, the hue 16 and the hue and shade 35 reaching `GetRGBTranslateColorShade`
(which in the example returns the colour of red `hue` and green `shade`). -/
theorem hex_digit_accepts_letters :
    hex_digit 'G' = Except.ok 16 ∧ hex_digit 'z' = Except.ok 35
      ∧ StyledText.retro example_text_env ['\\', 'f', 'G', '0'] example_metrics example_fore
          example_back
        = Outcome.ok (text_of (StyledText.retro example_text_env ['\\', 'f', 'G', '0']
            example_metrics example_fore example_back))
      ∧ (text_of (StyledText.retro example_text_env ['\\', 'f', 'G', '0'] example_metrics
          example_fore example_back)).chars.map StyledChar.fore_color = [⟨16, 0, 0⟩]
      ∧ StyledText.retro example_text_env ['\\', 'b', 'z', 'z'] example_metrics example_fore
          example_back
        = Outcome.ok (text_of (StyledText.retro example_text_env ['\\', 'b', 'z', 'z']
            example_metrics example_fore example_back))
      ∧ (text_of (StyledText.retro example_text_env ['\\', 'b', 'z', 'z'] example_metrics
          example_fore example_back)).chars.map StyledChar.back_color = [⟨35, 35, 0⟩] :=
  ⟨rfl, rfl, rfl, by decide, rfl, by decide⟩

/-- What `hex_digit` accepts, and what follows for the escapes `\fXY` and `\bXY` of
`retro`: it returns 0 to 9 for the characters 0 to 9 and 10 to 35 for the letters
A to Z and a to z, and raises for every other character; so the hue and shade
passed to `GetRGBTranslateColorShade` are below 36, and a colour escape with a
character that is neither an ASCII digit nor an ASCII letter is rejected, whatever
follows it. -/
theorem hex_digit_base_36 (env : TextEnv) (metrics : WrapMetrics) (F0 B0 : RgbColor) :
    (∀ r : Char,
        ((48 ≤ r.toNat ∧ r.toNat ≤ 57) → hex_digit r = Except.ok (r.toNat - 48))
          ∧ ((65 ≤ r.toNat ∧ r.toNat ≤ 90) → hex_digit r = Except.ok (r.toNat - 65 + 10))
          ∧ ((97 ≤ r.toNat ∧ r.toNat ≤ 122) → hex_digit r = Except.ok (r.toNat - 97 + 10))
          ∧ (¬ (48 ≤ r.toNat ∧ r.toNat ≤ 57) → ¬ (65 ≤ r.toNat ∧ r.toNat ≤ 90) →
              ¬ (97 ≤ r.toNat ∧ r.toNat ≤ 122) →
              hex_digit r
                = Except.error (toString r.toNat ++ " is not a valid hex digit")))
      ∧ (∀ (it : Nat) (r : Char) (s s' : Retro),
          s.state = RetroState.FG2 ∨ s.state = RetroState.BG2 →
          retro_char env F0 B0 it r s = Except.ok s' →
          ∃ hue shade, hex_digit s.r1 = Except.ok hue ∧ hex_digit r = Except.ok shade
            ∧ hue < 36 ∧ shade < 36
            ∧ (s.state = RetroState.FG2 →
                s'.fore_color = env.GetRGBTranslateColorShade hue shade
                  ∧ s'.back_color = s.back_color)
            ∧ (s.state = RetroState.BG2 →
                s'.back_color = env.GetRGBTranslateColorShade hue shade
                  ∧ s'.fore_color = s.fore_color))
      ∧ (∀ (pre rest : List Char) (e x y : Char),
          (∀ s, retro_loop env F0 B0 0 pre (Retro.init F0 B0) = Except.ok s →
            s.state = RetroState.START) →
          e = 'f' ∨ e = 'b' →
          (∃ c, (c = x ∨ c = y) ∧ ¬ (48 ≤ c.toNat ∧ c.toNat ≤ 57)
            ∧ ¬ (65 ≤ c.toNat ∧ c.toNat ≤ 90) ∧ ¬ (97 ≤ c.toNat ∧ c.toNat ≤ 122)) →
          ∃ what, StyledText.retro env (pre ++ '\\' :: e :: x :: y :: rest) metrics F0 B0
            = Outcome.raised what) := by
  refine ⟨hex_digit_spec, ?_, ?_⟩
  · intro it r s s' hs h
    exact retro_colour_step env F0 B0 it r s s' hs h
  · intro pre rest e x y hpre he hbad
    refine retro_raises_after env metrics F0 B0 pre _ hpre ?_
    intro it s hs
    have hxy : (∃ what, hex_digit x = Except.error what)
        ∨ ∃ what, hex_digit y = Except.error what := by
      obtain ⟨c, hc, h1, h2, h3⟩ := hbad
      rcases hc with hc | hc
      · subst hc
        exact Or.inl ⟨_, (hex_digit_spec c).2.2.2 h1 h2 h3⟩
      · subst hc
        exact Or.inr ⟨_, (hex_digit_spec c).2.2.2 h1 h2 h3⟩
    obtain ⟨what, hw⟩ := retro_bad_colour env F0 B0 it e x y rest s hs he hxy
    rw [hw]
    trivial

/-! ### Styled text: the parser of `interface` -/

theorem interface_loop_append (env : TextEnv) (f b : RgbColor) :
    ∀ (x y : List Char) (it : Nat) (s : Interface),
      interface_loop env f b it (x ++ y) s
        = match interface_loop env f b it x s with
          | Except.error what => Except.error what
          | Except.ok s' => interface_loop env f b (it + x.length) y s' := by
  intro x
  induction x with
  | nil => intro y it s; rfl
  | cons r rest ih =>
    intro y it s
    rw [List.cons_append, interface_loop, interface_loop]
    cases hc : interface_char env f b it r s with
    | error what => rfl
    | ok s1 =>
      dsimp only
      rw [ih, List.length_cons, Nat.add_assoc, Nat.add_comm 1]

theorem interface_of_loop_error (env : TextEnv) (text : List Char) (metrics : WrapMetrics)
    (f b : RgbColor) (what : String)
    (h : interface_loop env f b 0 text Interface.init = Except.error what) :
    StyledText.interface env text metrics f b = Outcome.raised what := by
  unfold StyledText.interface
  unfold Interface.init at h
  rw [h]

theorem interface_of_loop_ok (env : TextEnv) (text : List Char) (metrics : WrapMetrics)
    (f b : RgbColor) (s : Interface)
    (h : interface_loop env f b 0 text Interface.init = Except.ok s) :
    ∃ t, StyledText.interface env text metrics f b = Outcome.ok t
      ∧ FactoryOk text s.chars f b (Outcome.ok t) := by
  have hi := interface_ok env text metrics f b
  have hu : StyledText.interface env text metrics f b
      = Outcome.of_except (StyledText.parsed text
          (push_final_line_break s.chars text.length f b) s.inline_picts s.textures
          metrics).rewrap := by
    unfold StyledText.interface
    unfold Interface.init at h
    rw [h]
  cases hr : StyledText.interface env text metrics f b with
  | ok t =>
    rw [hr] at hi
    obtain ⟨s', hs', hf⟩ := hi
    unfold Interface.init at h
    rw [h] at hs'
    cases hs'
    exact ⟨t, rfl, hf⟩
  | raised what =>
    rw [hu] at hr
    cases hx : (StyledText.parsed text
          (push_final_line_break s.chars text.length f b) s.inline_picts s.textures
          metrics).rewrap with
    | ok t => rw [hx] at hr; cases hr
    | error e => rw [hx] at hr; cases hr
  | fault e =>
    rw [hr] at hi
    exact absurd hi id

/-- An iteration of `interface` fails, when every texture is found, only in state
CODE at a character other than P and p. -/
theorem interface_char_error (env : TextEnv) (f b : RgbColor)
    (htex : ∀ name, env.texture name ≠ none) (it : Nat) (r : Char) (s : Interface)
    (what : String) (h : interface_char env f b it r s = Except.error what) :
    s.state = InterfaceState.CODE ∧ r ≠ 'P' ∧ r ≠ 'p' := by
  unfold interface_char at h
  split at h
  · split_ifs at h
  · rename_i hst
    split_ifs at h with hc
    exact ⟨hst, hc⟩
  · split_ifs at h
    dsimp only at h
    split at h
    · rename_i hn
      exact absurd hn (htex _)
    · cases h

/-- An iteration of `interface` ends in state CODE only from state START at a
caret, and pushes nothing then. -/
theorem interface_char_code (env : TextEnv) (f b : RgbColor) (it : Nat) (r : Char)
    (s s' : Interface) (h : interface_char env f b it r s = Except.ok s')
    (hs : s'.state = InterfaceState.CODE) :
    s.state = InterfaceState.START ∧ r = '^' := by
  unfold interface_char at h
  split at h
  · rename_i hst
    split_ifs at h with h1 h2 h3
    · cases h; rw [hst] at hs; cases hs
    · cases h; rw [hst] at hs; cases hs
    · exact ⟨hst, h3⟩
    · cases h; rw [hst] at hs; cases hs
  · split_ifs at h
    cases h
    cases hs
  · split_ifs at h
    · cases h
      rename_i hst _
      rw [hst] at hs
      cases hs
    · dsimp only at h
      split at h
      · cases h
      · cases h
        cases hs

/-- Where the loop of `interface` fails, when every texture is found: at a
character other than P and p read in state CODE. -/
theorem interface_loop_error (env : TextEnv) (f b : RgbColor)
    (htex : ∀ name, env.texture name ≠ none) :
    ∀ (text : List Char) (it : Nat) (s : Interface) (what : String),
      interface_loop env f b it text s = Except.error what →
      ∃ pre c rest s', text = pre ++ c :: rest
        ∧ interface_loop env f b it pre s = Except.ok s'
        ∧ s'.state = InterfaceState.CODE ∧ c ≠ 'P' ∧ c ≠ 'p' := by
  intro text
  induction text with
  | nil => intro it s what h; cases h
  | cons r rest ih =>
    intro it s what h
    rw [interface_loop] at h
    cases hc : interface_char env f b it r s with
    | error w =>
      obtain ⟨h1, h2, h3⟩ := interface_char_error env f b htex it r s w hc
      exact ⟨[], r, rest, s, rfl, rfl, h1, h2, h3⟩
    | ok s1 =>
      rw [hc] at h
      dsimp only at h
      obtain ⟨pre, c, rest', s', h1, h2, h3, h4, h5⟩ := ih (it + 1) s1 what h
      refine ⟨r :: pre, c, rest', s', ?_, ?_, h3, h4, h5⟩
      · rw [h1]; rfl
      · rw [interface_loop, hc]
        exact h2

/-- The loop of `interface` is in state CODE only right after a caret read in state
START. -/
theorem interface_loop_code (env : TextEnv) (f b : RgbColor) (pre : List Char) (it : Nat)
    (s s' : Interface) (h : interface_loop env f b it pre s = Except.ok s')
    (hs : s'.state = InterfaceState.CODE) (h0 : s.state = InterfaceState.START) :
    ∃ pre' s'', pre = pre' ++ ['^'] ∧ interface_loop env f b it pre' s = Except.ok s''
      ∧ s''.state = InterfaceState.START := by
  rcases List.eq_nil_or_concat pre with hnil | ⟨pre', x, hx⟩
  · subst hnil
    cases h
    rw [h0] at hs
    cases hs
  · rw [List.concat_eq_append] at hx
    subst hx
    rw [interface_loop_append] at h
    cases hp : interface_loop env f b it pre' s with
    | error w => rw [hp] at h; cases h
    | ok s'' =>
      rw [hp] at h
      dsimp only at h
      rw [interface_loop] at h
      cases hc : interface_char env f b (it + pre'.length) x s'' with
      | error w => rw [hc] at h; cases h
      | ok s3 =>
        rw [hc] at h
        dsimp only at h
        rw [interface_loop] at h
        rw [← Except.ok.inj h] at hs
        obtain ⟨h1, h2⟩ := interface_char_code env f b _ x s'' s3 hc hs
        subst h2
        exact ⟨pre', s'', rfl, hp, h1⟩

/-- The characters of a picture id push nothing. -/
theorem interface_loop_id (env : TextEnv) (f b : RgbColor) :
    ∀ (id : List Char) (it : Nat) (s : Interface), s.state = InterfaceState.ID →
      '^' ∉ id →
      ∃ s', interface_loop env f b it id s = Except.ok s' ∧ s'.chars = s.chars := by
  intro id
  induction id with
  | nil => intro it s _ _; exact ⟨s, rfl, rfl⟩
  | cons r rest ih =>
    intro it s hs hn
    have hr : r ≠ '^' := fun h => hn (by rw [h]; exact List.mem_cons_self _ _)
    have hrest : '^' ∉ rest := fun h => hn (List.mem_cons_of_mem _ h)
    obtain ⟨chars, picts, textures, id0, state⟩ := s
    cases hs
    have hc : interface_char env f b it r ⟨chars, picts, textures, id0, InterfaceState.ID⟩
        = Except.ok ⟨chars, picts, textures, id0 ++ [r], InterfaceState.ID⟩ := by
      simp only [interface_char]
      rw [if_pos hr]
    rw [interface_loop, hc]
    exact ih (it + 1) _ rfl hrest

/-! ### C15 -/

/-- C15: when every texture is found, `interface` raises exactly for the texts in
which a caret read outside a picture id (the parser being in state START after
the text before it) is directly followed by a character other than P and p; it
returns a text for every other text.  In particular for a text that ends right
after such a caret, or inside a reference `^P<id>` or `^p<id>` that no caret
closes, it returns the entries of the text before the caret and the final line
break: the characters of the unfinished reference make no entry. -/
theorem interface_raises_iff (env : TextEnv) (metrics : WrapMetrics)
    (fore_color back_color : RgbColor) (htex : ∀ name, env.texture name ≠ none) :
    (∀ text : List Char,
        ((∃ what, StyledText.interface env text metrics fore_color back_color
            = Outcome.raised what)
          ↔ ∃ pre c rest s, text = pre ++ '^' :: c :: rest
              ∧ interface_loop env fore_color back_color 0 pre Interface.init = Except.ok s
              ∧ s.state = InterfaceState.START ∧ c ≠ 'P' ∧ c ≠ 'p')
        ∧ ((∃ what, StyledText.interface env text metrics fore_color back_color
              = Outcome.raised what)
            ∨ ∃ t, StyledText.interface env text metrics fore_color back_color
              = Outcome.ok t))
      ∧ ∀ (pre tail : List Char) (s : Interface),
          interface_loop env fore_color back_color 0 pre Interface.init = Except.ok s →
          s.state = InterfaceState.START →
          (tail = ['^'] ∨ ∃ p id, tail = '^' :: p :: id ∧ (p = 'P' ∨ p = 'p') ∧ '^' ∉ id) →
          ∃ t, StyledText.interface env (pre ++ tail) metrics fore_color back_color
              = Outcome.ok t
            ∧ t.chars.map StyledChar.unplaced
                = (push_final_line_break s.chars (pre ++ tail).length fore_color
                    back_color).map StyledChar.unplaced := by
  have hiff : ∀ text : List Char,
      ((∃ what, StyledText.interface env text metrics fore_color back_color
            = Outcome.raised what)
          ↔ ∃ pre c rest s, text = pre ++ '^' :: c :: rest
              ∧ interface_loop env fore_color back_color 0 pre Interface.init = Except.ok s
              ∧ s.state = InterfaceState.START ∧ c ≠ 'P' ∧ c ≠ 'p') := by
    intro text
    constructor
    · rintro ⟨what, hw⟩
      cases hl : interface_loop env fore_color back_color 0 text Interface.init with
      | ok s =>
        obtain ⟨t, ht, _⟩ := interface_of_loop_ok env text metrics fore_color back_color s hl
        rw [ht] at hw
        cases hw
      | error w =>
        obtain ⟨pre, c, rest, s', h1, h2, h3, h4, h5⟩ :=
          interface_loop_error env fore_color back_color htex text 0 _ w hl
        obtain ⟨pre', s'', h6, h7, h8⟩ :=
          interface_loop_code env fore_color back_color pre 0 _ s' h2 h3 rfl
        refine ⟨pre', c, rest, s'', ?_, h7, h8, h4, h5⟩
        rw [h1, h6, List.append_assoc]
        rfl
    · rintro ⟨pre, c, rest, s, h1, h2, h3, h4, h5⟩
      have happ := interface_loop_append env fore_color back_color pre ('^' :: c :: rest) 0
        Interface.init
      rw [h2] at happ
      dsimp only at happ
      obtain ⟨chars, picts, textures, id0, state⟩ := s
      cases h3
      have hstep : interface_loop env fore_color back_color (0 + pre.length)
          ('^' :: c :: rest) ⟨chars, picts, textures, id0, InterfaceState.START⟩
          = Except.error ("found bad inline pict code " ++ String.singleton c) := by
        simp only [interface_loop, interface_char]
        simp [h4, h5]
      rw [hstep, ← h1] at happ
      exact ⟨_, interface_of_loop_error env text metrics fore_color back_color _ happ⟩
  refine ⟨fun text => ⟨hiff text, ?_⟩, ?_⟩
  · cases hl : interface_loop env fore_color back_color 0 text Interface.init with
    | ok s =>
      obtain ⟨t, ht, _⟩ := interface_of_loop_ok env text metrics fore_color back_color s hl
      exact Or.inr ⟨t, ht⟩
    | error w =>
      exact Or.inl ⟨w, interface_of_loop_error env text metrics fore_color back_color w hl⟩
  · intro pre tail s hpre hs htail
    have happ := interface_loop_append env fore_color back_color pre tail 0 Interface.init
    rw [hpre] at happ
    dsimp only at happ
    have hfin : ∃ s', interface_loop env fore_color back_color (0 + pre.length) tail s
        = Except.ok s' ∧ s'.chars = s.chars := by
      obtain ⟨chars, picts, textures, id0, state⟩ := s
      cases hs
      rcases htail with h | ⟨p, id, h, hp, hid⟩
      · subst h
        exact ⟨_, rfl, rfl⟩
      · subst h
        have h2 : interface_loop env fore_color back_color (0 + pre.length) ('^' :: p :: id)
            ⟨chars, picts, textures, id0, InterfaceState.START⟩
            = interface_loop env fore_color back_color (0 + pre.length + 1 + 1) id
                ⟨chars, picts, textures, id0, InterfaceState.ID⟩ := by
          rcases hp with hp | hp <;> subst hp <;> simp [interface_loop, interface_char]
        rw [h2]
        exact interface_loop_id env fore_color back_color id _ _ rfl hid
    obtain ⟨s', hs', hchars⟩ := hfin
    rw [hs'] at happ
    obtain ⟨t, ht, _, _, _, hmap⟩ :=
      interface_of_loop_ok env (pre ++ tail) metrics fore_color back_color s' happ
    rw [hchars] at hmap
    exact ⟨t, ht, hmap⟩

theorem interface_raises_iff_witness :
    (∀ name, example_text_env.texture name ≠ none)
      ∧ ∃ t, StyledText.interface example_text_env
              (['a', 'b', ' '] ++ ['^', 'P', 'f', 'o', 'o']) example_metrics example_fore
              example_back
            = Outcome.ok t
          ∧ t.chars.map StyledChar.unplaced
              = (push_final_line_break
                  [StyledChar.make 0 SpecialChar.NONE 0 example_fore example_back,
                   StyledChar.make 1 SpecialChar.NONE 0 example_fore example_back,
                   StyledChar.make 2 SpecialChar.WORD_BREAK 0 example_fore example_back]
                  (['a', 'b', ' '] ++ ['^', 'P', 'f', 'o', 'o']).length example_fore
                  example_back).map StyledChar.unplaced :=
  ⟨fun _ h => (by cases h),
    (interface_raises_iff example_text_env example_metrics example_fore example_back
      (fun _ h => (by cases h))).2 ['a', 'b', ' '] ['^', 'P', 'f', 'o', 'o']
      { chars := [StyledChar.make 0 SpecialChar.NONE 0 example_fore example_back,
                  StyledChar.make 1 SpecialChar.NONE 0 example_fore example_back,
                  StyledChar.make 2 SpecialChar.WORD_BREAK 0 example_fore example_back],
        inline_picts := [], textures := [], id := [], state := InterfaceState.START }
      rfl rfl (Or.inr ⟨'P', ['f', 'o', 'o'], rfl, Or.inl rfl, by decide⟩)⟩

/-! ### C19 -/

theorem op_eq_iff (a b : PlayerEvent) :
    a.op_eq b = true ↔ a.type = b.type ∧ a.key = b.key := by
  unfold PlayerEvent.op_eq
  by_cases ht : a.type = b.type
  · rw [if_neg (not_not.mpr ht)]
    cases hty : a.type <;> simp [ht.symm, hty]
  · rw [if_pos ht]
    simp [ht]

theorem op_lt_iff (value : PlayerEventType → Int) (a b : PlayerEvent) :
    a.op_lt value b = true
      ↔ value a.type < value b.type ∨ (a.type = b.type ∧ a.key < b.key) := by
  unfold PlayerEvent.op_lt
  by_cases ht : a.type = b.type
  · rw [if_neg (not_not.mpr ht)]
    cases hty : a.type <;> simp [ht.symm, hty]
  · rw [if_pos ht]
    simp [ht]

/-- C19: whatever distinct values the three event types have, `operator<` of
`PlayerEvent` is the lexicographic order on (type, key), the types compared by
their values and the keys by number: it is irreflexive, transitive and total (of
two events one is less than the other or they are the same event); and
`operator==` holds exactly when type and key are both equal, that is, exactly when
neither event is less than the other. -/
theorem player_event_order (value : PlayerEventType → Int)
    (hv : Function.Injective value) :
    (∀ a b : PlayerEvent, a.op_lt value b = true
        ↔ value a.type < value b.type ∨ (a.type = b.type ∧ a.key < b.key))
      ∧ (∀ a : PlayerEvent, a.op_lt value a = false)
      ∧ (∀ a b c : PlayerEvent, a.op_lt value b = true → b.op_lt value c = true →
          a.op_lt value c = true)
      ∧ (∀ a b : PlayerEvent, a.op_lt value b = true ∨ a = b ∨ b.op_lt value a = true)
      ∧ (∀ a b : PlayerEvent, a.op_eq b = true ↔ a.type = b.type ∧ a.key = b.key)
      ∧ (∀ a b : PlayerEvent, a.op_eq b = true
          ↔ a.op_lt value b = false ∧ b.op_lt value a = false) := by
  have hlt := op_lt_iff value
  have hne : ∀ x y : PlayerEventType, x ≠ y → value x ≠ value y :=
    fun x y hxy h => hxy (hv h)
  refine ⟨hlt, ?_, ?_, ?_, op_eq_iff, ?_⟩
  · intro a
    rw [Bool.eq_false_iff]
    intro h
    rcases (hlt a a).mp h with h | ⟨_, h⟩
    · exact lt_irrefl _ h
    · exact lt_irrefl _ h
  · intro a b c hab hbc
    rw [hlt] at hab hbc ⊢
    rcases hab with h1 | ⟨h1, h2⟩
    · rcases hbc with h3 | ⟨h3, h4⟩
      · exact Or.inl (lt_trans h1 h3)
      · exact Or.inl (h3 ▸ h1)
    · rcases hbc with h3 | ⟨h3, h4⟩
      · exact Or.inl (h1 ▸ h3)
      · exact Or.inr ⟨h1.trans h3, lt_trans h2 h4⟩
  · intro a b
    rw [hlt, hlt]
    obtain ⟨ta, ka⟩ := a
    obtain ⟨tb, kb⟩ := b
    dsimp only
    by_cases ht : ta = tb
    · subst ht
      rcases Nat.lt_trichotomy ka kb with h | h | h
      · exact Or.inl (Or.inr ⟨rfl, h⟩)
      · subst h
        exact Or.inr (Or.inl rfl)
      · exact Or.inr (Or.inr (Or.inr ⟨rfl, h⟩))
    · rcases lt_trichotomy (value ta) (value tb) with h | h | h
      · exact Or.inl (Or.inl h)
      · exact absurd h (hne ta tb ht)
      · exact Or.inr (Or.inr (Or.inl h))
  · intro a b
    rw [op_eq_iff, Bool.eq_false_iff, Bool.eq_false_iff, Ne, Ne, hlt, hlt]
    constructor
    · rintro ⟨h1, h2⟩
      rw [h1, h2]
      simp
    · rintro ⟨h1, h2⟩
      have ht : a.type = b.type := by
        by_contra hne'
        rcases lt_trichotomy (value a.type) (value b.type) with h | h | h
        · exact h1 (Or.inl h)
        · exact hne _ _ hne' h
        · exact h2 (Or.inl h)
      exact ⟨ht, le_antisymm (not_lt.mp fun h => h2 (Or.inr ⟨ht.symm, h⟩))
        (not_lt.mp fun h => h1 (Or.inr ⟨ht, h⟩))⟩

theorem player_event_order_witness :
    Function.Injective example_event_value
      ∧ (PlayerEvent.key_down 7).op_lt example_event_value (PlayerEvent.key_up 3) = true
      ∧ ((PlayerEvent.key_up 3).op_lt example_event_value (PlayerEvent.long_key_up 0) = true →
          (PlayerEvent.key_down 7).op_lt example_event_value (PlayerEvent.long_key_up 0)
            = true) :=
  have hinj : Function.Injective example_event_value := by
    intro x y h
    cases x <;> cases y <;> first | rfl | (exact absurd h (by decide))
  ⟨hinj, by decide,
    (player_event_order example_event_value hinj).2.2.1 _ _ _ (by decide)⟩

/-! ### C20 -/

theorem key_num_lt (env : InputEnv) (key : Key) (k : KeyNum) (h : key_num env key = some k) :
    k < env.nums.kKeyExtendedControlNum ∧ env.prefs_key k = key := by
  unfold key_num at h
  have h1 := List.find?_some h
  have h2 := List.mem_of_find?_eq_some h
  rw [List.mem_range] at h2
  exact ⟨h2, (of_decide_eq_true h1).symm⟩

/-- What the `switch` of `key_up` computes, its labels being distinct. -/
theorem key_up_long_hold_eq (K : KeyNums) (hK : K.labels.Nodup) (now : Int) (key : KeyNum)
    (s : PlayerShip) :
    (∀ k : Nat, K.hot_keys[k]? = some key →
        key_up_long_hold K now key s = decide (now ≥ s.gHotKeyTime k + 51))
      ∧ (key = K.kDestinationKeyNum →
          key_up_long_hold K now key s = decide (now ≥ s.gDestKeyTime + 45))
      ∧ (key ∉ K.labels → key_up_long_hold K now key s = false) := by
  obtain ⟨k1, k2, k3, k4, k5, k6, k7, k8, k9, k10, kd, n⟩ := K
  simp only [KeyNums.labels, KeyNums.hot_keys, List.cons_append, List.nil_append,
    List.nodup_cons, List.mem_cons, List.mem_singleton, List.not_mem_nil, or_false,
    not_or, List.nodup_nil, and_true] at hK
  refine ⟨?_, ?_, ?_⟩
  · intro k hk
    have hk10 : k < 10 := by
      by_contra hge
      rw [List.getElem?_eq_none (by simp [KeyNums.hot_keys]; omega)] at hk
      cases hk
    interval_cases k <;>
      simp only [KeyNums.hot_keys, List.getElem?_cons_zero, List.getElem?_cons_succ,
        Option.some.injEq] at hk <;> subst hk <;>
      simp [key_up_long_hold, kHotKeyHoldDuration, hK, Ne.symm]
  · intro h
    subst h
    simp [key_up_long_hold, kDestKeyHoldDuration, hK, Ne.symm]
  · intro h
    simp only [KeyNums.labels, KeyNums.hot_keys, List.cons_append, List.nil_append,
      List.mem_cons, List.mem_singleton, List.not_mem_nil, or_false, not_or] at h
    simp [key_up_long_hold, h]


/-- What the `switch` of `key_down` records, its labels being distinct: the time of
the press, for the slot of a hot key or for the destination key. -/
theorem key_down_time_eq (K : KeyNums) (hK : K.labels.Nodup) (now : Int) (key : KeyNum)
    (s : PlayerShip) :
    (∀ slot : Nat, K.hot_keys[slot]? = some key →
        (key_down_time K now key s).gHotKeyTime slot = now)
      ∧ (key = K.kDestinationKeyNum → (key_down_time K now key s).gDestKeyTime = now)
      ∧ (key_down_time K now key s)._player_events = s._player_events := by
  obtain ⟨k1, k2, k3, k4, k5, k6, k7, k8, k9, k10, kd, n⟩ := K
  simp only [KeyNums.labels, KeyNums.hot_keys, List.cons_append, List.nil_append,
    List.nodup_cons, List.mem_cons, List.mem_singleton, List.not_mem_nil, or_false,
    not_or, List.nodup_nil, and_true] at hK
  refine ⟨?_, ?_, ?_⟩
  · intro k hk
    have hk10 : k < 10 := by
      by_contra hge
      rw [List.getElem?_eq_none (by simp [KeyNums.hot_keys]; omega)] at hk
      cases hk
    interval_cases k <;>
      simp only [KeyNums.hot_keys, List.getElem?_cons_zero, List.getElem?_cons_succ,
        Option.some.injEq] at hk <;> subst hk <;>
      simp [key_down_time, hK, Ne.symm]
  · intro h
    subst h
    simp [key_down_time, hK, Ne.symm]
  · unfold key_down_time
    dsimp only
    simp only [apply_ite PlayerShip._player_events, ite_self]

/-- Method `key_down` on an active player ship, for a key of a control: the time of
the press is recorded and one KEY_DOWN is pushed. -/
theorem key_down_records (env : InputEnv) (hK : env.nums.labels.Nodup) (t0 : Int)
    (s : PlayerShip) (key : Key) (k : KeyNum) (hact : PlayerShip.active env = true)
    (hk : key_num env key = some k) :
    (∀ slot : Nat, env.nums.hot_keys[slot]? = some k →
        (PlayerShip.key_down env t0 s key).gHotKeyTime slot = t0)
      ∧ (k = env.nums.kDestinationKeyNum →
          (PlayerShip.key_down env t0 s key).gDestKeyTime = t0)
      ∧ (PlayerShip.key_down env t0 s key)._player_events
          = s._player_events ++ [PlayerEvent.key_down k] := by
  obtain ⟨h1, h2, h3⟩ := key_down_time_eq env.nums hK t0 k (s.set_key key true)
  unfold PlayerShip.key_down
  dsimp only
  rw [hact, hk]
  dsimp only
  rw [if_neg (by decide)]
  refine ⟨h1, h2, ?_⟩
  dsimp only
  rw [h3]
  rfl

/-- C20: the labels of its `switch` being distinct, `key_up` on an active player
ship for a key that `key_num` maps to a control number `k` pushes exactly one
event, of key `k`: it is a LONG_KEY_UP exactly when `k` is the hot key of a slot
and `now` is at least 51 ticks after the time recorded for that slot, or `k` is
the destination key and `now` is at least 45 ticks after the time recorded for
it; it is a KEY_UP in every other case.  When the ship is not active, or the key
maps to no control number, no event is pushed.  The ship is active when `g.ship`
is an object in use with the attribute `kIsPlayerShip`; the control number of a
key is the index, below `kKeyExtendedControlNum`, at which the preferences hold
that key; and the time recorded for a slot or for the destination key is the
time of the last `key_down` of that key on an active ship. -/
theorem key_up_pushes_one_event (env : InputEnv) (now : Int) (s : PlayerShip) (key : Key)
    (hK : env.nums.labels.Nodup) :
    (PlayerShip.active env = true → ∀ k : KeyNum, key_num env key = some k →
        ∃ e, (PlayerShip.key_up env now s key)._player_events = s._player_events ++ [e]
          ∧ e.key = k
          ∧ (e.type = PlayerEventType.LONG_KEY_UP
              ↔ (∃ slot : Nat, env.nums.hot_keys[slot]? = some k
                    ∧ now ≥ s.gHotKeyTime slot + 51)
                ∨ (k = env.nums.kDestinationKeyNum ∧ now ≥ s.gDestKeyTime + 45))
          ∧ (e.type = PlayerEventType.KEY_UP
              ↔ ¬ ((∃ slot : Nat, env.nums.hot_keys[slot]? = some k
                      ∧ now ≥ s.gHotKeyTime slot + 51)
                  ∨ (k = env.nums.kDestinationKeyNum ∧ now ≥ s.gDestKeyTime + 45))))
      ∧ (PlayerShip.active env = false ∨ key_num env key = none →
          (PlayerShip.key_up env now s key)._player_events = s._player_events)
      ∧ (PlayerShip.active env = true
          ↔ ∃ player, env.ship = some player ∧ player.active ≠ 0
              ∧ player.attributes &&& env.kIsPlayerShip ≠ 0)
      ∧ (∀ k : KeyNum, key_num env key = some k →
          k < env.nums.kKeyExtendedControlNum ∧ env.prefs_key k = key)
      ∧ (PlayerShip.active env = true → ∀ (k : KeyNum) (t0 : Int),
          key_num env key = some k →
          (∀ slot : Nat, env.nums.hot_keys[slot]? = some k →
              (PlayerShip.key_down env t0 s key).gHotKeyTime slot = t0)
            ∧ (k = env.nums.kDestinationKeyNum →
                (PlayerShip.key_down env t0 s key).gDestKeyTime = t0)
            ∧ (PlayerShip.key_down env t0 s key)._player_events
                = s._player_events ++ [PlayerEvent.key_down k]) := by
  refine ⟨?_, ?_, ?_, fun k hk => key_num_lt env key k hk,
    fun hact k t0 hk => key_down_records env hK t0 s key k hact hk⟩
  · intro hact k hk
    obtain ⟨hhot, hdest, hother⟩ :=
      key_up_long_hold_eq env.nums hK now k (s.set_key key false)
    have hcond : key_up_long_hold env.nums now k (s.set_key key false) = true
        ↔ ((∃ slot : Nat, env.nums.hot_keys[slot]? = some k ∧ now ≥ s.gHotKeyTime slot + 51)
            ∨ (k = env.nums.kDestinationKeyNum ∧ now ≥ s.gDestKeyTime + 45)) := by
      constructor
      · intro hlong
        by_cases hmem : k ∈ env.nums.labels
        · unfold KeyNums.labels at hmem
          rcases List.mem_append.mp hmem with h1 | h1
          · obtain ⟨slot, hslot⟩ := List.getElem?_of_mem h1
            rw [hhot slot hslot] at hlong
            exact Or.inl ⟨slot, hslot, of_decide_eq_true hlong⟩
          · rw [List.mem_singleton] at h1
            rw [hdest h1] at hlong
            exact Or.inr ⟨h1, of_decide_eq_true hlong⟩
        · rw [hother hmem] at hlong
          cases hlong
      · rintro (⟨slot, hslot, hnow⟩ | ⟨h1, hnow⟩)
        · rw [hhot slot hslot]
          exact decide_eq_true hnow
        · rw [hdest h1]
          exact decide_eq_true hnow
    unfold PlayerShip.key_up
    dsimp only
    rw [hact, hk]
    dsimp only
    by_cases hl : key_up_long_hold env.nums now k (s.set_key key false) = true
    · rw [if_neg (by decide), if_pos hl]
      refine ⟨PlayerEvent.long_key_up k, rfl, rfl, ?_, ?_⟩
      · exact ⟨fun _ => hcond.mp hl, fun _ => rfl⟩
      · exact ⟨fun h => (by cases h), fun h => absurd (hcond.mp hl) h⟩
    · rw [if_neg (by decide), if_neg hl]
      refine ⟨PlayerEvent.key_up k, rfl, rfl, ?_, ?_⟩
      · exact ⟨fun h => (by cases h), fun h => absurd (hcond.mpr h) hl⟩
      · exact ⟨fun _ h => hl (hcond.mpr h), fun _ => rfl⟩
  · intro h
    unfold PlayerShip.key_up
    dsimp only
    rcases h with h | h
    · rw [h]
      rfl
    · rw [h]
      split_ifs <;> rfl
  · unfold PlayerShip.active
    cases env.ship with
    | none => simp
    | some player => simp

theorem key_up_pushes_one_event_witness :
    example_input_env.nums.labels.Nodup
      ∧ PlayerShip.active example_input_env = true
      ∧ key_num example_input_env 135 = some 35
      ∧ ∃ e, (PlayerShip.key_up example_input_env 1051 example_player_ship 135)._player_events
            = example_player_ship._player_events ++ [e]
          ∧ e.key = 35
          ∧ (e.type = PlayerEventType.LONG_KEY_UP
              ↔ (∃ slot : Nat, example_input_env.nums.hot_keys[slot]? = some 35
                    ∧ (1051 : Int) ≥ example_player_ship.gHotKeyTime slot + 51)
                ∨ (35 = example_input_env.nums.kDestinationKeyNum
                    ∧ (1051 : Int) ≥ example_player_ship.gDestKeyTime + 45))
          ∧ (e.type = PlayerEventType.KEY_UP
              ↔ ¬ ((∃ slot : Nat, example_input_env.nums.hot_keys[slot]? = some 35
                      ∧ (1051 : Int) ≥ example_player_ship.gHotKeyTime slot + 51)
                  ∨ (35 = example_input_env.nums.kDestinationKeyNum
                      ∧ (1051 : Int) ≥ example_player_ship.gDestKeyTime + 45))) :=
  ⟨by decide, by decide, by decide,
    (key_up_pushes_one_event example_input_env 1051 example_player_ship 135
      (by decide)).1 (by decide) 35 (by decide)⟩

/-! ### Styled text: two runs of the layout -/

theorem ExRel.of_ok {σ ε : Type} {R : σ → σ → Prop} {x y : Except ε σ} {a : σ}
    (h : ExRel R x y) (hx : x = Except.ok a) : ∃ b, y = Except.ok b ∧ R a b := by
  subst hx
  cases y with
  | ok b => exact ⟨b, rfl, h⟩
  | error e => exact absurd h id

/-- Two loops that start in related states and whose iterations keep the relation
fail alike or end in related states. -/
theorem forEach_lock {α σ ε : Type} (R : σ → σ → Prop) (body : α → σ → Except ε σ) :
    ∀ (xs : List α) (a b : σ), R a b →
      (∀ x ∈ xs, ∀ a b, R a b → ExRel R (body x a) (body x b)) →
      ExRel R (forEach xs a body) (forEach xs b body) := by
  intro xs
  induction xs with
  | nil =>
    intro a b hab _
    exact hab
  | cons x rest ih =>
    intro a b hab hbody
    have hx := hbody x (List.mem_cons_self _ _) a b hab
    simp only [forEach]
    cases ha : body x a with
    | ok a' =>
      cases hb : body x b with
      | ok b' =>
        rw [ha, hb] at hx
        exact ih a' b' hx (fun y hy => hbody y (List.mem_cons_of_mem _ hy))
      | error e =>
        rw [ha, hb] at hx
        exact absurd hx id
    | error e =>
      cases hb : body x b with
      | ok b' =>
        rw [ha, hb] at hx
        exact absurd hx id
      | error e' =>
        rw [ha, hb] at hx
        exact hx

/-- The same for a loop over a range, the relation depending on the index. -/
theorem forEach_range_lock {σ ε : Type} (R : Nat → σ → σ → Prop)
    (body : Nat → σ → Except ε σ) :
    ∀ (n a : Nat) (s t : σ), R a s t →
      (∀ i, a ≤ i → i < a + n → ∀ s t, R i s t → ExRel (R (i + 1)) (body i s) (body i t)) →
      ExRel (R (a + n)) (forEach (List.range' a n) s body)
        (forEach (List.range' a n) t body) := by
  intro n
  induction n with
  | zero =>
    intro a s t hst _
    exact hst
  | succ n ih =>
    intro a s t hst hbody
    have hx := hbody a (le_refl _) (by omega) s t hst
    rw [List.range'_succ]
    simp only [forEach]
    have hstep : ∀ s' t', R (a + 1) s' t' →
        ExRel (R (a + (n + 1))) (forEach (List.range' (a + 1) n) s' body)
          (forEach (List.range' (a + 1) n) t' body) := by
      intro s' t' h'
      have := ih (a + 1) s' t' h' (fun i h1 h2 => hbody i (by omega) (by omega))
      rw [Nat.add_assoc, Nat.add_comm 1 n] at this
      exact this
    cases ha : body a s with
    | ok a' =>
      cases hb : body a t with
      | ok b' =>
        rw [ha, hb] at hx
        exact hstep a' b' hx
      | error e =>
        rw [ha, hb] at hx
        exact absurd hx id
    | error e =>
      cases hb : body a t with
      | ok b' =>
        rw [ha, hb] at hx
        exact absurd hx id
      | error e' =>
        rw [ha, hb] at hx
        exact hx

theorem Agree.get {n : Nat} {A B : List StyledChar} (h : Agree n A B) (j : Nat) :
    A[j]?.map StyledChar.unplaced = B[j]?.map StyledChar.unplaced := by
  rw [← List.getElem?_map, ← List.getElem?_map, h.1]

theorem Agree.set_same {n : Nat} {A B : List StyledChar} (h : Agree n A B) (j : Nat)
    (x : StyledChar) : Agree n (A.set j x) (B.set j x) := by
  have hlen : A.length = B.length := by
    have := congrArg List.length h.1
    simpa using this
  constructor
  · apply List.ext_getElem?
    intro k
    rw [List.getElem?_map, List.getElem?_map, List.getElem?_set, List.getElem?_set, hlen]
    split
    · rfl
    · exact h.get k
  · intro k hk
    rw [List.getElem?_set, List.getElem?_set, hlen, h.2 k hk]

theorem Agree.mono {n m : Nat} {A B : List StyledChar} (h : Agree n A B) (hm : m ≤ n) :
    Agree m A B :=
  ⟨h.1, fun j hj => h.2 j (by omega)⟩

/-- Placing the entry `i` of two streams that agree before `i`. -/
theorem Agree.set_next {i : Nat} {A B : List StyledChar} (h : Agree i A B)
    (a b : StyledChar) (ha : A[i]? = some a) (hb : B[i]? = some b) (r : Rect) :
    ({ a with bounds := r } : StyledChar) = { b with bounds := r }
      ∧ Agree (i + 1) (A.set i { a with bounds := r }) (B.set i { b with bounds := r }) := by
  have hun : a.unplaced = b.unplaced := by
    have := h.get i
    rw [ha, hb] at this
    simpa using this
  have heq : ({ a with bounds := r } : StyledChar) = { b with bounds := r } := by
    obtain ⟨i1, s1, p1, f1, b1, r1⟩ := a
    obtain ⟨i2, s2, p2, f2, b2, r2⟩ := b
    simp only [StyledChar.unplaced, StyledChar.mk.injEq] at hun
    obtain ⟨h1, h2, h3, h4, h5, _⟩ := hun
    subst h1 h2 h3 h4 h5
    rfl
  refine ⟨heq, ?_⟩
  rw [heq]
  have hlen : A.length = B.length := by
    have := congrArg List.length h.1
    simpa using this
  have hs := h.set_same i { b with bounds := r }
  refine ⟨hs.1, ?_⟩
  intro j hj
  by_cases hji : j = i
  · subst hji
    rw [List.getElem?_set, List.getElem?_set, hlen, if_pos rfl, if_pos rfl]
  · exact hs.2 j (by omega)


theorem move_word_down_place_lock (metrics : WrapMetrics) (text : List Char) (v : Int)
    (j n : Nat) (hj : j < n) (s t : List StyledChar × Int)
    (h : s.2 = t.2 ∧ Agree n s.1 t.1) :
    ExRel (fun r r' : List StyledChar × Int => r.2 = r'.2 ∧ Agree n r.1 r'.1)
      (move_word_down_place metrics text v j s) (move_word_down_place metrics text v j t) := by
  obtain ⟨A, hA⟩ := s
  obtain ⟨B, hB⟩ := t
  obtain ⟨h1, h2⟩ := h
  dsimp only at h1 h2
  subst h1
  unfold move_word_down_place
  dsimp only
  rw [h2.2 j hj]
  cases B[j]? with
  | none => exact rfl
  | some c =>
    dsimp only
    cases text[c.it]? with
    | none => exact rfl
    | some r => exact ⟨rfl, h2.set_same j _⟩

/-- The scan of `move_word_down` from an entry before `index` reads the entries up
to `index` only, so two runs on streams that agree up to `index` do the same. -/
theorem move_word_down_from_lock (metrics : WrapMetrics) (text : List Char) (index : Nat)
    (v : Int) :
    ∀ (n : Nat) (A B : List StyledChar), n ≤ index → Agree (index + 1) A B →
      ExRel (fun r r' : List StyledChar × Int => r.2 = r'.2 ∧ Agree (index + 1) r.1 r'.1)
        (move_word_down_from metrics text index v n A)
        (move_word_down_from metrics text index v n B) := by
  intro n
  induction n with
  | zero =>
    intro A B _ h
    exact ⟨rfl, h⟩
  | succ i ih =>
    intro A B hn h
    have hplace : ExRel
        (fun r r' : List StyledChar × Int => r.2 = r'.2 ∧ Agree (index + 1) r.1 r'.1)
        (forEach (List.range' (i + 1) (index - i)) (A, metrics.side_margin)
          (move_word_down_place metrics text v))
        (forEach (List.range' (i + 1) (index - i)) (B, metrics.side_margin)
          (move_word_down_place metrics text v)) := by
      apply forEach_lock
      · exact ⟨rfl, h⟩
      · intro j hj s t hst
        have hj' := List.mem_range'_1.mp hj
        exact move_word_down_place_lock metrics text v j (index + 1) (by omega) s t hst
    simp only [move_word_down_from]
    rw [h.2 i (by omega), h.2 (i + 1) (by omega)]
    cases B[i]? with
    | none => exact rfl
    | some c =>
      dsimp only
      cases c.special with
      | NONE => exact ih A B (by omega) h
      | NO_BREAK => exact ih A B (by omega) h
      | LINE_BREAK => exact ⟨rfl, h⟩
      | PICTURE => exact ⟨rfl, h⟩
      | WORD_BREAK =>
        dsimp only
        cases B[i + 1]? with
        | none => exact rfl
        | some next =>
          dsimp only
          split
          · exact ⟨rfl, h⟩
          · exact hplace
      | TAB =>
        dsimp only
        cases B[i + 1]? with
        | none => exact rfl
        | some next =>
          dsimp only
          split
          · exact ⟨rfl, h⟩
          · exact hplace
      | DELAY =>
        dsimp only
        cases B[i + 1]? with
        | none => exact rfl
        | some next =>
          dsimp only
          split
          · exact ⟨rfl, h⟩
          · exact hplace

/-- Method `move_word_down`, called as `rewrap` calls it, on two streams that agree
up to `index`. -/
theorem move_word_down_lock (metrics : WrapMetrics) (text : List Char) (index : Nat)
    (v : Int) (A B : List StyledChar) (c : StyledChar) (hc : B[index]? = some c)
    (hword : c.special = SpecialChar.NONE ∨ c.special = SpecialChar.NO_BREAK)
    (h : Agree (index + 1) A B) :
    ExRel (fun r r' : List StyledChar × Int => r.2 = r'.2 ∧ Agree (index + 1) r.1 r'.1)
      (move_word_down metrics text A index v) (move_word_down metrics text B index v) := by
  unfold move_word_down
  simp only [move_word_down_from]
  rw [h.2 index (by omega), hc]
  dsimp only
  rcases hword with hw | hw
  · rw [hw]
    exact move_word_down_from_lock metrics text index v index A B (le_refl _) h
  · rw [hw]
    exact move_word_down_from_lock metrics text index v index A B (le_refl _) h

/-- The statement that ends an iteration of `rewrap`, in two runs whose streams
agree up to the entry of the iteration. -/
theorem close_lock (A0 B0 : List inlinePictType) (i : Nat) (A B : Layout)
    (h : Lock A0 B0 (i + 1) A B) :
    ExRel (Lock A0 B0 (i + 1)) (Layout.close i A) (Layout.close i B) := by
  obtain ⟨cA, pA, hA, vA, wA⟩ := A
  obtain ⟨cB, pB, hB, vB, wB⟩ := B
  obtain ⟨h1, h2, h3, h4, h5⟩ := h
  dsimp only at h1 h2 h3 h4 h5
  subst h1 h2 h3
  unfold Layout.close
  dsimp only
  rw [h4.2 i (by omega)]
  cases cB[i]? with
  | none => exact rfl
  | some c => exact ⟨rfl, rfl, rfl, h4.set_same i _, h5⟩


theorem SameShape.refl_shape (a : inlinePictType) : SameShape a a :=
  ⟨rfl, rfl, rfl, rfl, rfl⟩

theorem PictRel.set_same_pict {A0 B0 A B : List inlinePictType} (h : PictRel A0 B0 A B) (k : Nat)
    (x : inlinePictType) : PictRel A0 B0 (A.set k x) (B.set k x) := by
  obtain ⟨h1, h2, h3⟩ := h
  refine ⟨by rw [List.length_set, List.length_set, h1], ?_, ?_⟩
  · intro j
    rw [List.getElem?_set, List.getElem?_set, h1]
    by_cases hkj : k = j
    · rw [if_pos hkj, if_pos hkj]
      exact Or.inl rfl
    · rw [if_neg hkj, if_neg hkj]
      exact h2 j
  · intro j a b
    rw [List.getElem?_set, List.getElem?_set, h1]
    by_cases hkj : k = j
    · rw [if_pos hkj, if_pos hkj]
      split
      · intro ha hb
        cases ha
        cases hb
        exact SameShape.refl_shape _
      · intro ha
        cases ha
    · rw [if_neg hkj, if_neg hkj]
      exact h3 j a b

theorem Rect.height_offset (r : Rect) (x y : Int) : (r.offset x y).height = r.height := by
  simp only [Rect.offset, Rect.height]
  omega

/-- Moving two inline pictures of the same shape to the same line gives the same
inline picture. -/
theorem SameShape.offset_eq {a b : inlinePictType} (h : SameShape a b) (v : Int) :
    ({ a with bounds := a.bounds.offset 0 (v - a.bounds.top) } : inlinePictType)
      = { b with bounds := b.bounds.offset 0 (v - b.bounds.top) } := by
  obtain ⟨oa, na, ⟨la, ta, ra, ba⟩⟩ := a
  obtain ⟨ob, nb, ⟨lb, tb, rb, bb⟩⟩ := b
  obtain ⟨h1, h2, h3, h4, h5⟩ := h
  simp only [Rect.height] at h1 h2 h3 h4 h5
  subst h1 h2 h3 h4
  simp only [Rect.offset, inlinePictType.mk.injEq, Rect.mk.injEq, true_and]
  omega

/-- One iteration of the loop of `rewrap` reads, of the bounds in the stream, only
those it has written before, and of an inline picture only its shape: two runs in
states that agree on these do the same. -/
theorem rewrap_char_lock (metrics : WrapMetrics) (text : List Char)
    (A0 B0 : List inlinePictType) (i : Nat) (A B : Layout) (h : Lock A0 B0 i A B) :
    ExRel (Lock A0 B0 (i + 1)) (rewrap_char metrics text i A)
      (rewrap_char metrics text i B) := by
  obtain ⟨cA, pA, hh, vv, ww⟩ := A
  obtain ⟨cB, pB, hB, vB, wB⟩ := B
  obtain ⟨h1, h2, h3, h4, h5⟩ := h
  dsimp only at h1 h2 h3 h4 h5
  subst h1 h2 h3
  have hget := h4.get i
  have hlen : cA.length = cB.length := by
    have := congrArg List.length h4.1
    simpa using this
  unfold rewrap_char
  dsimp only
  cases hA : cA[i]? with
  | none =>
    have hB' : cB[i]? = none := by
      rw [List.getElem?_eq_none_iff] at hA ⊢
      omega
    rw [hB']
    exact rfl
  | some a =>
    have hilt : i < cA.length := by
      by_contra hge
      rw [List.getElem?_eq_none (by omega)] at hA
      cases hA
    have hBb : cB[i]? = some (cB[i]) := List.getElem?_eq_getElem (by omega)
    generalize cB[i] = b at hBb
    rw [hBb]
    dsimp only
    have hun : a.unplaced = b.unplaced := by
      rw [hA, hBb] at hget
      simpa using hget
    obtain ⟨it, sp, pi, f, bk, rA⟩ := a
    obtain ⟨it', sp', pi', f', bk', rB⟩ := b
    simp only [StyledChar.unplaced, StyledChar.mk.injEq] at hun
    obtain ⟨e1, e2, e3, e4, e5, _⟩ := hun
    subst e1 e2 e3 e4 e5
    have hag1 := (h4.set_next _ _ hA hBb
      ⟨hh, vv, hh, vv + (metrics.font.height + metrics.line_spacing)⟩).2
    have hB1i : (cB.set i ⟨it, sp, pi, f, bk,
        ⟨hh, vv, hh, vv + (metrics.font.height + metrics.line_spacing)⟩⟩)[i]?
        = some ⟨it, sp, pi, f, bk,
            ⟨hh, vv, hh, vv + (metrics.font.height + metrics.line_spacing)⟩⟩ := by
      rw [List.getElem?_set, if_pos rfl, if_pos (by omega)]
    dsimp only at hag1
    generalize cA.set i ⟨it, sp, pi, f, bk,
      ⟨hh, vv, hh, vv + (metrics.font.height + metrics.line_spacing)⟩⟩ = A1 at hag1 ⊢
    generalize cB.set i ⟨it, sp, pi, f, bk,
      ⟨hh, vv, hh, vv + (metrics.font.height + metrics.line_spacing)⟩⟩ = B1 at hag1 hB1i ⊢
    have hword : sp = SpecialChar.NONE ∨ sp = SpecialChar.NO_BREAK →
        ∀ r : Char, ExRel (Lock A0 B0 (i + 1))
          (if hh + metrics.font.char_width r ≥ metrics.width - metrics.side_margin then
            match move_word_down metrics text A1 i
                (vv + (metrics.font.height + metrics.line_spacing)) with
            | Except.error e => Except.error e
            | Except.ok (chars, h) =>
              Layout.close i { chars := chars, inline_picts := pA, h := h,
                               v := vv + (metrics.font.height + metrics.line_spacing),
                               auto_width := max ww h }
          else
            Layout.close i { chars := A1, inline_picts := pA,
                             h := hh + metrics.font.char_width r, v := vv,
                             auto_width := max ww (hh + metrics.font.char_width r) })
          (if hh + metrics.font.char_width r ≥ metrics.width - metrics.side_margin then
            match move_word_down metrics text B1 i
                (vv + (metrics.font.height + metrics.line_spacing)) with
            | Except.error e => Except.error e
            | Except.ok (chars, h) =>
              Layout.close i { chars := chars, inline_picts := pB, h := h,
                               v := vv + (metrics.font.height + metrics.line_spacing),
                               auto_width := max ww h }
          else
            Layout.close i { chars := B1, inline_picts := pB,
                             h := hh + metrics.font.char_width r, v := vv,
                             auto_width := max ww (hh + metrics.font.char_width r) }) := by
      intro hw r
      split
      · have hm := move_word_down_lock metrics text i
          (vv + (metrics.font.height + metrics.line_spacing)) A1 B1 _ hB1i hw hag1
        cases hmA : move_word_down metrics text A1 i
            (vv + (metrics.font.height + metrics.line_spacing)) with
        | error e =>
          cases hmB : move_word_down metrics text B1 i
              (vv + (metrics.font.height + metrics.line_spacing)) with
          | error e' =>
            rw [hmA, hmB] at hm
            exact hm
          | ok rB =>
            rw [hmA, hmB] at hm
            exact absurd hm id
        | ok rA =>
          cases hmB : move_word_down metrics text B1 i
              (vv + (metrics.font.height + metrics.line_spacing)) with
          | error e' =>
            rw [hmA, hmB] at hm
            exact absurd hm id
          | ok rB =>
            rw [hmA, hmB] at hm
            obtain ⟨cA', hA'⟩ := rA
            obtain ⟨cB', hB'⟩ := rB
            obtain ⟨hm1, hm2⟩ := hm
            dsimp only at hm1 hm2
            subst hm1
            dsimp only
            exact close_lock A0 B0 i _ _ ⟨rfl, rfl, rfl, hm2, h5⟩
      · exact close_lock A0 B0 i _ _ ⟨rfl, rfl, rfl, hag1, h5⟩
    cases sp with
    | NONE =>
      dsimp only
      cases text[it]? with
      | none => exact rfl
      | some r => exact hword (Or.inl rfl) r
    | NO_BREAK =>
      dsimp only
      cases text[it]? with
      | none => exact rfl
      | some r => exact hword (Or.inr rfl) r
    | TAB =>
      dsimp only
      split
      · exact rfl
      · exact close_lock A0 B0 i _ _ ⟨rfl, rfl, rfl, hag1, h5⟩
    | LINE_BREAK =>
      exact close_lock A0 B0 i _ _ ⟨rfl, rfl, rfl, hag1, h5⟩
    | WORD_BREAK =>
      dsimp only
      cases text[it]? with
      | none => exact rfl
      | some r => exact close_lock A0 B0 i _ _ ⟨rfl, rfl, rfl, hag1, h5⟩
    | DELAY =>
      exact close_lock A0 B0 i _ _ ⟨rfl, rfl, rfl, hag1, h5⟩
    | PICTURE =>
      dsimp only
      have hplen := h5.1
      cases hpa : pA[pi]? with
      | none =>
        have hpb : pB[pi]? = none := by
          rw [List.getElem?_eq_none_iff] at hpa ⊢
          omega
        rw [hpb]
        exact rfl
      | some pa =>
        have hpilt : pi < pA.length := by
          by_contra hge
          rw [List.getElem?_eq_none (by omega)] at hpa
          cases hpa
        have hpb : pB[pi]? = some (pB[pi]) := List.getElem?_eq_getElem (by omega)
        generalize pB[pi] = pb at hpb
        rw [hpb]
        dsimp only
        have hshape := h5.2.2 pi pa pb hpa hpb
        simp only [Rect.height_offset]
        rw [hshape.offset_eq, hshape.2.2.2.2]
        have hnext := hag1.get (i + 1)
        cases hna : A1[i + 1]? with
        | none =>
          have hnb : B1[i + 1]? = none := by
            rw [hna] at hnext
            cases hb1 : B1[i + 1]? with
            | none => rfl
            | some x => rw [hb1] at hnext; cases hnext
          rw [hnb]
          exact rfl
        | some na =>
          cases hnb : B1[i + 1]? with
          | none =>
            rw [hna, hnb] at hnext
            cases hnext
          | some nb =>
            rw [hna, hnb] at hnext
            have hsp : na.special = nb.special := by
              have h6 : na.unplaced = nb.unplaced := by simpa using hnext
              have h7 := congrArg StyledChar.special h6
              exact h7
            dsimp only
            rw [hsp]
            exact close_lock A0 B0 i _ _ ⟨rfl, rfl, rfl, hag1, h5.set_same_pict pi _⟩


/-! ### Styled text: the layout moves inline pictures up and down only -/

theorem WhenOk.of_eq {σ ε : Type} {Q : σ → Prop} {x : Except ε σ} {a : σ}
    (h : WhenOk Q x) (hx : x = Except.ok a) : Q a := by
  subst hx
  exact h

/-- An invariant with an index, kept by every iteration that returns, holds after
a loop over a range that returns. -/
theorem forEach_range_when {σ ε : Type} (I : Nat → σ → Prop) (body : Nat → σ → Except ε σ) :
    ∀ (n a : Nat) (s : σ), I a s →
      (∀ i, a ≤ i → i < a + n → ∀ s, I i s → WhenOk (I (i + 1)) (body i s)) →
      WhenOk (I (a + n)) (forEach (List.range' a n) s body) := by
  intro n
  induction n with
  | zero =>
    intro a s hs _
    exact hs
  | succ n ih =>
    intro a s hs hbody
    have hx := hbody a (le_refl _) (by omega) s hs
    rw [List.range'_succ]
    simp only [forEach]
    cases ha : body a s with
    | ok a' =>
      rw [ha] at hx
      have := ih (a + 1) a' hx (fun i h1 h2 => hbody i (by omega) (by omega))
      rw [Nat.add_assoc, Nat.add_comm 1 n] at this
      exact this
    | error e => exact trivial

theorem close_picts (i : Nat) (X : Layout) (Q : List inlinePictType → Prop)
    (h : Q X.inline_picts) :
    WhenOk (fun s' : Layout => Q s'.inline_picts) (Layout.close i X) := by
  unfold Layout.close
  cases X.chars[i]? with
  | none => exact trivial
  | some c => exact h

/-- One iteration of the loop of `rewrap` leaves the inline pictures alone or moves
one of them up or down. -/
theorem rewrap_char_picts (metrics : WrapMetrics) (text : List Char) (i : Nat) (s : Layout) :
    WhenOk (fun s' : Layout => s'.inline_picts = s.inline_picts
        ∨ ∃ (k : Nat) (pict : inlinePictType) (v : Int), s.inline_picts[k]? = some pict
            ∧ s'.inline_picts = s.inline_picts.set k
                { pict with bounds := pict.bounds.offset 0 (v - pict.bounds.top) })
      (rewrap_char metrics text i s) := by
  have hQ : ∀ X : Layout,
      (X.inline_picts = s.inline_picts
        ∨ ∃ (k : Nat) (pict : inlinePictType) (v : Int), s.inline_picts[k]? = some pict
            ∧ X.inline_picts = s.inline_picts.set k
                { pict with bounds := pict.bounds.offset 0 (v - pict.bounds.top) }) →
      WhenOk (fun s' : Layout => s'.inline_picts = s.inline_picts
        ∨ ∃ (k : Nat) (pict : inlinePictType) (v : Int), s.inline_picts[k]? = some pict
            ∧ s'.inline_picts = s.inline_picts.set k
                { pict with bounds := pict.bounds.offset 0 (v - pict.bounds.top) })
        (Layout.close i X) :=
    fun X h => close_picts i X
      (fun p => p = s.inline_picts
        ∨ ∃ (k : Nat) (pict : inlinePictType) (v : Int), s.inline_picts[k]? = some pict
            ∧ p = s.inline_picts.set k
                { pict with bounds := pict.bounds.offset 0 (v - pict.bounds.top) }) h
  unfold rewrap_char
  dsimp only
  cases s.chars[i]? with
  | none => exact trivial
  | some c =>
    dsimp only
    cases c.special with
    | NONE =>
      dsimp only
      cases text[c.it]? with
      | none => exact trivial
      | some r =>
        dsimp only
        split
        · cases move_word_down metrics text _ i _ with
          | error e => exact trivial
          | ok r' =>
            obtain ⟨chars, h⟩ := r'
            exact hQ _ (Or.inl rfl)
        · exact hQ _ (Or.inl rfl)
    | NO_BREAK =>
      dsimp only
      cases text[c.it]? with
      | none => exact trivial
      | some r =>
        dsimp only
        split
        · cases move_word_down metrics text _ i _ with
          | error e => exact trivial
          | ok r' =>
            obtain ⟨chars, h⟩ := r'
            exact hQ _ (Or.inl rfl)
        · exact hQ _ (Or.inl rfl)
    | TAB =>
      dsimp only
      split
      · exact trivial
      · exact hQ _ (Or.inl rfl)
    | LINE_BREAK => exact hQ _ (Or.inl rfl)
    | WORD_BREAK =>
      dsimp only
      cases text[c.it]? with
      | none => exact trivial
      | some r => exact hQ _ (Or.inl rfl)
    | DELAY => exact hQ _ (Or.inl rfl)
    | PICTURE =>
      dsimp only
      cases hp : s.inline_picts[c.pict_index]? with
      | none => exact trivial
      | some pict =>
        dsimp only
        cases (s.chars.set i _)[i + 1]? with
        | none => exact trivial
        | some next =>
          exact hQ _ (Or.inr ⟨c.pict_index, pict, _, hp, rfl⟩)


theorem SameShape.trans_shape {a b c : inlinePictType} (h1 : SameShape a b)
    (h2 : SameShape b c) : SameShape a c :=
  ⟨h1.1.trans h2.1, h1.2.1.trans h2.2.1, h1.2.2.1.trans h2.2.2.1,
    h1.2.2.2.1.trans h2.2.2.2.1, h1.2.2.2.2.trans h2.2.2.2.2⟩

theorem SameShape.offset (a : inlinePictType) (y : Int) :
    SameShape a { a with bounds := a.bounds.offset 0 y } := by
  refine ⟨rfl, rfl, ?_, ?_, ?_⟩
  · simp [Rect.offset]
  · simp [Rect.offset]
  · exact (Rect.height_offset _ _ _).symm

/-- Method `rewrap` keeps the number and the shape of the inline pictures. -/
theorem rewrap_shapes (t t1 : StyledText) (h : t.rewrap = Except.ok t1) :
    t1.inline_picts.length = t.inline_picts.length
      ∧ ∀ (k : Nat) (a b : inlinePictType), t.inline_picts[k]? = some a →
          t1.inline_picts[k]? = some b → SameShape a b := by
  unfold StyledText.rewrap at h
  dsimp only at h
  generalize (if t.wrap_metrics.tab_width ≤ 0
    then { t.wrap_metrics with tab_width := Int.tdiv t.wrap_metrics.width 2 }
    else t.wrap_metrics) = metrics at h
  have hinv := forEach_range_when
    (fun (_ : Nat) (s : Layout) => s.inline_picts.length = t.inline_picts.length
      ∧ ∀ (k : Nat) (a b : inlinePictType), t.inline_picts[k]? = some a →
          s.inline_picts[k]? = some b → SameShape a b)
    (rewrap_char metrics t.text) t.chars.length 0
    { chars := t.chars, inline_picts := t.inline_picts, h := metrics.side_margin, v := 0,
      auto_width := 0 }
    ⟨rfl, fun k a b ha hb => by
      rw [ha] at hb
      cases hb
      exact SameShape.refl_shape a⟩
    (by
      intro i _ _ s hs
      have hp := rewrap_char_picts metrics t.text i s
      cases hr : rewrap_char metrics t.text i s with
      | error e => exact trivial
      | ok s' =>
        rw [hr] at hp
        rcases hp with hp | ⟨k, pict, v, hk, hp⟩
        · have hp' : s'.inline_picts = s.inline_picts := hp
          show s'.inline_picts.length = t.inline_picts.length ∧ _
          rw [hp']
          exact hs
        · have hp' : s'.inline_picts = s.inline_picts.set k
              { pict with bounds := pict.bounds.offset 0 (v - pict.bounds.top) } := hp
          show s'.inline_picts.length = t.inline_picts.length ∧ _
          rw [hp']
          refine ⟨by rw [List.length_set]; exact hs.1, ?_⟩
          intro j a b ha hb
          rw [List.getElem?_set] at hb
          split at hb
          · rename_i hkj
            subst hkj
            split at hb
            · cases hb
              exact (hs.2 k a pict ha hk).trans_shape (SameShape.offset pict _)
            · cases hb
          · exact hs.2 j a b ha hb)
  rw [← List.range_eq_range', Nat.zero_add] at hinv
  cases hl : forEach (List.range t.chars.length)
      { chars := t.chars, inline_picts := t.inline_picts, h := metrics.side_margin, v := 0,
        auto_width := 0 } (rewrap_char metrics t.text) with
  | error e =>
    rw [hl] at h
    cases h
  | ok s =>
    rw [hl] at h hinv
    cases h
    exact hinv

/-- Laying a text out again changes nothing: `rewrap` on the text that `rewrap`
returned for a well-formed stream returns the same text. -/
theorem rewrap_twice (t t1 : StyledText)
    (hwf : WellFormed t.text.length t.inline_picts.length (t.chars.map StyledChar.unplaced))
    (h : t.rewrap = Except.ok t1) : t1.rewrap = Except.ok t1 := by
  have hok := rewrap_ok t hwf
  rw [h] at hok
  obtain ⟨hmap, hplen, _, _⟩ := hok
  obtain ⟨_, hshape⟩ := rewrap_shapes t t1 h
  have hlen : t1.chars.length = t.chars.length := by
    have := congrArg List.length hmap
    simpa using this
  unfold StyledText.rewrap at h
  dsimp only at h
  generalize hm : (if t.wrap_metrics.tab_width ≤ 0
    then { t.wrap_metrics with tab_width := Int.tdiv t.wrap_metrics.width 2 }
    else t.wrap_metrics) = metrics at h
  have hm1 : (if metrics.tab_width ≤ 0
      then { metrics with tab_width := Int.tdiv metrics.width 2 }
      else metrics) = metrics := by
    split
    · rename_i hle
      rw [← hm] at hle ⊢
      split
      · rfl
      · rename_i hgt
        rw [if_neg hgt] at hle
        exact absurd hle hgt
    · rfl
  cases hl : forEach (List.range t.chars.length)
      { chars := t.chars, inline_picts := t.inline_picts, h := metrics.side_margin, v := 0,
        auto_width := 0 } (rewrap_char metrics t.text) with
  | error e =>
    rw [hl] at h
    cases h
  | ok sA =>
    rw [hl] at h
    dsimp only at h
    have ht1 := Except.ok.inj h
    subst ht1
    dsimp only at hmap hplen hshape hlen
    have hlock := forEach_range_lock (Lock t.inline_picts sA.inline_picts)
      (rewrap_char metrics t.text) t.chars.length 0
      { chars := t.chars, inline_picts := t.inline_picts, h := metrics.side_margin, v := 0,
        auto_width := 0 }
      { chars := sA.chars, inline_picts := sA.inline_picts, h := metrics.side_margin,
        v := 0, auto_width := 0 }
      ⟨rfl, rfl, rfl, ⟨hmap.symm, fun j hj => absurd hj (Nat.not_lt_zero j)⟩,
        hplen.symm, fun k => Or.inr ⟨rfl, rfl⟩, hshape⟩
      (fun i _ _ s s' hs => rewrap_char_lock metrics t.text _ _ i s s' hs)
    rw [← List.range_eq_range', Nat.zero_add] at hlock
    obtain ⟨sB, hB, hLn⟩ := hlock.of_ok hl
    obtain ⟨hh, hv, haw, hag, hpl, hpk, _⟩ := hLn
    have hchars : sB.chars = sA.chars := by
      have hlenB : sA.chars.length = sB.chars.length := by
        have := congrArg List.length hag.1
        simpa using this
      apply List.ext_getElem?
      intro j
      by_cases hj : j < t.chars.length
      · exact (hag.2 j hj).symm
      · rw [List.getElem?_eq_none (by omega), List.getElem?_eq_none (by omega)]
    have hpicts : sB.inline_picts = sA.inline_picts := by
      apply List.ext_getElem?
      intro k
      rcases hpk k with hk | ⟨_, hk⟩
      · exact hk.symm
      · exact hk
    unfold StyledText.rewrap
    dsimp only
    rw [hm1, hlen, hB]
    dsimp only
    rw [hchars, hpicts, ← haw, ← hv]


theorem of_except_ok {α : Type} (r : Except Fault α) (a : α)
    (h : Outcome.of_except r = Outcome.ok a) : r = Except.ok a := by
  cases r with
  | error e => cases h
  | ok b =>
    cases h
    rfl

/-- What a factory returns is what `rewrap` returned for a well-formed stream. -/
theorem factory_rewrap (env : TextEnv) (text : List Char) (metrics : WrapMetrics)
    (fore_color back_color : RgbColor) (t : StyledText)
    (h : StyledText.plain text metrics fore_color back_color = Outcome.ok t
      ∨ StyledText.retro env text metrics fore_color back_color = Outcome.ok t
      ∨ StyledText.interface env text metrics fore_color back_color = Outcome.ok t) :
    ∃ t0 : StyledText,
      WellFormed t0.text.length t0.inline_picts.length (t0.chars.map StyledChar.unplaced)
        ∧ t0.wrap_metrics = metrics ∧ t0.text = text ∧ t0.rewrap = Except.ok t := by
  rcases h with h | h | h
  · obtain ⟨hinv, _⟩ := plain_loop_inv fore_color back_color text
    unfold StyledText.plain at h
    exact ⟨_, wellFormed_push text.length 0 _ fore_color back_color hinv, rfl, rfl,
      of_except_ok _ _ h⟩
  · unfold StyledText.retro at h
    cases hl : retro_loop env fore_color back_color 0 text
        { chars := [], fore_color := fore_color, back_color := back_color,
          r1 := Char.ofNat 0, state := RetroState.START } with
    | error what =>
      rw [hl] at h
      cases h
    | ok s =>
      rw [hl] at h
      dsimp only at h
      split_ifs at h
      have hinv := retro_loop_inv env fore_color back_color text 0 _ s hl (streamInv_nil 0)
      rw [Nat.zero_add] at hinv
      exact ⟨_, wellFormed_push text.length 0 _ s.fore_color s.back_color hinv, rfl, rfl,
        of_except_ok _ _ h⟩
  · unfold StyledText.interface at h
    cases hl : interface_loop env fore_color back_color 0 text
        { chars := [], inline_picts := [], textures := [], id := [],
          state := InterfaceState.START } with
    | error what =>
      rw [hl] at h
      cases h
    | ok s =>
      rw [hl] at h
      dsimp only at h
      have hinv := interface_loop_inv env fore_color back_color text 0 _ s hl
        ⟨streamInv_nil 0, rfl, fun _ hc => absurd hc (List.not_mem_nil _)⟩
      rw [Nat.zero_add] at hinv
      exact ⟨_, wellFormed_push text.length s.inline_picts.length _ fore_color back_color
        hinv.1, rfl, rfl, of_except_ok _ _ h⟩

theorem rewrap_tab_width (t t1 : StyledText) (h : t.rewrap = Except.ok t1) :
    t1.wrap_metrics.tab_width = resolved_tab_width t.wrap_metrics := by
  unfold StyledText.rewrap at h
  dsimp only at h
  cases hl : forEach (List.range t.chars.length) _ (rewrap_char _ t.text) with
  | error e =>
    rw [hl] at h
    cases h
  | ok s =>
    rw [hl] at h
    cases h
    unfold resolved_tab_width
    dsimp only
    split <;> rfl

/-! ### C16 -/

/-- C16: `rewrap` is idempotent on what the factories return: for every text `t`
that `plain`, `retro` or `interface` returns, calling `rewrap` again, the metrics
unchanged, returns (it does not fail) and returns `t` itself, so the bounds of
every entry of the stream, the bounds of every inline picture, the tab width,
which is the given one or, when that is not positive, half the width, and the
computed width and height are what they were after the first call. -/
theorem rewrap_idempotent (env : TextEnv) (text : List Char) (metrics : WrapMetrics)
    (fore_color back_color : RgbColor) (t : StyledText)
    (h : StyledText.plain text metrics fore_color back_color = Outcome.ok t
      ∨ StyledText.retro env text metrics fore_color back_color = Outcome.ok t
      ∨ StyledText.interface env text metrics fore_color back_color = Outcome.ok t) :
    t.rewrap = Except.ok t
      ∧ (∀ t', t.rewrap = Except.ok t' →
          t'.chars.map StyledChar.bounds = t.chars.map StyledChar.bounds
            ∧ t'.inline_picts.map inlinePictType.bounds
                = t.inline_picts.map inlinePictType.bounds
            ∧ t'.wrap_metrics.tab_width = t.wrap_metrics.tab_width
            ∧ t'.auto_size = t.auto_size)
      ∧ t.wrap_metrics.tab_width = resolved_tab_width metrics := by
  obtain ⟨t0, hwf, hm, _, ht0⟩ := factory_rewrap env text metrics fore_color back_color t h
  have h2 := rewrap_twice t0 t hwf ht0
  refine ⟨h2, ?_, ?_⟩
  · intro t' ht'
    rw [h2] at ht'
    cases ht'
    exact ⟨rfl, rfl, rfl, rfl⟩
  · rw [← hm]
    exact rewrap_tab_width t0 t ht0

theorem rewrap_idempotent_witness :
    StyledText.interface example_text_env ['a', 'b', ' ', '^', 'P', 'x', '^', 'c']
        example_metrics example_fore example_back
      = Outcome.ok (text_of (StyledText.interface example_text_env
          ['a', 'b', ' ', '^', 'P', 'x', '^', 'c'] example_metrics example_fore example_back))
      ∧ (text_of (StyledText.interface example_text_env
          ['a', 'b', ' ', '^', 'P', 'x', '^', 'c'] example_metrics example_fore
          example_back)).rewrap
        = Except.ok (text_of (StyledText.interface example_text_env
          ['a', 'b', ' ', '^', 'P', 'x', '^', 'c'] example_metrics example_fore example_back)) :=
  ⟨rfl, (rewrap_idempotent example_text_env ['a', 'b', ' ', '^', 'P', 'x', '^', 'c']
    example_metrics example_fore example_back _ (Or.inr (Or.inr rfl))).1⟩

/-! ### Styled text: what one iteration of the layout returns -/

theorem close_set (i : Nat) (l : List StyledChar) (x : StyledChar)
    (picts : List inlinePictType) (h v aw : Int) (hi : i < l.length) :
    Layout.close i { chars := l.set i x, inline_picts := picts, h := h, v := v,
                     auto_width := aw }
      = Except.ok { chars := l.set i { x with bounds := { x.bounds with right := h } },
                    inline_picts := picts, h := h, v := v, auto_width := aw } := by
  unfold Layout.close
  dsimp only
  rw [List.getElem?_set, if_pos rfl, if_pos hi]
  dsimp only
  rw [List.set_set]

theorem getElem?_lt {α : Type} {l : List α} {i : Nat} {c : α} (h : l[i]? = some c) :
    i < l.length := by
  by_contra hge
  rw [List.getElem?_eq_none (by omega)] at h
  cases h

/-- An iteration of `rewrap` at a LINE_BREAK. -/
theorem rewrap_char_line_break (metrics : WrapMetrics) (text : List Char) (i : Nat)
    (s : Layout) (c : StyledChar) (hc : s.chars[i]? = some c)
    (hsp : c.special = SpecialChar.LINE_BREAK) :
    rewrap_char metrics text i s
      = Except.ok
          { chars := s.chars.set i { c with bounds :=
              ⟨s.h, s.v, metrics.side_margin,
                s.v + (metrics.font.height + metrics.line_spacing)⟩ },
            inline_picts := s.inline_picts, h := metrics.side_margin,
            v := s.v + (metrics.font.height + metrics.line_spacing),
            auto_width := s.auto_width } := by
  unfold rewrap_char
  rw [hc]
  dsimp only
  rw [hsp]
  dsimp only
  rw [close_set i _ _ _ _ _ _ (getElem?_lt hc)]

/-- An iteration of `rewrap` at a WORD_BREAK. -/
theorem rewrap_char_word_break (metrics : WrapMetrics) (text : List Char) (i : Nat)
    (s : Layout) (c : StyledChar) (r : Char) (hc : s.chars[i]? = some c)
    (hsp : c.special = SpecialChar.WORD_BREAK) (hr : text[c.it]? = some r) :
    rewrap_char metrics text i s
      = Except.ok
          { chars := s.chars.set i { c with bounds :=
              ⟨s.h, s.v, s.h + metrics.font.char_width r,
                s.v + (metrics.font.height + metrics.line_spacing)⟩ },
            inline_picts := s.inline_picts, h := s.h + metrics.font.char_width r,
            v := s.v, auto_width := s.auto_width } := by
  unfold rewrap_char
  rw [hc]
  dsimp only
  rw [hsp]
  dsimp only
  rw [hr]
  dsimp only
  rw [close_set i _ _ _ _ _ _ (getElem?_lt hc)]

/-- An iteration of `rewrap` at an entry of a word that ends before the wrap
distance. -/
theorem rewrap_char_fit (metrics : WrapMetrics) (text : List Char) (i : Nat)
    (s : Layout) (c : StyledChar) (r : Char) (hc : s.chars[i]? = some c)
    (hsp : c.in_word = true) (hr : text[c.it]? = some r)
    (hfit : s.h + metrics.font.char_width r < metrics.width - metrics.side_margin) :
    rewrap_char metrics text i s
      = Except.ok
          { chars := s.chars.set i { c with bounds :=
              ⟨s.h, s.v, s.h + metrics.font.char_width r,
                s.v + (metrics.font.height + metrics.line_spacing)⟩ },
            inline_picts := s.inline_picts, h := s.h + metrics.font.char_width r,
            v := s.v, auto_width := max s.auto_width (s.h + metrics.font.char_width r) } := by
  have hnot : ¬ (s.h + metrics.font.char_width r ≥ metrics.width - metrics.side_margin) :=
    not_le.mpr hfit
  unfold StyledChar.in_word at hsp
  rw [Bool.or_eq_true, decide_eq_true_eq, decide_eq_true_eq] at hsp
  unfold rewrap_char
  rw [hc]
  dsimp only
  rcases hsp with hsp | hsp
  · rw [hsp]
    dsimp only
    rw [hr]
    dsimp only
    rw [if_neg hnot, close_set i _ _ _ _ _ _ (getElem?_lt hc)]
  · rw [hsp]
    dsimp only
    rw [hr]
    dsimp only
    rw [if_neg hnot, close_set i _ _ _ _ _ _ (getElem?_lt hc)]

/-- An iteration of `rewrap` at an entry of a word that reaches the wrap distance,
when `move_word_down` returns. -/
theorem rewrap_char_wrap (metrics : WrapMetrics) (text : List Char) (i : Nat)
    (s : Layout) (c c' : StyledChar) (r : Char) (chars' : List StyledChar) (h' : Int)
    (hc : s.chars[i]? = some c)
    (hsp : c.in_word = true) (hr : text[c.it]? = some r)
    (hwrap : s.h + metrics.font.char_width r ≥ metrics.width - metrics.side_margin)
    (hm : move_word_down metrics text
        (s.chars.set i { c with bounds :=
          ⟨s.h, s.v, s.h, s.v + (metrics.font.height + metrics.line_spacing)⟩ }) i
        (s.v + (metrics.font.height + metrics.line_spacing)) = Except.ok (chars', h'))
    (hc' : chars'[i]? = some c') :
    rewrap_char metrics text i s
      = Except.ok
          { chars := chars'.set i { c' with bounds := { c'.bounds with right := h' } },
            inline_picts := s.inline_picts, h := h',
            v := s.v + (metrics.font.height + metrics.line_spacing),
            auto_width := max s.auto_width h' } := by
  unfold StyledChar.in_word at hsp
  rw [Bool.or_eq_true, decide_eq_true_eq, decide_eq_true_eq] at hsp
  unfold rewrap_char
  rw [hc]
  dsimp only
  rcases hsp with hsp | hsp
  · rw [hsp] at hm ⊢
    dsimp only
    rw [hr]
    dsimp only
    rw [if_pos hwrap, hm]
    dsimp only
    unfold Layout.close
    rw [hc']
  · rw [hsp] at hm ⊢
    dsimp only
    rw [hr]
    dsimp only
    rw [if_pos hwrap, hm]
    dsimp only
    unfold Layout.close
    rw [hc']

/-- The scan of `move_word_down` passes over the entries of a word. -/
theorem move_word_down_from_scan (metrics : WrapMetrics) (text : List Char) (index : Nat)
    (v : Int) (chars : List StyledChar) (a : Nat) :
    ∀ n : Nat, a ≤ n → (∀ j, a ≤ j → j < n → in_word_at chars j = true) →
      move_word_down_from metrics text index v n chars
        = move_word_down_from metrics text index v a chars := by
  intro n
  induction n with
  | zero =>
    intro ha _
    have : a = 0 := by omega
    subst this
    rfl
  | succ n ih =>
    intro ha hw
    by_cases han : a = n + 1
    · subst han
      rfl
    · have hn := hw n (by omega) (by omega)
      unfold in_word_at at hn
      cases hcn : chars[n]? with
      | none =>
        rw [hcn] at hn
        cases hn
      | some c =>
        rw [hcn] at hn
        dsimp only at hn
        unfold StyledChar.in_word at hn
        rw [Bool.or_eq_true, decide_eq_true_eq, decide_eq_true_eq] at hn
        rw [move_word_down_from, hcn]
        dsimp only
        rcases hn with hn | hn
        · rw [hn]
          exact ih (by omega) (fun j h1 h2 => hw j h1 (by omega))
        · rw [hn]
          exact ih (by omega) (fun j h1 h2 => hw j h1 (by omega))


/-! ### Styled text: a word that is broken where a line is full -/

theorem in_word_unplaced (a b : StyledChar) (h : a.unplaced = b.unplaced) :
    a.in_word = b.in_word := by
  have h1 : a.special = b.special := by
    have h2 := congrArg StyledChar.special h
    exact h2
  unfold StyledChar.in_word
  rw [h1]

theorem unplaced_of_map {A B : List StyledChar}
    (h : A.map StyledChar.unplaced = B.map StyledChar.unplaced) (j : Nat) (a b : StyledChar)
    (ha : A[j]? = some a) (hb : B[j]? = some b) : a.unplaced = b.unplaced := by
  have h1 : (A.map StyledChar.unplaced)[j]? = (B.map StyledChar.unplaced)[j]? := by rw [h]
  rw [List.getElem?_map, List.getElem?_map, ha, hb] at h1
  simpa using h1

theorem in_word_at_map {A B : List StyledChar}
    (h : A.map StyledChar.unplaced = B.map StyledChar.unplaced) (j : Nat) :
    in_word_at A j = in_word_at B j := by
  have h1 : (A.map StyledChar.unplaced)[j]? = (B.map StyledChar.unplaced)[j]? := by rw [h]
  rw [List.getElem?_map, List.getElem?_map] at h1
  unfold in_word_at
  cases ha : A[j]? with
  | none =>
    cases hb : B[j]? with
    | none => rfl
    | some b => rw [ha, hb] at h1; cases h1
  | some a =>
    cases hb : B[j]? with
    | none => rw [ha, hb] at h1; cases h1
    | some b =>
      exact in_word_unplaced a b (unplaced_of_map h j a b ha hb)

theorem glyph_width_eq (metrics : WrapMetrics) (text : List Char) (chars : List StyledChar)
    (j : Nat) (c : StyledChar) (r : Char) (hc : chars[j]? = some c) (hr : text[c.it]? = some r) :
    glyph_width metrics text chars j = metrics.font.char_width r := by
  unfold glyph_width
  rw [hc]
  dsimp only
  rw [hr]

/-- In a stream whose entries up to `index` are entries of words, `move_word_down`
moves nothing and returns the margin. -/
theorem move_word_down_one_word (metrics : WrapMetrics) (text : List Char)
    (chars : List StyledChar) (index : Nat) (v : Int)
    (h : ∀ j, j < index + 1 → in_word_at chars j = true) :
    move_word_down metrics text chars index v = Except.ok (chars, metrics.side_margin) := by
  unfold move_word_down
  rw [move_word_down_from_scan metrics text index v chars 0 (index + 1) (Nat.zero_le _)
    (fun j _ hj => h j hj)]
  rfl

/-- The state after an iteration that has laid the entry `i` out at the cursor. -/
theorem broken_next (metrics : WrapMetrics) (text : List Char) (stream : List StyledChar)
    (i : Nat) (s : Layout) (c : StyledChar) (right bottom h' v' aw : Int)
    (hs : Broken metrics text stream i s) (hc : s.chars[i]? = some c)
    (hcur : c.in_word = true →
      CursorAfter metrics (glyph_width metrics text stream i)
        { c with bounds := ⟨s.h, s.v, right, bottom⟩ } h' v') :
    Broken metrics text stream (i + 1)
      { chars := s.chars.set i { c with bounds := ⟨s.h, s.v, right, bottom⟩ },
        inline_picts := s.inline_picts, h := h', v := v', auto_width := aw } := by
  obtain ⟨k1, k2, k3, k4, k5⟩ := hs
  have hilt : i < s.chars.length := getElem?_lt hc
  have hnew : (s.chars.set i { c with bounds := ⟨s.h, s.v, right, bottom⟩ })[i]?
      = some { c with bounds := ⟨s.h, s.v, right, bottom⟩ } := by
    rw [List.getElem?_set, if_pos rfl, if_pos hilt]
  have hold : ∀ j, j ≠ i →
      (s.chars.set i { c with bounds := ⟨s.h, s.v, right, bottom⟩ })[j]? = s.chars[j]? := by
    intro j hj
    rw [List.getElem?_set, if_neg (Ne.symm hj)]
  refine ⟨?_, ?_, ?_, ?_, ?_⟩
  · dsimp only
    rw [map_set_same _ _ _ _ _ hc (unplaced_bounds _ _)]
    exact k1
  · intro h0
    omega
  · intro j x hj hx hw
    have hji : j = i := by omega
    subst hji
    dsimp only at hx ⊢
    rw [hnew] at hx
    cases hx
    exact hcur hw
  · intro j a b hj ha hb hwa hwb
    dsimp only at ha hb
    by_cases hji : j + 1 = i
    · subst hji
      rw [hold j (by omega)] at ha
      rw [hnew] at hb
      cases hb
      obtain ⟨c1, c2⟩ := k3 j a rfl ha hwa
      constructor
      · intro hlt
        obtain ⟨e1, e2, e3⟩ := c1 hlt
        exact ⟨e2, e1, e3⟩
      · intro hge
        obtain ⟨e1, e2, e3⟩ := c2 hge
        exact ⟨e2, e1, e3.trans e1⟩
    · rw [hold j (by omega)] at ha
      rw [hold (j + 1) (by omega)] at hb
      exact k4 j a b (by omega) ha hb hwa hwb
  · intro x _ hx
    dsimp only at hx
    by_cases hi0 : i = 0
    · subst hi0
      rw [hnew] at hx
      cases hx
      exact k2 rfl
    · rw [hold 0 (by omega)] at hx
      exact k5 x (by omega) hx


theorem in_word_at_some (chars : List StyledChar) (j : Nat) (c : StyledChar)
    (hc : chars[j]? = some c) : in_word_at chars j = c.in_word := by
  unfold in_word_at
  rw [hc]

theorem in_word_not_line_break (c : StyledChar) (h : c.in_word = true) :
    c.special ≠ SpecialChar.LINE_BREAK := by
  unfold StyledChar.in_word at h
  rw [Bool.or_eq_true, decide_eq_true_eq, decide_eq_true_eq] at h
  rcases h with h | h <;> rw [h] <;> decide

/-- One iteration of the loop of `rewrap` on a stream of one word: the entry is
laid out at the cursor, and the cursor goes right of its glyph, or to the margin
of the next line when the glyph reaches the wrap distance. -/
theorem broken_step (metrics : WrapMetrics) (text : List Char) (picts : Nat)
    (stream : List StyledChar)
    (hwf : WellFormed text.length picts (stream.map StyledChar.unplaced))
    (hone : ∀ j, j + 1 < stream.length → in_word_at stream j = true)
    (i : Nat) (hi : i < stream.length) (s : Layout)
    (hs : Broken metrics text stream i s) :
    WhenOk (Broken metrics text stream (i + 1)) (rewrap_char metrics text i s) := by
  have k1 := hs.1
  have hlen : s.chars.length = stream.length := by
    have := congrArg List.length k1
    simpa using this
  have hc : s.chars[i]? = some (s.chars[i]) := List.getElem?_eq_getElem (by omega)
  generalize s.chars[i] = c at hc
  have hc0 : stream[i]? = some (stream[i]) := List.getElem?_eq_getElem hi
  generalize stream[i] = c0 at hc0
  have hun : c.unplaced = c0.unplaced := unplaced_of_map k1 i c c0 hc hc0
  have hst : (stream.map StyledChar.unplaced)[i]? = some c0.unplaced := by
    rw [List.getElem?_map, hc0]
    rfl
  obtain ⟨_, hlast, hiter, _⟩ := hwf
  rw [List.length_map] at hlast hiter
  by_cases hw : c.in_word = true
  · have hnl : c0.unplaced.special ≠ SpecialChar.LINE_BREAK := by
      rw [← hun]
      exact in_word_not_line_break c hw
    have hnext : i + 1 < stream.length := hlast i _ hst hnl
    have hit : c.it < text.length := by
      have h1 := hiter i _ hst hnext
      have h2 : c.it = c0.it := by
        have h3 := congrArg StyledChar.it hun
        exact h3
      rw [h2]
      exact h1
    have hr : text[c.it]? = some (text[c.it]) := List.getElem?_eq_getElem hit
    generalize text[c.it] = r at hr
    have hgw : glyph_width metrics text stream i = metrics.font.char_width r := by
      have h2 : c0.it = c.it := by
        have h3 := congrArg StyledChar.it hun
        exact h3.symm
      exact glyph_width_eq metrics text stream i c0 r hc0 (by rw [h2]; exact hr)
    by_cases hfit : s.h + metrics.font.char_width r < metrics.width - metrics.side_margin
    · rw [rewrap_char_fit metrics text i s c r hc hw hr hfit]
      refine broken_next metrics text stream i s c _ _ _ _ _ hs hc ?_
      intro _
      rw [hgw]
      exact ⟨fun _ => ⟨rfl, rfl, rfl⟩, fun hge => absurd hfit (not_lt.mpr hge)⟩
    · have hwrap : s.h + metrics.font.char_width r ≥ metrics.width - metrics.side_margin :=
        not_lt.mp hfit
      have hmap1 : (s.chars.set i { c with bounds :=
            ⟨s.h, s.v, s.h, s.v + (metrics.font.height + metrics.line_spacing)⟩ }).map
            StyledChar.unplaced = stream.map StyledChar.unplaced := by
        rw [map_set_same _ _ _ _ _ hc (unplaced_bounds _ _)]
        exact k1
      have hm := move_word_down_one_word metrics text
        (s.chars.set i { c with bounds :=
          ⟨s.h, s.v, s.h, s.v + (metrics.font.height + metrics.line_spacing)⟩ }) i
        (s.v + (metrics.font.height + metrics.line_spacing))
        (by
          intro j hj
          rw [in_word_at_map hmap1 j]
          exact hone j (by omega))
      rw [rewrap_char_wrap metrics text i s c _ r _ _ hc hw hr hwrap hm
        (by rw [List.getElem?_set, if_pos rfl, if_pos (by omega)]), List.set_set]
      refine broken_next metrics text stream i s c _ _ _ _ _ hs hc ?_
      intro _
      rw [hgw]
      exact ⟨fun hlt => absurd hlt hfit, fun _ => ⟨rfl, rfl, rfl⟩⟩
  · have hsp : c.special = SpecialChar.LINE_BREAK := by
      by_contra hne
      have hne0 : c0.unplaced.special ≠ SpecialChar.LINE_BREAK := by
        rw [← hun]
        exact hne
      have hnext : i + 1 < stream.length := hlast i _ hst hne0
      have h1 := hone i hnext
      rw [in_word_at_some stream i c0 hc0, ← in_word_unplaced c c0 hun] at h1
      exact hw h1
    rw [rewrap_char_line_break metrics text i s c hc hsp]
    exact broken_next metrics text stream i s c _ _ _ _ _ hs hc (fun h => absurd h hw)


/-- The loop of `rewrap` on a stream of one word keeps `Broken`. -/
theorem broken_loop (metrics : WrapMetrics) (text : List Char) (picts : Nat)
    (stream : List StyledChar)
    (hwf : WellFormed text.length picts (stream.map StyledChar.unplaced))
    (hone : ∀ j, j + 1 < stream.length → in_word_at stream j = true)
    (start : Layout) (hchars : start.chars = stream) (hh : start.h = metrics.side_margin)
    (hv : start.v = 0) :
    WhenOk (Broken metrics text stream stream.length)
      (forEach (List.range stream.length) start (rewrap_char metrics text)) := by
  have h := forEach_range_when (Broken metrics text stream) (rewrap_char metrics text)
    stream.length 0 start
    ⟨by rw [hchars], fun _ => ⟨hh, hv⟩, fun j _ hj => absurd hj (Nat.succ_ne_zero j),
      fun j _ _ hj => absurd hj (Nat.not_lt_zero _), fun _ h0 => absurd h0 (lt_irrefl 0)⟩
    (fun i _ hi s hs => broken_step metrics text picts stream hwf hone i (by omega) s hs)
  rw [← List.range_eq_range', Nat.zero_add] at h
  exact h

/-- In a laid out stream of one word whose entries stand where `Broken` says, an
entry before the last of the word that reaches the wrap distance is followed by
an entry that stands lower, the line height not being 0. -/
theorem broken_splits (metrics : WrapMetrics) (text : List Char) (stream : List StyledChar)
    (s : Layout) (hB : Broken metrics text stream stream.length s)
    (hone : ∀ j, j + 1 < stream.length → in_word_at stream j = true)
    (hlh : metrics.font.height + metrics.line_spacing ≠ 0) (k : Nat)
    (hk : k + 2 < stream.length)
    (hreach : metrics.width - metrics.side_margin
      ≤ metrics.side_margin + span_width (glyph_width metrics text stream) 0 (k + 1)) :
    ∃ (j : Nat) (a b : StyledChar), j ≤ k ∧ s.chars[j]? = some a ∧ s.chars[j + 1]? = some b
      ∧ a.in_word = true ∧ b.in_word = true ∧ b.bounds.top ≠ a.bounds.top := by
  obtain ⟨k1, _, _, k4, k5⟩ := hB
  have hlen : s.chars.length = stream.length := by
    have := congrArg List.length k1
    simpa using this
  have hword : ∀ j c, j + 1 < stream.length → s.chars[j]? = some c → c.in_word = true := by
    intro j c hj hc
    have h1 := hone j hj
    rw [← in_word_at_map k1 j, in_word_at_some s.chars j c hc] at h1
    exact h1
  by_contra hno
  have hsame : ∀ j a b, j ≤ k → s.chars[j]? = some a → s.chars[j + 1]? = some b →
      b.bounds.top = a.bounds.top := by
    intro j a b hj ha hb
    by_contra hne
    exact hno ⟨j, a, b, hj, ha, hb, hword j a (by omega) ha, hword (j + 1) b (by omega) hb, hne⟩
  have hleft : ∀ j, j ≤ k → ∀ a, s.chars[j]? = some a →
      a.bounds.left = metrics.side_margin
        + span_width (glyph_width metrics text stream) 0 j := by
    intro j
    induction j with
    | zero =>
      intro _ a ha
      rw [(k5 a (by omega) ha).1]
      simp [span_width]
    | succ j ih =>
      intro hj b hb
      have hja : s.chars[j]? = some (s.chars[j]) := List.getElem?_eq_getElem (by omega)
      generalize s.chars[j] = a at hja
      have hbr := k4 j a b (by omega) hja hb (hword j a (by omega) hja)
        (hword (j + 1) b (by omega) hb)
      have htop := hsame j a b (by omega) hja hb
      have hla := ih (by omega) a hja
      by_cases hlt : a.bounds.left + glyph_width metrics text stream j
          < metrics.width - metrics.side_margin
      · rw [(hbr.1 hlt).2.1, hla]
        simp only [span_width, Nat.zero_add]
        omega
      · have h2 := (hbr.2 (not_lt.mp hlt)).1
        rw [htop] at h2
        omega
  have hka : s.chars[k]? = some (s.chars[k]) := List.getElem?_eq_getElem (by omega)
  generalize s.chars[k] = a at hka
  have hkb : s.chars[k + 1]? = some (s.chars[k + 1]) := List.getElem?_eq_getElem (by omega)
  generalize s.chars[k + 1] = b at hkb
  have hbr := k4 k a b (by omega) hka hkb (hword k a (by omega) hka)
    (hword (k + 1) b (by omega) hkb)
  have hla := hleft k (le_refl _) a hka
  have hge : metrics.width - metrics.side_margin
      ≤ a.bounds.left + glyph_width metrics text stream k := by
    rw [hla]
    simp only [span_width, Nat.zero_add] at hreach
    omega
  have h2 := (hbr.2 hge).1
  rw [hsame k a b (le_refl _) hka hkb] at h2
  omega


theorem resolved_metrics (metrics : WrapMetrics) :
    ∃ x : Int, (if metrics.tab_width ≤ 0
        then { metrics with tab_width := Int.tdiv metrics.width 2 }
        else metrics) = { metrics with tab_width := x } := by
  split
  · exact ⟨_, rfl⟩
  · exact ⟨metrics.tab_width, rfl⟩

/-- What `rewrap` returns is what its loop leaves. -/
theorem rewrap_of_loop (t t1 : StyledText) (h : t.rewrap = Except.ok t1) :
    ∃ (x : Int) (s : Layout),
      forEach (List.range t.chars.length)
          { chars := t.chars, inline_picts := t.inline_picts,
            h := t.wrap_metrics.side_margin, v := 0, auto_width := 0 }
          (rewrap_char { t.wrap_metrics with tab_width := x } t.text) = Except.ok s
        ∧ t1.chars = s.chars ∧ t1.inline_picts = s.inline_picts
        ∧ t1.auto_size = ⟨s.auto_width, s.v⟩ := by
  obtain ⟨x, hx⟩ := resolved_metrics t.wrap_metrics
  unfold StyledText.rewrap at h
  dsimp only at h
  rw [hx] at h
  dsimp only at h
  cases hl : forEach (List.range t.chars.length)
      { chars := t.chars, inline_picts := t.inline_picts,
        h := t.wrap_metrics.side_margin, v := 0, auto_width := 0 }
      (rewrap_char { t.wrap_metrics with tab_width := x } t.text) with
  | error e =>
    rw [hl] at h
    cases h
  | ok s =>
    rw [hl] at h
    cases h
    exact ⟨x, s, hl, rfl, rfl, rfl⟩

/-- A stream without TAB is laid out without failure. -/
theorem rewrap_returns (t : StyledText)
    (hwf : WellFormed t.text.length t.inline_picts.length (t.chars.map StyledChar.unplaced))
    (htab : ∀ c ∈ t.chars, c.special ≠ SpecialChar.TAB) :
    ∃ t1, t.rewrap = Except.ok t1
      ∧ t1.chars.map StyledChar.unplaced = t.chars.map StyledChar.unplaced := by
  have hok := rewrap_ok t hwf
  cases hr : t.rewrap with
  | ok t1 =>
    rw [hr] at hok
    exact ⟨t1, rfl, hok.1⟩
  | error e =>
    rw [hr] at hok
    obtain ⟨_, _, c, hc, hsp⟩ := hok
    exact absurd hsp (htab c hc)

theorem one_word_no_tab (text_length picts : Nat) (chars : List StyledChar)
    (hwf : WellFormed text_length picts (chars.map StyledChar.unplaced))
    (hone : ∀ j, j + 1 < chars.length → in_word_at chars j = true) :
    ∀ c ∈ chars, c.special ≠ SpecialChar.TAB := by
  intro c hc htab
  obtain ⟨j, hj⟩ := List.getElem?_of_mem hc
  obtain ⟨_, hlast, _, _⟩ := hwf
  rw [List.length_map] at hlast
  have hst : (chars.map StyledChar.unplaced)[j]? = some c.unplaced := by
    rw [List.getElem?_map, hj]
    rfl
  have hnext := hlast j _ hst (by
    show c.special ≠ SpecialChar.LINE_BREAK
    rw [htab]
    decide)
  have h1 := hone j hnext
  rw [in_word_at_some chars j c hj] at h1
  unfold StyledChar.in_word at h1
  rw [htab] at h1
  cases h1

/-! ### C18 -/

/-- C18, as stated, fails: the text of the one word `aaaaaaa`, seven glyphs of
width 6, is wider (42) than the wrap width (40); `plain` returns for it, and the
tops of the entries of the word are 0 for the first six and 11, one line lower, for
the seventh: the word is broken. -/
theorem long_word_is_split :
    StyledText.plain ['a', 'a', 'a', 'a', 'a', 'a', 'a'] example_metrics example_fore
        example_back
      = Outcome.ok (text_of (StyledText.plain ['a', 'a', 'a', 'a', 'a', 'a', 'a']
          example_metrics example_fore example_back))
      ∧ (text_of (StyledText.plain ['a', 'a', 'a', 'a', 'a', 'a', 'a'] example_metrics
          example_fore example_back)).chars.map StyledChar.special
        = [SpecialChar.NONE, SpecialChar.NONE, SpecialChar.NONE, SpecialChar.NONE,
            SpecialChar.NONE, SpecialChar.NONE, SpecialChar.NONE, SpecialChar.LINE_BREAK]
      ∧ (text_of (StyledText.plain ['a', 'a', 'a', 'a', 'a', 'a', 'a'] example_metrics
          example_fore example_back)).chars.map (fun c => c.bounds.top)
        = [0, 0, 0, 0, 0, 0, 11, 11]
      ∧ example_metrics.width
        < span_width (glyph_width example_metrics ['a', 'a', 'a', 'a', 'a', 'a', 'a']
            (text_of (StyledText.plain ['a', 'a', 'a', 'a', 'a', 'a', 'a'] example_metrics
              example_fore example_back)).chars) 0 7 :=
  ⟨rfl, by decide, by decide, by decide⟩

/-- C18, amended: a single word is never moved down, but it is broken where a line
is full.  For a text consisting of one word (only NONE and NO_BREAK entries before
the final LINE_BREAK), `move_word_down` moves no entry and returns the margin, and
`rewrap` returns with the first entry at the margin of the first line and every
further entry of the word right of the glyph of its predecessor on the same line
when that glyph ends before the wrap distance, and at the margin one line lower
when it reaches the wrap distance.  So, the line height not being 0, when the
glyphs up to one before the last of the word reach the wrap distance from the
margin, the entries of the word do not all have the same `bounds.top`. -/
theorem long_word_is_broken (t : StyledText)
    (hwf : WellFormed t.text.length t.inline_picts.length (t.chars.map StyledChar.unplaced))
    (hone : ∀ j, j < t.chars.length - 1 → in_word_at t.chars j = true) :
    (∀ (chars : List StyledChar) (index : Nat) (v : Int),
        chars.map StyledChar.unplaced = t.chars.map StyledChar.unplaced →
        index < t.chars.length - 1 →
        move_word_down t.wrap_metrics t.text chars index v
          = Except.ok (chars, t.wrap_metrics.side_margin))
      ∧ ∃ t1, t.rewrap = Except.ok t1
        ∧ t1.chars.map StyledChar.unplaced = t.chars.map StyledChar.unplaced
        ∧ (∀ c : StyledChar, t1.chars[0]? = some c →
            c.bounds.left = t.wrap_metrics.side_margin ∧ c.bounds.top = 0)
        ∧ (∀ (j : Nat) (a b : StyledChar), t1.chars[j]? = some a →
            t1.chars[j + 1]? = some b → a.in_word = true → b.in_word = true →
            BrokenAt t.wrap_metrics (glyph_width t.wrap_metrics t.text t.chars j) a b)
        ∧ (t.wrap_metrics.font.height + t.wrap_metrics.line_spacing ≠ 0 →
            ∀ k : Nat, k + 2 < t.chars.length →
              t.wrap_metrics.width - t.wrap_metrics.side_margin
                ≤ t.wrap_metrics.side_margin
                  + span_width (glyph_width t.wrap_metrics t.text t.chars) 0 (k + 1) →
              ∃ (j : Nat) (a b : StyledChar), j ≤ k ∧ t1.chars[j]? = some a
                ∧ t1.chars[j + 1]? = some b ∧ a.in_word = true ∧ b.in_word = true
                ∧ b.bounds.top ≠ a.bounds.top) := by
  have hone' : ∀ j, j + 1 < t.chars.length → in_word_at t.chars j = true :=
    fun j hj => hone j (by omega)
  constructor
  · intro chars index v hmap hindex
    have hlen : chars.length = t.chars.length := by
      have := congrArg List.length hmap
      simpa using this
    exact move_word_down_one_word t.wrap_metrics t.text chars index v (by
      intro j hj
      rw [in_word_at_map hmap j]
      exact hone j (by omega))
  · obtain ⟨t1, ht1, hmap⟩ := rewrap_returns t hwf
      (one_word_no_tab _ _ t.chars hwf hone')
    obtain ⟨x, s, hl, hchars, _, _⟩ := rewrap_of_loop t t1 ht1
    have hB := broken_loop { t.wrap_metrics with tab_width := x } t.text
      t.inline_picts.length t.chars hwf hone'
      { chars := t.chars, inline_picts := t.inline_picts,
        h := t.wrap_metrics.side_margin, v := 0, auto_width := 0 } rfl rfl rfl
    rw [hl] at hB
    have hB' : Broken { t.wrap_metrics with tab_width := x } t.text t.chars t.chars.length s :=
      hB
    have hlen : s.chars.length = t.chars.length := by
      have := congrArg List.length hB'.1
      simpa using this
    refine ⟨t1, ht1, hmap, ?_, ?_, ?_⟩
    · intro c hc
      rw [hchars] at hc
      have hpos : 0 < t.chars.length := by
        have := getElem?_lt hc
        omega
      exact hB'.2.2.2.2 c hpos hc
    · intro j a b ha hb hwa hwb
      rw [hchars] at ha hb
      have hj : j + 1 < t.chars.length := by
        have := getElem?_lt hb
        omega
      exact hB'.2.2.2.1 j a b hj ha hb hwa hwb
    · intro hlh k hk hreach
      rw [hchars]
      exact broken_splits { t.wrap_metrics with tab_width := x } t.text t.chars s hB' hone'
        hlh k hk hreach

theorem long_word_is_broken_witness :
    (∀ j, j < example_word.chars.length - 1 → in_word_at example_word.chars j = true)
      ∧ ∃ t1, example_word.rewrap = Except.ok t1
          ∧ ∃ (j : Nat) (a b : StyledChar), j ≤ 5 ∧ t1.chars[j]? = some a
              ∧ t1.chars[j + 1]? = some b ∧ a.in_word = true ∧ b.in_word = true
              ∧ b.bounds.top ≠ a.bounds.top :=
  ⟨by decide,
    match (long_word_is_broken example_word
      (wellFormed_push 7 0 _ example_fore example_back
        (plain_loop_inv example_fore example_back ['a', 'a', 'a', 'a', 'a', 'a', 'a']).1)
      (by decide)).2 with
    | ⟨t1, h1, _, _, _, h5⟩ => ⟨t1, h1, h5 (by decide) 5 (by decide) (by decide)⟩⟩

/-! ### Styled text: words that fit in a line are moved down whole -/

theorem span_width_succ (w : Nat → Int) (a j : Nat) (h : a ≤ j) :
    span_width w a (j + 1 - a) = span_width w a (j - a) + w j := by
  have h1 : j + 1 - a = (j - a) + 1 := by omega
  have h2 : a + (j - a) = j := by omega
  rw [h1, span_width, h2]

theorem span_width_nonneg (w : Nat → Int) (hw : ∀ j, 0 ≤ w j) (a n : Nat) :
    0 ≤ span_width w a n := by
  induction n with
  | zero => exact le_refl _
  | succ n ih =>
    rw [span_width]
    have := hw (a + n)
    omega

theorem span_width_mono (w : Nat → Int) (hw : ∀ j, 0 ≤ w j) (a n k : Nat) (h : n ≤ k) :
    span_width w a n ≤ span_width w a k := by
  induction k with
  | zero =>
    have : n = 0 := by omega
    subst this
    exact le_refl _
  | succ k ih =>
    by_cases hn : n = k + 1
    · subst hn
      exact le_refl _
    · have h1 := ih (by omega)
      rw [span_width]
      have := hw (a + k)
      omega

theorem glyph_width_map (metrics : WrapMetrics) (text : List Char) {A B : List StyledChar}
    (h : A.map StyledChar.unplaced = B.map StyledChar.unplaced) (j : Nat) :
    glyph_width metrics text A j = glyph_width metrics text B j := by
  have h1 : (A.map StyledChar.unplaced)[j]? = (B.map StyledChar.unplaced)[j]? := by rw [h]
  rw [List.getElem?_map, List.getElem?_map] at h1
  unfold glyph_width
  cases ha : A[j]? with
  | none =>
    cases hb : B[j]? with
    | none => rfl
    | some b => rw [ha, hb] at h1; cases h1
  | some a =>
    cases hb : B[j]? with
    | none => rw [ha, hb] at h1; cases h1
    | some b =>
      have hun := unplaced_of_map h j a b ha hb
      have hit : a.it = b.it := by
        have h3 := congrArg StyledChar.it hun
        exact h3
      dsimp only
      rw [hit]

theorem glyph_width_nonneg (metrics : WrapMetrics) (text : List Char)
    (chars : List StyledChar) (hw : ∀ r : Char, 0 ≤ metrics.font.char_width r) (j : Nat) :
    0 ≤ glyph_width metrics text chars j := by
  unfold glyph_width
  cases chars[j]? with
  | none => exact le_refl _
  | some c =>
    dsimp only
    cases text[c.it]? with
    | none => exact le_refl _
    | some r => exact hw r

theorem moved_to_unplaced (c : StyledChar) (h v : Int) :
    (c.moved_to h v).unplaced = c.unplaced := rfl

theorem forEach_append {α σ ε : Type} (body : α → σ → Except ε σ) :
    ∀ (xs ys : List α) (s : σ),
      forEach (xs ++ ys) s body
        = match forEach xs s body with
          | Except.ok s' => forEach ys s' body
          | Except.error e => Except.error e := by
  intro xs
  induction xs with
  | nil => intro ys s; rfl
  | cons x rest ih =>
    intro ys s
    rw [List.cons_append]
    simp only [forEach]
    cases body x s with
    | ok s' => exact ih ys s'
    | error e => rfl

/-- The loop of `move_word_down` that moves the entries from `a` on down: it lays
them out one after the other from `h0` on, on the line `v`, each with its size,
and returns where the last one ends. -/
theorem reflow_spec (metrics : WrapMetrics) (text : List Char) (v : Int)
    (chars : List StyledChar) (a : Nat) (h0 : Int) :
    ∀ cnt : Nat,
      (∀ j, a ≤ j → j < a + cnt → ∃ c r, chars[j]? = some c ∧ text[c.it]? = some r) →
      ∃ chars', forEach (List.range' a cnt) (chars, h0) (move_word_down_place metrics text v)
          = Except.ok (chars', h0 + span_width (glyph_width metrics text chars) a cnt)
        ∧ chars'.map StyledChar.unplaced = chars.map StyledChar.unplaced
        ∧ (∀ j, (j < a ∨ a + cnt ≤ j) → chars'[j]? = chars[j]?)
        ∧ (∀ j c, a ≤ j → j < a + cnt → chars[j]? = some c →
            chars'[j]? = some
              (c.moved_to (h0 + span_width (glyph_width metrics text chars) a (j - a)) v)) := by
  intro cnt
  induction cnt with
  | zero =>
    intro _
    refine ⟨chars, ?_, rfl, fun _ _ => rfl, fun j c h1 h2 => absurd h2 (by omega)⟩
    simp [forEach, span_width]
  | succ cnt ih =>
    intro hok
    obtain ⟨chars1, h1, h2, h3, h4⟩ := ih (fun j hj1 hj2 => hok j hj1 (by omega))
    obtain ⟨c, r, hc, hr⟩ := hok (a + cnt) (by omega) (by omega)
    have hc1 : chars1[a + cnt]? = some c := by
      rw [h3 (a + cnt) (Or.inr (le_refl _))]
      exact hc
    have hgw : glyph_width metrics text chars (a + cnt) = metrics.font.char_width r :=
      glyph_width_eq metrics text chars (a + cnt) c r hc hr
    have hrange : List.range' a (cnt + 1) = List.range' a cnt ++ [a + cnt] := by
      rw [List.range'_concat]
      simp
    refine ⟨chars1.set (a + cnt)
      (c.moved_to (h0 + span_width (glyph_width metrics text chars) a cnt) v), ?_, ?_, ?_, ?_⟩
    · rw [hrange, forEach_append, h1]
      dsimp only
      simp only [forEach, move_word_down_place]
      rw [hc1]
      dsimp only
      rw [hr]
      dsimp only
      rw [span_width, hgw, Int.add_assoc]
      rfl
    · rw [map_set_same StyledChar.unplaced _ _ c (c.moved_to _ _) hc1 (moved_to_unplaced c _ _)]
      exact h2
    · intro j hj
      rw [List.getElem?_set, if_neg (by omega)]
      exact h3 j (by omega)
    · intro j cj hj1 hj2 hcj
      by_cases hjl : j = a + cnt
      · subst hjl
        rw [hc] at hcj
        cases hcj
        rw [List.getElem?_set, if_pos rfl, if_pos (getElem?_lt hc1)]
        have : a + cnt - a = cnt := by omega
        rw [this]
      · rw [List.getElem?_set, if_neg (by omega)]
        exact h4 j cj hj1 (by omega) hcj

/-- Method `move_word_down` at the entry `i` of a word that begins right after a
WORD_BREAK at `a'` and not at the margin: the entries of the word are moved
down. -/
theorem move_word_down_reflow (metrics : WrapMetrics) (text : List Char)
    (chars : List StyledChar) (i : Nat) (v : Int) (a' : Nat) (cb cn : StyledChar)
    (ha : a' + 1 ≤ i)
    (hrun : ∀ j, a' + 1 ≤ j → j < i + 1 → in_word_at chars j = true)
    (hbreak : chars[a']? = some cb) (hsp : cb.special = SpecialChar.WORD_BREAK)
    (hnext : chars[a' + 1]? = some cn) (hleft : ¬ cn.bounds.left ≤ metrics.side_margin) :
    move_word_down metrics text chars i v
      = forEach (List.range' (a' + 1) (i - a')) (chars, metrics.side_margin)
          (move_word_down_place metrics text v) := by
  unfold move_word_down
  rw [move_word_down_from_scan metrics text i v chars (a' + 1) (i + 1) (by omega) hrun,
    move_word_down_from, hbreak]
  dsimp only
  rw [hsp]
  dsimp only
  rw [hnext]
  dsimp only
  rw [if_neg hleft]


theorem in_word_of_stream {chars stream : List StyledChar}
    (h : chars.map StyledChar.unplaced = stream.map StyledChar.unplaced) (j : Nat)
    (x : StyledChar) (hx : chars[j]? = some x) : x.in_word = in_word_at stream j := by
  rw [← in_word_at_map h j, in_word_at_some chars j x hx]

/-- The entries of the word the layout is in stand side by side, so all entries of
words before the cursor do. -/
theorem joined_of_run (stream chars : List StyledChar) (w : Nat → Int) (a i : Nat)
    (X v : Int) (k1 : chars.map StyledChar.unplaced = stream.map StyledChar.unplaced)
    (hmax : a = 0 ∨ in_word_at stream (a - 1) = false)
    (hpos : ∀ j, a ≤ j → j < i → ∃ c, chars[j]? = some c ∧ c.bounds.top = v
      ∧ c.bounds.left = X + span_width w a (j - a)
      ∧ c.bounds.right = c.bounds.left + w j)
    (hjoin : Joined a chars) : Joined i chars := by
  intro j x y hj hx hy hwx hwy
  by_cases h1 : j + 1 < a
  · exact hjoin j x y h1 hx hy hwx hwy
  · by_cases h2 : j + 1 = a
    · rcases hmax with h0 | hf
      · omega
      · have hja : a - 1 = j := by omega
        rw [hja, ← in_word_of_stream k1 j x hx, hwx] at hf
        cases hf
    · obtain ⟨x', hx', tx, lx, rx⟩ := hpos j (by omega) (by omega)
      obtain ⟨y', hy', ty, ly, _⟩ := hpos (j + 1) (by omega) hj
      rw [hx] at hx'
      rw [hy] at hy'
      cases hx'
      cases hy'
      refine ⟨by rw [tx, ty], ?_⟩
      rw [ly, rx, lx, span_width_succ w a j (by omega)]
      omega

theorem joined_frame (a : Nat) (chars chars' : List StyledChar) (h : Joined a chars)
    (hsame : ∀ j, j < a → chars'[j]? = chars[j]?) : Joined a chars' := by
  intro j x y hj hx hy hwx hwy
  rw [hsame j (by omega)] at hx
  rw [hsame (j + 1) hj] at hy
  exact h j x y hj hx hy hwx hwy

/-- The state after an iteration at a break: the next word begins at the cursor. -/
theorem whole_break (metrics : WrapMetrics) (text : List Char) (stream : List StyledChar)
    (i : Nat) (s : Layout) (c cn : StyledChar) (h' v' aw : Int)
    (hs : Whole metrics text stream i s) (hc : s.chars[i]? = some c)
    (hun : cn.unplaced = c.unplaced) (hw : c.in_word = false)
    (hm : metrics.side_margin ≤ h')
    (hlb : c.special = SpecialChar.LINE_BREAK → h' = metrics.side_margin) :
    Whole metrics text stream (i + 1)
      { chars := s.chars.set i cn, inline_picts := s.inline_picts, h := h', v := v',
        auto_width := aw } := by
  obtain ⟨k1, a, X, ha, hrun, hmax, hX, hX0, hXlb, hh, hpos, hjoin⟩ := hs
  have hji := joined_of_run stream s.chars _ a i X s.v k1 hmax hpos hjoin
  have hilt : i < s.chars.length := getElem?_lt hc
  have hwi : in_word_at stream i = false := by
    rw [← in_word_of_stream k1 i c hc]
    exact hw
  refine ⟨?_, i + 1, h', le_refl _, fun j h1 h2 => absurd h2 (by omega), Or.inr ?_, hm,
    fun h0 => absurd h0 (Nat.succ_ne_zero i), ?_, ?_, fun j h1 h2 => absurd h2 (by omega), ?_⟩
  · dsimp only
    rw [map_set_same StyledChar.unplaced _ _ c cn hc hun]
    exact k1
  · rw [Nat.add_sub_cancel]
    exact hwi
  · intro c0 _ hc0 hsp
    rw [Nat.add_sub_cancel] at hc0
    have hun0 := unplaced_of_map k1 i c c0 hc hc0
    have hsp' : c.special = c0.special := by
      have h3 := congrArg StyledChar.special hun0
      exact h3
    exact hlb (by rw [hsp', hsp])
  · dsimp only
    rw [Nat.sub_self]
    simp [span_width]
  · intro j x y hj hx hy hwx hwy
    dsimp only at hx hy
    by_cases hji' : j + 1 = i
    · subst hji'
      rw [List.getElem?_set, if_pos rfl, if_pos hilt] at hy
      cases hy
      rw [in_word_unplaced _ _ hun, hw] at hwy
      cases hwy
    · rw [List.getElem?_set, if_neg (by omega)] at hx hy
      exact hji j x y (by omega) hx hy hwx hwy

/-- The state after an iteration at an entry of a word that ends before the wrap
distance: the word goes on. -/
theorem whole_fit (metrics : WrapMetrics) (text : List Char) (stream : List StyledChar)
    (i : Nat) (s : Layout) (c : StyledChar) (cw bottom aw : Int)
    (hs : Whole metrics text stream i s) (hc : s.chars[i]? = some c)
    (hw : c.in_word = true) (hgw : glyph_width metrics text stream i = cw) :
    Whole metrics text stream (i + 1)
      { chars := s.chars.set i { c with bounds := ⟨s.h, s.v, s.h + cw, bottom⟩ },
        inline_picts := s.inline_picts, h := s.h + cw, v := s.v, auto_width := aw } := by
  obtain ⟨k1, a, X, ha, hrun, hmax, hX, hX0, hXlb, hh, hpos, hjoin⟩ := hs
  have hilt : i < s.chars.length := getElem?_lt hc
  have hwi : in_word_at stream i = true := by
    rw [← in_word_of_stream k1 i c hc]
    exact hw
  refine ⟨?_, a, X, by omega, ?_, hmax, hX, hX0, hXlb, ?_, ?_, ?_⟩
  · dsimp only
    rw [map_set_same _ _ _ _ _ hc (unplaced_bounds _ _)]
    exact k1
  · intro j h1 h2
    by_cases hji : j = i
    · rw [hji]
      exact hwi
    · exact hrun j h1 (by omega)
  · dsimp only
    rw [span_width_succ _ a i ha, hgw, hh]
    omega
  · intro j h1 h2
    dsimp only
    by_cases hji : j = i
    · subst hji
      refine ⟨_, by rw [List.getElem?_set, if_pos rfl, if_pos hilt], rfl, hh, ?_⟩
      dsimp only
      rw [hgw]
    · rw [List.getElem?_set, if_neg (by omega)]
      exact hpos j h1 (by omega)
  · exact joined_frame a _ _ hjoin (fun j hj => by
      dsimp only
      rw [List.getElem?_set, if_neg (by omega)])


/-- After an entry of a word the stream has a first entry that is of no word. -/
theorem exists_word_end (stream : List StyledChar) (i n : Nat)
    (hi : in_word_at stream i = true) (hn : i < n) (hlast : in_word_at stream n = false) :
    ∃ b, i < b ∧ b ≤ n ∧ (∀ j, i ≤ j → j < b → in_word_at stream j = true)
      ∧ in_word_at stream b = false := by
  have hex : ∃ b, i < b ∧ in_word_at stream b = false := ⟨n, hn, hlast⟩
  refine ⟨Nat.find hex, (Nat.find_spec hex).1, Nat.find_min' hex ⟨hn, hlast⟩, ?_,
    (Nat.find_spec hex).2⟩
  intro j h1 h2
  by_cases hji : j = i
  · rw [hji]
    exact hi
  · have h3 := Nat.find_min hex h2
    cases hv : in_word_at stream j with
    | true => rfl
    | false => exact absurd ⟨by omega, hv⟩ h3

/-- The last entry of a well-formed stream is of no word. -/
theorem last_not_in_word (text_length picts : Nat) (stream : List StyledChar)
    (hwf : WellFormed text_length picts (stream.map StyledChar.unplaced)) :
    in_word_at stream (stream.length - 1) = false := by
  obtain ⟨_, hlast, _, _⟩ := hwf
  rw [List.length_map] at hlast
  cases hv : in_word_at stream (stream.length - 1) with
  | false => rfl
  | true =>
    unfold in_word_at at hv
    cases hc : stream[stream.length - 1]? with
    | none =>
      rw [hc] at hv
      cases hv
    | some c =>
      rw [hc] at hv
      have hst : (stream.map StyledChar.unplaced)[stream.length - 1]? = some c.unplaced := by
        rw [List.getElem?_map, hc]
        rfl
      have h1 := hlast _ _ hst (in_word_not_line_break c hv)
      have h2 := getElem?_lt hc
      omega

/-- The entries of a word up to one of them are narrower than the word, which
fits. -/
theorem run_fits (metrics : WrapMetrics) (text : List Char) (picts : Nat)
    (stream : List StyledChar)
    (hwf : WellFormed text.length picts (stream.map StyledChar.unplaced))
    (hwidth : ∀ r : Char, 0 ≤ metrics.font.char_width r)
    (hfit : ∀ a, a < stream.length → ∀ b, b < stream.length → a < b →
      (∀ j, a ≤ j → j < b → in_word_at stream j = true) →
      (a = 0 ∨ in_word_at stream (a - 1) = false) → in_word_at stream b = false →
      span_width (glyph_width metrics text stream) a (b - a)
        < metrics.width - metrics.side_margin - metrics.side_margin)
    (a i : Nat) (ha : a ≤ i) (hi : i + 1 < stream.length)
    (hrun : ∀ j, a ≤ j → j < i + 1 → in_word_at stream j = true)
    (hmax : a = 0 ∨ in_word_at stream (a - 1) = false) :
    span_width (glyph_width metrics text stream) a (i + 1 - a)
      < metrics.width - metrics.side_margin - metrics.side_margin := by
  obtain ⟨b, hb1, hb2, hb3, hb4⟩ := exists_word_end stream i (stream.length - 1)
    (hrun i ha (by omega)) (by omega) (last_not_in_word _ _ stream hwf)
  have h1 := hfit a (by omega) b (by omega) (by omega)
    (fun j h2 h3 => by
      by_cases hji : j < i + 1
      · exact hrun j h2 hji
      · exact hb3 j (by omega) h3)
    hmax hb4
  have h2 := span_width_mono (glyph_width metrics text stream)
    (glyph_width_nonneg metrics text stream hwidth) a (i + 1 - a) (b - a) (by omega)
  omega


/-- An iteration of `rewrap` at an entry of a word that reaches the wrap distance,
every word fitting in a line: the entries of the word laid out so far are moved
down to the margin of the next line, and the word goes on there. -/
theorem whole_wrap (metrics : WrapMetrics) (text : List Char) (picts : Nat)
    (stream : List StyledChar)
    (hwf : WellFormed text.length picts (stream.map StyledChar.unplaced))
    (htags : ∀ c ∈ stream, c.special ≠ SpecialChar.TAB ∧ c.special ≠ SpecialChar.DELAY
      ∧ c.special ≠ SpecialChar.PICTURE)
    (hwidth : ∀ r : Char, 0 ≤ metrics.font.char_width r)
    (hfit : ∀ a, a < stream.length → ∀ b, b < stream.length → a < b →
      (∀ j, a ≤ j → j < b → in_word_at stream j = true) →
      (a = 0 ∨ in_word_at stream (a - 1) = false) → in_word_at stream b = false →
      span_width (glyph_width metrics text stream) a (b - a)
        < metrics.width - metrics.side_margin - metrics.side_margin)
    (i : Nat) (hi : i + 1 < stream.length) (s : Layout) (c : StyledChar) (r : Char)
    (hs : Whole metrics text stream i s) (hc : s.chars[i]? = some c)
    (hw : c.in_word = true) (hr : text[c.it]? = some r)
    (hgw : glyph_width metrics text stream i = metrics.font.char_width r)
    (hwrap : s.h + metrics.font.char_width r ≥ metrics.width - metrics.side_margin) :
    WhenOk (Whole metrics text stream (i + 1)) (rewrap_char metrics text i s) := by
  obtain ⟨k1, a, X, ha, hrun, hmax, hX, hX0, hXlb, hh, hpos, hjoin⟩ := hs
  have hlen : s.chars.length = stream.length := by
    have := congrArg List.length k1
    simpa using this
  have hilt : i < s.chars.length := getElem?_lt hc
  have hwi : in_word_at stream i = true := by
    rw [← in_word_of_stream k1 i c hc]
    exact hw
  have hrun1 : ∀ j, a ≤ j → j < i + 1 → in_word_at stream j = true := by
    intro j h1 h2
    by_cases hji : j = i
    · rw [hji]
      exact hwi
    · exact hrun j h1 (by omega)
  have hXm : X ≠ metrics.side_margin := by
    intro hXeq
    have h1 := run_fits metrics text picts stream hwf hwidth hfit a i ha hi hrun1 hmax
    rw [span_width_succ _ a i ha, hgw] at h1
    omega
  have ha0 : a ≠ 0 := fun h0 => hXm (hX0 h0)
  obtain ⟨a', rfl⟩ : ∃ a', a = a' + 1 := ⟨a - 1, by omega⟩
  rw [Nat.add_sub_cancel] at hmax hXlb
  -- the entry before the word is a WORD_BREAK
  have hcb0 : stream[a']? = some (stream[a']) := List.getElem?_eq_getElem (by omega)
  generalize stream[a'] = cb0 at hcb0
  have hsp0 : cb0.special = SpecialChar.WORD_BREAK := by
    have hnlb : cb0.special ≠ SpecialChar.LINE_BREAK :=
      fun h => hXm (hXlb cb0 (by omega) hcb0 h)
    obtain ⟨t1, t2, t3⟩ := htags cb0 (List.getElem?_mem hcb0)
    have hnw : cb0.in_word = false := by
      rcases hmax with h0 | hf
      · omega
      · rw [in_word_at_some stream a' cb0 hcb0] at hf
        exact hf
    unfold StyledChar.in_word at hnw
    cases hsp : cb0.special with
    | NONE => rw [hsp] at hnw; cases hnw
    | NO_BREAK => rw [hsp] at hnw; cases hnw
    | LINE_BREAK => exact absurd hsp hnlb
    | WORD_BREAK => rfl
    | TAB => exact absurd hsp t1
    | DELAY => exact absurd hsp t2
    | PICTURE => exact absurd hsp t3
  -- the stream in which the entry has been laid out at the cursor
  have hmap1 : (s.chars.set i { c with bounds :=
        ⟨s.h, s.v, s.h, s.v + (metrics.font.height + metrics.line_spacing)⟩ }).map
        StyledChar.unplaced = stream.map StyledChar.unplaced := by
    rw [map_set_same _ _ _ _ _ hc (unplaced_bounds _ _)]
    exact k1
  have hc1 : (s.chars.set i { c with bounds :=
        ⟨s.h, s.v, s.h, s.v + (metrics.font.height + metrics.line_spacing)⟩ })[i]?
      = some { c with bounds :=
        ⟨s.h, s.v, s.h, s.v + (metrics.font.height + metrics.line_spacing)⟩ } := by
    rw [List.getElem?_set, if_pos rfl, if_pos hilt]
  have hold : ∀ j, j ≠ i → (s.chars.set i { c with bounds :=
        ⟨s.h, s.v, s.h, s.v + (metrics.font.height + metrics.line_spacing)⟩ })[j]?
      = s.chars[j]? := by
    intro j hj
    rw [List.getElem?_set, if_neg (Ne.symm hj)]
  generalize hchars1 : s.chars.set i { c with bounds :=
    ⟨s.h, s.v, s.h, s.v + (metrics.font.height + metrics.line_spacing)⟩ } = chars1
    at hmap1 hc1 hold
  generalize hc1def : ({ c with bounds :=
    ⟨s.h, s.v, s.h, s.v + (metrics.font.height + metrics.line_spacing)⟩ } : StyledChar) = c1
    at hc1
  have hc1left : c1.bounds.left = s.h := by rw [← hc1def]
  have hc1w : c1.bounds.right = c1.bounds.left := by rw [← hc1def]
  have hlen1 : chars1.length = stream.length := by
    have := congrArg List.length hmap1
    simpa using this
  have hfun : glyph_width metrics text chars1 = glyph_width metrics text stream :=
    funext (glyph_width_map metrics text hmap1)
  have hcb : chars1[a']? = some (chars1[a']) := List.getElem?_eq_getElem (by omega)
  generalize chars1[a'] = cb at hcb
  have hspb : cb.special = SpecialChar.WORD_BREAK := by
    have h3 := congrArg StyledChar.special (unplaced_of_map hmap1 a' cb cb0 hcb hcb0)
    exact h3.trans hsp0
  have hcn : ∃ cn, chars1[a' + 1]? = some cn ∧ cn.bounds.left = X := by
    by_cases hai : a' + 1 = i
    · refine ⟨c1, by rw [hai]; exact hc1, ?_⟩
      rw [hc1left, hh, hai, Nat.sub_self]
      simp [span_width]
    · obtain ⟨ca, hca, _, lca, _⟩ := hpos (a' + 1) (le_refl _) (by omega)
      refine ⟨ca, by rw [hold (a' + 1) hai]; exact hca, ?_⟩
      rw [lca, Nat.sub_self]
      simp [span_width]
  obtain ⟨cn, hcn1, hcn2⟩ := hcn
  have hmwd := move_word_down_reflow metrics text chars1 i
    (s.v + (metrics.font.height + metrics.line_spacing)) a' cb cn ha
    (fun j h1 h2 => by
      rw [in_word_at_map hmap1 j]
      exact hrun1 j h1 h2)
    hcb hspb hcn1 (by rw [hcn2]; omega)
  obtain ⟨_, hlast, hiter, _⟩ := hwf
  rw [List.length_map] at hlast hiter
  obtain ⟨chars2, hre, hmap2, hout, hin⟩ := reflow_spec metrics text
    (s.v + (metrics.font.height + metrics.line_spacing)) chars1 (a' + 1)
    metrics.side_margin (i - a')
    (by
      intro j h1 h2
      have hcj : chars1[j]? = some (chars1[j]) := List.getElem?_eq_getElem (by omega)
      generalize chars1[j] = cj at hcj
      have hsj : (stream.map StyledChar.unplaced)[j]? = some cj.unplaced := by
        rw [← hmap1, List.getElem?_map, hcj]
        rfl
      have hitj : cj.it < text.length := hiter j cj.unplaced hsj (by omega)
      exact ⟨cj, text[cj.it], hcj, List.getElem?_eq_getElem hitj⟩)
  rw [hfun] at hre hin
  have hcnt : i - a' = i + 1 - (a' + 1) := by omega
  have hc2i := hin i c1 (by omega) (by omega) hc1
  subst hchars1
  subst hc1def
  rw [rewrap_char_wrap metrics text i s c _ r chars2 _ hc hw hr hwrap (hmwd.trans hre) hc2i]
  have hlen2 : chars2.length = stream.length := by
    have := congrArg List.length (hmap2.trans hmap1)
    simpa using this
  refine ⟨?_, a' + 1, metrics.side_margin, by omega, hrun1, Or.inr ?_, le_refl _,
    fun h0 => absurd h0 (Nat.succ_ne_zero a'), fun _ _ _ _ => rfl, ?_, ?_, ?_⟩
  · dsimp only
    rw [map_set_same StyledChar.unplaced _ _ _ _ hc2i (unplaced_bounds _ _)]
    exact hmap2.trans hmap1
  · rw [Nat.add_sub_cancel]
    rw [in_word_at_some stream a' cb0 hcb0]
    unfold StyledChar.in_word
    rw [hsp0]
    rfl
  · dsimp only
    rw [hcnt]
  · intro j h1 h2
    dsimp only
    by_cases hji : j = i
    · subst hji
      refine ⟨_, by rw [List.getElem?_set, if_pos rfl, if_pos (by omega)], rfl, rfl, ?_⟩
      dsimp only
      rw [hcnt, span_width_succ _ (a' + 1) j ha, hgw]
      simp only [StyledChar.moved_to, Rect.of_origin]
      omega
    · rw [List.getElem?_set, if_neg (by omega)]
      obtain ⟨cj, hcj, _, lcj, rcj⟩ := hpos j h1 (by omega)
      refine ⟨_, hin j cj h1 (by omega) (by rw [hold j hji]; exact hcj), rfl, rfl, ?_⟩
      simp only [StyledChar.moved_to, Rect.of_origin, Rect.size, Rect.width]
      omega
  · refine joined_frame (a' + 1) s.chars _ hjoin ?_
    intro j hj
    dsimp only
    rw [List.getElem?_set, if_neg (by omega), hout j (Or.inl hj), hold j (by omega)]


/-- One iteration of the loop of `rewrap` on a stream of words that fit, without
TAB, DELAY and PICTURE, keeps `Whole`. -/
theorem whole_step (metrics : WrapMetrics) (text : List Char) (picts : Nat)
    (stream : List StyledChar)
    (hwf : WellFormed text.length picts (stream.map StyledChar.unplaced))
    (htags : ∀ c ∈ stream, c.special ≠ SpecialChar.TAB ∧ c.special ≠ SpecialChar.DELAY
      ∧ c.special ≠ SpecialChar.PICTURE)
    (hwidth : ∀ r : Char, 0 ≤ metrics.font.char_width r)
    (hfit : ∀ a, a < stream.length → ∀ b, b < stream.length → a < b →
      (∀ j, a ≤ j → j < b → in_word_at stream j = true) →
      (a = 0 ∨ in_word_at stream (a - 1) = false) → in_word_at stream b = false →
      span_width (glyph_width metrics text stream) a (b - a)
        < metrics.width - metrics.side_margin - metrics.side_margin)
    (i : Nat) (hi : i < stream.length) (s : Layout)
    (hs : Whole metrics text stream i s) :
    WhenOk (Whole metrics text stream (i + 1)) (rewrap_char metrics text i s) := by
  have k1 := hs.1
  have hlen : s.chars.length = stream.length := by
    have := congrArg List.length k1
    simpa using this
  have hc : s.chars[i]? = some (s.chars[i]) := List.getElem?_eq_getElem (by omega)
  generalize s.chars[i] = c at hc
  have hc0 : stream[i]? = some (stream[i]) := List.getElem?_eq_getElem hi
  generalize stream[i] = c0 at hc0
  have hun : c.unplaced = c0.unplaced := unplaced_of_map k1 i c c0 hc hc0
  have hsp0 : c0.special = c.special := by
    have h3 := congrArg StyledChar.special hun
    exact h3.symm
  have hit0 : c0.it = c.it := by
    have h3 := congrArg StyledChar.it hun
    exact h3.symm
  have hst : (stream.map StyledChar.unplaced)[i]? = some c0.unplaced := by
    rw [List.getElem?_map, hc0]
    rfl
  have hwf' := hwf
  obtain ⟨_, hlast, hiter, _⟩ := hwf'
  rw [List.length_map] at hlast hiter
  have hnext : c.special ≠ SpecialChar.LINE_BREAK → i + 1 < stream.length := by
    intro hne
    exact hlast i _ hst (by
      show c0.special ≠ SpecialChar.LINE_BREAK
      rw [hsp0]
      exact hne)
  have hread : c.special ≠ SpecialChar.LINE_BREAK →
      ∃ r, text[c.it]? = some r
        ∧ glyph_width metrics text stream i = metrics.font.char_width r := by
    intro hne
    have h1 : c0.it < text.length := hiter i c0.unplaced hst (hnext hne)
    rw [hit0] at h1
    refine ⟨text[c.it], List.getElem?_eq_getElem h1, ?_⟩
    exact glyph_width_eq metrics text stream i c0 _ hc0 (by
      rw [hit0]
      exact List.getElem?_eq_getElem h1)
  have hge : metrics.side_margin ≤ s.h := by
    obtain ⟨_, a, X, _, _, _, hX, _, _, hh, _, _⟩ := hs
    have := span_width_nonneg (glyph_width metrics text stream)
      (glyph_width_nonneg metrics text stream hwidth) a (i - a)
    omega
  by_cases hw : c.in_word = true
  · have hne := in_word_not_line_break c hw
    obtain ⟨r, hr, hgw⟩ := hread hne
    by_cases hfitc : s.h + metrics.font.char_width r < metrics.width - metrics.side_margin
    · rw [rewrap_char_fit metrics text i s c r hc hw hr hfitc]
      exact whole_fit metrics text stream i s c _ _ _ hs hc hw hgw
    · exact whole_wrap metrics text picts stream hwf htags hwidth hfit i (hnext hne) s c r
        hs hc hw hr hgw (not_lt.mp hfitc)
  · have hwf : c.in_word = false := by
      cases hv : c.in_word with
      | true => exact absurd hv hw
      | false => rfl
    obtain ⟨t1, t2, t3⟩ := htags c0 (List.getElem?_mem hc0)
    rw [hsp0] at t1 t2 t3
    cases hsp : c.special with
    | NONE =>
      unfold StyledChar.in_word at hwf
      rw [hsp] at hwf
      cases hwf
    | NO_BREAK =>
      unfold StyledChar.in_word at hwf
      rw [hsp] at hwf
      cases hwf
    | TAB => exact absurd hsp t1
    | DELAY => exact absurd hsp t2
    | PICTURE => exact absurd hsp t3
    | LINE_BREAK =>
      rw [rewrap_char_line_break metrics text i s c hc hsp]
      exact whole_break metrics text stream i s c _ _ _ _ hs hc (unplaced_bounds _ _) hwf
        (le_refl _) (fun _ => rfl)
    | WORD_BREAK =>
      obtain ⟨r, hr, _⟩ := hread (by rw [hsp]; decide)
      rw [rewrap_char_word_break metrics text i s c r hc hsp hr]
      refine whole_break metrics text stream i s c _ _ _ _ hs hc (unplaced_bounds _ _) hwf
        ?_ (fun h => ?_)
      · have := hwidth r
        omega
      · rw [hsp] at h
        cases h

/-! ### C17 -/

/-- C17: words are never split by wrapping when they fit.  For a text with a
well-formed stream without TAB, DELAY and PICTURE entries, laid out with glyph
widths that are not negative, if every word (every maximal run of NONE and
NO_BREAK entries: from an index `a` that is the first or follows an entry of no
word, up to an index `b` of an entry of no word) has a total glyph width smaller
than `wrap_distance - side_margin`, where `wrap_distance = width - side_margin`,
then `rewrap` returns, and in what it returns every two consecutive entries of a
word have the same `bounds.top` and the second begins where the first ends: each
word stands whole on one line.  The sign of the margin does not matter. -/
theorem fitting_words_stay_whole (t : StyledText)
    (hwf : WellFormed t.text.length t.inline_picts.length (t.chars.map StyledChar.unplaced))
    (htags : ∀ c ∈ t.chars, c.special ≠ SpecialChar.TAB ∧ c.special ≠ SpecialChar.DELAY
      ∧ c.special ≠ SpecialChar.PICTURE)
    (hwidth : ∀ r : Char, 0 ≤ t.wrap_metrics.font.char_width r)
    (hfit : ∀ a, a < t.chars.length → ∀ b, b < t.chars.length →
      a < b ∧ (∀ j, a ≤ j → j < b → in_word_at t.chars j = true)
        ∧ (a = 0 ∨ in_word_at t.chars (a - 1) = false) ∧ in_word_at t.chars b = false →
      span_width (glyph_width t.wrap_metrics t.text t.chars) a (b - a)
        < t.wrap_metrics.width - t.wrap_metrics.side_margin - t.wrap_metrics.side_margin) :
    ∃ t1, t.rewrap = Except.ok t1
      ∧ t1.chars.map StyledChar.unplaced = t.chars.map StyledChar.unplaced
      ∧ ∀ (j : Nat) (x y : StyledChar), t1.chars[j]? = some x → t1.chars[j + 1]? = some y →
          x.in_word = true → y.in_word = true →
          y.bounds.top = x.bounds.top ∧ y.bounds.left = x.bounds.right := by
  obtain ⟨t1, ht1, hmap⟩ := rewrap_returns t hwf (fun c hc => (htags c hc).1)
  obtain ⟨x, s, hl, hchars, _, _⟩ := rewrap_of_loop t t1 ht1
  have hloop := forEach_range_when (Whole { t.wrap_metrics with tab_width := x } t.text t.chars)
    (rewrap_char { t.wrap_metrics with tab_width := x } t.text) t.chars.length 0
    { chars := t.chars, inline_picts := t.inline_picts,
      h := t.wrap_metrics.side_margin, v := 0, auto_width := 0 }
    ⟨rfl, 0, t.wrap_metrics.side_margin, le_refl _, fun j _ h2 => absurd h2 (Nat.not_lt_zero j),
      Or.inl rfl, le_refl _, fun _ => rfl, fun _ h0 => absurd h0 (lt_irrefl 0),
      by simp [span_width], fun j _ h2 => absurd h2 (Nat.not_lt_zero j),
      fun j _ _ hj => absurd hj (Nat.not_lt_zero _)⟩
    (fun i _ hi s' hs' => whole_step { t.wrap_metrics with tab_width := x } t.text
      t.inline_picts.length t.chars hwf htags hwidth
      (fun a ha b hb hab hrun hmax hb' => hfit a ha b hb ⟨hab, hrun, hmax, hb'⟩)
      i (by omega) s' hs')
  rw [← List.range_eq_range', Nat.zero_add, hl] at hloop
  have hW : Whole { t.wrap_metrics with tab_width := x } t.text t.chars t.chars.length s :=
    hloop
  obtain ⟨k1, a, X, _, _, hmax, _, _, _, _, hpos, hjoin⟩ := hW
  have hj := joined_of_run t.chars s.chars _ a t.chars.length X s.v k1 hmax hpos hjoin
  have hlen : s.chars.length = t.chars.length := by
    have := congrArg List.length k1
    simpa using this
  refine ⟨t1, ht1, hmap, ?_⟩
  intro j x' y hx hy hwx hwy
  rw [hchars] at hx hy
  have hjlt : j + 1 < t.chars.length := by
    have := getElem?_lt hy
    omega
  exact hj j x' y hjlt hx hy hwx hwy



theorem fitting_words_stay_whole_witness :
    (∀ a, a < example_words.chars.length → ∀ b, b < example_words.chars.length →
      a < b ∧ (∀ j, a ≤ j → j < b → in_word_at example_words.chars j = true)
        ∧ (a = 0 ∨ in_word_at example_words.chars (a - 1) = false)
        ∧ in_word_at example_words.chars b = false →
      span_width (glyph_width example_words.wrap_metrics example_words.text
          example_words.chars) a (b - a)
        < example_words.wrap_metrics.width - example_words.wrap_metrics.side_margin
            - example_words.wrap_metrics.side_margin)
      ∧ ∃ t1, example_words.rewrap = Except.ok t1
          ∧ t1.chars.map StyledChar.unplaced = example_words.chars.map StyledChar.unplaced
          ∧ ∀ (j : Nat) (x y : StyledChar), t1.chars[j]? = some x →
              t1.chars[j + 1]? = some y → x.in_word = true → y.in_word = true →
              y.bounds.top = x.bounds.top ∧ y.bounds.left = x.bounds.right :=
  ⟨by decide,
    fitting_words_stay_whole example_words
      (wellFormed_push 11 0 _ example_fore example_back
        (plain_loop_inv example_fore example_back
          ['a', 'a', 'a', ' ', 'a', 'a', 'a', ' ', 'a', 'a', 'a']).1)
      (by decide) (fun _ => (show (0 : Int) ≤ 6 by decide)) (by decide)⟩

/-! ### C21 -/

/-- A change of zoom leaves the player's ship and the objects as they are. -/
theorem zoom_to_ship (zoom : Int) (g : Game) :
    (zoom_to zoom g).ship = g.ship ∧ (zoom_to zoom g).objects = g.objects := by
  unfold zoom_to
  split_ifs <;> exact ⟨rfl, rfl⟩

/-- The zoom keys leave the player's ship and the objects as they are. -/
theorem zoom_keys_ship (C : Consts) (zoom : Int) (g : Game) :
    ((zoom_in C g).ship = g.ship ∧ (zoom_in C g).objects = g.objects)
      ∧ ((zoom_out C g).ship = g.ship ∧ (zoom_out C g).objects = g.objects)
      ∧ ((zoom_shortcut C zoom g).ship = g.ship
          ∧ (zoom_shortcut C zoom g).objects = g.objects) := by
  refine ⟨?_, ?_, ?_⟩
  · unfold zoom_in
    split_ifs
    · exact ⟨rfl, rfl⟩
    · exact zoom_to_ship _ _
    · exact ⟨rfl, rfl⟩
  · unfold zoom_out
    split_ifs
    · exact ⟨rfl, rfl⟩
    · exact zoom_to_ship _ _
    · exact ⟨rfl, rfl⟩
  · unfold zoom_shortcut
    simp only []
    split_ifs
    · exact ⟨rfl, rfl⟩
    · exact ⟨(zoom_to_ship _ _).1, (zoom_to_ship _ _).2⟩
    · exact ⟨(zoom_to_ship _ _).1, (zoom_to_ship _ _).2⟩

/-- The body of the first loop of `PlayerShip::update` leaves the queue of events,
the player's ship and the objects as they are. -/
theorem update_event_keeps (C : Consts) (e : PlayerEvent) (sg : PlayerShip × Game) :
    (update_event C e sg).1._player_events = sg.1._player_events
      ∧ (update_event C e sg).2.ship = sg.2.ship
      ∧ (update_event C e sg).2.objects = sg.2.objects := by
  have hin := (zoom_keys_ship C 0 sg.2).1
  have hout := (zoom_keys_ship C 0 sg.2).2.1
  have hshort := fun zoom => (zoom_keys_ship C zoom sg.2).2.2
  unfold update_event
  cases e.type with
  | KEY_DOWN =>
    simp only []
    by_cases c1 : e.key = C.kZoomOutKeyNum
    · rw [if_pos c1]; exact ⟨rfl, hout⟩
    rw [if_neg c1]
    by_cases c2 : e.key = C.kZoomInKeyNum
    · rw [if_pos c2]; exact ⟨rfl, hin⟩
    rw [if_neg c2]
    by_cases c3 : e.key = C.kScale121KeyNum
    · rw [if_pos c3]; exact ⟨rfl, hshort _⟩
    rw [if_neg c3]
    by_cases c4 : e.key = C.kScale122KeyNum
    · rw [if_pos c4]; exact ⟨rfl, hshort _⟩
    rw [if_neg c4]
    by_cases c5 : e.key = C.kScale124KeyNum
    · rw [if_pos c5]; exact ⟨rfl, hshort _⟩
    rw [if_neg c5]
    by_cases c6 : e.key = C.kScale1216KeyNum
    · rw [if_pos c6]; exact ⟨rfl, hshort _⟩
    rw [if_neg c6]
    by_cases c7 : e.key = C.kScaleHostileKeyNum
    · rw [if_pos c7]; exact ⟨rfl, hshort _⟩
    rw [if_neg c7]
    by_cases c8 : e.key = C.kScaleObjectKeyNum
    · rw [if_pos c8]; exact ⟨rfl, hshort _⟩
    rw [if_neg c8]
    by_cases c9 : e.key = C.kScaleAllKeyNum
    · rw [if_pos c9]; exact ⟨rfl, hshort _⟩
    rw [if_neg c9]
    by_cases c10 : e.key = C.kTransferKeyNum
    · rw [if_pos c10]; exact ⟨rfl, rfl, rfl⟩
    rw [if_neg c10]
    by_cases c11 : e.key = C.kMessageNextKeyNum
    · rw [if_pos c11]; exact ⟨rfl, rfl, rfl⟩
    rw [if_neg c11]
    by_cases c12 : e.key < C.kKeyControlNum
    · rw [if_pos c12]; exact ⟨rfl, rfl, rfl⟩
    rw [if_neg c12]
    exact ⟨rfl, rfl, rfl⟩
  | KEY_UP =>
    simp only []
    by_cases c12 : e.key < C.kKeyControlNum
    · rw [if_pos c12]; exact ⟨rfl, rfl, rfl⟩
    rw [if_neg c12]
    exact ⟨rfl, rfl, rfl⟩
  | LONG_KEY_UP =>
    simp only []
    by_cases c12 : e.key < C.kKeyControlNum
    · rw [if_pos c12]; exact ⟨rfl, rfl, rfl⟩
    rw [if_neg c12]
    exact ⟨rfl, rfl, rfl⟩

/-- The first loop of `PlayerShip::update` leaves the queue of events, the player's
ship and the objects as they are. -/
theorem update_loop_keeps (C : Consts) (events : List PlayerEvent) :
    ∀ sg : PlayerShip × Game,
      (events.foldl (fun sg e => update_event C e sg) sg).1._player_events
          = sg.1._player_events
        ∧ (events.foldl (fun sg e => update_event C e sg) sg).2.ship = sg.2.ship
        ∧ (events.foldl (fun sg e => update_event C e sg) sg).2.objects = sg.2.objects := by
  induction events with
  | nil => intro sg; exact ⟨rfl, rfl, rfl⟩
  | cons e rest ih =>
    intro sg
    rw [List.foldl_cons]
    obtain ⟨a1, a2, a3⟩ := ih (update_event C e sg)
    obtain ⟨b1, b2, b3⟩ := update_event_keeps C e sg
    exact ⟨a1.trans b1, a2.trans b2, a3.trans b3⟩

/-- `PlayerShip::update` with a ship of the player that is not active: it returns
after its first loop, with the queue of events it had before its early return. -/
theorem update_inactive (C : Consts) (enter_message : Bool) (s : PlayerShip) (g : Game)
    (n : Nat) (hship : g.ship = some n) (hactive : (g.objects n).active = 0) :
    ∃ s' g', PlayerShip.update C enter_message s g = Except.ok (s', g')
      ∧ s'._player_events
          = (if enter_message then update_keys_up C s.gTheseKeys else s._player_events) := by
  obtain ⟨k1, k2, k3⟩ := update_loop_keeps C
    (if enter_message then { s with _player_events := update_keys_up C s.gTheseKeys }
      else s)._player_events
    (if enter_message then { s with _player_events := update_keys_up C s.gTheseKeys } else s,
      g)
  unfold PlayerShip.update
  simp only [hship, Option.isNone_some, Bool.false_eq_true, if_false, Game.deref]
  simp only [hship] at k2
  rw [k2]
  simp only []
  rw [k3]
  simp only [hactive, if_true]
  refine ⟨_, _, rfl, ?_⟩
  rw [k1]
  cases enter_message <;> rfl

/-- `PlayerShip::update` with an active ship of the player that is not a player
ship: it returns after the warning of low shields, with the queue of events it had
before its early return. -/
theorem update_not_player_ship (C : Consts) (enter_message : Bool) (s : PlayerShip)
    (g : Game) (n : Nat) (hship : g.ship = some n) (hactive : (g.objects n).active ≠ 0)
    (hattr : (g.objects n).attributes &&& C.kIsPlayerShip = 0) :
    ∃ s' g', PlayerShip.update C enter_message s g = Except.ok (s', g')
      ∧ s'._player_events
          = (if enter_message then update_keys_up C s.gTheseKeys else s._player_events) := by
  obtain ⟨k1, k2, k3⟩ := update_loop_keeps C
    (if enter_message then { s with _player_events := update_keys_up C s.gTheseKeys }
      else s)._player_events
    (if enter_message then { s with _player_events := update_keys_up C s.gTheseKeys } else s,
      g)
  unfold PlayerShip.update
  simp only [hship, Option.isNone_some, Bool.false_eq_true, if_false, Game.deref]
  simp only [hship] at k2
  rw [k2]
  simp only []
  rw [k3]
  simp only [hactive, if_false, hattr, if_true]
  refine ⟨_, _, rfl, ?_⟩
  rw [k1]
  cases enter_message <;> rfl

/-- `PlayerShip::update` with an active player ship: when it returns, the queue of
events is empty. -/
theorem update_clears (C : Consts) (enter_message : Bool) (s s' : PlayerShip) (g g' : Game)
    (n : Nat) (hship : g.ship = some n) (hactive : (g.objects n).active ≠ 0)
    (hattr : (g.objects n).attributes &&& C.kIsPlayerShip ≠ 0)
    (h : PlayerShip.update C enter_message s g = Except.ok (s', g')) :
    s'._player_events = [] := by
  obtain ⟨k1, k2, k3⟩ := update_loop_keeps C
    (if enter_message then { s with _player_events := update_keys_up C s.gTheseKeys }
      else s)._player_events
    (if enter_message then { s with _player_events := update_keys_up C s.gTheseKeys } else s,
      g)
  unfold PlayerShip.update at h
  simp only [hship, Option.isNone_some, Bool.false_eq_true, if_false, Game.deref] at h
  simp only [hship] at k2
  rw [k2] at h
  simp only [] at h
  rw [k3] at h
  simp only [hactive, if_false, hattr] at h
  split at h
  · cases h
  · cases h
    rfl

/-- C21: the code does not do this.  `PlayerShip::update` clears the queue of events
only at its end, which it reaches with an active player ship; its three early
returns leave the queue as it is.  With no ship of the player it returns at once
and changes nothing; with a ship that is not active, or that is not a player ship,
it returns after its first loop with the events that loop has just read still
queued.  Only with an active player ship is the queue empty when it returns.  In
the example the player's ship is not active and the event of the zoom-in key is
queued: the event is still queued after the call, the zoom went from 4 to 3, and a
second call reads the event again, the zoom going to 2.  And with no ship of the
player, the KEY_UP that the release of the left bumper queues is still queued after
a call. -/
theorem update_leaves_events_queued :
    (∀ (C : Consts) (enter_message : Bool) (s : PlayerShip) (g : Game), g.ship = none →
        PlayerShip.update C enter_message s g = Except.ok (s, g))
      ∧ (∀ (C : Consts) (s : PlayerShip) (g : Game) (n : Nat), g.ship = some n →
          (g.objects n).active = 0 ∨ (g.objects n).attributes &&& C.kIsPlayerShip = 0 →
          ∃ s' g', PlayerShip.update C false s g = Except.ok (s', g')
            ∧ s'._player_events = s._player_events)
      ∧ (∀ (C : Consts) (enter_message : Bool) (s s' : PlayerShip) (g g' : Game) (n : Nat),
          g.ship = some n → (g.objects n).active ≠ 0 →
          (g.objects n).attributes &&& C.kIsPlayerShip ≠ 0 →
          PlayerShip.update C enter_message s g = Except.ok (s', g') →
          s'._player_events = [])
      ∧ (example_game_lost.ship = some 0 ∧ (example_game_lost.objects 0).active = 0
          ∧ example_game_lost.zoom = 4
          ∧ example_player_zoom._player_events = [⟨PlayerEventType.KEY_DOWN, 13⟩]
          ∧ (ship_of (PlayerShip.update example_consts false example_player_zoom
                example_game_lost)).1._player_events = [⟨PlayerEventType.KEY_DOWN, 13⟩]
          ∧ (ship_of (PlayerShip.update example_consts false example_player_zoom
                example_game_lost)).2.zoom = 3
          ∧ (ship_of (PlayerShip.update example_consts false
                (ship_of (PlayerShip.update example_consts false example_player_zoom
                  example_game_lost)).1
                (ship_of (PlayerShip.update example_consts false example_player_zoom
                  example_game_lost)).2)).2.zoom = 2)
      ∧ (example_game_no_ship.ship = none
          ∧ (ship_of (PlayerShip.gamepad_button_up example_consts example_player_ship
                Button.LB example_game_no_ship)).1._player_events
              = [⟨PlayerEventType.KEY_UP, 12⟩]
          ∧ (ship_of (PlayerShip.update example_consts false
                (ship_of (PlayerShip.gamepad_button_up example_consts example_player_ship
                  Button.LB example_game_no_ship)).1 example_game_no_ship)).1._player_events
              = [⟨PlayerEventType.KEY_UP, 12⟩]) := by
  refine ⟨?_, ?_, ?_, ⟨rfl, rfl, rfl, rfl, by decide, by decide, by decide⟩,
    ⟨rfl, by decide, by decide⟩⟩
  · intro C enter_message s g hship
    unfold PlayerShip.update
    simp only [hship, Option.isNone_none, if_true]
  · intro C s g n hship hcases
    by_cases hactive : (g.objects n).active = 0
    · obtain ⟨s', g', h1, h2⟩ := update_inactive C false s g n hship hactive
      exact ⟨s', g', h1, h2⟩
    · rcases hcases with h | h
      · exact absurd h hactive
      · obtain ⟨s', g', h1, h2⟩ := update_not_player_ship C false s g n hship hactive h
        exact ⟨s', g', h1, h2⟩
  · intro C enter_message s s' g g' n hship hactive hattr h
    exact update_clears C enter_message s s' g g' n hship hactive hattr h

/-! ### The player's ship: what a selection changes -/

/-- The label of an object other than `none()` is always found: it is the name of
the object with the key of its hot key slot. -/
theorem name_with_hot_key_suffix_some (C : Consts) (g : Game) (n : Nat) :
    name_with_hot_key_suffix C g (some n) = Except.ok (hot_key_name C g n) := by
  unfold name_with_hot_key_suffix HotKey_GetFromObject HotKey_guard hot_key_name hot_key_slot
  simp only [Option.isNone_some, Bool.false_eq_true, if_false, Game.deref]
  cases (List.range C.kHotKeyNum).find? (fun i =>
      decide (g.hotKey_object i = some n) && decide (g.hotKey_objectID i = (g.objects n).id))
    with
  | none => simp
  | some i =>
    simp only []
    have h0 : ¬ ((i : Int) < 0) := by omega
    simp only [h0, if_false, Int.toNat_ofNat]
    split_ifs <;> rfl

/-- No call is no change. -/
theorem Game.call_nil (g : Game) : g.call [] = g := by
  cases g
  simp [Game.call]

/-- Calls after calls are the calls in a row. -/
theorem Game.call_call (g : Game) (cs cs' : List ShipCall) :
    (g.call cs).call cs' = g.call (cs ++ cs') := by
  simp [Game.call, List.append_assoc]

/-- The last block of `SetPlayerSelectShip` for an object `n`: it returns, and it
makes calls only. -/
theorem select_label_calls (C : Consts) (g : Game) (n : Nat) (adm : Handle)
    (label : LabelId) :
    ∃ cs, select_label C (some n) adm label g = Except.ok (g.call cs) := by
  unfold select_label
  by_cases hadm : adm = g.admiral
  · simp only [hadm, if_true, name_with_hot_key_suffix_some]
    by_cases hship : some n = (g.call [ShipCall.sound_select,
        ShipCall.set_object label (some n)]).ship
    · rw [if_pos hship]
      simp only [Game.call_call]
      exact ⟨_, rfl⟩
    · rw [if_neg hship]
      simp only [Game.call_call]
      exact ⟨_, rfl⟩
  · simp only [hadm, if_false]
    exact ⟨[], by rw [Game.call_nil]⟩

/-- The game after the first block of `SetPlayerSelectShip` for the player's
admiral and the object `n`. -/
theorem select_remember_player (g : Game) (n : Nat) (adm : Handle) (hadm : adm = g.admiral) :
    select_remember (some n) adm g
      = Except.ok ({ g with lastSelectedObject := some n,
                            lastSelectedObjectID := (g.objects n).id }).block_dest_key := by
  unfold select_remember
  simp only [hadm, if_true, Game.deref]

/-- The second block of `SetPlayerSelectShip` with a flagship, when it targets, or
when it selects: it returns the game with the target or the control object set to
the object and some calls made. -/
theorem select_assign_calls (C : Consts) (g : Game) (ship flagship : Handle) (a : Nat)
    (target : Bool) (hflag : target = true → flagship ≠ none) :
    ∃ cs label, select_assign C ship target a flagship g
      = Except.ok ((if target then g.set_target a ship else g.set_control a ship).call cs,
          label) := by
  unfold select_assign
  cases target with
  | true =>
    obtain ⟨f, hf⟩ := Option.ne_none_iff_exists'.mp (hflag rfl)
    simp only [if_true, hf, Game.deref]
    split_ifs
    · exact ⟨_, _, rfl⟩
    · exact ⟨[], _, by rw [Game.call_nil]⟩
  | false =>
    simp only [Bool.false_eq_true, if_false]
    exact ⟨[], _, by rw [Game.call_nil]⟩

/-- `SetPlayerSelectShip` for the player's admiral `a`, an object `n` and, when it
targets, a flagship of the admiral: it returns the game in which the object is the
one selected last, a destination key that is down is blocked, the object is the
target or the control object of the admiral, and some calls are made. -/
theorem SetPlayerSelectShip_player (C : Consts) (g : Game) (a n : Nat) (target : Bool)
    (hadm : g.admiral = some a) (hflag : target = true → g.flagship a ≠ none) :
    ∃ cs, SetPlayerSelectShip C (some n) target (some a) g
      = Except.ok
          ((if target then
              (({ g with lastSelectedObject := some n,
                         lastSelectedObjectID := (g.objects n).id }).block_dest_key).set_target
                a (some n)
            else
              (({ g with lastSelectedObject := some n,
                         lastSelectedObjectID := (g.objects n).id }).block_dest_key).set_control
                a (some n)).call cs) := by
  unfold SetPlayerSelectShip
  simp only []
  rw [select_remember_player g n (some a) hadm.symm]
  simp only []
  obtain ⟨cs, label, hassign⟩ := select_assign_calls C
    (({ g with lastSelectedObject := some n,
               lastSelectedObjectID := (g.objects n).id }).block_dest_key)
    (some n) (g.flagship a) a target hflag
  rw [hassign]
  simp only []
  obtain ⟨cs', hlabel⟩ := select_label_calls C _ n (some a) label
  rw [hlabel, Game.call_call]
  exact ⟨_, rfl⟩

/-- Blocking the destination key changes the state of that key only. -/
theorem block_dest_key_objects (g : Game) : g.block_dest_key.objects = g.objects := by
  unfold Game.block_dest_key
  split_ifs <;> rfl

/-- `SetPlayerSelectShip` leaves the objects as they are, whatever it is called
with. -/
theorem SetPlayerSelectShip_objects (C : Consts) (g g' : Game) (ship adm : Handle)
    (target : Bool) (h : SetPlayerSelectShip C ship target adm g = Except.ok g') :
    g'.objects = g.objects := by
  unfold SetPlayerSelectShip at h
  cases adm with
  | none => cases h
  | some a =>
    simp only [] at h
    cases h1 : select_remember ship (some a) g with
    | error e => rw [h1] at h; cases h
    | ok g1 =>
      rw [h1] at h
      simp only [] at h
      have e1 : g1.objects = g.objects := by
        unfold select_remember at h1
        split_ifs at h1
        · cases hd : g.deref ship with
          | error e => rw [hd] at h1; cases h1
          | ok o =>
            rw [hd] at h1
            cases h1
            exact block_dest_key_objects _
        · cases h1
          rfl
      cases h2 : select_assign C ship target a (g.flagship a) g1 with
      | error e => rw [h2] at h; cases h
      | ok gl =>
        rw [h2] at h
        simp only [] at h
        have e2 : gl.1.objects = g1.objects := by
          unfold select_assign at h2
          split_ifs at h2
          · cases hd : (g1.set_target a ship).deref (g.flagship a) with
            | error e => simp only [hd] at h2; cases h2
            | ok f =>
              simp only [hd] at h2
              split_ifs at h2 <;> (cases h2; rfl)
          · cases h2
            rfl
        have e3 : g'.objects = gl.1.objects := by
          unfold select_label at h
          split_ifs at h
          · simp only [] at h
            cases hn : name_with_hot_key_suffix C
                (if ship = (gl.1.call [ShipCall.sound_select,
                      ShipCall.set_object gl.2 ship]).ship then
                    (gl.1.call [ShipCall.sound_select, ShipCall.set_object gl.2 ship]).call
                      [ShipCall.set_age gl.2]
                  else gl.1.call [ShipCall.sound_select, ShipCall.set_object gl.2 ship])
                ship with
            | error e => rw [hn] at h; cases h
            | ok name =>
              rw [hn] at h
              cases h
              split_ifs <;> rfl
          · cases h
            rfl
        rw [e3, e2, e1]

/-! ### The player's ship: what a hot key does -/

/-- The two blocks of `Update_LabelStrings_ForHotKeyChange` for a player with an
admiral: each returns, and makes calls only. -/
theorem update_labels_calls (C : Consts) (g : Game) (a : Nat) (hadm : g.admiral = some a) :
    (∃ cs, update_target_label C g = Except.ok (g.call cs))
      ∧ (∃ cs, update_control_label C g = Except.ok (g.call cs)) := by
  constructor
  · unfold update_target_label Game.admiral_target
    simp only [hadm]
    cases ht : g.target a with
    | none =>
      simp only [Option.isSome_none, Bool.false_eq_true, if_false]
      exact ⟨[], by rw [Game.call_nil]⟩
    | some n =>
      simp only [Option.isSome_some, if_true, name_with_hot_key_suffix_some]
      by_cases hship : some n = (g.call [ShipCall.set_object LabelId.target_label
          (some n)]).ship
      · rw [if_pos hship]
        simp only [Game.call_call]
        exact ⟨_, rfl⟩
      · rw [if_neg hship]
        simp only [Game.call_call]
        exact ⟨_, rfl⟩
  · unfold update_control_label Game.admiral_control
    simp only [hadm]
    cases ht : g.control a with
    | none =>
      simp only [Option.isSome_none, Bool.false_eq_true, if_false]
      exact ⟨[], by rw [Game.call_nil]⟩
    | some n =>
      simp only [Option.isSome_some, if_true, name_with_hot_key_suffix_some]
      by_cases hship : some n = (g.call [ShipCall.set_object LabelId.control_label
          (some n)]).ship
      · rw [if_pos hship]
        simp only [Game.call_call]
        exact ⟨_, rfl⟩
      · rw [if_neg hship]
        simp only [Game.call_call]
        exact ⟨_, rfl⟩

/-- `Update_LabelStrings_ForHotKeyChange` for a player with an admiral returns, and
makes calls only. -/
theorem Update_LabelStrings_calls (C : Consts) (g : Game) (a : Nat)
    (hadm : g.admiral = some a) :
    ∃ cs, Update_LabelStrings_ForHotKeyChange C g = Except.ok (g.call cs) := by
  unfold Update_LabelStrings_ForHotKeyChange
  obtain ⟨cs, hcs⟩ := (update_labels_calls C g a hadm).1
  rw [hcs]
  simp only []
  obtain ⟨cs', hcs'⟩ := (update_labels_calls C (g.call cs) a hadm).2
  rw [hcs', Game.call_call]
  exact ⟨_, rfl⟩

/-- A hot key goes down: the state of its slot is SELECT when the destination key is up
and TARGET when not. -/
theorem hot_key_down (C : Consts) (g : Game) (e : PlayerEvent) (i : Nat)
    (htype : e.type = PlayerEventType.KEY_DOWN) (hindex : hot_key_index C e = (i : Int))
    (hi : i < 10) :
    handle_hotkeys_event C e g
      = Except.ok (g.set_hot_key_state i
          (if g.gDestKeyState = DestKeyState.DEST_KEY_UP then HotKeyState.HOT_KEY_SELECT
           else HotKeyState.HOT_KEY_TARGET)) := by
  unfold handle_hotkeys_event
  have h0 : ¬ ((i : Int) < 0) := by omega
  have h10 : ¬ (10 ≤ i) := by omega
  simp only [hindex, h0, if_false, Int.toNat_ofNat, h10, htype]
  split_ifs <;> rfl

/-- A hot key goes up after a short press, on a slot bound to an object that is
active under the id of the binding: the state of the slot is set to UP, and then
`SetPlayerSelectShip` is called on the object for the player's admiral, to target
when the destination key is not up or the object is not the admiral's, and to
select when not, whatever the state of the slot was; after it, a destination key
that is down is blocked. -/
theorem hot_key_up_bound (C : Consts) (g : Game) (e : PlayerEvent) (i n : Nat)
    (htype : e.type = PlayerEventType.KEY_UP) (hindex : hot_key_index C e = (i : Int))
    (hi : i < 10) (hslots : i < C.kHotKeyNum) (hbound : g.hotKey_object i = some n)
    (hactive : (g.objects n).active ≠ 0) (hid : (g.objects n).id = g.hotKey_objectID i) :
    handle_hotkeys_event C e g
      = (SetPlayerSelectShip C (some n)
            (decide (g.gDestKeyState ≠ DestKeyState.DEST_KEY_UP)
              || decide ((g.objects n).owner ≠ g.admiral))
            g.admiral (g.set_hot_key_state i HotKeyState.HOT_KEY_UP)).map
          Game.block_dest_key := by
  unfold handle_hotkeys_event
  have h0 : ¬ ((i : Int) < 0) := by omega
  have h10 : ¬ (10 ≤ i) := by omega
  have hk : ¬ (C.kHotKeyNum ≤ i) := by omega
  have hb : (g.set_hot_key_state i HotKeyState.HOT_KEY_UP).hotKey_object i = some n := hbound
  have hst : (g.set_hot_key_state i HotKeyState.HOT_KEY_UP).gHotKeyState i
      = HotKeyState.HOT_KEY_UP := by
    simp [Game.set_hot_key_state]
  have hvalid : ((g.set_hot_key_state i HotKeyState.HOT_KEY_UP).objects n).active ≠ 0
      ∧ ((g.set_hot_key_state i HotKeyState.HOT_KEY_UP).objects n).id
          = (g.set_hot_key_state i HotKeyState.HOT_KEY_UP).hotKey_objectID i :=
    ⟨hactive, hid⟩
  simp only [hindex, h0, if_false, Int.toNat_ofNat, h10, htype, hk, hb]
  rw [if_pos hvalid, hst]
  simp only [reduceCtorEq, decide_False, Bool.or_false]
  have hsel : SetPlayerSelectShip C (some n)
      (decide ((g.set_hot_key_state i HotKeyState.HOT_KEY_UP).gDestKeyState
          ≠ DestKeyState.DEST_KEY_UP)
        || decide (((g.set_hot_key_state i HotKeyState.HOT_KEY_UP).objects n).owner
          ≠ (g.set_hot_key_state i HotKeyState.HOT_KEY_UP).admiral))
      (g.set_hot_key_state i HotKeyState.HOT_KEY_UP).admiral
      (g.set_hot_key_state i HotKeyState.HOT_KEY_UP)
      = SetPlayerSelectShip C (some n)
          (decide (g.gDestKeyState ≠ DestKeyState.DEST_KEY_UP)
            || decide ((g.objects n).owner ≠ g.admiral))
          g.admiral (g.set_hot_key_state i HotKeyState.HOT_KEY_UP) := rfl
  rw [hsel]
  cases SetPlayerSelectShip C (some n)
      (decide (g.gDestKeyState ≠ DestKeyState.DEST_KEY_UP)
        || decide ((g.objects n).owner ≠ g.admiral))
      g.admiral (g.set_hot_key_state i HotKeyState.HOT_KEY_UP) <;> rfl

/-- A hot key goes up after a short press, on a slot bound to an object that is not
active or has another id than the binding: the object of the slot is cleared, the
state of the slot is UP, and a destination key that is down is blocked. -/
theorem hot_key_up_stale (C : Consts) (g : Game) (e : PlayerEvent) (i n : Nat)
    (htype : e.type = PlayerEventType.KEY_UP) (hindex : hot_key_index C e = (i : Int))
    (hi : i < 10) (hslots : i < C.kHotKeyNum) (hbound : g.hotKey_object i = some n)
    (hstale : (g.objects n).active = 0 ∨ (g.objects n).id ≠ g.hotKey_objectID i) :
    handle_hotkeys_event C e g
      = Except.ok (((g.set_hot_key_state i HotKeyState.HOT_KEY_UP).set_hot_key_object i
          none).block_dest_key) := by
  unfold handle_hotkeys_event
  have h0 : ¬ ((i : Int) < 0) := by omega
  have h10 : ¬ (10 ≤ i) := by omega
  have hk : ¬ (C.kHotKeyNum ≤ i) := by omega
  have hb : (g.set_hot_key_state i HotKeyState.HOT_KEY_UP).hotKey_object i = some n := hbound
  have hinvalid : ¬ (((g.set_hot_key_state i HotKeyState.HOT_KEY_UP).objects n).active ≠ 0
      ∧ ((g.set_hot_key_state i HotKeyState.HOT_KEY_UP).objects n).id
          = (g.set_hot_key_state i HotKeyState.HOT_KEY_UP).hotKey_objectID i) := by
    rintro ⟨h1, h2⟩
    rcases hstale with h | h
    · exact h1 h
    · exact h h2
  simp only [hindex, h0, if_false, Int.toNat_ofNat, h10, htype, hk, hb]
  rw [if_neg hinvalid]

/-- A hot key goes up after a long press, with an active object selected last and
a player with an admiral: the slot is bound to that object under the id selected
last, its state is UP, and calls are made. -/
theorem hot_key_long_up (C : Consts) (g : Game) (e : PlayerEvent) (i n a : Nat)
    (htype : e.type = PlayerEventType.LONG_KEY_UP) (hindex : hot_key_index C e = (i : Int))
    (hi : i < 10) (hslots : i < C.kHotKeyNum) (hlast : g.lastSelectedObject = some n)
    (hactive : (g.objects n).active ≠ 0) (hadm : g.admiral = some a) :
    ∃ cs, handle_hotkeys_event C e g
      = Except.ok ((((g.set_hot_key_state i HotKeyState.HOT_KEY_UP).set_hot_key_object i
          (some n)).set_hot_key_objectID i g.lastSelectedObjectID).call cs) := by
  unfold handle_hotkeys_event
  have h0 : ¬ ((i : Int) < 0) := by omega
  have h10 : ¬ (10 ≤ i) := by omega
  have hk : ¬ (C.kHotKeyNum ≤ i) := by omega
  have hl : (g.set_hot_key_state i HotKeyState.HOT_KEY_UP).lastSelectedObject = some n :=
    hlast
  have hact : ((g.set_hot_key_state i HotKeyState.HOT_KEY_UP).objects n).active ≠ 0 :=
    hactive
  simp only [hindex, h0, if_false, Int.toNat_ofNat, h10, htype, hk, hl]
  rw [if_pos hact]
  obtain ⟨cs, hcs⟩ := Update_LabelStrings_calls C
    (((g.set_hot_key_state i HotKeyState.HOT_KEY_UP).set_hot_key_object i
      (some n)).set_hot_key_objectID i g.lastSelectedObjectID) a hadm
  have hid : ((g.set_hot_key_state i HotKeyState.HOT_KEY_UP).set_hot_key_object i
      (some n)).lastSelectedObjectID = g.lastSelectedObjectID := rfl
  rw [hid, hcs]
  simp only [Game.call_call]
  exact ⟨_, rfl⟩

/-- The handler of the hot keys for one event is the body of its loop. -/
theorem handle_hotkeys_one (C : Consts) (e : PlayerEvent) (g : Game) :
    handle_hotkeys C [e] g = handle_hotkeys_event C e g := by
  unfold handle_hotkeys
  rw [forEach]
  cases handle_hotkeys_event C e g <;> rfl

/-- Blocking the destination key changes the state of that key only. -/
theorem block_dest_key_fields (g : Game) :
    g.block_dest_key.hotKey_object = g.hotKey_object
      ∧ g.block_dest_key.hotKey_objectID = g.hotKey_objectID
      ∧ g.block_dest_key.gHotKeyState = g.gHotKeyState
      ∧ g.block_dest_key.control = g.control ∧ g.block_dest_key.target = g.target
      ∧ g.block_dest_key.lastSelectedObject = g.lastSelectedObject
      ∧ g.block_dest_key.lastSelectedObjectID = g.lastSelectedObjectID
      ∧ g.block_dest_key.calls = g.calls ∧ g.block_dest_key.objects = g.objects
      ∧ g.block_dest_key.admiral = g.admiral ∧ g.block_dest_key.flagship = g.flagship
      ∧ g.block_dest_key.ship = g.ship := by
  unfold Game.block_dest_key
  split_ifs <;> exact ⟨rfl, rfl, rfl, rfl, rfl, rfl, rfl, rfl, rfl, rfl, rfl, rfl⟩

/-- Setting the state of a slot overwrites the state it had. -/
theorem set_hot_key_state_twice (g : Game) (i : Nat) (st st' : HotKeyState) :
    (g.set_hot_key_state i st).set_hot_key_state i st' = g.set_hot_key_state i st' := by
  unfold Game.set_hot_key_state
  simp only []
  congr 1
  funext j
  split_ifs <;> rfl

/-! ### C22 -/

/-- C22: the code does not do this.  In `handle_hotkeys`, a KEY_UP on a slot `i`
with a valid binding sets `gHotKeyState[i]` to HOT_KEY_UP first and reads it
afterwards for `target`, which is therefore always false: whatever state `st` the
slot had before the event, `SetPlayerSelectShip` is called to target exactly when
the destination key is not up or the ship is not owned by the player's admiral.
In the example the third hot key, bound to the player's cruiser 1, went down
while the destination key was held, so its slot is HOT_KEY_TARGET, and the
destination key was released since: the KEY_UP of the hot key selects the cruiser
(it becomes the control object) and does not target it, both from that state and
as the outcome of the four ticks that lead to it.  The state of the slot is
HOT_KEY_UP afterwards. -/
theorem hot_key_up_forgets_target :
    (∀ (C : Consts) (g : Game) (e : PlayerEvent) (i n : Nat) (st : HotKeyState),
        e.type = PlayerEventType.KEY_UP → hot_key_index C e = (i : Int) → i < 10 →
        i < C.kHotKeyNum → g.hotKey_object i = some n → (g.objects n).active ≠ 0 →
        (g.objects n).id = g.hotKey_objectID i →
        handle_hotkeys_event C e (g.set_hot_key_state i st)
          = (SetPlayerSelectShip C (some n)
                (decide (g.gDestKeyState ≠ DestKeyState.DEST_KEY_UP)
                  || decide ((g.objects n).owner ≠ g.admiral))
                g.admiral (g.set_hot_key_state i HotKeyState.HOT_KEY_UP)).map
              Game.block_dest_key)
      ∧ (example_game_target.gHotKeyState 2 = HotKeyState.HOT_KEY_TARGET
          ∧ example_game_target.gDestKeyState = DestKeyState.DEST_KEY_UP
          ∧ example_game_target.hotKey_object 2 = some 1
          ∧ (example_game_target.objects 1).owner = example_game_target.admiral
          ∧ (game_of (handle_hotkeys example_consts [⟨PlayerEventType.KEY_UP, 36⟩]
                example_game_target)).control 0 = some 1
          ∧ (game_of (handle_hotkeys example_consts [⟨PlayerEventType.KEY_UP, 36⟩]
                example_game_target)).target 0 = none
          ∧ (game_of (handle_hotkeys example_consts [⟨PlayerEventType.KEY_UP, 36⟩]
                example_game_target)).gHotKeyState 2 = HotKeyState.HOT_KEY_UP)
      ∧ ((game_of (hot_key_tick example_consts [⟨PlayerEventType.KEY_DOWN, 36⟩]
            (game_of (hot_key_tick example_consts [⟨PlayerEventType.KEY_DOWN, 20⟩]
              example_game_bound)))).gHotKeyState 2 = HotKeyState.HOT_KEY_TARGET
          ∧ (game_of (hot_key_tick example_consts [⟨PlayerEventType.KEY_UP, 20⟩]
              (game_of (hot_key_tick example_consts [⟨PlayerEventType.KEY_DOWN, 36⟩]
                (game_of (hot_key_tick example_consts [⟨PlayerEventType.KEY_DOWN, 20⟩]
                  example_game_bound)))))).gHotKeyState 2 = HotKeyState.HOT_KEY_TARGET
          ∧ (game_of (hot_key_tick example_consts [⟨PlayerEventType.KEY_UP, 20⟩]
              (game_of (hot_key_tick example_consts [⟨PlayerEventType.KEY_DOWN, 36⟩]
                (game_of (hot_key_tick example_consts [⟨PlayerEventType.KEY_DOWN, 20⟩]
                  example_game_bound)))))).gDestKeyState = DestKeyState.DEST_KEY_UP
          ∧ (game_of (hot_key_tick example_consts [⟨PlayerEventType.KEY_UP, 36⟩]
              (game_of (hot_key_tick example_consts [⟨PlayerEventType.KEY_UP, 20⟩]
                (game_of (hot_key_tick example_consts [⟨PlayerEventType.KEY_DOWN, 36⟩]
                  (game_of (hot_key_tick example_consts [⟨PlayerEventType.KEY_DOWN, 20⟩]
                    example_game_bound)))))))).control 0 = some 1
          ∧ (game_of (hot_key_tick example_consts [⟨PlayerEventType.KEY_UP, 36⟩]
              (game_of (hot_key_tick example_consts [⟨PlayerEventType.KEY_UP, 20⟩]
                (game_of (hot_key_tick example_consts [⟨PlayerEventType.KEY_DOWN, 36⟩]
                  (game_of (hot_key_tick example_consts [⟨PlayerEventType.KEY_DOWN, 20⟩]
                    example_game_bound)))))))).target 0 = none) := by
  refine ⟨?_, ⟨rfl, rfl, rfl, rfl, by decide, by decide, by decide⟩,
    ⟨by decide, by decide, by decide, by decide, by decide⟩⟩
  intro C g e i n st htype hindex hi hslots hbound hactive hid
  have h := hot_key_up_bound C (g.set_hot_key_state i st) e i n htype hindex hi hslots hbound
    hactive hid
  rw [set_hot_key_state_twice] at h
  exact h

/-! ### C23 -/

/-- A short press of a hot key, KEY_DOWN then KEY_UP, on a slot bound to an object
that is active under the id of the binding, for a player with an admiral and a
flagship: the handler returns the game in which the state of the slot is UP, the
object is the one selected last and the target or the control object of the
admiral, a destination key that is down is blocked, and calls are made. -/
theorem hot_key_short_press (C : Consts) (g : Game) (eD eU : PlayerEvent) (i n a : Nat)
    (hD : eD.type = PlayerEventType.KEY_DOWN) (hU : eU.type = PlayerEventType.KEY_UP)
    (hiD : hot_key_index C eD = (i : Int)) (hiU : hot_key_index C eU = (i : Int))
    (hi : i < 10) (hslots : i < C.kHotKeyNum) (hbound : g.hotKey_object i = some n)
    (hactive : (g.objects n).active ≠ 0) (hid : (g.objects n).id = g.hotKey_objectID i)
    (hadm : g.admiral = some a) (hflag : g.flagship a ≠ none) :
    ∃ (target : Bool) (cs : List ShipCall) (gsel : Game),
      SetPlayerSelectShip C (some n) target (some a)
          (g.set_hot_key_state i HotKeyState.HOT_KEY_UP) = Except.ok gsel
        ∧ handle_hotkeys C [eD, eU] g = Except.ok gsel.block_dest_key
        ∧ gsel = (if target then
              (({ g.set_hot_key_state i HotKeyState.HOT_KEY_UP with
                    lastSelectedObject := some n,
                    lastSelectedObjectID := (g.objects n).id }).block_dest_key).set_target
                a (some n)
            else
              (({ g.set_hot_key_state i HotKeyState.HOT_KEY_UP with
                    lastSelectedObject := some n,
                    lastSelectedObjectID := (g.objects n).id }).block_dest_key).set_control
                a (some n)).call cs := by
  have hdown := hot_key_down C g eD i hD hiD hi
  have hup := hot_key_up_bound C (g.set_hot_key_state i
      (if g.gDestKeyState = DestKeyState.DEST_KEY_UP then HotKeyState.HOT_KEY_SELECT
       else HotKeyState.HOT_KEY_TARGET)) eU i n hU hiU hi hslots hbound hactive hid
  rw [set_hot_key_state_twice] at hup
  have hadm' : (g.set_hot_key_state i HotKeyState.HOT_KEY_UP).admiral = some a := hadm
  obtain ⟨cs, hsel⟩ := SetPlayerSelectShip_player C
    (g.set_hot_key_state i HotKeyState.HOT_KEY_UP) a n
    (decide (g.gDestKeyState ≠ DestKeyState.DEST_KEY_UP)
      || decide ((g.objects n).owner ≠ some a)) hadm' (fun _ => hflag)
  refine ⟨_, cs, _, hsel, ?_, rfl⟩
  unfold handle_hotkeys
  rw [forEach, hdown]
  simp only []
  rw [forEach, hup]
  have hadm2 : (g.set_hot_key_state i
      (if g.gDestKeyState = DestKeyState.DEST_KEY_UP then HotKeyState.HOT_KEY_SELECT
       else HotKeyState.HOT_KEY_TARGET)).admiral = some a := hadm
  have hsel' : SetPlayerSelectShip C (some n)
      (decide ((g.set_hot_key_state i
            (if g.gDestKeyState = DestKeyState.DEST_KEY_UP then HotKeyState.HOT_KEY_SELECT
             else HotKeyState.HOT_KEY_TARGET)).gDestKeyState ≠ DestKeyState.DEST_KEY_UP)
        || decide (((g.set_hot_key_state i
            (if g.gDestKeyState = DestKeyState.DEST_KEY_UP then HotKeyState.HOT_KEY_SELECT
             else HotKeyState.HOT_KEY_TARGET)).objects n).owner
          ≠ (g.set_hot_key_state i
            (if g.gDestKeyState = DestKeyState.DEST_KEY_UP then HotKeyState.HOT_KEY_SELECT
             else HotKeyState.HOT_KEY_TARGET)).admiral))
      (g.set_hot_key_state i
        (if g.gDestKeyState = DestKeyState.DEST_KEY_UP then HotKeyState.HOT_KEY_SELECT
         else HotKeyState.HOT_KEY_TARGET)).admiral
      (g.set_hot_key_state i HotKeyState.HOT_KEY_UP)
      = SetPlayerSelectShip C (some n)
          (decide (g.gDestKeyState ≠ DestKeyState.DEST_KEY_UP)
            || decide ((g.objects n).owner ≠ some a))
          (some a) (g.set_hot_key_state i HotKeyState.HOT_KEY_UP) := by
    rw [hadm2]
    rfl
  rw [hsel', hsel]
  rfl

/-- C23: the round trip of a hot key.  From an empty slot `i`, with the object `S`
selected last, active and of the id selected last, and a player with an admiral, a
LONG_KEY_UP on the slot returns with the slot bound to `S` under the id of `S`.
After it, in any game in which the slot is still bound so, `S` is active and of
the same id, and the player has an admiral with a flagship, a short press on the
slot (KEY_DOWN, then KEY_UP) returns, `SetPlayerSelectShip` having been called on
`S` for the player's admiral: `S` is the object selected last and the target or the
control object of the admiral, and the slot is bound to `S` as before. -/
theorem hot_key_round_trip (C : Consts) (g0 : Game) (i S a : Nat) (eL eD eU : PlayerEvent)
    (hevents : (eL.type = PlayerEventType.LONG_KEY_UP ∧ hot_key_index C eL = (i : Int))
      ∧ (eD.type = PlayerEventType.KEY_DOWN ∧ hot_key_index C eD = (i : Int))
      ∧ (eU.type = PlayerEventType.KEY_UP ∧ hot_key_index C eU = (i : Int)))
    (hslot : i < 10 ∧ i < C.kHotKeyNum ∧ g0.hotKey_object i = none)
    (hlast : g0.lastSelectedObject = some S ∧ (g0.objects S).active ≠ 0
      ∧ (g0.objects S).id = g0.lastSelectedObjectID)
    (hadm : g0.admiral = some a) :
    ∃ g1, handle_hotkeys C [eL] g0 = Except.ok g1
      ∧ g1.hotKey_object i = some S ∧ g1.hotKey_objectID i = (g0.objects S).id
      ∧ ∀ (g2 : Game) (a' : Nat),
          g2.hotKey_object i = some S → g2.hotKey_objectID i = (g0.objects S).id →
          (g2.objects S).active ≠ 0 → (g2.objects S).id = (g0.objects S).id →
          g2.admiral = some a' → g2.flagship a' ≠ none →
          ∃ (target : Bool) (gsel g3 : Game),
            SetPlayerSelectShip C (some S) target (some a')
                (g2.set_hot_key_state i HotKeyState.HOT_KEY_UP) = Except.ok gsel
              ∧ handle_hotkeys C [eD, eU] g2 = Except.ok g3
              ∧ g3 = gsel.block_dest_key
              ∧ g3.lastSelectedObject = some S
              ∧ g3.lastSelectedObjectID = (g0.objects S).id
              ∧ (target = true → g3.target a' = some S)
              ∧ (target = false → g3.control a' = some S)
              ∧ g3.hotKey_object i = some S
              ∧ g3.hotKey_objectID i = (g0.objects S).id := by
  obtain ⟨⟨hL, hiL⟩, ⟨hD, hiD⟩, ⟨hU, hiU⟩⟩ := hevents
  obtain ⟨hi, hslots, _⟩ := hslot
  obtain ⟨hsel, hactive, hid⟩ := hlast
  obtain ⟨cs, hlong⟩ := hot_key_long_up C g0 eL i S a hL hiL hi hslots hsel hactive hadm
  rw [handle_hotkeys_one, hlong]
  refine ⟨_, rfl, ?_, ?_, ?_⟩
  · simp [Game.call, Game.set_hot_key_objectID, Game.set_hot_key_object]
  · simp [Game.call, Game.set_hot_key_objectID, hid]
  · intro g2 a' hb2 hid2 hact2 hsame hadm2 hflag2
    obtain ⟨target, cs2, gsel, hcall, hrun, hgsel⟩ := hot_key_short_press C g2 eD eU i S a' hD hU
      hiD hiU hi hslots hb2 hact2 (hsame.trans hid2.symm) hadm2 hflag2
    obtain ⟨b1, b2, b3, b4, b5, b6, b7, _⟩ := block_dest_key_fields gsel
    obtain ⟨c1, c2, c3, c4, c5, c6, c7, _⟩ := block_dest_key_fields
      ({ g2.set_hot_key_state i HotKeyState.HOT_KEY_UP with
          lastSelectedObject := some S, lastSelectedObjectID := (g2.objects S).id })
    refine ⟨target, gsel, _, hcall, hrun, rfl, ?_, ?_, ?_, ?_, ?_, ?_⟩
    · rw [b6, hgsel]
      cases target
      · simp only [Bool.false_eq_true, if_false]
        exact c6
      · simp only [if_true]
        exact c6
    · rw [b7, hgsel, ← hsame]
      cases target
      · simp only [Bool.false_eq_true, if_false]
        exact c7
      · simp only [if_true]
        exact c7
    · intro ht
      rw [b5, hgsel, ht]
      simp [Game.call, Game.set_target]
    · intro ht
      rw [b4, hgsel, ht]
      simp [Game.call, Game.set_control]
    · rw [b1, hgsel]
      cases target
      · simp only [Bool.false_eq_true, if_false]
        exact (congrFun c1 i).trans hb2
      · simp only [if_true]
        exact (congrFun c1 i).trans hb2
    · rw [b2, hgsel]
      cases target
      · simp only [Bool.false_eq_true, if_false]
        exact (congrFun c2 i).trans hid2
      · simp only [if_true]
        exact (congrFun c2 i).trans hid2

/-- A run of C23 in the example game, where the cruiser 1 of the id 11 was selected
last: a long press of the third hot key, of the control number 36, binds its slot
to the cruiser, and a short press after it selects the cruiser and leaves the
binding. -/
theorem hot_key_round_trip_witness :
    (((⟨PlayerEventType.LONG_KEY_UP, 36⟩ : PlayerEvent).type = PlayerEventType.LONG_KEY_UP
          ∧ hot_key_index example_consts ⟨PlayerEventType.LONG_KEY_UP, 36⟩ = ((2 : Nat) : Int))
        ∧ ((⟨PlayerEventType.KEY_DOWN, 36⟩ : PlayerEvent).type = PlayerEventType.KEY_DOWN
          ∧ hot_key_index example_consts ⟨PlayerEventType.KEY_DOWN, 36⟩ = ((2 : Nat) : Int))
        ∧ ((⟨PlayerEventType.KEY_UP, 36⟩ : PlayerEvent).type = PlayerEventType.KEY_UP
          ∧ hot_key_index example_consts ⟨PlayerEventType.KEY_UP, 36⟩ = ((2 : Nat) : Int)))
      ∧ ((2 : Nat) < 10 ∧ 2 < example_consts.kHotKeyNum ∧ example_game.hotKey_object 2 = none)
      ∧ (example_game.lastSelectedObject = some 1 ∧ (example_game.objects 1).active ≠ 0
        ∧ (example_game.objects 1).id = example_game.lastSelectedObjectID)
      ∧ example_game.admiral = some 0
      ∧ ∃ g1, handle_hotkeys example_consts [⟨PlayerEventType.LONG_KEY_UP, 36⟩] example_game
            = Except.ok g1
          ∧ g1.hotKey_object 2 = some 1 ∧ g1.hotKey_objectID 2 = 11
          ∧ ∃ (target : Bool) (gsel g3 : Game),
              SetPlayerSelectShip example_consts (some 1) target (some 0)
                  (g1.set_hot_key_state 2 HotKeyState.HOT_KEY_UP) = Except.ok gsel
                ∧ handle_hotkeys example_consts
                    [⟨PlayerEventType.KEY_DOWN, 36⟩, ⟨PlayerEventType.KEY_UP, 36⟩] g1
                    = Except.ok g3
                ∧ g3 = gsel.block_dest_key
                ∧ g3.lastSelectedObject = some 1
                ∧ g3.lastSelectedObjectID = (example_game.objects 1).id
                ∧ (target = true → g3.target 0 = some 1)
                ∧ (target = false → g3.control 0 = some 1)
                ∧ g3.hotKey_object 2 = some 1
                ∧ g3.hotKey_objectID 2 = (example_game.objects 1).id := by
  have hevents : ((⟨PlayerEventType.LONG_KEY_UP, 36⟩ : PlayerEvent).type
          = PlayerEventType.LONG_KEY_UP
        ∧ hot_key_index example_consts ⟨PlayerEventType.LONG_KEY_UP, 36⟩ = ((2 : Nat) : Int))
      ∧ ((⟨PlayerEventType.KEY_DOWN, 36⟩ : PlayerEvent).type = PlayerEventType.KEY_DOWN
        ∧ hot_key_index example_consts ⟨PlayerEventType.KEY_DOWN, 36⟩ = ((2 : Nat) : Int))
      ∧ ((⟨PlayerEventType.KEY_UP, 36⟩ : PlayerEvent).type = PlayerEventType.KEY_UP
        ∧ hot_key_index example_consts ⟨PlayerEventType.KEY_UP, 36⟩ = ((2 : Nat) : Int)) :=
    ⟨⟨rfl, by decide⟩, ⟨rfl, by decide⟩, ⟨rfl, by decide⟩⟩
  have hslot : (2 : Nat) < 10 ∧ 2 < example_consts.kHotKeyNum
      ∧ example_game.hotKey_object 2 = none := ⟨by decide, by decide, rfl⟩
  have hlast : example_game.lastSelectedObject = some 1 ∧ (example_game.objects 1).active ≠ 0
      ∧ (example_game.objects 1).id = example_game.lastSelectedObjectID :=
    ⟨rfl, by decide, rfl⟩
  obtain ⟨g1, h1, h2, h3, h4⟩ := hot_key_round_trip example_consts example_game 2 1 0
    ⟨PlayerEventType.LONG_KEY_UP, 36⟩ ⟨PlayerEventType.KEY_DOWN, 36⟩
    ⟨PlayerEventType.KEY_UP, 36⟩ hevents hslot hlast rfl
  have hg1 : g1 = game_of (handle_hotkeys example_consts [⟨PlayerEventType.LONG_KEY_UP, 36⟩]
      example_game) := by
    rw [h1]
    rfl
  refine ⟨hevents, hslot, hlast, rfl, g1, h1, h2, h3, ?_⟩
  refine h4 g1 0 h2 h3 ?_ ?_ ?_ ?_
  · rw [hg1]
    decide
  · rw [hg1]
    decide
  · rw [hg1]
    rfl
  · rw [hg1]
    decide

/-! ### C24 -/

/-- C24: in `handle_hotkeys`, a KEY_UP of the hot key of the slot `i`, which is bound
to an object that is not active any more or whose id is not the id of the binding,
returns with the object of the slot cleared to none and with no selection: the
control objects and targets of the admirals and the object selected last are as
before and no call was made to a collaborator, which `SetPlayerSelectShip` would
have made for the player.  The state of the slot is UP, and the other slots and the
objects are as before. -/
theorem stale_hot_key_is_cleared (C : Consts) (g : Game) (e : PlayerEvent) (i n : Nat)
    (hevent : e.type = PlayerEventType.KEY_UP ∧ hot_key_index C e = (i : Int))
    (hslot : i < 10 ∧ i < C.kHotKeyNum ∧ g.hotKey_object i = some n)
    (hstale : (g.objects n).active = 0 ∨ (g.objects n).id ≠ g.hotKey_objectID i) :
    ∃ g', handle_hotkeys C [e] g = Except.ok g'
      ∧ g'.hotKey_object i = none
      ∧ g'.control = g.control ∧ g'.target = g.target
      ∧ g'.lastSelectedObject = g.lastSelectedObject
      ∧ g'.lastSelectedObjectID = g.lastSelectedObjectID
      ∧ g'.calls = g.calls
      ∧ g'.gHotKeyState i = HotKeyState.HOT_KEY_UP
      ∧ (∀ j, j ≠ i → g'.hotKey_object j = g.hotKey_object j)
      ∧ g'.objects = g.objects := by
  obtain ⟨htype, hindex⟩ := hevent
  obtain ⟨hi, hslots, hbound⟩ := hslot
  rw [handle_hotkeys_one, hot_key_up_stale C g e i n htype hindex hi hslots hbound hstale]
  obtain ⟨b1, b2, b3, b4, b5, b6, b7, b8, b9, _⟩ := block_dest_key_fields
    ((g.set_hot_key_state i HotKeyState.HOT_KEY_UP).set_hot_key_object i none)
  refine ⟨_, rfl, ?_, b4, b5, b6, b7, b8, ?_, ?_, b9⟩
  · rw [b1]
    simp [Game.set_hot_key_object]
  · rw [b3]
    simp [Game.set_hot_key_object, Game.set_hot_key_state]
  · intro j hj
    rw [b1]
    simp [Game.set_hot_key_object, Game.set_hot_key_state, hj]

/-- A run of C24: the third hot key, of the control number 36, is bound to the
wreck 3, which is not active; its KEY_UP clears the slot and selects nothing. -/
theorem stale_hot_key_is_cleared_witness :
    ((⟨PlayerEventType.KEY_UP, 36⟩ : PlayerEvent).type = PlayerEventType.KEY_UP
        ∧ hot_key_index example_consts ⟨PlayerEventType.KEY_UP, 36⟩ = ((2 : Nat) : Int))
      ∧ ((2 : Nat) < 10 ∧ 2 < example_consts.kHotKeyNum
        ∧ example_game_wreck.hotKey_object 2 = some 3)
      ∧ (example_game_wreck.objects 3).active = 0
      ∧ ∃ g', handle_hotkeys example_consts [⟨PlayerEventType.KEY_UP, 36⟩] example_game_wreck
            = Except.ok g'
          ∧ g'.hotKey_object 2 = none
          ∧ g'.control = example_game_wreck.control ∧ g'.target = example_game_wreck.target
          ∧ g'.lastSelectedObject = example_game_wreck.lastSelectedObject
          ∧ g'.lastSelectedObjectID = example_game_wreck.lastSelectedObjectID
          ∧ g'.calls = example_game_wreck.calls
          ∧ g'.gHotKeyState 2 = HotKeyState.HOT_KEY_UP
          ∧ (∀ j, j ≠ 2 → g'.hotKey_object j = example_game_wreck.hotKey_object j)
          ∧ g'.objects = example_game_wreck.objects :=
  ⟨⟨rfl, by decide⟩, ⟨by decide, by decide, rfl⟩, rfl,
    stale_hot_key_is_cleared example_consts example_game_wreck ⟨PlayerEventType.KEY_UP, 36⟩
      2 3 ⟨rfl, by decide⟩ ⟨by decide, by decide, rfl⟩ (Or.inl rfl)⟩

/-! ### C25 -/

/-- The bit tests of the states of the bumpers, for flags that are single bits apart
from each other. -/
theorem bumper_bits (C : Consts) (a b c : Nat) (hab : a ≠ b) (hac : a ≠ c) (hbc : b ≠ c)
    (hS : C.SELECT_BUMPER = 2 ^ a) (hT : C.TARGET_BUMPER = 2 ^ b) (hO : C.OVERRIDE = 2 ^ c)
    (hSO : C.SELECT_BUMPER_OVERRIDE = C.SELECT_BUMPER ||| C.OVERRIDE)
    (hTO : C.TARGET_BUMPER_OVERRIDE = C.TARGET_BUMPER ||| C.OVERRIDE) :
    (C.SELECT_BUMPER &&& C.SELECT_BUMPER ≠ 0 ∧ C.SELECT_BUMPER &&& C.TARGET_BUMPER = 0
      ∧ C.SELECT_BUMPER &&& C.OVERRIDE = 0)
    ∧ (C.TARGET_BUMPER &&& C.SELECT_BUMPER = 0 ∧ C.TARGET_BUMPER &&& C.TARGET_BUMPER ≠ 0
      ∧ C.TARGET_BUMPER &&& C.OVERRIDE = 0)
    ∧ (C.SELECT_BUMPER_OVERRIDE &&& C.SELECT_BUMPER ≠ 0
      ∧ C.SELECT_BUMPER_OVERRIDE &&& C.TARGET_BUMPER = 0
      ∧ C.SELECT_BUMPER_OVERRIDE &&& C.OVERRIDE ≠ 0)
    ∧ (C.TARGET_BUMPER_OVERRIDE &&& C.SELECT_BUMPER = 0
      ∧ C.TARGET_BUMPER_OVERRIDE &&& C.TARGET_BUMPER ≠ 0
      ∧ C.TARGET_BUMPER_OVERRIDE &&& C.OVERRIDE ≠ 0) := by
  rw [hSO, hTO, hS, hT, hO]
  simp only [Nat.and_two_pow, Nat.testBit_or, Nat.testBit_two_pow]
  simp [hab, hac, hbc, hab.symm, hac.symm, hbc.symm]

/-- One event of a bumper that is physically possible: the method returns, and the
state of the bumpers is again the one of the bumpers held. -/
theorem bumper_step (C : Consts) (a b c : Nat) (hab : a ≠ b) (hac : a ≠ c) (hbc : b ≠ c)
    (hno : C.NO_BUMPER = 0)
    (hS : C.SELECT_BUMPER = 2 ^ a) (hT : C.TARGET_BUMPER = 2 ^ b) (hO : C.OVERRIDE = 2 ^ c)
    (hSO : C.SELECT_BUMPER_OVERRIDE = C.SELECT_BUMPER ||| C.OVERRIDE)
    (hTO : C.TARGET_BUMPER_OVERRIDE = C.TARGET_BUMPER ||| C.OVERRIDE)
    (s : PlayerShip) (g : Game) (h h' : Bumpers) (button : Button) (down : Bool)
    (hstate : s._gamepad_state = h.state C) (hafter : h.after button down = some h') :
    ∃ s', (if down then PlayerShip.gamepad_button_down C s button g
            else PlayerShip.gamepad_button_up C s button g) = Except.ok (s', g)
      ∧ s'._gamepad_state = h'.state C := by
  obtain ⟨⟨s1, s2, s3⟩, ⟨t1, t2, t3⟩, ⟨so1, so2, so3⟩, ⟨to1, to2, to3⟩⟩ :=
    bumper_bits C a b c hab hac hbc hS hT hO hSO hTO
  have z1 : (0 : Nat) &&& C.SELECT_BUMPER = 0 := Nat.zero_and _
  have z2 : (0 : Nat) &&& C.TARGET_BUMPER = 0 := Nat.zero_and _
  have z3 : (0 : Nat) &&& C.OVERRIDE = 0 := Nat.zero_and _
  have hS0 : C.SELECT_BUMPER ≠ 0 := by rw [hS]; positivity
  have hT0 : C.TARGET_BUMPER ≠ 0 := by rw [hT]; positivity
  obtain ⟨lb, rb, lb_last⟩ := h
  cases button <;> cases down <;> cases lb <;> cases rb <;>
    simp only [Bumpers.after, Bool.false_eq_true, if_false, if_true, Option.some.injEq,
      reduceCtorEq] at hafter <;>
    subst hafter <;>
    simp only [Bumpers.state, hno] at hstate ⊢ <;>
    simp only [PlayerShip.gamepad_button_down, PlayerShip.gamepad_button_up, bumper_down,
      bumper_up, hstate, if_true, Bool.false_eq_true, if_false]
  all_goals
    cases lb_last <;>
      simp [z1, z2, z3, s1, s2, s3, t1, t2, t3, so1, so2, so3, to1, to2, to3, hno, hS0, hT0]

/-- A sequence of events of the bumpers that is physically possible: the methods
return, and the state of the bumpers at the end is the one of the bumpers held. -/
theorem bumper_run (C : Consts) (a b c : Nat) (hab : a ≠ b) (hac : a ≠ c) (hbc : b ≠ c)
    (hno : C.NO_BUMPER = 0)
    (hS : C.SELECT_BUMPER = 2 ^ a) (hT : C.TARGET_BUMPER = 2 ^ b) (hO : C.OVERRIDE = 2 ^ c)
    (hSO : C.SELECT_BUMPER_OVERRIDE = C.SELECT_BUMPER ||| C.OVERRIDE)
    (hTO : C.TARGET_BUMPER_OVERRIDE = C.TARGET_BUMPER ||| C.OVERRIDE) (g : Game) :
    ∀ (events : List (Button × Bool)) (s : PlayerShip) (h h' : Bumpers),
      s._gamepad_state = h.state C → Bumpers.run events h = some h' →
      ∃ s', gamepad_events C events (s, g) = Except.ok (s', g)
        ∧ s'._gamepad_state = h'.state C := by
  intro events
  induction events with
  | nil =>
    intro s h h' hstate hrun
    simp only [Bumpers.run, Option.some.injEq] at hrun
    subst hrun
    exact ⟨s, rfl, hstate⟩
  | cons e rest ih =>
    intro s h h' hstate hrun
    rw [Bumpers.run] at hrun
    cases hafter : h.after e.1 e.2 with
    | none => rw [hafter] at hrun; cases hrun
    | some h1 =>
      rw [hafter] at hrun
      obtain ⟨s1, hs1, hstate1⟩ :=
        bumper_step C a b c hab hac hbc hno hS hT hO hSO hTO s g h h1 e.1 e.2 hstate hafter
      obtain ⟨s', hs', hstate'⟩ := ih s1 h1 h' hstate1 hrun
      refine ⟨s', ?_, hstate'⟩
      unfold gamepad_events at hs' ⊢
      rw [forEach]
      simp only []
      rw [hs1]
      exact hs'

/-- The first events of a sequence that is physically possible are physically
possible. -/
theorem bumper_run_take : ∀ (events : List (Button × Bool)) (h h' : Bumpers) (n : Nat),
    Bumpers.run events h = some h' → ∃ hn, Bumpers.run (events.take n) h = some hn := by
  intro events
  induction events with
  | nil =>
    intro h h' n _
    exact ⟨h, by simp [Bumpers.run]⟩
  | cons e rest ih =>
    intro h h' n hrun
    cases n with
    | zero => exact ⟨h, by simp [Bumpers.run]⟩
    | succ n =>
      rw [Bumpers.run] at hrun
      cases hafter : h.after e.1 e.2 with
      | none => rw [hafter] at hrun; cases hrun
      | some h1 =>
        rw [hafter] at hrun
        obtain ⟨hn, hhn⟩ := ih h1 h' n hrun
        refine ⟨hn, ?_⟩
        rw [List.take_succ_cons, Bumpers.run, hafter]
        exact hhn

/-- C25: let the flags of the states of the bumpers be as the bit tests of the code
imply (`NO_BUMPER` is 0, `SELECT_BUMPER`, `TARGET_BUMPER` and `OVERRIDE` are three
single bits apart from each other, and the two override states are a bumper with
`OVERRIDE`), and let the state be `NO_BUMPER` with no bumper held.  Then for
every sequence of LB and RB going down and up that is physically possible (a
bumper goes down when it is released and up when it is held), `gamepad_button_down`
and `gamepad_button_up` return at every event, and after every event the state is
the one of the bumpers held: `NO_BUMPER` for none, `SELECT_BUMPER` for RB alone,
`TARGET_BUMPER` for LB alone, and for both `TARGET_BUMPER_OVERRIDE` when LB was
pressed last and `SELECT_BUMPER_OVERRIDE` when RB was. -/
theorem bumpers_follow_held (C : Consts) (a b c : Nat)
    (hbits : a ≠ b ∧ a ≠ c ∧ b ≠ c)
    (hflags : C.NO_BUMPER = 0 ∧ C.SELECT_BUMPER = 2 ^ a ∧ C.TARGET_BUMPER = 2 ^ b
      ∧ C.OVERRIDE = 2 ^ c
      ∧ C.SELECT_BUMPER_OVERRIDE = C.SELECT_BUMPER ||| C.OVERRIDE
      ∧ C.TARGET_BUMPER_OVERRIDE = C.TARGET_BUMPER ||| C.OVERRIDE)
    (events : List (Button × Bool)) (s : PlayerShip) (g : Game) (h : Bumpers)
    (hinit : s._gamepad_state = C.NO_BUMPER)
    (hrun : Bumpers.run events ⟨false, false, false⟩ = some h) :
    ∀ n : Nat, ∃ (hn : Bumpers) (sn : PlayerShip),
      Bumpers.run (events.take n) ⟨false, false, false⟩ = some hn
        ∧ gamepad_events C (events.take n) (s, g) = Except.ok (sn, g)
        ∧ sn._gamepad_state = hn.state C
        ∧ (hn.lb = false → hn.rb = false → sn._gamepad_state = C.NO_BUMPER)
        ∧ (hn.lb = false → hn.rb = true → sn._gamepad_state = C.SELECT_BUMPER)
        ∧ (hn.lb = true → hn.rb = false → sn._gamepad_state = C.TARGET_BUMPER)
        ∧ (hn.lb = true → hn.rb = true → hn.lb_last = true →
            sn._gamepad_state = C.TARGET_BUMPER_OVERRIDE)
        ∧ (hn.lb = true → hn.rb = true → hn.lb_last = false →
            sn._gamepad_state = C.SELECT_BUMPER_OVERRIDE) := by
  intro n
  obtain ⟨hab, hac, hbc⟩ := hbits
  obtain ⟨hno, hS, hT, hO, hSO, hTO⟩ := hflags
  obtain ⟨hn, hhn⟩ := bumper_run_take events ⟨false, false, false⟩ h n hrun
  obtain ⟨sn, hsn, hstate⟩ := bumper_run C a b c hab hac hbc hno hS hT hO hSO hTO g
    (events.take n) s ⟨false, false, false⟩ hn (by rw [hinit]; rfl) hhn
  refine ⟨hn, sn, hhn, hsn, hstate, ?_, ?_, ?_, ?_, ?_⟩ <;>
    (intros; simp_all [Bumpers.state])

/-- A run of C25, with the flags 1, 2 and 4: RB goes down, LB goes down, LB goes
up, RB goes up.  After the third event, the release of the second bumper, the state
is `SELECT_BUMPER` again and not `NO_BUMPER`. -/
theorem bumpers_follow_held_witness :
    ((0 : Nat) ≠ 1 ∧ (0 : Nat) ≠ 2 ∧ (1 : Nat) ≠ 2)
      ∧ (example_consts.NO_BUMPER = 0 ∧ example_consts.SELECT_BUMPER = 2 ^ 0
          ∧ example_consts.TARGET_BUMPER = 2 ^ 1 ∧ example_consts.OVERRIDE = 2 ^ 2
          ∧ example_consts.SELECT_BUMPER_OVERRIDE
              = example_consts.SELECT_BUMPER ||| example_consts.OVERRIDE
          ∧ example_consts.TARGET_BUMPER_OVERRIDE
              = example_consts.TARGET_BUMPER ||| example_consts.OVERRIDE)
      ∧ example_player_ship._gamepad_state = example_consts.NO_BUMPER
      ∧ Bumpers.run [(Button.RB, true), (Button.LB, true), (Button.LB, false),
            (Button.RB, false)] ⟨false, false, false⟩ = some ⟨false, false, true⟩
      ∧ (∃ (hn : Bumpers) (sn : PlayerShip),
          Bumpers.run ([(Button.RB, true), (Button.LB, true), (Button.LB, false),
              (Button.RB, false)].take 3) ⟨false, false, false⟩ = some hn
            ∧ gamepad_events example_consts ([(Button.RB, true), (Button.LB, true),
                (Button.LB, false), (Button.RB, false)].take 3)
                (example_player_ship, example_game) = Except.ok (sn, example_game)
            ∧ sn._gamepad_state = hn.state example_consts
            ∧ (hn.lb = false → hn.rb = false → sn._gamepad_state = example_consts.NO_BUMPER)
            ∧ (hn.lb = false → hn.rb = true →
                sn._gamepad_state = example_consts.SELECT_BUMPER)
            ∧ (hn.lb = true → hn.rb = false →
                sn._gamepad_state = example_consts.TARGET_BUMPER)
            ∧ (hn.lb = true → hn.rb = true → hn.lb_last = true →
                sn._gamepad_state = example_consts.TARGET_BUMPER_OVERRIDE)
            ∧ (hn.lb = true → hn.rb = true → hn.lb_last = false →
                sn._gamepad_state = example_consts.SELECT_BUMPER_OVERRIDE))
      ∧ Bumpers.run ([(Button.RB, true), (Button.LB, true), (Button.LB, false),
            (Button.RB, false)].take 3) ⟨false, false, false⟩ = some ⟨false, true, true⟩ :=
  ⟨by decide, by decide, rfl, rfl,
    bumpers_follow_held example_consts 0 1 2 (by decide) (by decide)
      [(Button.RB, true), (Button.LB, true), (Button.LB, false), (Button.RB, false)]
      example_player_ship example_game ⟨false, false, true⟩ rfl rfl 3, rfl⟩

/-! ### C26 -/

/-- The absolute value of a difference below `2^31`, computed in `int` and stored
in a 32-bit unsigned number, is the absolute value. -/
theorem abs_int_uint32 (x : Int) (h : x.natAbs < 2 ^ 31) :
    to_uint32 (ABS_int x) = x.natAbs := by
  have h1 : to_int32 x = x := by
    unfold to_int32
    omega
  unfold ABS_int to_uint32
  rw [h1]
  split_ifs <;> omega

/-- The squared distance of `pick_object` for differences `dx` and `dy` below
`2^31`, when `2 * kMaximumRelevantDistance^2` is below `2^32`: it is
`dx * dx + dy * dy`. -/
theorem pick_object_distance_eq (C : Consts) (origin_ship select_ship : SpaceObject)
    (hdx : (origin_ship.location.h - select_ship.location.h).natAbs < 2 ^ 31)
    (hdy : (origin_ship.location.v - select_ship.location.v).natAbs < 2 ^ 31)
    (hmax : 2 * C.kMaximumRelevantDistance ^ 2 < 2 ^ 32) :
    pick_object_distance C origin_ship select_ship
      = (origin_ship.location.h - select_ship.location.h).natAbs
          * (origin_ship.location.h - select_ship.location.h).natAbs
        + (origin_ship.location.v - select_ship.location.v).natAbs
          * (origin_ship.location.v - select_ship.location.v).natAbs := by
  unfold pick_object_distance
  simp only [abs_int_uint32 _ hdx, abs_int_uint32 _ hdy]
  generalize (origin_ship.location.h - select_ship.location.h).natAbs = dx at *
  generalize (origin_ship.location.v - select_ship.location.v).natAbs = dy at *
  have hxx : dx * dx < 2 ^ 62 := by nlinarith
  have hyy : dy * dy < 2 ^ 62 := by nlinarith
  split_ifs with hfar
  · unfold MyWideMul
    rw [Nat.mod_eq_of_lt (by omega : dx * dx < 2 ^ 64),
      Nat.mod_eq_of_lt (by omega : dy * dy < 2 ^ 64), Nat.mod_eq_of_lt (by omega)]
    omega
  · have hx : dx ≤ C.kMaximumRelevantDistance := by omega
    have hy : dy ≤ C.kMaximumRelevantDistance := by omega
    have hxx' : dx * dx ≤ C.kMaximumRelevantDistance ^ 2 := by nlinarith
    have hyy' : dy * dy ≤ C.kMaximumRelevantDistance ^ 2 := by nlinarith
    rw [Nat.mod_eq_of_lt (by omega)]
    omega

/-- C26: in `pick_object`, for an origin ship `o` and a candidate `n` whose
differences `dx = |origin.h - candidate.h|` and `dy = |origin.v - candidate.v|` are
below `2^31`, and a `kMaximumRelevantDistance` with
`2 * kMaximumRelevantDistance^2 < 2^32`: the squared distance is exactly
`dx * dx + dy * dy`, through the 32-bit sum when both differences are within
`kMaximumRelevantDistance`, where that sum does not wrap, and through the wide
products otherwise; whenever `pick_object` returns, this is the value of
`distanceFromPlayer` of the candidate; and `pick_object` returns with it when
`GetManualSelectObject` finds nothing. -/
theorem pick_object_distance_exact (C : Consts) (g : Game) (o n : Nat) (direction : Int)
    (destination : Bool) (attributes nonattributes : Nat) (allegiance : Allegiance)
    (hdx : ((g.objects o).location.h - (g.objects n).location.h).natAbs < 2 ^ 31)
    (hdy : ((g.objects o).location.v - (g.objects n).location.v).natAbs < 2 ^ 31)
    (hmax : 2 * C.kMaximumRelevantDistance ^ 2 < 2 ^ 32) :
    pick_object_distance C (g.objects o) (g.objects n)
        = ((g.objects o).location.h - (g.objects n).location.h).natAbs
            * ((g.objects o).location.h - (g.objects n).location.h).natAbs
          + ((g.objects o).location.v - (g.objects n).location.v).natAbs
            * ((g.objects o).location.v - (g.objects n).location.v).natAbs
      ∧ (((g.objects o).location.h - (g.objects n).location.h).natAbs
            ≤ C.kMaximumRelevantDistance →
          ((g.objects o).location.v - (g.objects n).location.v).natAbs
            ≤ C.kMaximumRelevantDistance →
          ((g.objects o).location.v - (g.objects n).location.v).natAbs
              * ((g.objects o).location.v - (g.objects n).location.v).natAbs
            + ((g.objects o).location.h - (g.objects n).location.h).natAbs
              * ((g.objects o).location.h - (g.objects n).location.h).natAbs < 2 ^ 32)
      ∧ (∀ g', pick_object C (some o) direction destination attributes nonattributes
            (some n) allegiance g = Except.ok g' →
          (g'.objects n).distanceFromPlayer
            = ((g.objects o).location.h - (g.objects n).location.h).natAbs
                * ((g.objects o).location.h - (g.objects n).location.h).natAbs
              + ((g.objects o).location.v - (g.objects n).location.v).natAbs
                * ((g.objects o).location.v - (g.objects n).location.v).natAbs)
      ∧ (C.GetManualSelectObject
            (g.set_object n { g.objects n with
              distanceFromPlayer := pick_object_distance C (g.objects o) (g.objects n) })
            (some o) direction attributes nonattributes
            (pick_object_distance C (g.objects o) (g.objects n)) (some n) allegiance = none →
          ∃ g', pick_object C (some o) direction destination attributes nonattributes
            (some n) allegiance g = Except.ok g') := by
  have hd := pick_object_distance_eq C (g.objects o) (g.objects n) hdx hdy hmax
  refine ⟨hd, ?_, ?_, ?_⟩
  · intro hx hy
    have hxx' : ((g.objects o).location.h - (g.objects n).location.h).natAbs
        * ((g.objects o).location.h - (g.objects n).location.h).natAbs
          ≤ C.kMaximumRelevantDistance ^ 2 := by
      rw [pow_two]
      exact Nat.mul_le_mul hx hx
    have hyy' : ((g.objects o).location.v - (g.objects n).location.v).natAbs
        * ((g.objects o).location.v - (g.objects n).location.v).natAbs
          ≤ C.kMaximumRelevantDistance ^ 2 := by
      rw [pow_two]
      exact Nat.mul_le_mul hy hy
    omega
  · intro g' hg'
    unfold pick_object at hg'
    simp only [Game.deref] at hg'
    have hstored : ∀ g1 : Game,
        g1.objects = (g.set_object n { g.objects n with
          distanceFromPlayer := pick_object_distance C (g.objects o) (g.objects n) }).objects →
        (g1.objects n).distanceFromPlayer
          = pick_object_distance C (g.objects o) (g.objects n) := by
      intro g1 h1
      rw [h1]
      simp [Game.set_object]
    rw [← hd]
    split_ifs at hg' with hfound hdest
    · exact hstored g' (by rw [SetPlayerSelectShip_objects C _ g' _ _ _ hg']; rfl)
    · exact hstored g' (by rw [SetPlayerSelectShip_objects C _ g' _ _ _ hg']; rfl)
    · cases hg'
      exact hstored _ rfl
  · intro hnone
    unfold pick_object
    simp only [Game.deref, hnone, Option.isSome_none, Bool.false_eq_true, if_false]
    exact ⟨_, rfl⟩

/-- Two runs of C26 in the example game, whose `kMaximumRelevantDistance` is 46340:
from the player's ship at (1000, 1000) the cruiser at (1300, 600) is at the squared
distance `300 * 300 + 400 * 400`, and the foe at (90000, 1000), which is beyond the
relevant distance, at `89000 * 89000`, a number above `2^32`. -/
theorem pick_object_distance_exact_witness :
    (((example_game.objects 0).location.h - (example_game.objects 1).location.h).natAbs
          < 2 ^ 31
        ∧ ((example_game.objects 0).location.v - (example_game.objects 1).location.v).natAbs
          < 2 ^ 31
        ∧ 2 * example_consts.kMaximumRelevantDistance ^ 2 < 2 ^ 32)
      ∧ pick_object_distance example_consts (example_game.objects 0)
          (example_game.objects 1) = 300 * 300 + 400 * 400
      ∧ (∃ g', pick_object example_consts (some 0) 0 false 0x400 0x100000 (some 1)
            Allegiance.FRIENDLY example_game = Except.ok g'
          ∧ (g'.objects 1).distanceFromPlayer = 250000)
      ∧ (((example_game.objects 0).location.h - (example_game.objects 2).location.h).natAbs
          < 2 ^ 31
        ∧ ((example_game.objects 0).location.v - (example_game.objects 2).location.v).natAbs
          < 2 ^ 31)
      ∧ pick_object_distance example_consts (example_game.objects 0)
          (example_game.objects 2) = 89000 * 89000 + 0 * 0
      ∧ 2 ^ 32 < 89000 * 89000 := by
  have h1 := pick_object_distance_exact example_consts example_game 0 1 0 false 0x400
    0x100000 Allegiance.FRIENDLY (by decide) (by decide) (by decide)
  have h2 := pick_object_distance_exact example_consts example_game 0 2 0 true 0x400
    0x100000 Allegiance.HOSTILE (by decide) (by decide) (by decide)
  refine ⟨⟨by decide, by decide, by decide⟩, h1.1, ?_, ⟨by decide, by decide⟩, h2.1,
    by decide⟩
  refine ⟨game_of (pick_object example_consts (some 0) 0 false 0x400 0x100000 (some 1)
    Allegiance.FRIENDLY example_game), rfl, ?_⟩
  exact h1.2.2.1 _ rfl

/-! ### C27 -/

/-- What `HotKey_GetFromObject` returns for a handle that is not `none()`, whether
its object is active or not: the lowest slot bound to the object under its present
id, or -1 when there is none. -/
theorem HotKey_GetFromObject_some (C : Consts) (g : Game) (n : Nat) :
    ∃ r : Int, HotKey_GetFromObject C g (some n) = Except.ok r
      ∧ ((r = -1 ∧ ∀ i : Nat, i < C.kHotKeyNum →
            ¬ (g.hotKey_object i = some n ∧ g.hotKey_objectID i = (g.objects n).id))
        ∨ (∃ i : Nat, r = (i : Int) ∧ i < C.kHotKeyNum
            ∧ g.hotKey_object i = some n ∧ g.hotKey_objectID i = (g.objects n).id
            ∧ ∀ j : Nat, j < i →
                ¬ (g.hotKey_object j = some n ∧ g.hotKey_objectID j = (g.objects n).id))) := by
  unfold HotKey_GetFromObject HotKey_guard
  simp only [Option.isNone_some, Bool.false_eq_true, if_false, Game.deref]
  cases hf : (List.range C.kHotKeyNum).find? (fun i =>
      decide (g.hotKey_object i = some n) && decide (g.hotKey_objectID i = (g.objects n).id))
    with
  | none =>
    refine ⟨-1, rfl, Or.inl ⟨rfl, ?_⟩⟩
    intro i hi hmatch
    have := List.find?_eq_none.mp hf i (List.mem_range.mpr hi)
    simp [hmatch.1, hmatch.2] at this
  | some i =>
    refine ⟨(i : Int), rfl, Or.inr ⟨i, rfl, ?_⟩⟩
    rw [List.find?_range_eq_some] at hf
    obtain ⟨hp, hi, hlt⟩ := hf
    simp only [Bool.and_eq_true, decide_eq_true_eq] at hp
    refine ⟨List.mem_range.mp hi, hp.1, hp.2, ?_⟩
    intro j hj hmatch
    have := hlt j hj
    simp [hmatch.1, hmatch.2] at this

/-- C27: the code does not do this.  For the handle `none()` the test
`!object.get() && !object->active` of `HotKey_GetFromObject` evaluates its right
operand, so the null handle is dereferenced; and for a handle of an object that is
not active the test fails, so the slots are searched all the same and the slot of
the object is returned: the wreck 3 of the example, which is not active and bound
to the third hot key, gets 2 and not -1.  For a handle other than `none()` the
result is the lowest matching slot or -1, whether the object is active or not. -/
theorem hot_key_from_object_guard :
    (∀ (C : Consts) (g : Game),
        HotKey_GetFromObject C g none = Except.error Fault.null_handle)
    ∧ (example_game_wreck.objects 3).active = 0
    ∧ HotKey_GetFromObject example_consts example_game_wreck (some 3) = Except.ok 2
    ∧ (∀ (C : Consts) (g : Game) (n : Nat),
        ∃ r : Int, HotKey_GetFromObject C g (some n) = Except.ok r
          ∧ ((r = -1 ∧ ∀ i : Nat, i < C.kHotKeyNum →
                ¬ (g.hotKey_object i = some n ∧ g.hotKey_objectID i = (g.objects n).id))
            ∨ (∃ i : Nat, r = (i : Int) ∧ i < C.kHotKeyNum
                ∧ g.hotKey_object i = some n ∧ g.hotKey_objectID i = (g.objects n).id
                ∧ ∀ j : Nat, j < i →
                    ¬ (g.hotKey_object j = some n
                        ∧ g.hotKey_objectID j = (g.objects n).id)))) := by
  refine ⟨fun C g => rfl, by decide, rfl, fun C g n => HotKey_GetFromObject_some C g n⟩

/-! ### C28 -/

/-- A number without the bits of `k` has none of the bits of `k`. -/
theorem and_not_and (x k : Nat) : and_not x k &&& k = 0 := by
  unfold and_not
  apply Nat.eq_of_testBit_eq
  intro i
  simp only [Nat.testBit_and, Nat.testBit_xor, Nat.zero_testBit]
  cases x.testBit i <;> cases k.testBit i <;> rfl

/-- A number with the bits of `k` has all the bits of `k`. -/
theorem or_and_self (x k : Nat) : (x ||| k) &&& k = k := by
  apply Nat.eq_of_testBit_eq
  intro i
  simp only [Nat.testBit_and, Nat.testBit_or]
  cases x.testBit i <;> cases k.testBit i <;> rfl

/-- `ChangePlayerShipNumber` for an admiral with a flagship `f` and a new ship `n`: it
returns; the new ship is the flagship and has `kIsPlayerShip`; the flagship of
before has lost it unless it is the new ship; and the new ship is the player's
ship when the admiral is the player's. -/
theorem ChangePlayerShipNumber_ok (C : Consts) (g : Game) (a f n : Nat)
    (hf : g.flagship a = some f) :
    ∃ g', ChangePlayerShipNumber C (some a) (some n) g = Res.ok g'
      ∧ g'.flagship a = some n
      ∧ (g'.objects n).attributes &&& C.kIsPlayerShip = C.kIsPlayerShip
      ∧ (f ≠ n → (g'.objects f).attributes &&& C.kIsPlayerShip = 0)
      ∧ (some a = g.admiral → g'.ship = some n)
      ∧ (some a ≠ g.admiral → g'.ship = g.ship)
      ∧ (∀ b, b ≠ a → g'.flagship b = g.flagship b)
      ∧ (∀ m, m ≠ f → m ≠ n → g'.objects m = g.objects m) := by
  unfold ChangePlayerShipNumber
  simp only [hf]
  by_cases hadm : some a = g.admiral
  · rw [if_pos hadm]
    by_cases hship : some n = g.ship
    · have hne : ¬ (some n ≠ (g.set_object f { g.objects f with
          attributes := and_not (g.objects f).attributes C.kIsPlayerShip }).ship) := by
        intro h
        exact h hship
      simp only [hne, if_false]
      have hs : (g.set_object f { g.objects f with
          attributes := and_not (g.objects f).attributes C.kIsPlayerShip }).ship = some n :=
        hship.symm
      simp only [hs]
      refine ⟨_, rfl, ?_, ?_, ?_, ?_, ?_, ?_, ?_⟩
      · split_ifs <;> simp [Game.set_flagship, Game.call]
      · split_ifs <;> simp [Game.set_flagship, Game.call, Game.set_object, or_and_self]
      · intro hfn
        split_ifs <;>
          simp [Game.set_flagship, Game.call, Game.set_object, hfn, and_not_and]
      · intro _
        split_ifs <;> simp [Game.set_flagship, Game.call, Game.set_object, hship]
      · intro h
        exact absurd hadm h
      · intro b hb
        split_ifs <;> simp [Game.set_flagship, Game.call, Game.set_object, hb]
      · intro m hmf hmn
        split_ifs <;> simp [Game.set_flagship, Game.call, Game.set_object, hmf, hmn]
    · have hne : (some n ≠ (g.set_object f { g.objects f with
          attributes := and_not (g.objects f).attributes C.kIsPlayerShip }).ship) := hship
      rw [if_pos hne]
      have hs : (({ g.set_object f { g.objects f with
          attributes := and_not (g.objects f).attributes C.kIsPlayerShip } with
            ship := some n }).call [ShipCall.starfield_reset]).ship = some n := rfl
      simp only [hs]
      refine ⟨_, rfl, ?_, ?_, ?_, ?_, ?_, ?_, ?_⟩
      · split_ifs <;> simp [Game.set_flagship, Game.call]
      · split_ifs <;> simp [Game.set_flagship, Game.call, Game.set_object, or_and_self]
      · intro hfn
        split_ifs <;>
          simp [Game.set_flagship, Game.call, Game.set_object, hfn, and_not_and]
      · intro _
        split_ifs <;> simp [Game.set_flagship, Game.call, Game.set_object]
      · intro h
        exact absurd hadm h
      · intro b hb
        split_ifs <;> simp [Game.set_flagship, Game.call, Game.set_object, hb]
      · intro m hmf hmn
        split_ifs <;> simp [Game.set_flagship, Game.call, Game.set_object, hmf, hmn]
  · rw [if_neg hadm]
    refine ⟨_, rfl, ?_, ?_, ?_, ?_, ?_, ?_, ?_⟩
    · simp [Game.set_flagship]
    · simp [Game.set_flagship, Game.set_object, or_and_self]
    · intro hfn
      simp [Game.set_flagship, Game.set_object, hfn, and_not_and]
    · intro h
      exact absurd h hadm
    · intro _
      rfl
    · intro b hb
      simp [Game.set_flagship, Game.set_object, hb]
    · intro m hmf hmn
      simp [Game.set_flagship, Game.set_object, hmf, hmn]

/-- C28: `ChangePlayerShipNumber(adm, newShip)` for the admiral numbered `a`.  When
the admiral has no flagship it raises an error, in the state it was called in.
When the admiral has a flagship `f` and `newShip` is an object `n`, it returns, and
then the flagship of the admiral is `n`, `n` has `kIsPlayerShip`, `f` has lost
`kIsPlayerShip` unless it is `n` itself, `g.ship` is `n` when the admiral is the
player's and is as before when not, and the flagships of the other admirals and
the objects other than `f` and `n` are as before. -/
theorem change_player_ship_number (C : Consts) (g : Game) (a : Nat) (newShip : Handle) :
    (g.flagship a = none →
        ∃ what, ChangePlayerShipNumber C (some a) newShip g = Res.raised what g)
      ∧ (∀ f n : Nat, g.flagship a = some f → newShip = some n →
          ∃ g', ChangePlayerShipNumber C (some a) newShip g = Res.ok g'
            ∧ g'.flagship a = some n
            ∧ (g'.objects n).attributes &&& C.kIsPlayerShip = C.kIsPlayerShip
            ∧ (f ≠ n → (g'.objects f).attributes &&& C.kIsPlayerShip = 0)
            ∧ (some a = g.admiral → g'.ship = some n)
            ∧ (some a ≠ g.admiral → g'.ship = g.ship)
            ∧ (∀ b, b ≠ a → g'.flagship b = g.flagship b)
            ∧ (∀ m, m ≠ f → m ≠ n → g'.objects m = g.objects m)) := by
  constructor
  · intro hnone
    unfold ChangePlayerShipNumber
    simp only [hnone]
    exact ⟨_, rfl⟩
  · intro f n hf hn
    subst hn
    exact ChangePlayerShipNumber_ok C g a f n hf

/-- Two runs of C28 in the example game: the player's admiral 0, who flies the
object 0, changes to the cruiser 1, and the admiral 1, who has no flagship, cannot
change ship. -/
theorem change_player_ship_number_witness :
    example_game.flagship 0 = some 0 ∧ example_game.admiral = some 0
      ∧ (∃ g', ChangePlayerShipNumber example_consts (some 0) (some 1) example_game
            = Res.ok g'
          ∧ g'.flagship 0 = some 1
          ∧ (g'.objects 1).attributes &&& example_consts.kIsPlayerShip
              = example_consts.kIsPlayerShip
          ∧ ((0 : Nat) ≠ 1 → (g'.objects 0).attributes &&& example_consts.kIsPlayerShip = 0)
          ∧ (some 0 = example_game.admiral → g'.ship = some 1)
          ∧ (some 0 ≠ example_game.admiral → g'.ship = example_game.ship)
          ∧ (∀ b, b ≠ 0 → g'.flagship b = example_game.flagship b)
          ∧ (∀ m, m ≠ 0 → m ≠ 1 → g'.objects m = example_game.objects m))
      ∧ example_game.flagship 1 = none
      ∧ ∃ what, ChangePlayerShipNumber example_consts (some 1) (some 2) example_game
          = Res.raised what example_game :=
  ⟨rfl, rfl, (change_player_ship_number example_consts example_game 0 (some 1)).2 0 1 rfl rfl,
    rfl, (change_player_ship_number example_consts example_game 1 (some 2)).1 rfl⟩

/-! ### C29 -/

/-- The test on the control object fails exactly for an eligible ship. -/
theorem control_unfit_iff (C : Consts) (owner : Handle) (o : SpaceObject) :
    control_unfit C owner o = !eligible C owner o := by
  unfold control_unfit eligible
  by_cases h1 : o.active = C.kObjectInUse <;> by_cases h2 : o.attributes &&& C.kCanThink = 0 <;>
    by_cases h3 : o.attributes &&& C.kStaticDestination = 0 <;>
    by_cases h4 : o.owner = owner <;>
    by_cases h5 : o.attributes &&& C.kCanAcceptDestination = 0 <;>
    simp [h1, h2, h3, h4, h5]

/-- The test of the loop fails exactly for an eligible ship. -/
theorem listed_unfit_iff (C : Consts) (owner : Handle) (o : SpaceObject) :
    listed_unfit C owner o = !eligible C owner o := by
  unfold listed_unfit eligible
  by_cases h1 : o.active = C.kObjectInUse <;> by_cases h2 : o.attributes &&& C.kCanThink = 0 <;>
    by_cases h3 : o.attributes &&& C.kStaticDestination = 0 <;>
    by_cases h4 : o.owner = owner <;>
    by_cases h5 : o.attributes &&& C.kCanAcceptDestination = 0 <;>
    simp [h1, h2, h3, h4, h5]

/-- The loop of `PlayerShipBodyExpire` over a finite list of objects, with a bound
above the length of the list: it returns the first eligible object of the list,
or `none()` when there is none. -/
theorem find_listed_eq (C : Consts) (g : Game) (owner : Handle) :
    ∀ (l : List Nat) (h : Handle) (fuel : Nat), Listed g h l → l.length < fuel →
      find_listed C g owner fuel h
        = Except.ok (l.find? (fun n => eligible C owner (g.objects n))) := by
  intro l
  induction l with
  | nil =>
    intro h fuel hl hfuel
    simp only [Listed] at hl
    subst hl
    cases fuel with
    | zero => simp at hfuel
    | succ fuel => rfl
  | cons n rest ih =>
    intro h fuel hl hfuel
    simp only [Listed] at hl
    obtain ⟨hh, hrest⟩ := hl
    subst hh
    cases fuel with
    | zero => simp at hfuel
    | succ fuel =>
      rw [find_listed, listed_unfit_iff]
      by_cases he : eligible C owner (g.objects n) = true
      · simp [he, List.find?]
      · have he' : eligible C owner (g.objects n) = false := by simpa using he
        simp only [he', Bool.not_false, if_true, List.find?]
        exact ih _ fuel hrest (by simpa using hfuel)

/-- The search of `PlayerShipBodyExpire` over a finite list of objects finds the
replacement of the specification. -/
theorem expire_select_eq (C : Consts) (g : Game) (a : Nat) (l : List Nat) (fuel : Nat)
    (hlist : Listed g g.root l) (hfuel : l.length < fuel) :
    expire_select C g (some a) a fuel = Except.ok (replacement C g a l) := by
  have hfind := find_listed_eq C g (some a) l g.root fuel hlist hfuel
  unfold expire_select replacement
  cases hc : g.control a with
  | none => simp [hfind]
  | some n =>
    simp only [control_unfit_iff]
    by_cases he : eligible C (some a) (g.objects n) = true
    · simp [he]
    · have he' : eligible C (some a) (g.objects n) = false := by simpa using he
      simp [he', hfind]

/-- `PlayerShipBodyExpire` over a finite list of objects, as the choice of the
specification: the function changes ship to the replacement or, when there is
none, ends the game. -/
theorem PlayerShipBodyExpire_eq (C : Consts) (g : Game) (fl a : Nat) (l : List Nat)
    (fuel : Nat) (howner : (g.objects fl).owner = some a) (hlist : Listed g g.root l)
    (hfuel : l.length < fuel) :
    (∀ n, replacement C g a l = some n →
        PlayerShipBodyExpire C fuel (some fl) g
          = ChangePlayerShipNumber C (some a) (some n) g)
      ∧ (replacement C g a l = none →
          PlayerShipBodyExpire C fuel (some fl) g
            = Res.ok (expire_ship (some fl)
                ((expire_victory_text (some a) (expire_game_over C g)).set_flagship a none))) := by
  unfold PlayerShipBodyExpire
  simp only [howner]
  rw [expire_select_eq C g a l fuel hlist hfuel]
  constructor
  · intro n hn
    rw [hn]
  · intro hnone
    rw [hnone]
    simp only [Option.isSome_some, if_true]

/-- The last statement of `PlayerShipBodyExpire` changes the player's ship only. -/
theorem expire_ship_fields (h : Handle) (g : Game) :
    (expire_ship h g).game_over = g.game_over
      ∧ (expire_ship h g).game_over_at = g.game_over_at
      ∧ (expire_ship h g).victory_text = g.victory_text
      ∧ (expire_ship h g).flagship = g.flagship
      ∧ (expire_ship h g).objects = g.objects
      ∧ (expire_ship h g).ship = (if g.ship = h then none else g.ship) := by
  unfold expire_ship
  by_cases hs : h = g.ship
  · rw [if_pos hs, if_pos hs.symm]
    exact ⟨rfl, rfl, rfl, rfl, rfl, rfl⟩
  · rw [if_neg hs, if_neg (fun h' => hs h'.symm)]
    exact ⟨rfl, rfl, rfl, rfl, rfl, rfl⟩

/-- The choice of the victory text changes that text only. -/
theorem expire_victory_text_fields (owner : Handle) (g : Game) :
    (expire_victory_text owner g).game_over = g.game_over
      ∧ (expire_victory_text owner g).game_over_at = g.game_over_at
      ∧ (expire_victory_text owner g).flagship = g.flagship
      ∧ (expire_victory_text owner g).objects = g.objects
      ∧ (expire_victory_text owner g).ship = g.ship := by
  unfold expire_victory_text
  cases g.level_type with
  | SOLO => exact ⟨rfl, rfl, rfl, rfl, rfl⟩
  | NET =>
    simp only []
    split_ifs <;> exact ⟨rfl, rfl, rfl, rfl, rfl⟩
  | other k => exact ⟨rfl, rfl, rfl, rfl, rfl⟩

/-- The victory text that is chosen. -/
theorem expire_victory_text_text (owner : Handle) (g : Game) :
    (g.level_type = LevelType.SOLO →
        (expire_victory_text owner g).victory_text = some g.solo_no_ships)
      ∧ (g.level_type = LevelType.NET → owner = g.admiral →
          (expire_victory_text owner g).victory_text = some g.net_own_no_ships)
      ∧ (g.level_type = LevelType.NET → owner ≠ g.admiral →
          (expire_victory_text owner g).victory_text = some g.net_foe_no_ships)
      ∧ (∀ k, g.level_type = LevelType.other k →
          (expire_victory_text owner g).victory_text = none) := by
  unfold expire_victory_text
  refine ⟨?_, ?_, ?_, ?_⟩
  · intro h
    rw [h]
  · intro h hadm
    rw [h]
    simp only []
    rw [if_pos hadm]
  · intro h hadm
    rw [h]
    simp only []
    rw [if_neg hadm]
  · intro k h
    rw [h]

/-- The end of the game changes `game_over` and `game_over_at` only. -/
theorem expire_game_over_fields (C : Consts) (g : Game) :
    (expire_game_over C g).game_over = true
      ∧ (expire_game_over C g).game_over_at
          = (if g.game_over then g.game_over_at else g.time + C.secs 3)
      ∧ (expire_game_over C g).flagship = g.flagship
      ∧ (expire_game_over C g).objects = g.objects
      ∧ (expire_game_over C g).ship = g.ship
      ∧ (expire_game_over C g).level_type = g.level_type
      ∧ (expire_game_over C g).admiral = g.admiral
      ∧ (expire_game_over C g).solo_no_ships = g.solo_no_ships
      ∧ (expire_game_over C g).net_own_no_ships = g.net_own_no_ships
      ∧ (expire_game_over C g).net_foe_no_ships = g.net_foe_no_ships := by
  unfold expire_game_over
  cases hgo : g.game_over with
  | true => simp [hgo]
  | false => simp

/-- C29: `PlayerShipBodyExpire` for a flagship `fl` whose owner is the admiral
numbered `a`, with the objects from `g.root` on being the finite list `l` and a
bound on the iterations above its length.  A ship is eligible when it is in use,
can think, can accept a destination, is not a static destination and is owned by
that admiral.  If the control object of the admiral is eligible, the function does
`ChangePlayerShipNumber` to it; if it is not, the function does so to the first
eligible object of the list; in both cases it returns with that ship as the
flagship when the admiral has a flagship.  If neither the control object nor any
object of the list is eligible, the function returns, and the game is over then:
`game_over` holds, `game_over_at` is 3 seconds after `g.time`, or as before when the
game was over already, the victory text is `solo.no_ships` in a solo level,
`net.own_no_ships` or `net.foe_no_ships` in a net level as the admiral is the
player's or not, and none in another level, the admiral has no flagship, and
`g.ship` is cleared when it was `fl`.  The function raises an error only out of
`ChangePlayerShipNumber`, which is with a ship found to take over, and it has no
undefined result. -/
theorem body_expire_finds_or_ends (C : Consts) (g : Game) (fl a : Nat) (l : List Nat)
    (fuel : Nat) (howner : (g.objects fl).owner = some a) (hlist : Listed g g.root l)
    (hfuel : l.length < fuel) :
    (∀ n, g.control a = some n → eligible C (some a) (g.objects n) = true →
        PlayerShipBodyExpire C fuel (some fl) g
          = ChangePlayerShipNumber C (some a) (some n) g)
      ∧ ((∀ n, g.control a = some n → eligible C (some a) (g.objects n) = false) →
          ∀ n, l.find? (fun n => eligible C (some a) (g.objects n)) = some n →
          PlayerShipBodyExpire C fuel (some fl) g
            = ChangePlayerShipNumber C (some a) (some n) g)
      ∧ (∀ n f, replacement C g a l = some n → g.flagship a = some f →
          ∃ g', PlayerShipBodyExpire C fuel (some fl) g = Res.ok g'
            ∧ g'.flagship a = some n
            ∧ (g'.objects n).attributes &&& C.kIsPlayerShip = C.kIsPlayerShip)
      ∧ ((∀ n, g.control a = some n → eligible C (some a) (g.objects n) = false) →
          (∀ n ∈ l, eligible C (some a) (g.objects n) = false) →
          ∃ g', PlayerShipBodyExpire C fuel (some fl) g = Res.ok g'
            ∧ g'.game_over = true
            ∧ g'.game_over_at = (if g.game_over then g.game_over_at else g.time + C.secs 3)
            ∧ (g.level_type = LevelType.SOLO → g'.victory_text = some g.solo_no_ships)
            ∧ (g.level_type = LevelType.NET → some a = g.admiral →
                g'.victory_text = some g.net_own_no_ships)
            ∧ (g.level_type = LevelType.NET → some a ≠ g.admiral →
                g'.victory_text = some g.net_foe_no_ships)
            ∧ (∀ k, g.level_type = LevelType.other k → g'.victory_text = none)
            ∧ g'.flagship a = none
            ∧ g'.ship = (if g.ship = some fl then none else g.ship)
            ∧ g'.objects = g.objects)
      ∧ (∀ what g', PlayerShipBodyExpire C fuel (some fl) g = Res.raised what g' →
          g.flagship a = none ∧ ∃ n, replacement C g a l = some n
            ∧ eligible C (some a) (g.objects n) = true)
      ∧ (∀ f, PlayerShipBodyExpire C fuel (some fl) g ≠ Res.fault f) := by
  obtain ⟨hfound, hlost⟩ := PlayerShipBodyExpire_eq C g fl a l fuel howner hlist hfuel
  have hfirst : ∀ n, l.find? (fun n => eligible C (some a) (g.objects n)) = some n →
      eligible C (some a) (g.objects n) = true := by
    intro n hn
    exact List.find?_some (p := fun n => eligible C (some a) (g.objects n)) hn
  have hrepl : ∀ n, replacement C g a l = some n →
      eligible C (some a) (g.objects n) = true := by
    intro n hn
    unfold replacement at hn
    cases hc : g.control a with
    | none =>
      rw [hc] at hn
      exact hfirst n hn
    | some m =>
      rw [hc] at hn
      simp only [] at hn
      by_cases he : eligible C (some a) (g.objects m) = true
      · rw [if_pos he] at hn
        cases hn
        exact he
      · rw [if_neg he] at hn
        exact hfirst n hn
  have hcontrol : ∀ n, g.control a = some n → eligible C (some a) (g.objects n) = true →
      replacement C g a l = some n := by
    intro n hc he
    unfold replacement
    rw [hc]
    simp only [he, if_true]
  have hother : (∀ n, g.control a = some n → eligible C (some a) (g.objects n) = false) →
      replacement C g a l = l.find? (fun n => eligible C (some a) (g.objects n)) := by
    intro hno
    unfold replacement
    cases hc : g.control a with
    | none => rfl
    | some m => simp only [hno m hc, Bool.false_eq_true, if_false]
  refine ⟨?_, ?_, ?_, ?_, ?_, ?_⟩
  · intro n hc he
    exact hfound n (hcontrol n hc he)
  · intro hno n hn
    exact hfound n (by rw [hother hno, hn])
  · intro n f hn hf
    rw [hfound n hn]
    obtain ⟨g', h1, h2, h3, _⟩ := ChangePlayerShipNumber_ok C g a f n hf
    exact ⟨g', h1, h2, h3⟩
  · intro hno hnone
    have hr : replacement C g a l = none := by
      rw [hother hno]
      exact List.find?_eq_none.mpr (fun n hn => by simp [hnone n hn])
    rw [hlost hr]
    obtain ⟨s1, s2, s3, s4, s5, s6⟩ := expire_ship_fields (some fl)
      ((expire_victory_text (some a) (expire_game_over C g)).set_flagship a none)
    obtain ⟨v1, v2, v3, v4, v5⟩ := expire_victory_text_fields (some a) (expire_game_over C g)
    obtain ⟨t1, t2, t3, t4⟩ := expire_victory_text_text (some a) (expire_game_over C g)
    obtain ⟨o1, o2, o3, o4, o5, o6, o7, o8, o9, o10⟩ := expire_game_over_fields C g
    refine ⟨_, rfl, ?_, ?_, ?_, ?_, ?_, ?_, ?_, ?_, ?_⟩
    · rw [s1]
      exact v1.trans o1
    · rw [s2]
      exact v2.trans o2
    · intro hl
      rw [s3]
      exact (t1 (o6.trans hl)).trans (by rw [o8])
    · intro hl hadm
      rw [s3]
      exact (t2 (o6.trans hl) (hadm.trans o7.symm)).trans (by rw [o9])
    · intro hl hadm
      rw [s3]
      exact (t3 (o6.trans hl) (fun h => hadm (h.trans o7))).trans (by rw [o10])
    · intro k hl
      rw [s3]
      exact t4 k (o6.trans hl)
    · rw [s4]
      simp [Game.set_flagship]
    · rw [s6]
      have : ((expire_victory_text (some a) (expire_game_over C g)).set_flagship a none).ship
          = g.ship := v5.trans o5
      rw [this]
    · rw [s5]
      exact v4.trans o4
  · intro what g' hraised
    cases hr : replacement C g a l with
    | none =>
      rw [hlost hr] at hraised
      cases hraised
    | some n =>
      rw [hfound n hr] at hraised
      refine ⟨?_, n, rfl, hrepl n hr⟩
      cases hf : g.flagship a with
      | none => rfl
      | some f =>
        obtain ⟨g1, h1, _⟩ := ChangePlayerShipNumber_ok C g a f n hf
        rw [h1] at hraised
        cases hraised
  · intro f hfault
    cases hr : replacement C g a l with
    | none =>
      rw [hlost hr] at hfault
      cases hfault
    | some n =>
      rw [hfound n hr] at hfault
      cases hf : g.flagship a with
      | none =>
        unfold ChangePlayerShipNumber at hfault
        simp only [hf] at hfault
        cases hfault
      | some f' =>
        obtain ⟨g1, h1, _⟩ := ChangePlayerShipNumber_ok C g a f' n hf
        rw [h1] at hfault
        cases hfault

/-- Two runs of C29 for the player's ship, the object 0 of the admiral 0, whose
control object is none.  In the example game the objects are listed as 3, 2, 1, 0
and the first eligible one is the cruiser 1, which takes over.  After every ship
was lost nothing is eligible: the game is over at the tick 780, three seconds
after the tick 600, with the text of a solo level, and neither the admiral nor the
player has a ship. -/
theorem body_expire_finds_or_ends_witness :
    ((example_game.objects 0).owner = some 0
        ∧ Listed example_game example_game.root [3, 2, 1, 0]
        ∧ [3, 2, 1, 0].length < 5)
      ∧ [3, 2, 1, 0].find? (fun n => eligible example_consts (some 0) (example_game.objects n))
          = some 1
      ∧ PlayerShipBodyExpire example_consts 5 (some 0) example_game
          = ChangePlayerShipNumber example_consts (some 0) (some 1) example_game
      ∧ (game_of_res (PlayerShipBodyExpire example_consts 5 (some 0) example_game)).flagship 0
          = some 1
      ∧ ((example_game_lost.objects 0).owner = some 0
        ∧ Listed example_game_lost example_game_lost.root [3, 2, 1, 0])
      ∧ (∃ g', PlayerShipBodyExpire example_consts 5 (some 0) example_game_lost = Res.ok g'
          ∧ g'.game_over = true ∧ g'.game_over_at = 780
          ∧ g'.victory_text = some "You lost your last ship."
          ∧ g'.flagship 0 = none ∧ g'.ship = none) := by
  have h1 := body_expire_finds_or_ends example_consts example_game 0 0 [3, 2, 1, 0] 5 rfl
    ⟨rfl, rfl, rfl, rfl, rfl⟩ (by decide)
  have h2 := body_expire_finds_or_ends example_consts example_game_lost 0 0 [3, 2, 1, 0] 5
    rfl ⟨rfl, rfl, rfl, rfl, rfl⟩ (by decide)
  refine ⟨⟨rfl, ⟨rfl, rfl, rfl, rfl, rfl⟩, by decide⟩, by decide, ?_, by decide,
    ⟨rfl, ⟨rfl, rfl, rfl, rfl, rfl⟩⟩, ?_⟩
  · exact h1.2.1 (fun n hn => by cases hn) 1 (by decide)
  · obtain ⟨g', hg', a1, a2, a3, _, _, _, a7, a8, _⟩ :=
      h2.2.2.2.1 (fun n hn => by cases hn) (by decide)
    exact ⟨g', hg', a1, a2, a3 rfl, a7, a8⟩

/-! ### C30 -/

/-- The scales from 1 on: the scale 1 alone. -/
theorem hidpi_scales_one : hidpi_scales 1 = [1] := by
  simp [hidpi_scales, List.iterate]

/-- The scales from `k` on, for a scale above 1: `k`, then the scales from half of
`k` on. -/
theorem hidpi_scales_step (k : Nat) (hk : 2 ≤ k) :
    hidpi_scales k = k :: hidpi_scales (k / 2) := by
  unfold hidpi_scales
  rw [Nat.log_of_one_lt_of_le (by norm_num) hk, List.iterate]

/-- The scales are never none. -/
theorem hidpi_scales_ne_nil (k : Nat) : hidpi_scales k ≠ [] := by
  unfold hidpi_scales
  rw [List.iterate]
  exact List.cons_ne_nil _ _

/-- Half of a scale above 1, as the shift computes it. -/
theorem shift_right_one (k : Nat) : ((k : Int) >>> (1 : Nat)) = ((k / 2 : Nat) : Int) := by
  rw [Int.shiftRight_eq_div_pow]
  norm_num

/-- The last entry of a list with a first entry and more entries is the last of the
latter. -/
theorem getLast?_cons_rest {α : Type} (a : α) (l : List α) (h : l ≠ []) :
    (a :: l).getLast? = l.getLast? := by
  obtain ⟨b, more, rfl⟩ := List.exists_cons_of_ne_nil h
  simp [List.getLast?]

/-- The first attempt succeeds: it is the only one. -/
theorem first_success_ok (load_png : List Char → Int → Except String Texture)
    (a : List Char × Int) (rest : List (List Char × Int)) (t : Texture)
    (h : load_png a.1 a.2 = Except.ok t) :
    first_success load_png (a :: rest) = ([a], Outcome.ok t) := by
  simp only [first_success, h]

/-- The last attempt fails: its failure is raised. -/
theorem first_success_last (load_png : List Char → Int → Except String Texture)
    (a : List Char × Int) (what : String) (h : load_png a.1 a.2 = Except.error what) :
    first_success load_png [a] = ([a], Outcome.raised what) := by
  simp only [first_success, h]

/-- An attempt that is not the last fails: the next ones follow. -/
theorem first_success_next (load_png : List Char → Int → Except String Texture)
    (a : List Char × Int) (rest : List (List Char × Int)) (what : String)
    (h : load_png a.1 a.2 = Except.error what) (hrest : rest ≠ []) :
    first_success load_png (a :: rest)
      = (a :: (first_success load_png rest).1, (first_success load_png rest).2) := by
  obtain ⟨b, more, rfl⟩ := List.exists_cons_of_ne_nil hrest
  rw [first_success]
  simp only [h]

/-- The loop of `load_hidpi_texture` from a scale `k` of at least 1 on does what the
specification says of the attempts at the scales from `k` on. -/
theorem load_hidpi_texture_loop_eq (load_png : List Char → Int → Except String Texture)
    (name : List Char) (fuel : Nat) :
    ∀ (k : Nat) (tried : List (List Char × Int)), 1 ≤ k → Nat.log 2 k + 1 ≤ fuel →
      load_hidpi_texture_loop load_png name fuel (k : Int) tried
        = (tried ++ (first_success load_png ((hidpi_scales k).map (hidpi_attempt name))).1,
           (first_success load_png ((hidpi_scales k).map (hidpi_attempt name))).2) := by
  induction fuel with
  | zero => intro k tried _ h; omega
  | succ fuel ih =>
    intro k tried hk hfuel
    rcases Nat.lt_or_ge k 2 with h1 | h2
    · have hk1 : k = 1 := by omega
      subst hk1
      rw [hidpi_scales_one]
      have ha : hidpi_attempt name 1 = (name, 1) := by simp [hidpi_attempt]
      rw [List.map_cons, List.map_nil, ha, load_hidpi_texture_loop]
      simp only [Nat.cast_one, gt_iff_lt, lt_self_iff_false, if_false]
      cases hl : load_png name 1 with
      | ok t => rw [first_success_ok load_png (name, 1) [] t hl]
      | error what => rw [first_success_last load_png (name, 1) what hl]
    · rw [hidpi_scales_step k h2]
      have hlog : Nat.log 2 k = Nat.log 2 (k / 2) + 1 :=
        Nat.log_of_one_lt_of_le (by norm_num) h2
      have hgt : ((k : Int) > 1) := by omega
      have hgt' : k > 1 := by omega
      have ha : hidpi_attempt name k = (hidpi_path name (k : Int), (k : Int)) := by
        simp [hidpi_attempt, hgt']
      have hrec := ih (k / 2) (tried ++ [(hidpi_path name (k : Int), (k : Int))]) (by omega)
        (by omega)
      have hne : (hidpi_scales (k / 2)).map (hidpi_attempt name) ≠ [] := by
        simpa using hidpi_scales_ne_nil (k / 2)
      rw [List.map_cons, ha, load_hidpi_texture_loop]
      simp only [hgt, if_true]
      cases hl : load_png (hidpi_path name (k : Int)) (k : Int) with
      | ok t => rw [first_success_ok load_png (hidpi_path name (k : Int), (k : Int)) _ t hl]
      | error what =>
        rw [first_success_next load_png (hidpi_path name (k : Int), (k : Int)) _ what hl hne]
        simp only []
        rw [shift_right_one, hrec]
        simp only [List.append_assoc, List.singleton_append]

/-- What the words of the specification give for attempts that are not none: the
attempts made are the first ones of the list; when the result is a texture, the
last attempt made returned it and those before failed; and an error is raised
when and only when every attempt fails, and then all are made and the error is
the failure of the last one. -/
theorem first_success_spec (load_png : List Char → Int → Except String Texture) :
    ∀ l : List (List Char × Int), l ≠ [] →
      (∃ rest, l = (first_success load_png l).1 ++ rest)
      ∧ (∀ t, (first_success load_png l).2 = Outcome.ok t →
          ∃ pre a, (first_success load_png l).1 = pre ++ [a]
            ∧ load_png a.1 a.2 = Except.ok t
            ∧ ∀ b ∈ pre, ∃ what, load_png b.1 b.2 = Except.error what)
      ∧ (∀ what, (first_success load_png l).2 = Outcome.raised what →
          (first_success load_png l).1 = l
            ∧ (∀ b ∈ l, ∃ what', load_png b.1 b.2 = Except.error what')
            ∧ ∃ a, l.getLast? = some a ∧ load_png a.1 a.2 = Except.error what)
      ∧ ((∀ b ∈ l, ∃ what', load_png b.1 b.2 = Except.error what') →
          ∃ what, (first_success load_png l).2 = Outcome.raised what)
      ∧ (∀ f, (first_success load_png l).2 ≠ Outcome.fault f) := by
  intro l
  induction l with
  | nil => intro h; exact absurd rfl h
  | cons a rest ih =>
    intro _
    cases hl : load_png a.1 a.2 with
    | ok t =>
      rw [first_success_ok load_png a rest t hl]
      refine ⟨⟨rest, rfl⟩, ?_, ?_, ?_, ?_⟩
      · intro t' ht'
        have htt : t = t' := by simpa using ht'
        subst htt
        exact ⟨[], a, rfl, hl, fun b hb => by cases hb⟩
      · intro what hw
        cases hw
      · intro hall
        obtain ⟨w, hw⟩ := hall a (List.mem_cons_self a rest)
        rw [hl] at hw
        cases hw
      · intro f hf
        cases hf
    | error what =>
      rcases List.eq_nil_or_concat rest with hnil | ⟨init, last, hrest⟩
      · subst hnil
        rw [first_success_last load_png a what hl]
        refine ⟨⟨[], by simp⟩, ?_, ?_, ?_, ?_⟩
        · intro t ht
          cases ht
        · intro what' hw
          have hww : what = what' := by simpa using hw
          subst hww
          refine ⟨rfl, ?_, a, rfl, hl⟩
          intro b hb
          rw [List.mem_singleton] at hb
          subst hb
          exact ⟨what, hl⟩
        · intro _
          exact ⟨what, rfl⟩
        · intro f hf
          cases hf
      · have hne : rest ≠ [] := by
          rw [hrest]
          simp
        obtain ⟨hpre, hok, hraised, hall, hfault⟩ := ih hne
        rw [first_success_next load_png a rest what hl hne]
        refine ⟨?_, ?_, ?_, ?_, ?_⟩
        · obtain ⟨more, hmore⟩ := hpre
          exact ⟨more, by simp only [List.cons_append]; rw [← hmore]⟩
        · intro t ht
          obtain ⟨pre, b, h1, h2, h3⟩ := hok t ht
          refine ⟨a :: pre, b, by simp only [h1, List.cons_append], h2, ?_⟩
          intro c hc
          rcases List.mem_cons.mp hc with hca | hcp
          · subst hca
            exact ⟨what, hl⟩
          · exact h3 c hcp
        · intro what' hw
          obtain ⟨h1, h2, b, h3, h4⟩ := hraised what' hw
          refine ⟨by simp only [h1], ?_, b, ?_, h4⟩
          · intro c hc
            rcases List.mem_cons.mp hc with hca | hcp
            · subst hca
              exact ⟨what, hl⟩
            · exact h2 c hcp
          · rw [getLast?_cons_rest a rest hne]
            exact h3
        · intro hevery
          exact hall (fun b hb => hevery b (List.mem_cons_of_mem a hb))
        · exact hfault

/-- The last of the scales from a scale of at least 1 on is the scale 1. -/
theorem hidpi_scales_last : ∀ (n k : Nat), k ≤ n → 1 ≤ k → (hidpi_scales k).getLast? = some 1 := by
  intro n
  induction n with
  | zero => intro k h0 h1; omega
  | succ n ih =>
    intro k hkn hk
    rcases Nat.lt_or_ge k 2 with h1 | h2
    · have hk1 : k = 1 := by omega
      subst hk1
      rw [hidpi_scales_one]
      rfl
    · rw [hidpi_scales_step k h2, getLast?_cons_rest _ _ (hidpi_scales_ne_nil _)]
      exact ih (k / 2) (by omega) (by omega)

/-- C30: with a driver scale `s` of at least 1, `load_hidpi_texture` does what the
specification says of a fallback over the scales `s`, `s / 2`, `s / 4`, ..., 1,
those being `floor (log2 s) + 1` scales of which the first is `s` and the last is
1, each tried under the path `name@kx` for a scale `k` above 1 and under the plain
name for the scale 1.  It returns after at most `floor (log2 s) + 1` calls of
`load_png`, which are the first of these attempts in their order; when it returns
a texture, the last call made returned it and every call before failed; it raises
an error when and only when the attempt fails at every scale, and the error is
then the failure of the attempt at the scale 1 under the plain name; and it has no
other outcome.  This holds for every bound of at least `floor (log2 s) + 1` on
the iterations. -/
theorem load_hidpi_texture_falls_back
    (load_png : List Char → Int → Except String Texture) (name : List Char) (s fuel : Nat)
    (hs : 1 ≤ s) (hfuel : Nat.log 2 s + 1 ≤ fuel) :
    load_hidpi_texture load_png (s : Int) fuel name
        = first_success load_png ((hidpi_scales s).map (hidpi_attempt name))
      ∧ (hidpi_scales s).length = Nat.log 2 s + 1
      ∧ (hidpi_scales s).head? = some s
      ∧ (hidpi_scales s).getLast? = some 1
      ∧ (∃ rest, (hidpi_scales s).map (hidpi_attempt name)
            = (load_hidpi_texture load_png (s : Int) fuel name).1 ++ rest)
      ∧ (load_hidpi_texture load_png (s : Int) fuel name).1.length ≤ Nat.log 2 s + 1
      ∧ (∀ t, (load_hidpi_texture load_png (s : Int) fuel name).2 = Outcome.ok t →
          ∃ pre a, (load_hidpi_texture load_png (s : Int) fuel name).1 = pre ++ [a]
            ∧ load_png a.1 a.2 = Except.ok t
            ∧ ∀ b ∈ pre, ∃ what, load_png b.1 b.2 = Except.error what)
      ∧ ((∃ what, (load_hidpi_texture load_png (s : Int) fuel name).2 = Outcome.raised what)
          ↔ ∀ k ∈ hidpi_scales s, ∃ what,
              load_png (hidpi_attempt name k).1 (hidpi_attempt name k).2 = Except.error what)
      ∧ (∀ what, (load_hidpi_texture load_png (s : Int) fuel name).2 = Outcome.raised what →
          load_png name 1 = Except.error what)
      ∧ (∀ f, (load_hidpi_texture load_png (s : Int) fuel name).2 ≠ Outcome.fault f) := by
  have heq : load_hidpi_texture load_png (s : Int) fuel name
      = first_success load_png ((hidpi_scales s).map (hidpi_attempt name)) := by
    unfold load_hidpi_texture
    rw [load_hidpi_texture_loop_eq load_png name fuel s [] hs hfuel]
    simp
  have hne : (hidpi_scales s).map (hidpi_attempt name) ≠ [] := by
    simpa using hidpi_scales_ne_nil s
  have hlen : (hidpi_scales s).length = Nat.log 2 s + 1 := by
    simp [hidpi_scales]
  obtain ⟨hpre, hok, hraised, hall, hfault⟩ := first_success_spec load_png _ hne
  rw [heq]
  refine ⟨rfl, hlen, ?_, hidpi_scales_last s s (le_refl s) hs, hpre, ?_, hok, ?_, ?_, hfault⟩
  · unfold hidpi_scales
    rw [List.iterate]
    rfl
  · obtain ⟨rest, hrest⟩ := hpre
    have hl := congrArg List.length hrest
    rw [List.length_map, List.length_append, hlen] at hl
    omega
  · constructor
    · rintro ⟨what, hw⟩ k hk
      exact (hraised what hw).2.1 _ (List.mem_map_of_mem _ hk)
    · intro hevery
      apply hall
      intro b hb
      obtain ⟨k, hk, rfl⟩ := List.mem_map.mp hb
      exact hevery k hk
  · intro what hw
    obtain ⟨_, _, a, ha, hla⟩ := hraised what hw
    rw [List.getLast?_map, hidpi_scales_last s s (le_refl s) hs] at ha
    have ha' : a = (name, 1) := by
      have : hidpi_attempt name 1 = (name, 1) := by simp [hidpi_attempt]
      rw [← this]
      simpa using ha.symm
    rw [ha'] at hla
    exact hla

/-- A run of C30: at the driver scale 4 the font `tactical` is looked for at the
scale 4, which fails, and then at the scale 2, which gives the texture. -/
theorem load_hidpi_texture_falls_back_witness :
    (1 : Nat) ≤ 4 ∧ Nat.log 2 4 + 1 ≤ 3
      ∧ load_hidpi_texture example_load_png 4 3 "tactical".toList
          = ([("tactical@4x".toList, 4), ("tactical@2x".toList, 2)], Outcome.ok ⟨⟨16, 32⟩⟩)
      ∧ load_hidpi_texture example_load_png ((4 : Nat) : Int) 3 "tactical".toList
          = first_success example_load_png
              ((hidpi_scales 4).map (hidpi_attempt "tactical".toList))
      ∧ (load_hidpi_texture example_load_png ((4 : Nat) : Int) 3 "tactical".toList).1.length
          ≤ Nat.log 2 4 + 1 := by
  have hlog : Nat.log 2 4 + 1 ≤ 3 := by
    rw [show (4 : Nat) = 2 ^ 2 from rfl, Nat.log_pow (by norm_num)]
  have h := load_hidpi_texture_falls_back example_load_png "tactical".toList 4 3
    (by decide) hlog
  exact ⟨by decide, hlog, by rfl, h.1, h.2.2.2.2.2.1⟩

/-! ### Zooming: what `zoom_to` keeps -/

/-- What `zoom_to` leaves of the game: the zoom is the one asked for, and the key
mask and the previous zoom mode are as before. -/
theorem zoom_to_fields (z : Int) (g : Game) :
    (zoom_to z g).zoom = z ∧ (zoom_to z g).key_mask = g.key_mask
      ∧ (zoom_to z g).gPreviousZoomMode = g.gPreviousZoomMode := by
  unfold zoom_to
  split_ifs with h
  · exact ⟨rfl, rfl, rfl⟩
  · exact ⟨not_not.mp h, rfl, rfl⟩

/-! ### C31 -/

/-- The bits of `a & ~b`. -/
theorem testBit_and_not (a b j : Nat) :
    (and_not a b).testBit j = (a.testBit j && !b.testBit j) := by
  unfold and_not
  rw [Nat.testBit_xor, Nat.testBit_and]
  cases a.testBit j <;> cases b.testBit j <;> rfl

/-- The bits of `1 << k`. -/
theorem testBit_one_shiftLeft (k j : Nat) : (1 <<< k).testBit j = decide (k = j) := by
  rw [Nat.one_shiftLeft, Nat.testBit_two_pow]

/-- The zoom functions leave the key mask as it is. -/
theorem zoom_keys_mask (C : Consts) (zoom : Int) (g : Game) :
    (zoom_in C g).key_mask = g.key_mask ∧ (zoom_out C g).key_mask = g.key_mask
      ∧ (zoom_shortcut C zoom g).key_mask = g.key_mask := by
  refine ⟨?_, ?_, ?_⟩
  · unfold zoom_in
    split_ifs
    · rfl
    · exact (zoom_to_fields _ _).2.1
    · rfl
  · unfold zoom_out
    split_ifs
    · rfl
    · exact (zoom_to_fields _ _).2.1
    · rfl
  · unfold zoom_shortcut
    simp only []
    split_ifs
    · rfl
    · exact (zoom_to_fields _ _).2.1
    · exact (zoom_to_fields _ _).2.1

/-- The bit `j` of `gTheseKeys` after one iteration of the first loop of
`PlayerShip::update`, and the key mask after it. -/
theorem update_event_bit (C : Consts) (e : PlayerEvent) (sg : PlayerShip × Game) (j : Nat) :
    (update_event C e sg).2.key_mask = sg.2.key_mask
      ∧ (update_event C e sg).1.gTheseKeys.testBit j
          = if e.key < C.kKeyControlNum ∧ e.key = j ∧ sg.2.key_mask.testBit j = false
                ∧ (e.type = PlayerEventType.KEY_DOWN → e.key ∉ consumed_keys C)
            then decide (e.type = PlayerEventType.KEY_DOWN)
            else sg.1.gTheseKeys.testBit j := by
  have hin := (zoom_keys_mask C 0 sg.2).1
  have hout := (zoom_keys_mask C 0 sg.2).2.1
  have hshort := fun zoom => (zoom_keys_mask C zoom sg.2).2.2
  unfold update_event
  cases ht : e.type with
  | KEY_DOWN =>
    simp only [decide_True]
    by_cases c1 : e.key = C.kZoomOutKeyNum
    · rw [if_pos c1]
      exact ⟨hout, by rw [if_neg (fun h => h.2.2.2 trivial (by simp [consumed_keys, c1]))]⟩
    rw [if_neg c1]
    by_cases c2 : e.key = C.kZoomInKeyNum
    · rw [if_pos c2]
      exact ⟨hin, by rw [if_neg (fun h => h.2.2.2 trivial (by simp [consumed_keys, c2]))]⟩
    rw [if_neg c2]
    by_cases c3 : e.key = C.kScale121KeyNum
    · rw [if_pos c3]
      exact ⟨hshort _, by rw [if_neg (fun h => h.2.2.2 trivial (by simp [consumed_keys, c3]))]⟩
    rw [if_neg c3]
    by_cases c4 : e.key = C.kScale122KeyNum
    · rw [if_pos c4]
      exact ⟨hshort _, by rw [if_neg (fun h => h.2.2.2 trivial (by simp [consumed_keys, c4]))]⟩
    rw [if_neg c4]
    by_cases c5 : e.key = C.kScale124KeyNum
    · rw [if_pos c5]
      exact ⟨hshort _, by rw [if_neg (fun h => h.2.2.2 trivial (by simp [consumed_keys, c5]))]⟩
    rw [if_neg c5]
    by_cases c6 : e.key = C.kScale1216KeyNum
    · rw [if_pos c6]
      exact ⟨hshort _, by rw [if_neg (fun h => h.2.2.2 trivial (by simp [consumed_keys, c6]))]⟩
    rw [if_neg c6]
    by_cases c7 : e.key = C.kScaleHostileKeyNum
    · rw [if_pos c7]
      exact ⟨hshort _, by rw [if_neg (fun h => h.2.2.2 trivial (by simp [consumed_keys, c7]))]⟩
    rw [if_neg c7]
    by_cases c8 : e.key = C.kScaleObjectKeyNum
    · rw [if_pos c8]
      exact ⟨hshort _, by rw [if_neg (fun h => h.2.2.2 trivial (by simp [consumed_keys, c8]))]⟩
    rw [if_neg c8]
    by_cases c9 : e.key = C.kScaleAllKeyNum
    · rw [if_pos c9]
      exact ⟨hshort _, by rw [if_neg (fun h => h.2.2.2 trivial (by simp [consumed_keys, c9]))]⟩
    rw [if_neg c9]
    by_cases c10 : e.key = C.kTransferKeyNum
    · rw [if_pos c10]
      exact ⟨rfl, by rw [if_neg (fun h => h.2.2.2 trivial (by simp [consumed_keys, c10]))]⟩
    rw [if_neg c10]
    by_cases c11 : e.key = C.kMessageNextKeyNum
    · rw [if_pos c11]
      exact ⟨rfl, by rw [if_neg (fun h => h.2.2.2 trivial (by simp [consumed_keys, c11]))]⟩
    rw [if_neg c11]
    have hnot : e.key ∉ consumed_keys C := by
      simp [consumed_keys, c1, c2, c3, c4, c5, c6, c7, c8, c9, c10, c11]
    by_cases c12 : e.key < C.kKeyControlNum
    · rw [if_pos c12]
      refine ⟨rfl, ?_⟩
      show (sg.1.gTheseKeys ||| and_not (1 <<< e.key) sg.2.key_mask).testBit j = _
      rw [Nat.testBit_or, testBit_and_not, testBit_one_shiftLeft]
      by_cases hj : e.key = j
      · by_cases hm : sg.2.key_mask.testBit j = false
        · rw [if_pos ⟨c12, hj, hm, fun _ => hnot⟩, hm]
          simp [hj]
        · rw [if_neg (fun h => hm h.2.2.1)]
          rw [Bool.not_eq_false] at hm
          rw [hm]
          simp
      · rw [if_neg (fun h => hj h.2.1)]
        simp [hj]
    · rw [if_neg c12]
      exact ⟨rfl, by rw [if_neg (fun h => c12 h.1)]⟩
  | KEY_UP =>
    simp only []
    by_cases c12 : e.key < C.kKeyControlNum
    · rw [if_pos c12]
      refine ⟨rfl, ?_⟩
      show (and_not sg.1.gTheseKeys (and_not (1 <<< e.key) sg.2.key_mask)).testBit j = _
      rw [testBit_and_not, testBit_and_not, testBit_one_shiftLeft]
      by_cases hj : e.key = j
      · by_cases hm : sg.2.key_mask.testBit j = false
        · rw [if_pos ⟨c12, hj, hm, fun h => by cases h⟩, hm]
          simp [hj]
        · rw [if_neg (fun h => hm h.2.2.1)]
          rw [Bool.not_eq_false] at hm
          rw [hm]
          simp
      · rw [if_neg (fun h => hj h.2.1)]
        simp [hj]
    · rw [if_neg c12]
      exact ⟨rfl, by rw [if_neg (fun h => c12 h.1)]⟩
  | LONG_KEY_UP =>
    simp only []
    by_cases c12 : e.key < C.kKeyControlNum
    · rw [if_pos c12]
      refine ⟨rfl, ?_⟩
      show (and_not sg.1.gTheseKeys (and_not (1 <<< e.key) sg.2.key_mask)).testBit j = _
      rw [testBit_and_not, testBit_and_not, testBit_one_shiftLeft]
      by_cases hj : e.key = j
      · by_cases hm : sg.2.key_mask.testBit j = false
        · rw [if_pos ⟨c12, hj, hm, fun h => by cases h⟩, hm]
          simp [hj]
        · rw [if_neg (fun h => hm h.2.2.1)]
          rw [Bool.not_eq_false] at hm
          rw [hm]
          simp
      · rw [if_neg (fun h => hj h.2.1)]
        simp [hj]
    · rw [if_neg c12]
      exact ⟨rfl, by rw [if_neg (fun h => c12 h.1)]⟩

/-- The bit of a control after a queue that starts with the event `e`. -/
theorem folded_bit_cons (k : KeyNum) (e : PlayerEvent) (rest : List PlayerEvent)
    (bit : Bool) :
    folded_bit k (e :: rest) bit
      = folded_bit k rest
          (if e.key = k then decide (e.type = PlayerEventType.KEY_DOWN) else bit) := by
  unfold folded_bit last_event
  by_cases hk : e.key = k
  · rw [if_pos hk, List.filter_cons_of_pos (by simp [hk])]
    cases hr : List.filter (fun e => decide (e.key = k)) rest with
    | nil => rfl
    | cons x xs =>
      rw [getLast?_cons_rest _ _ (List.cons_ne_nil x xs),
        List.getLast?_eq_getLast _ (List.cons_ne_nil x xs)]
  · rw [if_neg hk, List.filter_cons_of_neg (by simp [hk])]

/-- The first loop of `PlayerShip::update` leaves the key mask as it is, changes
no bit of `gTheseKeys` that is masked or at or above `kKeyControlNum`, and leaves
at an unmasked control that is not consumed directly the bit of the last event
for the control. -/
theorem update_loop_bits (C : Consts) (events : List PlayerEvent) :
    ∀ sg : PlayerShip × Game,
      (events.foldl (fun sg e => update_event C e sg) sg).2.key_mask = sg.2.key_mask
        ∧ (∀ j, sg.2.key_mask.testBit j = true ∨ C.kKeyControlNum ≤ j →
            (events.foldl (fun sg e => update_event C e sg) sg).1.gTheseKeys.testBit j
              = sg.1.gTheseKeys.testBit j)
        ∧ (∀ k, k < C.kKeyControlNum → sg.2.key_mask.testBit k = false →
            k ∉ consumed_keys C →
            (events.foldl (fun sg e => update_event C e sg) sg).1.gTheseKeys.testBit k
              = folded_bit k events (sg.1.gTheseKeys.testBit k)) := by
  induction events with
  | nil => intro sg; exact ⟨rfl, fun _ _ => rfl, fun _ _ _ _ => rfl⟩
  | cons e rest ih =>
    intro sg
    rw [List.foldl_cons]
    obtain ⟨a1, a2, a3⟩ := ih (update_event C e sg)
    have hmask := (update_event_bit C e sg 0).1
    refine ⟨a1.trans hmask, ?_, ?_⟩
    · intro j hj
      rw [a2 j (by rw [hmask]; exact hj), (update_event_bit C e sg j).2]
      apply if_neg
      rintro ⟨h1, h2, h3, _⟩
      rcases hj with hj | hj
      · rw [h3] at hj
        cases hj
      · exact absurd (h2 ▸ h1) (not_lt.mpr hj)
    · intro k hk hm hc
      rw [a3 k hk (by rw [hmask]; exact hm) hc, (update_event_bit C e sg k).2,
        folded_bit_cons]
      by_cases hek : e.key = k
      · rw [if_pos hek, if_pos ⟨hek.symm ▸ hk, hek, hm, fun _ => by rw [hek]; exact hc⟩]
      · rw [if_neg hek, if_neg (fun h => hek h.2.1)]

/-- The keys that are down when `PlayerShip::update` returns: those of before
for no ship of the player, and those its first loop leaves for a ship. -/
theorem update_keys (C : Consts) (enter_message : Bool) (s s' : PlayerShip) (g g' : Game)
    (h : PlayerShip.update C enter_message s g = Except.ok (s', g')) :
    (g.ship = none → s'.gTheseKeys = s.gTheseKeys)
      ∧ (g.ship ≠ none →
          s'.gTheseKeys
            = ((update_queue C enter_message s).foldl (fun sg e => update_event C e sg)
                (if enter_message then
                    { s with _player_events := update_keys_up C s.gTheseKeys }
                  else s, g)).1.gTheseKeys) := by
  have hq : (if enter_message then { s with _player_events := update_keys_up C s.gTheseKeys }
      else s)._player_events = update_queue C enter_message s := by
    unfold update_queue
    cases enter_message <;> rfl
  refine ⟨?_, ?_⟩
  · intro hship
    unfold PlayerShip.update at h
    simp only [hship, Option.isNone_none, if_true] at h
    cases h
    rfl
  · intro hship
    obtain ⟨n, hn⟩ := Option.ne_none_iff_exists'.mp hship
    obtain ⟨k1, k2, k3⟩ := update_loop_keeps C
      (if enter_message then { s with _player_events := update_keys_up C s.gTheseKeys }
        else s)._player_events
      (if enter_message then { s with _player_events := update_keys_up C s.gTheseKeys }
        else s, g)
    rw [← hq]
    unfold PlayerShip.update at h
    simp only [hn, Option.isNone_some, Bool.false_eq_true, if_false, Game.deref] at h
    simp only [hn] at k2
    rw [k2] at h
    simp only [] at h
    rw [k3] at h
    by_cases hactive : (g.objects n).active = 0
    · simp only [hactive, if_true] at h
      injection h with h
      exact (congrArg (fun p : PlayerShip × Game => p.1.gTheseKeys) h).symm
    · simp only [hactive, if_false] at h
      by_cases hattr : (g.objects n).attributes &&& C.kIsPlayerShip = 0
      · simp only [hattr, if_true] at h
        cases h
        rfl
      · simp only [hattr, if_false] at h
        split at h
        · cases h
        · cases h
          rfl

/-- C31: `PlayerShip::update` changes no bit of `gTheseKeys` that is set in
`g.key_mask` and no bit at or above `kKeyControlNum`; and when it has run its first
loop (there is a ship of the player), then at every control `k < kKeyControlNum`
that is not masked and is not one of the controls consumed directly, the bit is 1
if the last event of the queue for `k` is a KEY_DOWN, 0 if it is a KEY_UP or
LONG_KEY_UP, and as before if the queue has no event for `k`; the same holds of
the loop itself, which returns for every queue. -/
theorem update_folds_keys (C : Consts) (enter_message : Bool) (s s' : PlayerShip)
    (g g' : Game) (h : PlayerShip.update C enter_message s g = Except.ok (s', g')) :
    (∀ j, g.key_mask.testBit j = true ∨ C.kKeyControlNum ≤ j →
        s'.gTheseKeys.testBit j = s.gTheseKeys.testBit j)
      ∧ (g.ship ≠ none → ∀ k, k < C.kKeyControlNum → g.key_mask.testBit k = false →
          k ∉ consumed_keys C →
          s'.gTheseKeys.testBit k
            = folded_bit k (update_queue C enter_message s) (s.gTheseKeys.testBit k))
      ∧ (∀ (events : List PlayerEvent) (k : Nat), k < C.kKeyControlNum →
          g.key_mask.testBit k = false → k ∉ consumed_keys C →
          (events.foldl (fun sg e => update_event C e sg) (s, g)).1.gTheseKeys.testBit k
            = folded_bit k events (s.gTheseKeys.testBit k)) := by
  obtain ⟨h1, h2⟩ := update_keys C enter_message s s' g g' h
  have hs0 : (if enter_message then { s with _player_events := update_keys_up C s.gTheseKeys }
      else s).gTheseKeys = s.gTheseKeys := by
    cases enter_message <;> rfl
  obtain ⟨_, b2, b3⟩ := update_loop_bits C (update_queue C enter_message s)
    (if enter_message then { s with _player_events := update_keys_up C s.gTheseKeys }
      else s, g)
  refine ⟨?_, ?_, ?_⟩
  · intro j hj
    by_cases hship : g.ship = none
    · rw [h1 hship]
    · rw [h2 hship, b2 j hj, hs0]
  · intro hship k hk hm hc
    rw [h2 hship, b3 k hk hm hc, hs0]
  · intro events k hk hm hc
    exact (update_loop_bits C events (s, g)).2.2 k hk hm hc

theorem update_folds_keys_witness :
    PlayerShip.update example_consts false example_player_keys example_game_masked
        = Except.ok (ship_of (PlayerShip.update example_consts false example_player_keys
            example_game_masked))
      ∧ example_player_keys.gTheseKeys = 5 ∧ example_game_masked.key_mask = 4
      ∧ (ship_of (PlayerShip.update example_consts false example_player_keys
          example_game_masked)).1.gTheseKeys = 6
      ∧ (ship_of (PlayerShip.update example_consts false example_player_keys
          example_game_masked)).1.gTheseKeys.testBit 2 = Nat.testBit 5 2
      ∧ (ship_of (PlayerShip.update example_consts false example_player_keys
          example_game_masked)).1.gTheseKeys.testBit 1
        = folded_bit 1 example_player_keys._player_events (Nat.testBit 5 1) :=
  ⟨rfl, rfl, rfl, by decide,
    (update_folds_keys example_consts false example_player_keys _ example_game_masked _
      rfl).1 2 (Or.inl (by decide)),
    (update_folds_keys example_consts false example_player_keys _ example_game_masked _
      rfl).2.1 (by decide) 1 (by decide) (by decide) (by decide)⟩

/-! ### C32 -/

/-- Popping the entry pushed last gives the stream before the push. -/
theorem dropLast_push {α : Type} (l : List α) (a : α) : (l ++ [a]).dropLast = l := by
  exact List.dropLast_concat

/-- C32: in `retro`, wherever the parser is between escapes (state START), the
escape `\t` contributes one TAB entry and `\\` one NONE entry, each at the
position of the second character and with no DELAY entry left of the escape;
`\i` and `\r` contribute two DELAY entries each, one per character; and `\fXY`
and `\bXY` with digits X and Y contribute no entry and change the fore colour
only, respectively the back colour only.  For the text `a\tb\\c\f12d\b34e` the
stream is a, TAB, b, NONE, c, d, e at the positions 0, 2, 3, 5, 6, 11 and 16, with
the fore colour of d and e and the back colour of e changed. -/
theorem retro_escape_entries (env : TextEnv) (F0 B0 : RgbColor) (it : Nat)
    (rest : List Char) (s : Retro) (hs : s.state = RetroState.START) :
    retro_loop env F0 B0 it ('\\' :: 't' :: rest) s
        = retro_loop env F0 B0 (it + 2) rest
            { s with chars := s.chars ++
                [StyledChar.make (it + 1) SpecialChar.TAB 0 s.fore_color s.back_color] }
      ∧ retro_loop env F0 B0 it ('\\' :: '\\' :: rest) s
          = retro_loop env F0 B0 (it + 2) rest
              { s with chars := s.chars ++
                  [StyledChar.make (it + 1) SpecialChar.NONE 0 s.fore_color s.back_color] }
      ∧ retro_loop env F0 B0 it ('\\' :: 'i' :: rest) s
          = retro_loop env F0 B0 (it + 2) rest
              { s with fore_color := s.back_color,
                       back_color := s.fore_color,
                       chars := s.chars ++
                         [StyledChar.make it SpecialChar.DELAY 0 s.fore_color s.back_color,
                          StyledChar.make (it + 1) SpecialChar.DELAY 0 s.back_color
                            s.fore_color] }
      ∧ retro_loop env F0 B0 it ('\\' :: 'r' :: rest) s
          = retro_loop env F0 B0 (it + 2) rest
              { s with fore_color := F0,
                       back_color := B0,
                       chars := s.chars ++
                         [StyledChar.make it SpecialChar.DELAY 0 s.fore_color s.back_color,
                          StyledChar.make (it + 1) SpecialChar.DELAY 0 F0 B0] }
      ∧ (∀ (X Y : Char) (hue shade : Nat), hex_digit X = Except.ok hue →
          hex_digit Y = Except.ok shade →
          retro_loop env F0 B0 it ('\\' :: 'f' :: X :: Y :: rest) s
            = retro_loop env F0 B0 (it + 4) rest
                { s with fore_color := env.GetRGBTranslateColorShade hue shade, r1 := X })
      ∧ (∀ (X Y : Char) (hue shade : Nat), hex_digit X = Except.ok hue →
          hex_digit Y = Except.ok shade →
          retro_loop env F0 B0 it ('\\' :: 'b' :: X :: Y :: rest) s
            = retro_loop env F0 B0 (it + 4) rest
                { s with back_color := env.GetRGBTranslateColorShade hue shade, r1 := X })
      ∧ ∃ s', retro_loop env F0 B0 0
            ['a', '\\', 't', 'b', '\\', '\\', 'c', '\\', 'f', '1', '2', 'd', '\\', 'b', '3',
              '4', 'e'] (Retro.init F0 B0) = Except.ok s'
          ∧ s'.chars.map (fun c => (c.it, c.special, c.fore_color, c.back_color))
              = [(0, SpecialChar.NONE, F0, B0), (2, SpecialChar.TAB, F0, B0),
                 (3, SpecialChar.NONE, F0, B0), (5, SpecialChar.NONE, F0, B0),
                 (6, SpecialChar.NONE, F0, B0),
                 (11, SpecialChar.NONE, env.GetRGBTranslateColorShade 1 2, B0),
                 (16, SpecialChar.NONE, env.GetRGBTranslateColorShade 1 2,
                   env.GetRGBTranslateColorShade 3 4)] := by
  obtain ⟨chars, f, b, r1, state⟩ := s
  cases hs
  refine ⟨?_, ?_, ?_, ?_, ?_, ?_, ?_⟩
  · simp only [retro_loop, retro_char]
    simp [dropLast_push]
  · simp only [retro_loop, retro_char]
    simp [dropLast_push]
  · simp only [retro_loop, retro_char]
    simp
  · simp only [retro_loop, retro_char]
    simp
  · intro X Y hue shade hX hY
    simp only [retro_loop, retro_char]
    simp [dropLast_push, hX, hY]
  · intro X Y hue shade hX hY
    simp only [retro_loop, retro_char]
    simp [dropLast_push, hX, hY]
  · exact ⟨_, rfl, rfl⟩

theorem retro_escape_entries_witness :
    (Retro.init example_fore example_back).state = RetroState.START
      ∧ retro_loop example_text_env example_fore example_back 0 ['\\', 't']
          (Retro.init example_fore example_back)
        = Except.ok { Retro.init example_fore example_back with
            chars := [StyledChar.make 1 SpecialChar.TAB 0 example_fore example_back] }
      ∧ retro_loop example_text_env example_fore example_back 0 ['\\', 'f', '1', 'a']
          (Retro.init example_fore example_back)
        = Except.ok { Retro.init example_fore example_back with
            fore_color := example_text_env.GetRGBTranslateColorShade 1 10, r1 := '1' } :=
  ⟨rfl,
    (retro_escape_entries example_text_env example_fore example_back 0 []
      (Retro.init example_fore example_back) rfl).1,
    (retro_escape_entries example_text_env example_fore example_back 0 []
      (Retro.init example_fore example_back) rfl).2.2.2.2.1 '1' 'a' 1 10 rfl rfl⟩

/-! ### C33 -/

/-- An iteration of `rewrap` at a PICTURE that names an inline picture and is
followed by an entry; `top` is the line the picture is put on and `below` the line
below the picture and its padding. -/
theorem rewrap_char_picture (metrics : WrapMetrics) (text : List Char) (i : Nat)
    (s : Layout) (c next : StyledChar) (pict : inlinePictType) (top below : Int)
    (hc : s.chars[i]? = some c) (hsp : c.special = SpecialChar.PICTURE)
    (hp : s.inline_picts[c.pict_index]? = some pict) (hn : s.chars[i + 1]? = some next)
    (htop : top = if s.h ≠ metrics.side_margin
      then s.v + (metrics.font.height + metrics.line_spacing) else s.v)
    (hbelow : below = top + pict.bounds.height + metrics.line_spacing + 3) :
    rewrap_char metrics text i s
      = Except.ok
          { chars := s.chars.set i { c with bounds :=
              ⟨s.h, s.v, metrics.side_margin,
                s.v + (metrics.font.height + metrics.line_spacing)⟩ },
            inline_picts := s.inline_picts.set c.pict_index
              { pict with bounds := pict.bounds.offset 0 (top - pict.bounds.top) },
            h := metrics.side_margin,
            v := if next.special = SpecialChar.LINE_BREAK
              then below - (metrics.font.height + metrics.line_spacing) else below,
            auto_width := s.auto_width } := by
  have hi := getElem?_lt hc
  have hn' : ∀ x : StyledChar, (s.chars.set i x)[i + 1]? = some next := by
    intro x
    rw [List.getElem?_set, if_neg (by omega)]
    exact hn
  unfold rewrap_char
  rw [hc]
  dsimp only
  rw [hsp]
  dsimp only
  rw [hp]
  dsimp only
  rw [hn']
  dsimp only
  rw [close_set i _ _ _ _ _ _ hi, Rect.height_offset, ← htop, ← hbelow]

/-- The statement that ends an iteration of `rewrap` leaves the entry where it
starts. -/
theorem close_start (i : Nat) (X : Layout) (c : StyledChar) (hc : X.chars[i]? = some c) :
    ∃ s' c', Layout.close i X = Except.ok s' ∧ s'.chars[i]? = some c'
      ∧ c'.bounds.left = c.bounds.left ∧ c'.bounds.top = c.bounds.top := by
  unfold Layout.close
  rw [hc]
  refine ⟨_, { c with bounds := { c.bounds with right := X.h } }, rfl, ?_, rfl, rfl⟩
  dsimp only
  rw [List.getElem?_set, if_pos rfl, if_pos (getElem?_lt hc)]

/-- An iteration of `rewrap` at an entry that follows a PICTURE or a LINE_BREAK
leaves the entry where the cursor stood: no word is moved down across such an
entry. -/
theorem rewrap_char_after_stop (metrics : WrapMetrics) (text : List Char) (j : Nat)
    (s s' : Layout) (prev : StyledChar) (hprev : s.chars[j]? = some prev)
    (hstop : prev.special = SpecialChar.PICTURE ∨ prev.special = SpecialChar.LINE_BREAK)
    (h : rewrap_char metrics text (j + 1) s = Except.ok s') :
    ∃ c', s'.chars[j + 1]? = some c' ∧ c'.bounds.left = s.h ∧ c'.bounds.top = s.v := by
  have key : ∀ X : Layout, (∃ c1, X.chars[j + 1]? = some c1 ∧ c1.bounds.left = s.h
        ∧ c1.bounds.top = s.v) → Layout.close (j + 1) X = Except.ok s' →
      ∃ c', s'.chars[j + 1]? = some c' ∧ c'.bounds.left = s.h ∧ c'.bounds.top = s.v := by
    rintro X ⟨c1, hc1, hl, ht⟩ hX
    obtain ⟨s2, c', h2, hc', hl', ht'⟩ := close_start (j + 1) X c1 hc1
    rw [h2] at hX
    cases hX
    exact ⟨c', hc', hl'.trans hl, ht'.trans ht⟩
  unfold rewrap_char at h
  cases hc : s.chars[j + 1]? with
  | none =>
    rw [hc] at h
    cases h
  | some c =>
    have hj1 := getElem?_lt hc
    rw [hc] at h
    dsimp only at h
    have hset : ∃ c1, (s.chars.set (j + 1) { c with bounds :=
          ⟨s.h, s.v, s.h, s.v + (metrics.font.height + metrics.line_spacing)⟩ })[j + 1]?
        = some c1 ∧ c1.bounds.left = s.h ∧ c1.bounds.top = s.v := by
      refine ⟨{ c with bounds :=
          ⟨s.h, s.v, s.h, s.v + (metrics.font.height + metrics.line_spacing)⟩ }, ?_, rfl, rfl⟩
      rw [List.getElem?_set, if_pos rfl, if_pos hj1]
    have hmove : ∀ v : Int, c.in_word = true →
        move_word_down metrics text (s.chars.set (j + 1) { c with bounds :=
          ⟨s.h, s.v, s.h, s.v + (metrics.font.height + metrics.line_spacing)⟩ }) (j + 1) v
          = Except.ok (s.chars.set (j + 1) { c with bounds :=
              ⟨s.h, s.v, s.h, s.v + (metrics.font.height + metrics.line_spacing)⟩ },
            metrics.side_margin) := by
      intro v hw
      have hprev' : ∀ x : StyledChar, (s.chars.set (j + 1) x)[j]? = some prev := by
        intro x
        rw [List.getElem?_set, if_neg (by omega)]
        exact hprev
      have hcur : ∀ x : StyledChar, (s.chars.set (j + 1) x)[j + 1]? = some x := by
        intro x
        rw [List.getElem?_set, if_pos rfl, if_pos hj1]
      unfold StyledChar.in_word at hw
      rw [Bool.or_eq_true, decide_eq_true_eq, decide_eq_true_eq] at hw
      unfold move_word_down
      rw [move_word_down_from, hcur]
      dsimp only
      rcases hw with hw | hw
      · rw [hw]
        dsimp only
        rw [move_word_down_from, hprev']
        dsimp only
        rcases hstop with hs | hs <;> rw [hs]
      · rw [hw]
        dsimp only
        rw [move_word_down_from, hprev']
        dsimp only
        rcases hstop with hs | hs <;> rw [hs]
    cases hsp : c.special with
    | NONE =>
      rw [hsp] at h hset hmove
      dsimp only at h
      cases hr : text[c.it]? with
      | none =>
        rw [hr] at h
        cases h
      | some r =>
        rw [hr] at h
        dsimp only at h
        split at h
        · rw [hmove _ (by unfold StyledChar.in_word; rw [hsp]; rfl)] at h
          exact key _ hset h
        · exact key _ hset h
    | NO_BREAK =>
      rw [hsp] at h hset hmove
      dsimp only at h
      cases hr : text[c.it]? with
      | none =>
        rw [hr] at h
        cases h
      | some r =>
        rw [hr] at h
        dsimp only at h
        split at h
        · rw [hmove _ (by unfold StyledChar.in_word; rw [hsp]; rfl)] at h
          exact key _ hset h
        · exact key _ hset h
    | TAB =>
      rw [hsp] at h hset
      dsimp only at h
      split at h
      · cases h
      · exact key _ hset h
    | LINE_BREAK =>
      rw [hsp] at h hset
      exact key _ hset h
    | WORD_BREAK =>
      rw [hsp] at h hset
      dsimp only at h
      cases hr : text[c.it]? with
      | none =>
        rw [hr] at h
        cases h
      | some r =>
        rw [hr] at h
        exact key _ hset h
    | DELAY =>
      rw [hsp] at h hset
      exact key _ hset h
    | PICTURE =>
      rw [hsp] at h hset
      dsimp only at h
      cases hp : s.inline_picts[c.pict_index]? with
      | none =>
        rw [hp] at h
        cases h
      | some pict =>
        rw [hp] at h
        dsimp only at h
        split at h
        · cases h
        · exact key _ hset h

/-- C33: an iteration of `rewrap` at a PICTURE entry that names an inline picture
and is followed by an entry, reached with the cursor at `(h, v)`, returns; it puts
the top of the picture at `v` if `h` is the side margin and at `v` plus the line
height otherwise, and keeps the width and the height of the picture.  If the next
entry is no LINE_BREAK the cursor is left at the side margin and at the top of the
picture plus its height plus `line_spacing + 3`, and the iteration of the next
entry, when it returns, leaves that entry there; if the next entry is a LINE_BREAK
its iteration returns with the cursor at the same point, and the iteration of the
entry after, when it returns, leaves that entry there.  For the text
`ab^Px^c^Py^` followed by a line feed and `d` with pictures of 20 by 15 in a line
height of 11 the pictures are put at 11 and 41 and the entries of `c` and `d` start
at `(2, 30)` and `(2, 60)`; for `^Px^c` the picture is put at 0 and `c` at
`(2, 19)`. -/
theorem picture_layout (metrics : WrapMetrics) (text : List Char) (i : Nat)
    (s : Layout) (c next : StyledChar) (pict : inlinePictType)
    (hc : s.chars[i]? = some c) (hsp : c.special = SpecialChar.PICTURE)
    (hp : s.inline_picts[c.pict_index]? = some pict) (hn : s.chars[i + 1]? = some next) :
    (∃ s1 pict1, rewrap_char metrics text i s = Except.ok s1
      ∧ s1.inline_picts[c.pict_index]? = some pict1
      ∧ pict1.bounds.top = (if s.h = metrics.side_margin then s.v
          else s.v + (metrics.font.height + metrics.line_spacing))
      ∧ pict1.bounds.width = pict.bounds.width
      ∧ pict1.bounds.height = pict.bounds.height
      ∧ pict1.bounds.left = pict.bounds.left
      ∧ (next.special ≠ SpecialChar.LINE_BREAK →
          s1.h = metrics.side_margin
            ∧ s1.v = pict1.bounds.top + pict1.bounds.height + metrics.line_spacing + 3
            ∧ ∀ s2, rewrap_char metrics text (i + 1) s1 = Except.ok s2 →
                ∃ c2, s2.chars[i + 1]? = some c2
                  ∧ c2.bounds.left = metrics.side_margin
                  ∧ c2.bounds.top
                      = pict1.bounds.top + pict1.bounds.height + metrics.line_spacing + 3)
      ∧ (next.special = SpecialChar.LINE_BREAK →
          ∃ s2, rewrap_char metrics text (i + 1) s1 = Except.ok s2
            ∧ s2.h = metrics.side_margin
            ∧ s2.v = pict1.bounds.top + pict1.bounds.height + metrics.line_spacing + 3
            ∧ s2.inline_picts = s1.inline_picts
            ∧ ∀ s3, rewrap_char metrics text (i + 2) s2 = Except.ok s3 →
                ∃ c3, s3.chars[i + 2]? = some c3
                  ∧ c3.bounds.left = metrics.side_margin
                  ∧ c3.bounds.top
                      = pict1.bounds.top + pict1.bounds.height + metrics.line_spacing + 3))
      ∧ ((text_of (StyledText.interface example_text_env
              ['a', 'b', '^', 'P', 'x', '^', 'c', '^', 'P', 'y', '^', '\n', 'd']
              example_metrics example_fore example_back)).chars.map
            (fun c => (c.special, c.bounds.left, c.bounds.top))
          = [(SpecialChar.NONE, 2, 0), (SpecialChar.NONE, 8, 0), (SpecialChar.PICTURE, 14, 0),
             (SpecialChar.NONE, 2, 30), (SpecialChar.PICTURE, 8, 30),
             (SpecialChar.LINE_BREAK, 2, 49), (SpecialChar.NONE, 2, 60),
             (SpecialChar.LINE_BREAK, 8, 60)])
      ∧ ((text_of (StyledText.interface example_text_env
              ['a', 'b', '^', 'P', 'x', '^', 'c', '^', 'P', 'y', '^', '\n', 'd']
              example_metrics example_fore example_back)).inline_picts.map
            (fun p => p.bounds)
          = [⟨0, 11, 20, 26⟩, ⟨0, 41, 20, 56⟩])
      ∧ ((text_of (StyledText.interface example_text_env ['^', 'P', 'x', '^', 'c']
              example_metrics example_fore example_back)).chars.map
            (fun c => (c.special, c.bounds.left, c.bounds.top))
          = [(SpecialChar.PICTURE, 2, 0), (SpecialChar.NONE, 2, 19),
             (SpecialChar.LINE_BREAK, 8, 19)])
      ∧ ((text_of (StyledText.interface example_text_env ['^', 'P', 'x', '^', 'c']
              example_metrics example_fore example_back)).inline_picts.map
            (fun p => p.bounds)
          = [⟨0, 0, 20, 15⟩]) := by
  refine ⟨?_, by decide, by decide, by decide, by decide⟩
  have hi := getElem?_lt hc
  have hpi := getElem?_lt hp
  obtain ⟨top, htop0⟩ : ∃ top : Int, top = if s.h ≠ metrics.side_margin
      then s.v + (metrics.font.height + metrics.line_spacing) else s.v := ⟨_, rfl⟩
  have htop : top = (if s.h = metrics.side_margin then s.v
      else s.v + (metrics.font.height + metrics.line_spacing)) := by
    rw [htop0]
    by_cases hm : s.h = metrics.side_margin
    · rw [if_neg (not_not.mpr hm), if_pos hm]
    · rw [if_pos hm, if_neg hm]
  have hstep := rewrap_char_picture metrics text i s c next pict top _ hc hsp hp hn htop0 rfl
  have hptop : (pict.bounds.offset 0 (top - pict.bounds.top)).top = top := by
    unfold Rect.offset
    dsimp only
    omega
  have hheight : (pict.bounds.offset 0 (top - pict.bounds.top)).height
      = pict.bounds.height := Rect.height_offset _ _ _
  obtain ⟨s1, hs1, hch, hpic, hh, hv⟩ : ∃ s1 : Layout,
      rewrap_char metrics text i s = Except.ok s1
        ∧ s1.chars = s.chars.set i { c with bounds := ⟨s.h, s.v, metrics.side_margin,
            s.v + (metrics.font.height + metrics.line_spacing)⟩ }
        ∧ s1.inline_picts = s.inline_picts.set c.pict_index
            { pict with bounds := pict.bounds.offset 0 (top - pict.bounds.top) }
        ∧ s1.h = metrics.side_margin
        ∧ s1.v = (if next.special = SpecialChar.LINE_BREAK
            then top + pict.bounds.height + metrics.line_spacing + 3
              - (metrics.font.height + metrics.line_spacing)
            else top + pict.bounds.height + metrics.line_spacing + 3) :=
    ⟨_, hstep, rfl, rfl, rfl, rfl⟩
  have hprev : s1.chars[i]? = some { c with bounds := ⟨s.h, s.v, metrics.side_margin,
      s.v + (metrics.font.height + metrics.line_spacing)⟩ } := by
    rw [hch, List.getElem?_set, if_pos rfl, if_pos hi]
  have hn1 : s1.chars[i + 1]? = some next := by
    rw [hch, List.getElem?_set, if_neg (by omega)]
    exact hn
  refine ⟨s1, { pict with bounds := pict.bounds.offset 0 (top - pict.bounds.top) },
    hs1, ?_, hptop.trans htop, ?_, hheight, ?_, ?_, ?_⟩
  · rw [hpic, List.getElem?_set, if_pos rfl, if_pos hpi]
  · unfold Rect.width Rect.offset
    dsimp only
    omega
  · unfold Rect.offset
    dsimp only
    omega
  · intro hnl
    rw [if_neg hnl] at hv
    dsimp only
    rw [hptop, hheight]
    refine ⟨hh, hv, ?_⟩
    intro s2 h2
    obtain ⟨c2, hc2, hl, ht⟩ := rewrap_char_after_stop metrics text i s1 s2 _ hprev
      (Or.inl hsp) h2
    exact ⟨c2, hc2, hl.trans hh, ht.trans hv⟩
  · intro hnl
    rw [if_pos hnl] at hv
    dsimp only
    rw [hptop, hheight]
    have h2 := rewrap_char_line_break metrics text (i + 1) s1 next hn1 hnl
    have hv2 : s1.v + (metrics.font.height + metrics.line_spacing)
        = top + pict.bounds.height + metrics.line_spacing + 3 := by
      rw [hv]
      omega
    refine ⟨_, h2, rfl, hv2, rfl, ?_⟩
    intro s3 h3
    obtain ⟨c3, hc3, hl, ht⟩ := rewrap_char_after_stop metrics text (i + 1) _ s3
      { next with bounds := ⟨s1.h, s1.v, metrics.side_margin,
          s1.v + (metrics.font.height + metrics.line_spacing)⟩ }
      (by dsimp only; rw [List.getElem?_set, if_pos rfl, if_pos (getElem?_lt hn1)])
      (Or.inr hnl) h3
    exact ⟨c3, hc3, hl, ht.trans hv2⟩

theorem picture_layout_witness :
    example_picture_layout.chars[0]?
        = some (StyledChar.make 0 SpecialChar.PICTURE 0 example_fore example_back)
      ∧ example_picture_layout.chars[1]?
        = some (StyledChar.make 1 SpecialChar.NONE 0 example_fore example_back)
      ∧ example_picture_layout.inline_picts[0]? = some ⟨none, ['x'], ⟨0, 0, 20, 15⟩⟩
      ∧ ∃ s1 pict1, rewrap_char example_metrics ['P', 'c'] 0 example_picture_layout
            = Except.ok s1
          ∧ s1.inline_picts[0]? = some pict1
          ∧ pict1.bounds.top = 11 ∧ pict1.bounds.height = 15
          ∧ s1.h = 2 ∧ s1.v = 30 := by
  refine ⟨rfl, rfl, rfl, ?_⟩
  obtain ⟨s1, pict1, h1, h2, h3, _, h5, _, h7, _⟩ :=
    (picture_layout example_metrics ['P', 'c'] 0 example_picture_layout
      (StyledChar.make 0 SpecialChar.PICTURE 0 example_fore example_back)
      (StyledChar.make 1 SpecialChar.NONE 0 example_fore example_back)
      ⟨none, ['x'], ⟨0, 0, 20, 15⟩⟩ rfl rfl rfl rfl).1
  have h3' : pict1.bounds.top = 11 := h3.trans (by decide)
  have h5' : pict1.bounds.height = 15 := h5.trans (by decide)
  obtain ⟨hh, hv, _⟩ := h7 (by decide)
  refine ⟨s1, pict1, h1, h2, h3', h5', hh.trans (by decide), ?_⟩
  rw [hv, h3', h5']
  decide

/-! ### C34 -/

/-- An iteration of `rewrap` at a TAB, for a tab width that is not 0. -/
theorem rewrap_char_tab (metrics : WrapMetrics) (text : List Char) (i : Nat)
    (s : Layout) (c : StyledChar) (hc : s.chars[i]? = some c)
    (hsp : c.special = SpecialChar.TAB) (ht : metrics.tab_width ≠ 0) :
    rewrap_char metrics text i s
      = Except.ok
          { chars := s.chars.set i { c with bounds :=
              ⟨s.h, s.v, s.h + (metrics.tab_width - Int.tmod s.h metrics.tab_width),
                s.v + (metrics.font.height + metrics.line_spacing)⟩ },
            inline_picts := s.inline_picts,
            h := s.h + (metrics.tab_width - Int.tmod s.h metrics.tab_width),
            v := s.v,
            auto_width := max s.auto_width
              (s.h + (metrics.tab_width - Int.tmod s.h metrics.tab_width)) } := by
  unfold rewrap_char
  rw [hc]
  dsimp only
  rw [hsp]
  dsimp only
  rw [if_neg ht, close_set i _ _ _ _ _ _ (getElem?_lt hc)]

/-- The next tab stop: for `h ≥ 0` and `t > 0` the number `h + (t - h % t)`, with
the remainder of C++, is the least multiple of `t` above `h`. -/
theorem next_tab_stop (h t : Int) (hh : 0 ≤ h) (ht : 0 < t) :
    t ∣ h + (t - Int.tmod h t) ∧ h < h + (t - Int.tmod h t)
      ∧ ∀ m : Int, t ∣ m → h < m → h + (t - Int.tmod h t) ≤ m := by
  rw [Int.tmod_eq_emod hh (le_of_lt ht)]
  have hlt : h % t < t := Int.emod_lt_of_pos h ht
  have hge : 0 ≤ h % t := Int.emod_nonneg h (ne_of_gt ht)
  have hdiv : h + (t - h % t) = t * (h / t + 1) := by
    have := Int.emod_add_ediv h t
    linarith
  refine ⟨⟨h / t + 1, hdiv⟩, by omega, ?_⟩
  rintro m ⟨k, rfl⟩ hm
  rw [hdiv]
  have hk : h / t < k := by
    by_contra hk
    have hk' : k ≤ h / t := not_lt.mp hk
    have h1 : t * k ≤ t * (h / t) := Int.mul_le_mul_of_nonneg_left hk' (le_of_lt ht)
    have h2 := Int.emod_add_ediv h t
    omega
  exact Int.mul_le_mul_of_nonneg_left (by omega) (le_of_lt ht)

/-- With a positive tab width or a width of at least 2, the tab width `rewrap`
lays out with is positive. -/
theorem resolved_tab_width_pos (metrics : WrapMetrics)
    (h : 0 < metrics.tab_width ∨ 2 ≤ metrics.width) : 0 < resolved_tab_width metrics := by
  unfold resolved_tab_width
  split_ifs with hle
  · rcases h with h | h
    · omega
    · have h0 : (0 : Int) ≤ metrics.width := by omega
      rw [Int.tdiv_eq_ediv h0 (by decide)]
      omega
  · omega

/-- The metrics `rewrap` lays out with are the given ones with the tab width
resolved. -/
theorem rewrap_metrics (metrics : WrapMetrics) :
    (if metrics.tab_width ≤ 0
        then { metrics with tab_width := Int.tdiv metrics.width 2 }
        else metrics) = { metrics with tab_width := resolved_tab_width metrics } := by
  unfold resolved_tab_width
  split <;> rfl

/-- C34: `rewrap` lays out with the tab width of the metrics, or with
`width / 2` when that is not positive, and stores it; at a TAB entry reached at
`h ≥ 0` with a tab width `t > 0` the new position is `h + t - (h mod t)`, the least
multiple of `t` above `h`, the line is kept, and the bounds of the entry span from
`h` to the new position; and with a tab width above 0 or a width of at least 2
the divisor of the modulo is positive, so that `rewrap` returns for every
well-formed stream.  For the text `a\tb\tc` of `retro` in a width of 40 with no tab
width the two TAB entries span from 8 to 20 and from 26 to 40. -/
theorem rewrap_tab_stops (t : StyledText) :
    (∀ t1, t.rewrap = Except.ok t1 →
        t1.wrap_metrics.tab_width
            = (if t.wrap_metrics.tab_width ≤ 0 then Int.tdiv t.wrap_metrics.width 2
               else t.wrap_metrics.tab_width)
          ∧ ∃ s, forEach (List.range t.chars.length)
                { chars := t.chars, inline_picts := t.inline_picts,
                  h := t.wrap_metrics.side_margin, v := 0, auto_width := 0 }
                (rewrap_char { t.wrap_metrics with
                    tab_width := (if t.wrap_metrics.tab_width ≤ 0
                      then Int.tdiv t.wrap_metrics.width 2 else t.wrap_metrics.tab_width) }
                  t.text) = Except.ok s
              ∧ t1.chars = s.chars)
      ∧ (∀ (metrics : WrapMetrics) (text : List Char) (i : Nat) (s : Layout) (c : StyledChar),
          s.chars[i]? = some c → c.special = SpecialChar.TAB → 0 ≤ s.h →
          0 < metrics.tab_width →
          ∃ s' c', rewrap_char metrics text i s = Except.ok s'
            ∧ s'.h = s.h + metrics.tab_width - Int.tmod s.h metrics.tab_width
            ∧ metrics.tab_width ∣ s'.h ∧ s.h < s'.h
            ∧ (∀ m : Int, metrics.tab_width ∣ m → s.h < m → s'.h ≤ m)
            ∧ s'.v = s.v
            ∧ s'.chars[i]? = some c' ∧ c'.bounds.left = s.h ∧ c'.bounds.right = s'.h)
      ∧ ((0 < t.wrap_metrics.tab_width ∨ 2 ≤ t.wrap_metrics.width) →
          0 < resolved_tab_width t.wrap_metrics
            ∧ (WellFormed t.text.length t.inline_picts.length
                (t.chars.map StyledChar.unplaced) → ∃ t1, t.rewrap = Except.ok t1))
      ∧ (text_of (StyledText.retro example_text_env ['a', '\\', 't', 'b', '\\', 't', 'c']
            example_metrics example_fore example_back)).chars.map
          (fun c => (c.special, c.bounds.left, c.bounds.right))
        = [(SpecialChar.NONE, 2, 8), (SpecialChar.TAB, 8, 20), (SpecialChar.NONE, 20, 26),
           (SpecialChar.TAB, 26, 40), (SpecialChar.NONE, 2, 8),
           (SpecialChar.LINE_BREAK, 8, 2)] := by
  refine ⟨?_, ?_, ?_, by decide⟩
  · intro t1 h
    have hw := rewrap_tab_width t t1 h
    unfold resolved_tab_width at hw
    refine ⟨hw, ?_⟩
    unfold StyledText.rewrap at h
    dsimp only at h
    rw [rewrap_metrics] at h
    unfold resolved_tab_width at h
    dsimp only at h
    cases hl : forEach (List.range t.chars.length)
        { chars := t.chars, inline_picts := t.inline_picts,
          h := t.wrap_metrics.side_margin, v := 0, auto_width := 0 }
        (rewrap_char { t.wrap_metrics with
            tab_width := (if t.wrap_metrics.tab_width ≤ 0
              then Int.tdiv t.wrap_metrics.width 2 else t.wrap_metrics.tab_width) }
          t.text) with
    | error e =>
      rw [hl] at h
      cases h
    | ok s =>
      rw [hl] at h
      cases h
      exact ⟨s, rfl, rfl⟩
  · intro metrics text i s c hc hsp hh ht
    obtain ⟨hdvd, hlt, hleast⟩ := next_tab_stop s.h metrics.tab_width hh ht
    have hi := getElem?_lt hc
    refine ⟨_, { c with bounds :=
        ⟨s.h, s.v, s.h + (metrics.tab_width - Int.tmod s.h metrics.tab_width),
          s.v + (metrics.font.height + metrics.line_spacing)⟩ },
      rewrap_char_tab metrics text i s c hc hsp (ne_of_gt ht), ?_, hdvd, hlt,
      hleast, rfl, ?_, rfl, rfl⟩
    · show s.h + (metrics.tab_width - Int.tmod s.h metrics.tab_width) = _
      omega
    · show (s.chars.set i _)[i]? = some _
      rw [List.getElem?_set, if_pos rfl, if_pos hi]
  · intro h
    have hpos := resolved_tab_width_pos t.wrap_metrics h
    refine ⟨hpos, ?_⟩
    intro hwf
    have hok := rewrap_ok t hwf
    cases hr : t.rewrap with
    | ok t1 => exact ⟨t1, rfl⟩
    | error e =>
      rw [hr] at hok
      obtain ⟨_, hz, _⟩ := hok
      omega

/-! ### C35 -/

/-- A loop whose iterations return returns. -/
theorem forEach_returns {α σ ε : Type} (body : α → σ → Except ε σ) :
    ∀ (xs : List α) (s : σ), (∀ x ∈ xs, ∀ a, ∃ b, body x a = Except.ok b) →
      ∃ s', forEach xs s body = Except.ok s' := by
  intro xs
  induction xs with
  | nil =>
    intro s _
    exact ⟨s, rfl⟩
  | cons x rest ih =>
    intro s hbody
    obtain ⟨b, hb⟩ := hbody x (List.mem_cons_self _ _) s
    simp only [forEach]
    rw [hb]
    exact ih b (fun y hy => hbody y (List.mem_cons_of_mem _ hy))

/-- One iteration of the first loop of `draw_range` at an entry of the stream: it
returns, and its calls are those of the caret and then that of the background. -/
theorem draw_rects_entry_calls (env : DrawEnv) (bounds : Rect) (chars : List StyledChar)
    (i : Nat) (s : Caret) (ch : StyledChar) (hc : chars[i]? = some ch) :
    ∃ s', draw_rects_entry env bounds chars i s = Except.ok s'
      ∧ s'.calls = (draw_caret env ch (ch.bounds.offset bounds.left bounds.top) s).calls
          ++ (draw_background env bounds ch (ch.bounds.offset bounds.left bounds.top)).toList := by
  unfold draw_rects_entry
  rw [hc]
  dsimp only
  cases draw_background env bounds ch (ch.bounds.offset bounds.left bounds.top) with
  | none => exact ⟨_, rfl, by simp⟩
  | some call => exact ⟨_, rfl, rfl⟩

/-- The glyph of an entry: one call with the colour of the glyph for an entry
tagged NONE, and no call for another entry. -/
theorem draw_glyph_eq (env : DrawEnv) (metrics : WrapMetrics) (text : List Char)
    (bounds : Rect) (ch : StyledChar) :
    (ch.special = SpecialChar.NONE → ∀ rune, text[ch.it]? = some rune →
        draw_glyph env metrics text bounds ch
          = Except.ok (some (DrawCall.glyph
              ⟨ch.bounds.left + bounds.left,
                ch.bounds.top + (bounds.top + metrics.font.ascent + metrics.line_spacing)⟩
              rune (if is_selected env ch then ch.back_color else ch.fore_color))))
      ∧ (ch.special ≠ SpecialChar.NONE →
          draw_glyph env metrics text bounds ch = Except.ok none) := by
  refine ⟨?_, ?_⟩
  · intro hsp rune hr
    unfold draw_glyph
    dsimp only
    rw [if_pos hsp, hr]
  · intro hsp
    unfold draw_glyph
    dsimp only
    rw [if_neg hsp]

/-- Method `draw_range` returns for a built text and a range of its stream. -/
theorem draw_range_returns (env : DrawEnv) (t : StyledText) (bounds : Rect)
    (begin end_ : Nat) (hb : Built t) (hend : end_ ≤ t.chars.length) :
    ∃ calls, t.draw_range env bounds begin end_ = Except.ok calls := by
  obtain ⟨⟨hne, hlast, hiter, hpict⟩, htex⟩ := hb
  have hin : ∀ i ∈ List.range' begin (end_ - begin), i < t.chars.length := by
    intro i hi
    have := List.mem_range'_1.mp hi
    omega
  have hst : ∀ (i : Nat) (ch : StyledChar), t.chars[i]? = some ch →
      (t.chars.map StyledChar.unplaced)[i]? = some ch.unplaced := by
    intro i ch hc
    rw [List.getElem?_map, hc]
    rfl
  unfold StyledText.draw_range draw_rects
  dsimp only
  obtain ⟨s1, h1⟩ := forEach_returns (draw_rects_entry env bounds t.chars)
    (List.range' begin (end_ - begin))
    { should_draw_caret := decide (0 ≤ env.selection.1)
        && decide (env.selection.1 = env.selection.2)
        && decide (env.selection.2 < env.text_size),
      prev_bounds := ⟨0, 0, 0, 0⟩, calls := [] }
    (fun i hi a => by
      have hlt := hin i hi
      obtain ⟨s', hs', _⟩ := draw_rects_entry_calls env bounds t.chars i a (t.chars[i])
        (List.getElem?_eq_getElem hlt)
      exact ⟨s', hs'⟩)
  rw [h1]
  dsimp only
  have hcaret : ∃ calls, draw_last_caret bounds t.chars s1 = Except.ok calls := by
    unfold draw_last_caret
    split
    · cases hg : t.chars.getLast? with
      | none =>
        rw [List.getLast?_eq_none_iff] at hg
        rw [hg] at hne
        exact absurd rfl hne
      | some ch => exact ⟨_, rfl⟩
    · exact ⟨_, rfl⟩
  obtain ⟨calls1, hc1⟩ := hcaret
  rw [hc1]
  dsimp only
  obtain ⟨calls2, h2⟩ := forEach_returns
    (draw_quads_entry env t.wrap_metrics t.text bounds t.chars)
    (List.range' begin (end_ - begin)) calls1
    (fun i hi a => by
      have hlt := hin i hi
      have hc : t.chars[i]? = some (t.chars[i]) := List.getElem?_eq_getElem hlt
      unfold draw_quads_entry
      rw [hc]
      dsimp only
      by_cases hsp : (t.chars[i]).special = SpecialChar.NONE
      · have hnext : i + 1 < (t.chars.map StyledChar.unplaced).length :=
          hlast i (t.chars[i]).unplaced (hst i _ hc) (by
            show (t.chars[i]).special ≠ SpecialChar.LINE_BREAK
            rw [hsp]
            decide)
        have hit : (t.chars[i]).it < t.text.length := hiter i (t.chars[i]).unplaced (hst i _ hc) hnext
        rw [(draw_glyph_eq env t.wrap_metrics t.text bounds _).1 hsp _
          (List.getElem?_eq_getElem hit)]
        exact ⟨_, rfl⟩
      · rw [(draw_glyph_eq env t.wrap_metrics t.text bounds _).2 hsp]
        exact ⟨_, rfl⟩)
  rw [h2]
  dsimp only
  exact forEach_returns (draw_picture_entry t bounds) (List.range' begin (end_ - begin)) calls2
    (fun i hi a => by
      have hlt := hin i hi
      have hc : t.chars[i]? = some (t.chars[i]) := List.getElem?_eq_getElem hlt
      unfold draw_picture_entry
      rw [hc]
      dsimp only
      split
      · rename_i hsp
        have hp : (t.chars[i]).pict_index < t.inline_picts.length :=
          hpict (t.chars[i]).unplaced (List.getElem?_mem (hst i _ hc)) hsp
        rw [List.getElem?_eq_getElem hp]
        dsimp only
        rw [if_pos (by rw [htex]; exact hp)]
        exact ⟨_, rfl⟩
      · exact ⟨_, rfl⟩)

/-- C35: in `draw_range`, an entry being selected when
`selection.first <= offset < selection.second`, the background of an entry is
filled with its back colour when the entry is not selected and with its fore
colour when it is, and its glyph is drawn with the fore colour when it is not
selected and with the back colour when it is; a glyph is drawn for the entries
tagged NONE only; and the background is left out exactly for the PICTURE and DELAY
entries and where the colour to fill with is black.  Each iteration of the first
loop makes the calls of the caret and then the call of the background, and the
function returns for a built text.  For the text `ab c`, white on black with `b`
and the blank selected, the backgrounds of `b` and the blank are filled with
white, and the glyphs of `a`, `b` and `c` are drawn white, black and white. -/
theorem draw_range_colours (env : DrawEnv) (metrics : WrapMetrics) (text : List Char)
    (bounds r : Rect) (ch : StyledChar) :
    (is_selected env ch = true
        ↔ env.selection.1 ≤ env.offset ch.it ∧ env.offset ch.it < env.selection.2)
      ∧ (∀ call, draw_background env bounds ch r = some call →
          ∃ rect, call = DrawCall.fill rect
            (if is_selected env ch then ch.fore_color else ch.back_color))
      ∧ (draw_background env bounds ch r = none
          ↔ ch.special = SpecialChar.PICTURE ∨ ch.special = SpecialChar.DELAY
            ∨ (if is_selected env ch then ch.fore_color else ch.back_color)
                = RgbColor.black)
      ∧ (∀ call, draw_glyph env metrics text bounds ch = Except.ok (some call) →
          ch.special = SpecialChar.NONE
            ∧ ∃ p rune, call = DrawCall.glyph p rune
                (if is_selected env ch then ch.back_color else ch.fore_color))
      ∧ (ch.special = SpecialChar.NONE → ∀ rune, text[ch.it]? = some rune →
          ∃ p, draw_glyph env metrics text bounds ch
            = Except.ok (some (DrawCall.glyph p rune
                (if is_selected env ch then ch.back_color else ch.fore_color))))
      ∧ (ch.special ≠ SpecialChar.NONE →
          draw_glyph env metrics text bounds ch = Except.ok none)
      ∧ (∀ (chars : List StyledChar) (i : Nat) (s : Caret), chars[i]? = some ch →
          ∃ s', draw_rects_entry env bounds chars i s = Except.ok s'
            ∧ s'.calls
                = (draw_caret env ch (ch.bounds.offset bounds.left bounds.top) s).calls
                  ++ (draw_background env bounds ch
                        (ch.bounds.offset bounds.left bounds.top)).toList)
      ∧ (∀ (t : StyledText) (begin end_ : Nat), Built t → end_ ≤ t.chars.length →
          ∃ calls, t.draw_range env bounds begin end_ = Except.ok calls)
      ∧ (text_of (StyledText.plain ['a', 'b', ' ', 'c'] example_metrics example_fore
            example_back)).draw_range example_draw_env ⟨100, 50, 140, 90⟩ 0 5
          = Except.ok
              [DrawCall.fill ⟨108, 50, 114, 61⟩ example_fore,
               DrawCall.fill ⟨114, 50, 120, 61⟩ example_fore,
               DrawCall.glyph ⟨102, 51⟩ 'a' example_fore,
               DrawCall.glyph ⟨108, 51⟩ 'b' example_back,
               DrawCall.glyph ⟨120, 51⟩ 'c' example_fore] := by
  refine ⟨?_, ?_, ?_, ?_, ?_, ?_, ?_, ?_, rfl⟩
  · unfold is_selected
    rw [Bool.and_eq_true, decide_eq_true_eq, decide_eq_true_eq]
  · intro call h
    unfold draw_background at h
    dsimp only at h
    generalize (if is_selected env ch = true then ch.fore_color else ch.back_color) = color
      at h ⊢
    cases hsp : ch.special <;> rw [hsp] at h <;> dsimp only at h
    all_goals first
      | cases h
      | (split_ifs at h
         cases h
         exact ⟨_, rfl⟩)
  · unfold draw_background
    dsimp only
    generalize (if is_selected env ch = true then ch.fore_color else ch.back_color) = color
    cases hsp : ch.special <;> dsimp only
    all_goals first
      | (constructor
         · intro _
           first
             | exact Or.inl rfl
             | exact Or.inr (Or.inl rfl)
         · intro _
           rfl)
      | (constructor
         · intro h
           split_ifs at h with hc
           · exact Or.inr (Or.inr hc)
         · rintro (h | h | h)
           · cases h
           · cases h
           · rw [if_pos h])
  · intro call h
    by_cases hsp : ch.special = SpecialChar.NONE
    · refine ⟨hsp, ?_⟩
      unfold draw_glyph at h
      dsimp only at h
      rw [if_pos hsp] at h
      cases hr : text[ch.it]? with
      | none =>
        rw [hr] at h
        cases h
      | some rune =>
        rw [hr] at h
        cases h
        exact ⟨_, rune, rfl⟩
    · rw [(draw_glyph_eq env metrics text bounds ch).2 hsp] at h
      cases h
  · intro hsp rune hr
    exact ⟨_, (draw_glyph_eq env metrics text bounds ch).1 hsp rune hr⟩
  · intro hsp
    exact (draw_glyph_eq env metrics text bounds ch).2 hsp
  · intro chars i s hc
    exact draw_rects_entry_calls env bounds chars i s ch hc
  · intro t begin end_ hb hend
    exact draw_range_returns env t bounds begin end_ hb hend

/-! ### Media loading: what no call returns -/

/-- A loop whose iterations keep `I` or fail with `E` keeps `I` or fails with
`E`. -/
theorem forEach_lands {α σ ε : Type} (I : σ → Prop) (E : ε → Prop)
    (body : α → σ → Except ε σ) :
    ∀ (xs : List α) (s : σ), (∀ x ∈ xs, ∀ a, I a → Lands I E (body x a)) → I s →
      Lands I E (forEach xs s body) := by
  intro xs
  induction xs with
  | nil =>
    intro s _ hs
    exact hs
  | cons x rest ih =>
    intro s hbody hs
    have hx := hbody x (List.mem_cons_self _ _) s hs
    simp only [forEach]
    cases hb : body x s with
    | ok b =>
      rw [hb] at hx
      exact ih b (fun y hy => hbody y (List.mem_cons_of_mem _ hy)) hx
    | error e =>
      rw [hb] at hx
      exact hx

/-- Function `AddActionMedia` keeps an invariant of the loaded colours that the
recursive call keeps, and fails as the recursive call does, when the sound loop of
the action ends or a loop that does not end is among the failures. -/
theorem AddActionMedia_lands (p : Plugin) (I : World → Prop) (E : Fault → Prop)
    (hI : ∀ w w' : World, w'.state.colors_loaded = w.state.colors_loaded → I w → I w')
    (recur : Handle → Color → World → Except Fault World)
    (hrec : ∀ h c a, I a → Lands I E (recur h c a))
    (action : Action) (color : Color) (all_colors : Bitset16)
    (hs : action.sound_ends = true ∨ E Fault.out_of_fuel) (w : World) (hw : I w) :
    Lands I E (AddActionMedia p recur action color all_colors w) := by
  cases action with
  | createObject whichBaseType => exact hrec _ _ _ hw
  | createObjectSetDest whichBaseType => exact hrec _ _ _ hw
  | playSound idMinimum idRange =>
    simp only [AddActionMedia]
    unfold sound_loop
    split
    · rename_i hmax
      rcases hs with hs | hs
      · simp only [Action.sound_ends, decide_eq_true_eq] at hs
        exact absurd hmax.2 hs
      · exact hs
    · exact hI _ _ (by rw [sound_load_foldl_state]) hw
  | alterBaseType base => exact hrec _ _ _ hw
  | alterOwner number =>
    simp only [AddActionMedia]
    refine forEach_lands I E _ _ w ?_ hw
    intro baseObject _ a ha
    have ha1 : I (if p.action_filter_applies_to (Action.alterOwner number) baseObject = true
        then a.need_all baseObject all_colors else a) := by
      split
      · exact hI a _ rfl ha
      · exact ha
    have key : ∀ a1 : World, I a1 →
        Lands I E (if (a1.state.colors_loaded baseObject).any = true
          then recur (some baseObject) color a1 else Except.ok a1) := by
      intro a1 h1
      split
      · exact hrec _ _ _ h1
      · exact h1
    exact key _ ha1
  | other verb => exact hw

/-- Function `AddBaseObjectActionMedia` keeps an invariant of the loaded colours
that the recursive call keeps, and fails as the recursive call does, when the sound
loops of the actions end or a loop that does not end is among the failures. -/
theorem AddBaseObjectActionMedia_lands (p : Plugin) (I : World → Prop) (E : Fault → Prop)
    (hI : ∀ w w' : World, w'.state.colors_loaded = w.state.colors_loaded → I w → I w')
    (recur : Handle → Color → World → Except Fault World)
    (hrec : ∀ h c a, I a → Lands I E (recur h c a))
    (actions : List Action) (color : Color) (all_colors : Bitset16)
    (hs : (∀ action ∈ actions, action.sound_ends = true) ∨ E Fault.out_of_fuel)
    (w : World) (hw : I w) :
    Lands I E (AddBaseObjectActionMedia p recur actions color all_colors w) := by
  unfold AddBaseObjectActionMedia
  refine forEach_lands I E _ _ w ?_ hw
  intro action hmem a ha
  exact AddActionMedia_lands p I E hI recur hrec action color all_colors
    (hs.imp (fun h => h action hmem) id) a ha

/-- The actions of the six lists of a base object are among its actions. -/
theorem BaseObject.mem_actions (base : BaseObject) (actions : List Action)
    (hmem : actions ∈ [base.destroy, base.expire, base.create, base.collide,
      base.activate, base.arrive]) (action : Action) (h : action ∈ actions) :
    action ∈ base.actions := by
  unfold BaseObject.actions
  simp only [List.mem_cons, List.mem_singleton, List.not_mem_nil, or_false] at hmem
  simp only [List.mem_append]
  rcases hmem with e | e | e | e | e | e
  · subst e
    exact Or.inl (Or.inl (Or.inl (Or.inl (Or.inl h))))
  · subst e
    exact Or.inl (Or.inl (Or.inl (Or.inl (Or.inr h))))
  · subst e
    exact Or.inl (Or.inl (Or.inl (Or.inr h)))
  · subst e
    exact Or.inl (Or.inl (Or.inr h))
  · subst e
    exact Or.inl (Or.inr h)
  · subst e
    exact Or.inr h

/-- One iteration of the colour loop of `AddBaseObjectMedia`: when setting a bit of
`colors_loaded` that was not set turns the invariant `Iout` into an invariant `Iin`
that the recursive call keeps, the iteration keeps `Iout`, and it fails as the
recursive call does, when the sound loops of the actions of the base object end or
a loop that does not end is among the failures. -/
theorem load_color_lands (p : Plugin) (Iout Iin : World → Prop) (E : Fault → Prop)
    (hI : ∀ w w' : World, w'.state.colors_loaded = w.state.colors_loaded → Iin w → Iin w')
    (recur : Handle → Color → World → Except Fault World)
    (hrec : ∀ h c a, Iin a → Lands Iin E (recur h c a))
    (all_colors : Bitset16) (number : Nat) (base : BaseObject) (i : Color)
    (hs : (∀ action ∈ base.actions, action.sound_ends = true) ∨ E Fault.out_of_fuel)
    (hload : ∀ x, Iout x → x.state.colors_loaded number i = false → Iin (x.load number i))
    (hout : ∀ y, Iin y → Iout y) (x : World) (hx : Iout x) :
    Lands Iout E (load_color p recur all_colors number base i x) := by
  unfold load_color
  split
  · exact hx
  · rename_i hl
    split
    · exact hx
    · dsimp only
      have hxp : Iin (if base.pixResID ≠ p.kNoSpriteTable
          then (x.load number i).pix_add (to_int16 (base.pixResID
                  + ((i : Nat) : Int) * 2 ^ p.kSpriteTableColorShift))
          else x.load number i) := by
        have h0 := hload x hx (by simpa using hl)
        split
        · exact hI (x.load number i) _ rfl h0
        · exact h0
      have h1 := forEach_lands Iin E
        (fun actions w => AddBaseObjectActionMedia p recur actions i all_colors w)
        [base.destroy, base.expire, base.create, base.collide, base.activate, base.arrive]
        _ (fun actions hmem a ha =>
          AddBaseObjectActionMedia_lands p Iin E hI recur hrec actions i all_colors
            (hs.imp (fun h action ha' => h action (base.mem_actions actions hmem action ha'))
              id) a ha) hxp
      cases hr : forEach [base.destroy, base.expire, base.create, base.collide,
          base.activate, base.arrive] _
          (fun actions w => AddBaseObjectActionMedia p recur actions i all_colors w) with
      | error e =>
        rw [hr] at h1
        exact h1
      | ok x2 =>
        rw [hr] at h1
        dsimp only
        have h2 := forEach_lands Iin E
          (fun (weapon : Handle) w => if weapon.isSome then recur weapon i w else Except.ok w)
          [base.pulse, base.beam, base.special] x2
          (fun weapon _ a ha => by
            dsimp only
            split
            · exact hrec _ _ _ ha
            · exact ha) h1
        cases hr2 : forEach [base.pulse, base.beam, base.special] x2
            (fun (weapon : Handle) w =>
              if weapon.isSome then recur weapon i w else Except.ok w) with
        | error e =>
          rw [hr2] at h2
          exact h2
        | ok y =>
          rw [hr2] at h2
          exact hout y h2

/-! ### C36 -/

/-- The measure looks at `colors_loaded` only. -/
theorem unloaded_congr (p : Plugin) (w w' : World)
    (h : w'.state.colors_loaded = w.state.colors_loaded) : unloaded p w' = unloaded p w := by
  unfold unloaded
  rw [h]

/-- The measure does not grow where no loaded colour is dropped. -/
theorem unloaded_mono (p : Plugin) (w w' : World)
    (h : ∀ n i, w.state.colors_loaded n i = true → w'.state.colors_loaded n i = true) :
    unloaded p w' ≤ unloaded p w := by
  unfold unloaded
  apply Finset.card_le_card
  intro x hx
  rw [Finset.mem_filter] at hx ⊢
  refine ⟨hx.1, ?_⟩
  cases hw : w.state.colors_loaded x.1 x.2 with
  | false => rfl
  | true =>
    rw [h _ _ hw] at hx
    exact absurd hx.2 (by decide)

/-- The measure drops when a bit of `colors_loaded` that was not set is set for a
base object of the plug-in. -/
theorem unloaded_load (p : Plugin) (w : World) (number : Nat) (i : Color)
    (hn : number < p.objects.length) (hl : w.state.colors_loaded number i = false) :
    unloaded p (w.load number i) < unloaded p w := by
  unfold unloaded
  apply Finset.card_lt_card
  rw [Finset.ssubset_iff_of_subset]
  · refine ⟨(⟨number, hn⟩, i), ?_, ?_⟩
    · rw [Finset.mem_filter]
      exact ⟨Finset.mem_univ _, hl⟩
    · rw [Finset.mem_filter]
      rintro ⟨_, h⟩
      rw [load_self] at h
      cases h
  · intro x hx
    rw [Finset.mem_filter] at hx ⊢
    refine ⟨hx.1, ?_⟩
    cases hw : w.state.colors_loaded x.1 x.2 with
    | false => rfl
    | true =>
      rw [(Grows.load w number i).2.2 _ _ hw] at hx
      exact absurd hx.2 (by decide)

/-- The measure is at most 16 for each base object. -/
theorem unloaded_le (p : Plugin) (w : World) : unloaded p w ≤ 16 * p.objects.length := by
  unfold unloaded
  refine le_trans (Finset.card_filter_le _ _) ?_
  rw [Finset.card_univ, Fintype.card_prod, Fintype.card_fin, Fintype.card_fin, Nat.mul_comm]

/-- A value narrowed to `int32_t` is at most `INT32_MAX`. -/
theorem to_int32_le (x : Int) : to_int32 x ≤ 2147483647 := by
  unfold to_int32
  omega

/-- A value narrowed to `int32_t` is at least `INT32_MIN`. -/
theorem to_int32_ge (x : Int) : -2147483648 ≤ to_int32 x := by
  unfold to_int32
  omega

/-- Narrowing leaves a value of `int32_t` as it is. -/
theorem to_int32_self (x : Int) (h1 : -2147483648 ≤ x) (h2 : x ≤ 2147483647) :
    to_int32 x = x := by
  unfold to_int32
  omega

/-- The values from `l1` to `l2` start with `l1` when there are any. -/
theorem sound_ids_cons (l1 l2 : Int) (h : l1 ≤ l2) :
    sound_ids l1 l2 = l1 :: sound_ids (l1 + 1) l2 := by
  unfold sound_ids
  have e : (l2 + 1 - l1).toNat = (l2 + 1 - (l1 + 1)).toNat + 1 := by omega
  rw [e, List.range_succ_eq_map, List.map_cons, List.map_map]
  congr 1
  · simp
  · apply List.map_congr_left
    intro k _
    simp only [Function.comp_apply, Nat.cast_succ]
    omega

/-- There are no values from `l1` to `l2` when `l2` is below `l1`. -/
theorem sound_ids_nil (l1 l2 : Int) (h : l2 < l1) : sound_ids l1 l2 = [] := by
  unfold sound_ids
  have e : (l2 + 1 - l1).toNat = 0 := by omega
  rw [e]
  rfl

/-- The sound loop from `l1` to an `l2` below `INT32_MAX` ends after
`l2 + 1 - l1` sounds, which it loads in order. -/
theorem sound_loop_steps_ends :
    ∀ (fuel : Nat) (l1 l2 : Int) (w : World), -2147483648 ≤ l1 → l2 < 2147483647 →
      (l2 + 1 - l1).toNat < fuel →
      sound_loop_steps fuel l1 l2 w
        = Except.ok ((sound_ids l1 l2).foldl World.sound_load w) := by
  intro fuel
  induction fuel with
  | zero =>
    intro l1 l2 w _ _ h
    exact absurd h (Nat.not_lt_zero _)
  | succ fuel ih =>
    intro l1 l2 w h1 h2 hf
    unfold sound_loop_steps
    by_cases hle : l1 ≤ l2
    · rw [if_pos hle, to_int32_self (l1 + 1) (by omega) (by omega),
        ih (l1 + 1) l2 _ (by omega) h2 (by omega), sound_ids_cons l1 l2 hle]
      rfl
    · rw [if_neg hle, sound_ids_nil l1 l2 (by omega)]
      rfl

/-- The sound loop to `INT32_MAX` does not end: whatever the number of steps, the
test `count <= l2` holds at each of them. -/
theorem sound_loop_steps_endless :
    ∀ (fuel : Nat) (l1 : Int) (w : World), l1 ≤ 2147483647 →
      sound_loop_steps fuel l1 2147483647 w = Except.error Fault.out_of_fuel := by
  intro fuel
  induction fuel with
  | zero =>
    intro l1 w _
    rfl
  | succ fuel ih =>
    intro l1 w h
    unfold sound_loop_steps
    rw [if_pos h]
    exact ih _ _ (to_int32_le _)

/-- The sound loop as a whole is the loop run step by step, for every bound on the
steps that is above the number of values of a counter of 32 bits. -/
theorem sound_loop_steps_whole (fuel : Nat) (l1 l2 : Int) (w : World)
    (h1 : -2147483648 ≤ l1) (h2 : l1 ≤ 2147483647) (h3 : -2147483648 ≤ l2)
    (h4 : l2 ≤ 2147483647) (hfuel : 4294967296 < fuel) :
    sound_loop_steps fuel l1 l2 w = sound_loop l1 l2 w := by
  unfold sound_loop
  by_cases hmax : l2 = 2147483647
  · rw [if_pos ⟨by omega, hmax⟩, hmax]
    exact sound_loop_steps_endless fuel l1 w h2
  · rw [if_neg (fun h => hmax h.2)]
    exact sound_loop_steps_ends fuel l1 l2 w h1 (by omega) (by omega)

/-- The base objects of a plug-in whose sound loops end have actions whose sound
loops end. -/
theorem Plugin.sounds_end_at (p : Plugin) (hp : p.sounds_end = true) (number : Nat)
    (base : BaseObject) (hbase : p.objects[number]? = some base) :
    ∀ action ∈ base.actions, action.sound_ends = true := by
  unfold Plugin.sounds_end at hp
  rw [List.all_eq_true] at hp
  have h := hp base (List.getElem?_mem hbase)
  rw [List.all_eq_true] at h
  exact h

/-- With more fuel than bits that are not set, `AddBaseObjectMedia` does not run
out of fuel in a plug-in whose sound loops end, and the bits that are not set stay
fewer than the fuel. -/
theorem AddBaseObjectMedia_fuel (p : Plugin) (hp : p.sounds_end = true)
    (all_colors : Bitset16) :
    ∀ (fuel : Nat) (h : Handle) (c : Color) (a : World), unloaded p a < fuel →
      Lands (fun b => unloaded p b < fuel) (fun e => e ≠ Fault.out_of_fuel)
        (AddBaseObjectMedia p all_colors fuel h c a) := by
  intro fuel
  induction fuel with
  | zero =>
    intro h c a ha
    exact absurd ha (Nat.not_lt_zero _)
  | succ fuel ih =>
    intro h c a ha
    cases h with
    | none =>
      simp only [AddBaseObjectMedia]
      exact fun h' => (by cases h')
    | some number =>
      simp only [AddBaseObjectMedia]
      cases hbase : p.objects[number]? with
      | none =>
        exact fun h' => (by cases h')
      | some base =>
        dsimp only
        have hn : number < p.objects.length := getElem?_lt hbase
        refine forEach_lands (fun b => unloaded p b < fuel + 1)
          (fun e => e ≠ Fault.out_of_fuel) _ (List.finRange 16) _ ?_ ?_
        · intro i _ x hx
          refine load_color_lands p (fun b => unloaded p b < fuel + 1)
            (fun b => unloaded p b < fuel) (fun e => e ≠ Fault.out_of_fuel) ?_
            (AddBaseObjectMedia p all_colors fuel) ih all_colors number base i
            (Or.inl (p.sounds_end_at hp number base hbase)) ?_ ?_ x hx
          · intro w w' hw hlt
            rw [unloaded_congr p w w' hw]
            exact hlt
          · intro y hy hl
            have := unloaded_load p y number i hn hl
            omega
          · intro y hy
            omega
        · show unloaded p (a.need number _) < fuel + 1
          rw [unloaded_congr p a (a.need number _) rfl]
          exact ha

/-- A loop gives the same result with another body that agrees with its body
wherever that does not fail with `f`, when the loop does not fail with `f`. -/
theorem forEach_more {α σ ε : Type} (f : ε) (body body' : α → σ → Except ε σ) :
    ∀ (xs : List α) (s : σ),
      (∀ x ∈ xs, ∀ a, body x a ≠ Except.error f → body' x a = body x a) →
      forEach xs s body ≠ Except.error f → forEach xs s body' = forEach xs s body := by
  intro xs
  induction xs with
  | nil => intro s _ _; rfl
  | cons x rest ih =>
    intro s hbody h
    simp only [forEach] at h ⊢
    cases hb : body x s with
    | error e =>
      rw [hb] at h
      rw [hbody x (List.mem_cons_self _ _) s (by rw [hb]; exact h), hb]
    | ok b =>
      rw [hb] at h
      rw [hbody x (List.mem_cons_self _ _) s (by rw [hb]; exact fun h' => (by cases h')), hb]
      exact ih b (fun y hy => hbody y (List.mem_cons_of_mem _ hy)) h

/-- Function `AddActionMedia` gives the same result with a recursive call that
agrees with the given one wherever that does not run out of fuel. -/
theorem AddActionMedia_more (p : Plugin)
    (recur recur' : Handle → Color → World → Except Fault World)
    (hrec : ∀ h c a, recur h c a ≠ Except.error Fault.out_of_fuel →
      recur' h c a = recur h c a)
    (action : Action) (color : Color) (all_colors : Bitset16) (w : World)
    (h : AddActionMedia p recur action color all_colors w ≠ Except.error Fault.out_of_fuel) :
    AddActionMedia p recur' action color all_colors w
      = AddActionMedia p recur action color all_colors w := by
  cases action with
  | createObject whichBaseType => exact hrec _ _ _ h
  | createObjectSetDest whichBaseType => exact hrec _ _ _ h
  | playSound idMinimum idRange => rfl
  | alterBaseType base => exact hrec _ _ _ h
  | alterOwner number =>
    simp only [AddActionMedia] at h ⊢
    refine forEach_more Fault.out_of_fuel _ _ _ w ?_ h
    intro baseObject _ a ha
    have key : ∀ a1 : World,
        (if (a1.state.colors_loaded baseObject).any = true
          then recur (some baseObject) color a1 else Except.ok a1)
            ≠ Except.error Fault.out_of_fuel →
        (if (a1.state.colors_loaded baseObject).any = true
          then recur' (some baseObject) color a1 else Except.ok a1)
          = (if (a1.state.colors_loaded baseObject).any = true
              then recur (some baseObject) color a1 else Except.ok a1) := by
      intro a1 h1
      split
      · rename_i hany
        rw [if_pos hany] at h1
        exact hrec _ _ _ h1
      · rfl
    exact key _ ha
  | other verb => rfl

/-- Function `AddBaseObjectActionMedia` gives the same result with a recursive call
that agrees with the given one wherever that does not run out of fuel. -/
theorem AddBaseObjectActionMedia_more (p : Plugin)
    (recur recur' : Handle → Color → World → Except Fault World)
    (hrec : ∀ h c a, recur h c a ≠ Except.error Fault.out_of_fuel →
      recur' h c a = recur h c a)
    (actions : List Action) (color : Color) (all_colors : Bitset16) (w : World)
    (h : AddBaseObjectActionMedia p recur actions color all_colors w
      ≠ Except.error Fault.out_of_fuel) :
    AddBaseObjectActionMedia p recur' actions color all_colors w
      = AddBaseObjectActionMedia p recur actions color all_colors w := by
  unfold AddBaseObjectActionMedia at h ⊢
  refine forEach_more Fault.out_of_fuel _ _ _ w ?_ h
  intro action _ a ha
  exact AddActionMedia_more p recur recur' hrec action color all_colors a ha

/-- One iteration of the colour loop of `AddBaseObjectMedia` gives the same result
with a recursive call that agrees with the given one wherever that does not run out
of fuel. -/
theorem load_color_more (p : Plugin)
    (recur recur' : Handle → Color → World → Except Fault World)
    (hrec : ∀ h c a, recur h c a ≠ Except.error Fault.out_of_fuel →
      recur' h c a = recur h c a)
    (all_colors : Bitset16) (number : Nat) (base : BaseObject) (i : Color) (x : World)
    (h : load_color p recur all_colors number base i x ≠ Except.error Fault.out_of_fuel) :
    load_color p recur' all_colors number base i x
      = load_color p recur all_colors number base i x := by
  unfold load_color at h ⊢
  split
  · rfl
  · rename_i hl
    rw [if_neg hl] at h
    split
    · rfl
    · rename_i hneed
      rw [if_neg hneed] at h
      dsimp only at h ⊢
      generalize (if base.pixResID ≠ p.kNoSpriteTable
          then (x.load number i).pix_add (to_int16 (base.pixResID
                  + ((i : Nat) : Int) * 2 ^ p.kSpriteTableColorShift))
          else x.load number i) = xp at h ⊢
      have h6 : forEach [base.destroy, base.expire, base.create, base.collide,
            base.activate, base.arrive] xp
            (fun actions w => AddBaseObjectActionMedia p recur actions i all_colors w)
          ≠ Except.error Fault.out_of_fuel := by
        intro h6
        rw [h6] at h
        exact h rfl
      have e6 := forEach_more Fault.out_of_fuel
        (fun actions w => AddBaseObjectActionMedia p recur actions i all_colors w)
        (fun actions w => AddBaseObjectActionMedia p recur' actions i all_colors w)
        [base.destroy, base.expire, base.create, base.collide, base.activate, base.arrive] xp
        (fun actions _ a ha =>
          AddBaseObjectActionMedia_more p recur recur' hrec actions i all_colors a ha) h6
      rw [e6]
      cases hr : forEach [base.destroy, base.expire, base.create, base.collide,
          base.activate, base.arrive] xp
          (fun actions w => AddBaseObjectActionMedia p recur actions i all_colors w) with
      | error e => rfl
      | ok x2 =>
        rw [hr] at h
        dsimp only at h ⊢
        refine forEach_more Fault.out_of_fuel _ _ _ x2 ?_ h
        intro weapon _ a ha
        dsimp only at ha ⊢
        split
        · rename_i hw
          rw [if_pos hw] at ha
          exact hrec _ _ _ ha
        · rfl

/-- One more unit of fuel does not change a result of `AddBaseObjectMedia` other
than running out of fuel. -/
theorem AddBaseObjectMedia_succ (p : Plugin) (all_colors : Bitset16) :
    ∀ (fuel : Nat) (h : Handle) (c : Color) (w : World),
      AddBaseObjectMedia p all_colors fuel h c w ≠ Except.error Fault.out_of_fuel →
      AddBaseObjectMedia p all_colors (fuel + 1) h c w
        = AddBaseObjectMedia p all_colors fuel h c w := by
  intro fuel
  induction fuel with
  | zero =>
    intro h c w hne
    exact absurd rfl hne
  | succ fuel ih =>
    intro h c w hne
    cases h with
    | none => rfl
    | some number =>
      simp only [AddBaseObjectMedia] at hne ⊢
      cases hbase : p.objects[number]? with
      | none => rfl
      | some base =>
        rw [hbase] at hne
        dsimp only at hne ⊢
        refine forEach_more Fault.out_of_fuel _ _ _ _ ?_ hne
        intro i _ a ha
        exact load_color_more p _ _ ih all_colors number base i a ha

/-- More fuel does not change a result of `AddBaseObjectMedia` other than running
out of fuel. -/
theorem AddBaseObjectMedia_more (p : Plugin) (all_colors : Bitset16) (fuel : Nat)
    (h : Handle) (c : Color) (w : World)
    (hne : AddBaseObjectMedia p all_colors fuel h c w ≠ Except.error Fault.out_of_fuel) :
    ∀ fuel', fuel ≤ fuel' →
      AddBaseObjectMedia p all_colors fuel' h c w
        = AddBaseObjectMedia p all_colors fuel h c w := by
  intro fuel' hle
  induction fuel' with
  | zero =>
    have : fuel = 0 := by omega
    subst this
    rfl
  | succ k ih =>
    by_cases hk : fuel = k + 1
    · subst hk
      rfl
    · have hk' : fuel ≤ k := by omega
      have e := ih hk'
      rw [AddBaseObjectMedia_succ p all_colors k h c w (by rw [e]; exact hne), e]

/-- C36, counterexample: the sound loop of a `playSound` action whose last sound,
`idMinimum + idRange` as `int32_t`, is `INT32_MAX` does not end, since
`count <= l2` holds for every value of a counter of 32 bits: no number of steps is
enough for the loop, which run step by step under a bound above the `2^32` values
of the counter is `sound_loop`, and `AddActionMedia` has no result for the action.
So for the plug-in of one ship that plays the sound `INT32_MAX` when it is
destroyed, none of whose actions refers to a base object, `AddBaseObjectMedia` has
no result whatever the bound on the depth of the recursion, 17 and more included,
though at most 16 bits of `colors_loaded` are not set. -/
theorem sound_loop_never_ends :
    (∀ (fuel : Nat) (l1 : Int) (w : World), l1 ≤ 2147483647 →
        sound_loop_steps fuel l1 2147483647 w = Except.error Fault.out_of_fuel)
      ∧ (∀ (fuel : Nat) (x y : Int) (w : World), 4294967296 < fuel →
          sound_loop_steps fuel (to_int32 x) (to_int32 y) w
            = sound_loop (to_int32 x) (to_int32 y) w)
      ∧ (∀ (p : Plugin) (recur : Handle → Color → World → Except Fault World)
          (idMinimum idRange : Int) (color : Color) (all_colors : Bitset16) (w : World),
          to_int32 (idMinimum + idRange) = 2147483647 →
          AddActionMedia p recur (Action.playSound idMinimum idRange) color all_colors w
            = Except.error Fault.out_of_fuel)
      ∧ example_endless_plugin.objects.map BaseObject.actions
          = [[Action.playSound 2147483647 0]]
      ∧ unloaded example_endless_plugin example_world < 17
      ∧ (∀ fuel : Nat,
          AddBaseObjectMedia example_endless_plugin example_colors fuel (some 0) 2
            example_world = Except.error Fault.out_of_fuel) := by
  refine ⟨sound_loop_steps_endless, ?_, ?_, rfl,
    Nat.lt_of_le_of_lt (unloaded_le example_endless_plugin example_world) (by decide), ?_⟩
  · intro fuel x y w hfuel
    exact sound_loop_steps_whole fuel _ _ w (to_int32_ge x) (to_int32_le x) (to_int32_ge y)
      (to_int32_le y) hfuel
  · intro p recur idMinimum idRange color all_colors w h
    simp only [AddActionMedia]
    unfold sound_loop
    rw [if_pos ⟨h ▸ to_int32_le idMinimum, h⟩]
  · intro fuel
    cases fuel with
    | zero => rfl
    | succ n => rfl

/-- C36, amended: in a plug-in in which no `playSound` action of a base object has
`INT32_MAX` as its last sound, `AddBaseObjectMedia`, with
`AddBaseObjectActionMedia` and `AddActionMedia`, terminates, whatever the base
objects and actions refer to.  The bits of `colors_loaded` that are not set are at
most 16 for each base object; setting one that was not set, which is what precedes
every recursive call, makes them fewer, and no call makes them more; and a sound
loop whose last sound is below `INT32_MAX` ends after loading its sounds.  So with
more fuel, the bound on the depth of the recursion, than bits that are not set, no
call runs out of fuel, and the result is the same for every larger bound. -/
theorem media_loading_terminates (p : Plugin) (all_colors : Bitset16) (fuel : Nat)
    (w : World) (hsound : p.sounds_end = true) (hfuel : unloaded p w < fuel) :
    unloaded p w ≤ 16 * p.objects.length
      ∧ (∀ (h : Handle) (c : Color),
          AddBaseObjectMedia p all_colors fuel h c w ≠ Except.error Fault.out_of_fuel
            ∧ ∀ fuel', fuel ≤ fuel' →
                AddBaseObjectMedia p all_colors fuel' h c w
                  = AddBaseObjectMedia p all_colors fuel h c w)
      ∧ (∀ (actions : List Action) (c : Color),
          (∀ action ∈ actions, action.sound_ends = true) →
          AddBaseObjectActionMedia p (AddBaseObjectMedia p all_colors fuel) actions c
            all_colors w ≠ Except.error Fault.out_of_fuel)
      ∧ (∀ (action : Action) (c : Color), action.sound_ends = true →
          AddActionMedia p (AddBaseObjectMedia p all_colors fuel) action c all_colors w
            ≠ Except.error Fault.out_of_fuel)
      ∧ (∀ (l1 l2 : Int) (a : World) (n : Nat), -2147483648 ≤ l1 → l2 < 2147483647 →
          (l2 + 1 - l1).toNat < n →
          sound_loop_steps n l1 l2 a = sound_loop l1 l2 a
            ∧ sound_loop l1 l2 a
              = Except.ok ((sound_ids l1 l2).foldl World.sound_load a))
      ∧ (∀ (number : Nat) (i : Color), number < p.objects.length →
          w.state.colors_loaded number i = false →
          unloaded p (w.load number i) < unloaded p w)
      ∧ (∀ (h : Handle) (c : Color) (w' : World),
          AddBaseObjectMedia p all_colors fuel h c w = Except.ok w' →
          unloaded p w' ≤ unloaded p w) := by
  have hI : ∀ a a' : World, a'.state.colors_loaded = a.state.colors_loaded →
      unloaded p a < fuel → unloaded p a' < fuel := by
    intro a a' ha hlt
    rw [unloaded_congr p a a' ha]
    exact hlt
  have hne : ∀ (h : Handle) (c : Color),
      AddBaseObjectMedia p all_colors fuel h c w ≠ Except.error Fault.out_of_fuel := by
    intro h c habs
    have hl := AddBaseObjectMedia_fuel p hsound all_colors fuel h c w hfuel
    rw [habs] at hl
    exact hl rfl
  refine ⟨unloaded_le p w, ?_, ?_, ?_, ?_, ?_, ?_⟩
  · intro h c
    exact ⟨hne h c, AddBaseObjectMedia_more p all_colors fuel h c w (hne h c)⟩
  · intro actions c hs habs
    have hl := AddBaseObjectActionMedia_lands p (fun b => unloaded p b < fuel)
      (fun e => e ≠ Fault.out_of_fuel) hI (AddBaseObjectMedia p all_colors fuel)
      (AddBaseObjectMedia_fuel p hsound all_colors fuel) actions c all_colors (Or.inl hs)
      w hfuel
    rw [habs] at hl
    exact hl rfl
  · intro action c hs habs
    have hl := AddActionMedia_lands p (fun b => unloaded p b < fuel)
      (fun e => e ≠ Fault.out_of_fuel) hI (AddBaseObjectMedia p all_colors fuel)
      (AddBaseObjectMedia_fuel p hsound all_colors fuel) action c all_colors (Or.inl hs)
      w hfuel
    rw [habs] at hl
    exact hl rfl
  · intro l1 l2 a n h1 h2 hn
    have e : sound_loop l1 l2 a
        = Except.ok ((sound_ids l1 l2).foldl World.sound_load a) := by
      unfold sound_loop
      rw [if_neg (fun hmax => by omega)]
    exact ⟨(sound_loop_steps_ends n l1 l2 a h1 h2 hn).trans e.symm, e⟩
  · intro number i hn hl
    exact unloaded_load p w number i hn hl
  · intro h c w' hw'
    exact unloaded_mono p w w' (AddBaseObjectMedia_grows p all_colors fuel h c w w' hw').2.2

theorem media_loading_terminates_witness :
    example_cyclic_plugin.sounds_end = true
      ∧ unloaded example_cyclic_plugin example_world < 33
      ∧ AddBaseObjectMedia example_cyclic_plugin example_colors 33 (some 0) 2 example_world
          ≠ Except.error Fault.out_of_fuel
      ∧ AddBaseObjectMedia example_cyclic_plugin example_colors 33 (some 0) 2 example_world
          = Except.ok (world_of (AddBaseObjectMedia example_cyclic_plugin example_colors 33
              (some 0) 2 example_world))
      ∧ (world_of (AddBaseObjectMedia example_cyclic_plugin example_colors 33 (some 0) 2
            example_world)).state.colors_loaded 1 0 = true
      ∧ example_plugin.sounds_end = true
      ∧ AddBaseObjectMedia example_plugin example_colors 33 (some 1) 0 example_world
          ≠ Except.error Fault.out_of_fuel
      ∧ (world_of (AddBaseObjectMedia example_plugin example_colors 33 (some 1) 0
            example_world)).sound = [10, 11] :=
  ⟨by decide,
    Nat.lt_of_le_of_lt (unloaded_le example_cyclic_plugin example_world) (by decide),
    ((media_loading_terminates example_cyclic_plugin example_colors 33 example_world
      (by decide)
      (Nat.lt_of_le_of_lt (unloaded_le example_cyclic_plugin example_world)
        (by decide))).2.1 (some 0) 2).1,
    rfl, by decide, by decide,
    ((media_loading_terminates example_plugin example_colors 33 example_world
      (by decide)
      (Nat.lt_of_le_of_lt (unloaded_le example_plugin example_world)
        (by decide))).2.1 (some 1) 0).1,
    by decide⟩

/-! ### C37 -/

/-- A result with a weaker property of its failure. -/
theorem Lands.weaken {σ ε : Type} {I : σ → Prop} {E E' : ε → Prop} {r : Except ε σ}
    (h : Lands I E r) (hE : ∀ e, E e → E' e) : Lands I E' r := by
  cases r with
  | ok b => exact h
  | error e => exact hE e h

/-- The ways in which `AddBaseObjectMedia` has no defined result: the bound on the
depth of the recursion is reached or a sound loop does not end, a handle is
`none()`, or a handle numbers no base object. -/
theorem AddBaseObjectMedia_faults (p : Plugin) (all_colors : Bitset16) :
    ∀ (fuel : Nat) (h : Handle) (c : Color) (a : World),
      Lands (fun _ => True)
        (fun e => e = Fault.out_of_fuel ∨ e = Fault.null_handle ∨ e = Fault.bad_object_number)
        (AddBaseObjectMedia p all_colors fuel h c a) := by
  intro fuel
  induction fuel with
  | zero =>
    intro h c a
    exact Or.inl rfl
  | succ fuel ih =>
    intro h c a
    cases h with
    | none => exact Or.inr (Or.inl rfl)
    | some number =>
      simp only [AddBaseObjectMedia]
      cases hbase : p.objects[number]? with
      | none => exact Or.inr (Or.inr rfl)
      | some base =>
        dsimp only
        refine forEach_lands _ _ _ (List.finRange 16) _ ?_ trivial
        intro i _ x hx
        exact load_color_lands p (fun _ => True) (fun _ => True) _ (fun _ _ _ _ => trivial)
          (AddBaseObjectMedia p all_colors fuel) (fun h c a _ => ih h c a) all_colors number
          base i (Or.inr (Or.inl rfl)) (fun _ _ _ => trivial) (fun _ _ => trivial) x trivial

/-- No call of `AddBaseObjectMedia` fails on an index of `level.initials`. -/
theorem AddBaseObjectMedia_no_index (p : Plugin) (all_colors : Bitset16) (fuel : Nat)
    (h : Handle) (c : Color) (a : World) :
    Lands (fun _ => True) (fun e => e ≠ Fault.bad_initial_index)
      (AddBaseObjectMedia p all_colors fuel h c a) := by
  refine (AddBaseObjectMedia_faults p all_colors fuel h c a).weaken ?_
  rintro e (rfl | rfl | rfl) <;> exact fun h' => (by cases h')

/-- The loop of `run_game_1s` fails only by reaching the bound on its
iterations. -/
theorem run_game_1s_faults (p : Plugin) (level : Level) :
    ∀ (fuel : Nat) (w : World),
      Lands (fun _ => True) (fun e => e ≠ Fault.bad_initial_index)
        (run_game_1s p level fuel w) := by
  intro fuel
  induction fuel with
  | zero =>
    intro w
    exact fun h' => (by cases h')
  | succ fuel ih =>
    intro w
    simp only [run_game_1s]
    split
    · exact ih _
    · exact trivial

/-- What `Lands` says of a result: it is not the failure excluded. -/
theorem Lands.ne_fault {σ : Type} {I : σ → Prop} {f : Fault} {r : Except Fault σ}
    (h : Lands I (fun e => e ≠ f) r) : Res.of_except r ≠ Res.fault f := by
  cases r with
  | ok b => exact fun h' => (by cases h')
  | error e =>
    intro h'
    simp only [Res.of_except] at h'
    cases h'
    exact h rfl

/-- Function `load_initial` at an index inside `level.initials` reads nothing out
of its range. -/
theorem load_initial_no_index (p : Plugin) (level : Level) (fuel : Nat) (i : Nat)
    (all_colors : Bitset16) (w : World) (hi : i < level.initials.length) :
    Lands (fun _ => True) (fun e => e ≠ Fault.bad_initial_index)
      (load_initial p level fuel i all_colors w) := by
  unfold load_initial
  rw [List.getElem?_eq_getElem hi]
  dsimp only
  cases level.initials[i].type with
  | none => exact fun h' => (by cases h')
  | some number =>
    dsimp only
    cases p.objects[number]? with
    | none => exact fun h' => (by cases h')
    | some baseObject =>
      dsimp only
      have h1 := AddBaseObjectMedia_no_index p all_colors fuel (some number)
        (p.GetAdmiralColor level.initials[i].owner)
        (if baseObject.attributes &&& p.kIsDestination ≠ 0
          then w.need_all number all_colors else w)
      cases hr : AddBaseObjectMedia p all_colors fuel (some number)
          (p.GetAdmiralColor level.initials[i].owner)
          (if baseObject.attributes &&& p.kIsDestination ≠ 0
            then w.need_all number all_colors else w) with
      | error e =>
        rw [hr] at h1
        exact h1
      | ok w1 =>
        dsimp only
        refine forEach_lands _ _ _ _ _ ?_ trivial
        intro canBuild _ a _
        dsimp only
        split
        · refine forEach_lands _ _ _ _ _ ?_ trivial
          intro adm _ b _
          dsimp only
          split
          · split
            · exact AddBaseObjectMedia_no_index p all_colors fuel _ _ b
            · exact trivial
          · exact trivial
        · exact trivial

/-- A unit of work that reads `level.initials` inside its range, if at all, reads
nothing out of its range. -/
theorem do_work_no_index (p : Plugin) (level : Level) (fuel : Nat) (all_colors : Bitset16)
    (work : Work) (w : World)
    (hi : ∀ i, work.initial_index = some i → i < level.initials.length) :
    do_work p level fuel all_colors work w ≠ Res.fault Fault.bad_initial_index := by
  cases work with
  | load_blessed_objects =>
    simp only [do_work]
    unfold load_blessed_objects
    split_ifs
    · exact fun h' => (by cases h')
    · exact fun h' => (by cases h')
    · exact fun h' => (by cases h')
    · cases p.playerBodyID with
      | none => exact fun h' => (by cases h')
      | some playerBody =>
        dsimp only
        refine Lands.ne_fault (I := fun _ => True) ?_
        refine forEach_lands _ _ _ _ _ ?_ trivial
        intro _ _ a _
        refine forEach_lands _ _ _ _ _ ?_ trivial
        intro id _ b _
        exact AddBaseObjectMedia_no_index p all_colors fuel id p.GRAY b
  | load_initial i =>
    simp only [do_work]
    exact (load_initial_no_index p level fuel i all_colors w (hi i rfl)).ne_fault
  | load_conditions =>
    simp only [do_work]
    refine Lands.ne_fault (I := fun _ => True) ?_
    unfold load_conditions
    refine forEach_lands _ _ _ _ _ ?_ trivial
    intro index _ a _
    dsimp only
    cases level.conditions[index]? with
    | none => exact trivial
    | some condition =>
      dsimp only
      unfold load_condition
      have h1 := forEach_lands (fun _ : World => True)
        (fun e => e ≠ Fault.bad_initial_index)
        (fun action w => AddActionMedia p (AddBaseObjectMedia p all_colors fuel) action
          p.GRAY all_colors w) condition.action a
        (fun action _ b _ => AddActionMedia_lands p (fun _ => True) _
          (fun _ _ _ _ => trivial) _
          (fun h c x _ => AddBaseObjectMedia_no_index p all_colors fuel h c x)
          action p.GRAY all_colors (Or.inr (fun h' => (by cases h'))) b trivial) trivial
      cases hr : forEach condition.action a (fun action w =>
          AddActionMedia p (AddBaseObjectMedia p all_colors fuel) action p.GRAY
            all_colors w) with
      | error e =>
        rw [hr] at h1
        exact h1
      | ok b => exact trivial
  | create_initial i =>
    simp only [do_work, create_initial_at]
    rw [List.getElem?_eq_getElem (hi i rfl)]
    exact fun h' => (by cases h')
  | set_initial_destination i =>
    simp only [do_work, set_initial_destination_at]
    rw [List.getElem?_eq_getElem (hi i rfl)]
    exact fun h' => (by cases h')
  | consolidate =>
    simp only [do_work]
    exact fun h' => (by cases h')
  | run_game_1s =>
    simp only [do_work]
    exact (run_game_1s_faults p level fuel w).ne_fault

/-- Units of work that read `level.initials` inside its range, if at all, read
nothing out of its range. -/
theorem do_works_no_index (p : Plugin) (level : Level) (fuel : Nat) (all_colors : Bitset16) :
    ∀ (works : List Work) (w : World),
      (∀ work ∈ works, ∀ i, work.initial_index = some i → i < level.initials.length) →
      do_works p level fuel all_colors works w ≠ Res.fault Fault.bad_initial_index := by
  intro works
  induction works with
  | nil =>
    intro w _
    exact fun h' => (by cases h')
  | cons x rest ih =>
    intro w hi
    simp only [do_works]
    have hx := do_work_no_index p level fuel all_colors x w (hi x (List.mem_cons_self _ _))
    cases hr : do_work p level fuel all_colors x w with
    | ok w1 => exact ih w1 (fun y hy => hi y (List.mem_cons_of_mem _ hy))
    | raised what s => exact fun h' => (by cases h')
    | fault f =>
      rw [hr] at hx
      exact hx

/-- For a level with at least one initial object, every unit of work of every
step reads `level.initials` inside its range, if at all. -/
theorem construct_level_work_index (size step : Nat) (hsize : 1 ≤ size) :
    ∀ work ∈ construct_level_work size step, ∀ i, work.initial_index = some i → i < size := by
  intro work hw i hi
  unfold construct_level_work at hw
  split_ifs at hw <;>
    simp only [List.mem_cons, List.mem_singleton, List.not_mem_nil, or_false] at hw
  · rcases hw with rfl | rfl
    · cases hi
    · cases hi
      omega
  · subst hw
    cases hi
    omega
  · rcases hw with rfl | rfl
    · cases hi
    · cases hi
      omega
  · subst hw
    cases hi
    omega
  · subst hw
    cases hi
    omega
  · subst hw
    cases hi
  · subst hw
    cases hi

/-- C37, which the code does not meet for a level without initial objects: there
the call with `step = 0`, which is below `max = 1 + T`, reads `initials[0]` once
the blessed objects are loaded, as for the example level without its initial
object.  For a level with at least one initial object every step is given work
that reads `level.initials` at an index below their number, and no call reads it
out of range. -/
theorem construct_level_reads_initials :
    (∀ (p : Plugin) (level : Level) (fuel : Nat) (w w1 : World), level.initials = [] →
        w.state.step = 0 →
        load_blessed_objects p level fuel (all_colors_of p w) w = Res.ok w1 →
        construct_level p level fuel w = Res.fault Fault.bad_initial_index)
      ∧ (∀ (size step : Nat), 1 ≤ size →
          ∀ work ∈ construct_level_work size step, ∀ i,
            work.initial_index = some i → i < size)
      ∧ (∀ (p : Plugin) (level : Level) (fuel : Nat) (w : World),
          1 ≤ level.initials.length →
          construct_level p level fuel w ≠ Res.fault Fault.bad_initial_index)
      ∧ construct_level_work 0 0 = [Work.load_blessed_objects, Work.load_initial 0]
      ∧ example_empty_level.initials.length = 0
      ∧ (start_construct_level example_plugin example_empty_level example_world).state.step = 0
      ∧ (start_construct_level example_plugin example_empty_level example_world).state.max = 3
      ∧ construct_level example_plugin example_empty_level 20
            (start_construct_level example_plugin example_empty_level example_world)
          = Res.fault Fault.bad_initial_index := by
  refine ⟨?_, ?_, ?_, rfl, rfl, rfl, by decide, rfl⟩
  · intro p level fuel w w1 hN h0 hb
    unfold construct_level construct_level_body
    dsimp only
    rw [if_pos h0, hb]
    dsimp only
    unfold load_initial
    rw [hN]
    rfl
  · intro size step hsize
    exact construct_level_work_index size step hsize
  · intro p level fuel w hN
    unfold construct_level
    rw [construct_level_body_eq_work]
    have h := do_works_no_index p level fuel (all_colors_of p w)
      (construct_level_work level.initials.length w.state.step) w
      (construct_level_work_index level.initials.length w.state.step hN)
    cases hr : do_works p level fuel (all_colors_of p w)
        (construct_level_work level.initials.length w.state.step) w with
    | ok w1 => exact fun h' => (by cases h')
    | raised what s => exact fun h' => (by cases h')
    | fault f =>
      rw [hr] at h
      exact h

/-! ### C38 -/

/-- The value `!kWarpKey` is 0 for a warp bit that is not 0, and the conjunction
with it clears every bit. -/
theorem and_not_kWarpKey (C : Consts) (keys : Nat) (hwarp : C.kWarpKey ≠ 0) :
    keys &&& not_kWarpKey C = 0 := by
  unfold not_kWarpKey
  rw [if_pos hwarp]
  exact Nat.and_zero keys

/-- What `gamepad_button_down(LSB)` does with no bumper held and an active player
ship. -/
theorem gamepad_button_down_lsb (C : Consts) (s : PlayerShip) (g : Game) (n : Nat)
    (hship : g.ship = some n) (hactive : PlayerShip.active (g.env C) = true)
    (hstate : s._gamepad_state = 0) :
    PlayerShip.gamepad_button_down C s Button.LSB g
      = if (g.objects n).presenceState = C.kWarpingPresence then
          Except.ok ({ s with _gamepad_keys := s._gamepad_keys &&& not_kWarpKey C }, g)
        else Except.ok ({ s with _gamepad_keys := s._gamepad_keys ||| C.kWarpKey }, g) := by
  unfold PlayerShip.gamepad_button_down
  have hb : bumper_down C Button.LSB s._gamepad_state = none := rfl
  rw [hb]
  dsimp only
  rw [hactive, if_neg (not_not.mpr hstate)]
  simp only [Bool.not_true, Bool.false_eq_true, if_false]
  unfold gamepad_down_free
  dsimp only
  rw [hship]
  rfl

/-- What `gamepad_button_up(LSB)` does with no bumper held and an active player
ship. -/
theorem gamepad_button_up_lsb (C : Consts) (s : PlayerShip) (g : Game) (n : Nat)
    (hship : g.ship = some n) (hactive : PlayerShip.active (g.env C) = true)
    (hstate : s._gamepad_state = 0) :
    PlayerShip.gamepad_button_up C s Button.LSB g
      = if (g.objects n).presenceState ≠ C.kWarpingPresence then
          Except.ok ({ s with _gamepad_keys := s._gamepad_keys &&& not_kWarpKey C }, g)
        else Except.ok (s, g) := by
  unfold PlayerShip.gamepad_button_up
  have hb : bumper_up C Button.LSB s._gamepad_state = none := rfl
  rw [hb]
  dsimp only
  rw [hactive, if_neg (not_not.mpr hstate)]
  simp only [Bool.not_true, Bool.false_eq_true, if_false]
  unfold gamepad_up_free
  dsimp only
  rw [hship]
  rfl

/-- C38, which the code does not meet: with no bumper held, an active player ship
and a warp bit that is not 0, `gamepad_button_down(LSB)` on a warping ship and
`gamepad_button_up(LSB)` on a ship that is not warping set `_gamepad_keys` to 0,
every bit of the other buttons included, since the statement is
`_gamepad_keys &= !kWarpKey`; releasing A clears the bit of A only.  In the example
with A and RT held (`0x31`) the release of LSB leaves 0 and the release of A
leaves `0x30`. -/
theorem lsb_clears_every_gamepad_key :
    (∀ (C : Consts) (s : PlayerShip) (g : Game) (n : Nat), g.ship = some n →
        PlayerShip.active (g.env C) = true → s._gamepad_state = 0 → C.kWarpKey ≠ 0 →
        ((g.objects n).presenceState = C.kWarpingPresence →
          PlayerShip.gamepad_button_down C s Button.LSB g
            = Except.ok ({ s with _gamepad_keys := 0 }, g))
        ∧ ((g.objects n).presenceState ≠ C.kWarpingPresence →
          PlayerShip.gamepad_button_down C s Button.LSB g
            = Except.ok ({ s with _gamepad_keys := s._gamepad_keys ||| C.kWarpKey }, g))
        ∧ ((g.objects n).presenceState ≠ C.kWarpingPresence →
          PlayerShip.gamepad_button_up C s Button.LSB g
            = Except.ok ({ s with _gamepad_keys := 0 }, g))
        ∧ ((g.objects n).presenceState = C.kWarpingPresence →
          PlayerShip.gamepad_button_up C s Button.LSB g = Except.ok (s, g)))
      ∧ example_player_firing._gamepad_keys = 0x31
      ∧ (ship_of (PlayerShip.gamepad_button_up example_consts example_player_firing
          Button.LSB example_game)).1._gamepad_keys = 0
      ∧ (ship_of (PlayerShip.gamepad_button_down example_consts example_player_firing
          Button.LSB example_game_warping)).1._gamepad_keys = 0
      ∧ (ship_of (PlayerShip.gamepad_button_up example_consts example_player_firing
          Button.A example_game)).1._gamepad_keys = 0x30 := by
  refine ⟨?_, rfl, by decide, by decide, by decide⟩
  intro C s g n hship hactive hstate hwarp
  have hd := gamepad_button_down_lsb C s g n hship hactive hstate
  have hu := gamepad_button_up_lsb C s g n hship hactive hstate
  rw [and_not_kWarpKey C _ hwarp] at hd hu
  refine ⟨fun h => ?_, fun h => ?_, fun h => ?_, fun h => ?_⟩
  · rw [hd, if_pos h]
  · rw [hd, if_neg h]
  · rw [hu, if_pos h]
  · rw [hu, if_neg (not_not.mpr h)]

/-! ### C39 -/

/-- The target of an admiral after `SetPlayerSelectShip` called for a target with
the player's admiral `a`, an object `n` and a flagship: the object. -/
theorem SetPlayerSelectShip_target (C : Consts) (g g' : Game) (a n : Nat)
    (hadm : g.admiral = some a) (hflag : g.flagship a ≠ none)
    (h : SetPlayerSelectShip C (some n) true (some a) g = Except.ok g') :
    g'.target a = some n := by
  obtain ⟨cs, hcs⟩ := SetPlayerSelectShip_player C g a n true hadm (fun _ => hflag)
  rw [hcs] at h
  cases h
  simp [Game.call, Game.set_target]

/-- C39: in `handle_destination_key`, with a ship `g.ship` of the player, a
LONG_KEY_UP of the destination key calls
`SetPlayerSelectShip(g.ship, true, g.admiral)` exactly when the state of the
destination key is DEST_KEY_DOWN and the ship has `kCanBeDestination` (the call
returns for an admiral with a flagship, and makes the ship the target of the
admiral), and changes nothing but the state otherwise; a KEY_UP changes nothing
but the state; after either the state is DEST_KEY_UP; and an event of another key
leaves the game as it is. -/
theorem destination_key_release (C : Consts) (g : Game) (e : PlayerEvent) (n : Nat)
    (hship : g.ship = some n) :
    (e.key = C.nums.kDestinationKeyNum → e.type = PlayerEventType.LONG_KEY_UP →
        g.gDestKeyState = DestKeyState.DEST_KEY_DOWN →
        (g.objects n).attributes &&& C.kCanBeDestination ≠ 0 →
        (∀ g', handle_destination_key_event C e g = Except.ok g' ↔
          ∃ g1, SetPlayerSelectShip C g.ship true g.admiral g = Except.ok g1
            ∧ g' = { g1 with gDestKeyState := DestKeyState.DEST_KEY_UP })
        ∧ ∀ a, g.admiral = some a → g.flagship a ≠ none →
          ∃ g1, SetPlayerSelectShip C g.ship true g.admiral g = Except.ok g1
            ∧ g1.target a = g.ship
            ∧ handle_destination_key_event C e g
                = Except.ok { g1 with gDestKeyState := DestKeyState.DEST_KEY_UP })
      ∧ (e.key = C.nums.kDestinationKeyNum → e.type = PlayerEventType.LONG_KEY_UP →
          ¬ (g.gDestKeyState = DestKeyState.DEST_KEY_DOWN
              ∧ (g.objects n).attributes &&& C.kCanBeDestination ≠ 0) →
          handle_destination_key_event C e g
            = Except.ok { g with gDestKeyState := DestKeyState.DEST_KEY_UP })
      ∧ (e.key = C.nums.kDestinationKeyNum → e.type = PlayerEventType.KEY_UP →
          handle_destination_key_event C e g
            = Except.ok { g with gDestKeyState := DestKeyState.DEST_KEY_UP })
      ∧ (e.key ≠ C.nums.kDestinationKeyNum →
          handle_destination_key_event C e g = Except.ok g) := by
  refine ⟨?_, ?_, ?_, ?_⟩
  · intro hkey htype hdown hattr
    have hok : ∀ g1, SetPlayerSelectShip C g.ship true g.admiral g = Except.ok g1 →
        handle_destination_key_event C e g
          = Except.ok { g1 with gDestKeyState := DestKeyState.DEST_KEY_UP } := by
      intro g1 h1
      unfold handle_destination_key_event
      rw [htype]
      simp only []
      rw [if_pos hkey, if_pos hdown]
      unfold target_self
      rw [h1, hship]
      simp only [Game.deref]
      rw [if_pos hattr]
    have herr : ∀ err, SetPlayerSelectShip C g.ship true g.admiral g = Except.error err →
        handle_destination_key_event C e g = Except.error err := by
      intro err h1
      unfold handle_destination_key_event
      rw [htype]
      simp only []
      rw [if_pos hkey, if_pos hdown]
      unfold target_self
      rw [h1, hship]
      simp only [Game.deref]
      rw [if_pos hattr]
    refine ⟨?_, ?_⟩
    · intro g'
      cases hs : SetPlayerSelectShip C g.ship true g.admiral g with
      | error err =>
        rw [herr err hs]
        constructor
        · intro h
          cases h
        · rintro ⟨g1, h1, _⟩
          cases h1
      | ok g1 =>
        rw [hok g1 hs]
        constructor
        · intro h
          cases h
          exact ⟨g1, rfl, rfl⟩
        · rintro ⟨g2, h2, rfl⟩
          cases h2
          rfl
    · intro a hadm hflag
      obtain ⟨cs, hcs⟩ := SetPlayerSelectShip_player C g a n true hadm (fun _ => hflag)
      obtain ⟨g1, hg1⟩ : ∃ g1, SetPlayerSelectShip C (some n) true (some a) g = Except.ok g1 :=
        ⟨_, hcs⟩
      have hcs' : SetPlayerSelectShip C g.ship true g.admiral g = Except.ok g1 := by
        rw [hship, hadm]
        exact hg1
      refine ⟨g1, hcs', ?_, hok g1 hcs'⟩
      rw [hship]
      exact SetPlayerSelectShip_target C g g1 a n hadm hflag hg1
  · intro hkey htype hnot
    unfold handle_destination_key_event
    rw [htype]
    simp only []
    rw [if_pos hkey]
    by_cases hdown : g.gDestKeyState = DestKeyState.DEST_KEY_DOWN
    · have hd : g.deref g.ship = Except.ok (g.objects n) := by
        rw [hship]
        rfl
      rw [if_pos hdown, hd]
      have hattr : ¬ ((g.objects n).attributes &&& C.kCanBeDestination ≠ 0) :=
        fun h => hnot ⟨hdown, h⟩
      simp only []
      rw [if_neg hattr]
    · rw [if_neg hdown]
  · intro hkey htype
    unfold handle_destination_key_event
    rw [htype]
    simp only []
    rw [if_pos hkey]
  · intro hkey
    unfold handle_destination_key_event
    cases e.type <;> simp only [] <;> rw [if_neg hkey]

theorem destination_key_release_witness :
    example_game.ship = some 0
      ∧ (game_of (handle_destination_key_event example_consts (PlayerEvent.long_key_up 20)
          { example_game with gDestKeyState := DestKeyState.DEST_KEY_DOWN })).target 0
          = some 0
      ∧ handle_destination_key_event example_consts (PlayerEvent.long_key_up 20)
          { example_game with gDestKeyState := DestKeyState.DEST_KEY_BLOCKED }
          = Except.ok { example_game with gDestKeyState := DestKeyState.DEST_KEY_UP }
      ∧ handle_destination_key_event example_consts (PlayerEvent.key_up 20)
          { example_game with gDestKeyState := DestKeyState.DEST_KEY_DOWN }
          = Except.ok { example_game with gDestKeyState := DestKeyState.DEST_KEY_UP }
      ∧ handle_destination_key_event example_consts (PlayerEvent.long_key_up 21)
          { example_game with gDestKeyState := DestKeyState.DEST_KEY_DOWN }
          = Except.ok { example_game with gDestKeyState := DestKeyState.DEST_KEY_DOWN } :=
  ⟨rfl, by decide,
    (destination_key_release example_consts
      { example_game with gDestKeyState := DestKeyState.DEST_KEY_BLOCKED }
      (PlayerEvent.long_key_up 20) 0 rfl).2.1 rfl rfl (by decide),
    (destination_key_release example_consts
      { example_game with gDestKeyState := DestKeyState.DEST_KEY_DOWN }
      (PlayerEvent.key_up 20) 0 rfl).2.2.1 rfl rfl,
    (destination_key_release example_consts
      { example_game with gDestKeyState := DestKeyState.DEST_KEY_DOWN }
      (PlayerEvent.long_key_up 21) 0 rfl).2.2.2 (by decide)⟩

/-! ### C40 -/

/-- One press of a zoom shortcut whose keys are not masked: the zoom goes to the
mode of the shortcut, or back to the previous mode when it is at that mode
already, and the mode left is remembered as the previous one. -/
theorem zoom_shortcut_once (C : Consts) (z : Int) (g : Game)
    (hmask : g.key_mask &&& C.kShortcutZoomMask = 0) :
    (zoom_shortcut C z g).zoom = (if g.zoom = z then g.gPreviousZoomMode else z)
      ∧ (zoom_shortcut C z g).gPreviousZoomMode = g.zoom
      ∧ (zoom_shortcut C z g).key_mask = g.key_mask := by
  unfold zoom_shortcut
  rw [if_neg (not_not.mpr hmask)]
  dsimp only
  split_ifs with h
  · exact ⟨(zoom_to_fields _ _).1, (zoom_to_fields _ _).2.2, (zoom_to_fields _ _).2.1⟩
  · exact ⟨(zoom_to_fields _ _).1, (zoom_to_fields _ _).2.2, (zoom_to_fields _ _).2.1⟩

/-- C40: when the shortcut-zoom keys are not masked, the first call of
`zoom_shortcut(z)` sets `g.zoom` to `z`, or to `gPreviousZoomMode` when `g.zoom`
is `z` already, and a second call in succession restores `g.zoom` to the value
it had before the first, for every mode `z` and every pair of `g.zoom` and
`gPreviousZoomMode`. -/
theorem zoom_shortcut_toggles (C : Consts) (z : Int) (g : Game)
    (hmask : g.key_mask &&& C.kShortcutZoomMask = 0) :
    (zoom_shortcut C z g).zoom = (if g.zoom = z then g.gPreviousZoomMode else z)
      ∧ (zoom_shortcut C z (zoom_shortcut C z g)).zoom = g.zoom := by
  obtain ⟨h1, h2, h3⟩ := zoom_shortcut_once C z g hmask
  obtain ⟨k1, _, _⟩ := zoom_shortcut_once C z (zoom_shortcut C z g) (by rw [h3]; exact hmask)
  refine ⟨h1, ?_⟩
  rw [k1, h2, h1]
  by_cases hz : g.zoom = z
  · rw [if_pos hz]
    by_cases hp : g.gPreviousZoomMode = z
    · rw [if_pos hp]
    · rw [if_neg hp]
      exact hz.symm
  · rw [if_neg hz, if_pos rfl]

theorem zoom_shortcut_toggles_witness :
    example_game.key_mask &&& example_consts.kShortcutZoomMask = 0
      ∧ example_game.zoom = 4
      ∧ (zoom_shortcut example_consts 6 example_game).zoom = 6
      ∧ (zoom_shortcut example_consts 6 (zoom_shortcut example_consts 6 example_game)).zoom
          = 4
      ∧ (zoom_shortcut example_consts 4 { example_game with gPreviousZoomMode := 1 }).zoom = 1
      ∧ (zoom_shortcut example_consts 4
          (zoom_shortcut example_consts 4 { example_game with gPreviousZoomMode := 1 })).zoom
          = 4 :=
  ⟨by decide, rfl,
    (zoom_shortcut_toggles example_consts 6 example_game (by decide)).1,
    (zoom_shortcut_toggles example_consts 6 example_game (by decide)).2,
    (zoom_shortcut_toggles example_consts 4 { example_game with gPreviousZoomMode := 1 }
      (by decide)).1,
    (zoom_shortcut_toggles example_consts 4 { example_game with gPreviousZoomMode := 1 }
      (by decide)).2⟩

end Antares
